import Mathlib

/-!
NotesStore: the synchronisation core of the notes application

A shallow embedding of `src/libqtevernote/notesstore.cpp`.

* Heap objects (`Note*`, `Notebook*`, `Tag*`) are indices into per-kind object
  lists of the store; `new` appends an object, `deleteLater` leaves it in place.
* `QHash<QString, T*>` is an association list, `QList<T*>` a list of pointers.
* The job dispatcher is the list of jobs handed to it, oldest first.
* Qt signals addressed to the user interface are not part of the state.
* Sequence numbers are natural numbers (no 32-bit wrap-around is modelled).
* A call that dereferences a null pointer, indexes out of range or never leaves
  a loop yields a `Fault` instead of a store.
-/

namespace NotesApp

/-! ## Containers -/

/-- Identifier-keyed lookup table (`QHash<QString, T*>`): key and pointer pairs. -/
abbrev QHash := List (String × Nat)

namespace QHash

/-- Pointer stored under a key, `none` standing for the null pointer (`QHash::value`). -/
def value : QHash → String → Option Nat
  | [], _ => none
  | (k, v) :: rest, key => if k = key then some v else value rest key

/-- Membership test on keys (`QHash::contains`). -/
def contains (h : QHash) (key : String) : Bool := (value h key).isSome

/-- Stores a pointer under a key, replacing the pointer of a key already present
(`QHash::insert`, `operator[]` assignment). -/
def insert : QHash → String → Nat → QHash
  | [], key, v => [(key, v)]
  | (k, w) :: rest, key, v =>
    if k = key then (k, v) :: rest else (k, w) :: insert rest key v

/-- Drops every entry of a key (`QHash::remove`). -/
def remove (h : QHash) (key : String) : QHash := h.filter (fun e => decide (e.1 ≠ key))

/-- All keys of the table (`QHash::keys`). -/
def keys (h : QHash) : List String := h.map Prod.fst

/-- All pointers of the table (`QHash::values`). -/
def values (h : QHash) : List Nat := h.map Prod.snd

end QHash

/-- One group of the cache file (`QSettings` keys of a group): identifier and the
sequence number last written for it. -/
abbrev CacheGroup := List (String × Nat)

namespace CacheGroup

/-- Writes a value under a key (`QSettings::setValue`). -/
def setValue : CacheGroup → String → Nat → CacheGroup
  | [], key, v => [(key, v)]
  | (k, w) :: rest, key, v =>
    if k = key then (k, v) :: rest else (k, w) :: setValue rest key v

/-- Removes a key (`QSettings::remove`). -/
def remove (c : CacheGroup) (key : String) : CacheGroup := c.filter (fun e => decide (e.1 ≠ key))

end CacheGroup

/-- Removes every occurrence of an element (`QList::removeAll`). -/
def removeAll {α : Type} [DecidableEq α] (l : List α) (x : α) : List α :=
  l.filter (fun y => decide (y ≠ x))

/-- Position of the first occurrence, `none` standing for `-1` (`QList::indexOf`). -/
def indexOf {α : Type} [DecidableEq α] : List α → α → Option Nat
  | [], _ => none
  | y :: rest, x => if y = x then some 0 else (indexOf rest x).map Nat.succ

/-- Removes the element at an index and ignores an index out of range (`QList::removeAt`). -/
def removeAt {α : Type} (l : List α) : Option Nat → List α
  | none => l
  | some i => l.eraseIdx i

/-! ## Entities -/

/-- Fields of a note other than its conflicting shadow. -/
structure NoteData where
  guid : String
  updateSequenceNumber : Nat
  lastSyncedSequenceNumber : Nat
  notebookGuid : String
  title : String
  enmlContent : String
  created : Option Int
  updated : Option Int
  tagGuids : List String
  reminderOrder : Int
  reminderTime : Option Int
  reminderDoneTime : Option Int
  deleted : Bool
  loading : Bool
  loaded : Bool
  isCached : Bool
  syncError : Bool
  conflicting : Bool
  isSearchResult : Bool
  resources : List String
  deriving DecidableEq, Repr

/-- Modelled from the spec: the `Note` class (note.h, note.cpp) is not among the
sources. A note carries the fields spec section 3 lists, and an optional
conflicting shadow, which is itself a note without a shadow. -/
structure Note extends NoteData where
  conflictingNote : Option NoteData
  deriving DecidableEq, Repr

/-- Modelled from the spec: the `Notebook` class of libqtevernote is not among the
sources; these are the fields the store reads and writes. -/
structure Notebook where
  guid : String
  updateSequenceNumber : Nat
  lastSyncedSequenceNumber : Nat
  name : String
  isDefaultNotebook : Bool
  published : Bool
  lastUpdated : Option Int
  deleted : Bool
  loading : Bool
  syncError : Bool
  deriving DecidableEq, Repr

/-- Modelled from the spec: the `Tag` class is not among the sources; these are
the fields the store reads and writes. -/
structure Tag where
  guid : String
  updateSequenceNumber : Nat
  lastSyncedSequenceNumber : Nat
  name : String
  deleted : Bool
  loading : Bool
  syncError : Bool
  deriving DecidableEq, Repr

/-- Modelled from the spec: constructor `Note(guid, updateSequenceNumber, parent)`.
A new object has never been synced (`lastSyncedSequenceNumber = 0`), has no
content loaded and no flag set. -/
def NoteData.new (guid : String) (updateSequenceNumber : Nat) : NoteData :=
  { guid := guid, updateSequenceNumber := updateSequenceNumber, lastSyncedSequenceNumber := 0,
    notebookGuid := "", title := "", enmlContent := "", created := none, updated := none,
    tagGuids := [], reminderOrder := 0, reminderTime := none, reminderDoneTime := none,
    deleted := false, loading := false, loaded := false, isCached := false, syncError := false,
    conflicting := false, isSearchResult := false, resources := [] }

/-- Modelled from the spec: a new note object, see `NoteData.new`; it carries no shadow. -/
def Note.new (guid : String) (updateSequenceNumber : Nat) : Note :=
  { toNoteData := NoteData.new guid updateSequenceNumber, conflictingNote := none }

/-- Modelled from the spec: constructor `Notebook(guid, updateSequenceNumber, parent)`. -/
def Notebook.new (guid : String) (updateSequenceNumber : Nat) : Notebook :=
  { guid := guid, updateSequenceNumber := updateSequenceNumber, lastSyncedSequenceNumber := 0,
    name := "", isDefaultNotebook := false, published := false, lastUpdated := none,
    deleted := false, loading := false, syncError := false }

/-- Modelled from the spec: constructor `Tag(guid, updateSequenceNumber, parent)`. -/
def Tag.new (guid : String) (updateSequenceNumber : Nat) : Tag :=
  { guid := guid, updateSequenceNumber := updateSequenceNumber, lastSyncedSequenceNumber := 0,
    name := "", deleted := false, loading := false, syncError := false }

/-- Modelled from the spec: `Note::synced()`. Spec section 3: an entity is synced
iff `updateSequenceNumber == lastSyncedSequenceNumber`. -/
def NoteData.synced (n : NoteData) : Bool :=
  n.updateSequenceNumber == n.lastSyncedSequenceNumber

/-- Modelled from the spec: `Notebook::synced()`, as for notes. -/
def Notebook.synced (n : Notebook) : Bool :=
  n.updateSequenceNumber == n.lastSyncedSequenceNumber

/-- Modelled from the spec: `Tag::synced()`, as for notes. -/
def Tag.synced (t : Tag) : Bool :=
  t.updateSequenceNumber == t.lastSyncedSequenceNumber

/-- Modelled from the spec: `Note::loadFromCacheFile()`. The content cache (one
blob per note) is outside the core; the call leaves the note marked as loaded. -/
def Note.loadFromCacheFile (n : Note) : Note := { n with loaded := true }

/-! ## Remote data (Evernote EDAM structures) -/

/-- Optional-field markers of `evernote::edam::NoteAttributes` (`__isset`). -/
structure NoteAttributesIsset where
  reminderOrder : Bool
  reminderTime : Bool
  reminderDoneTime : Bool
  deriving DecidableEq, Repr

/-- Reminder attributes of a remote note (`evernote::edam::NoteAttributes`). -/
structure NoteAttributes where
  reminderOrder : Int
  reminderTime : Int
  reminderDoneTime : Int
  isset : NoteAttributesIsset
  deriving DecidableEq, Repr

/-- Optional-field markers of `evernote::edam::NoteMetadata` and `evernote::edam::Note`. -/
structure NoteIsset where
  title : Bool
  created : Bool
  updated : Bool
  updateSequenceNum : Bool
  notebookGuid : Bool
  tagGuids : Bool
  attributes : Bool
  deleted : Bool
  content : Bool
  deriving DecidableEq, Repr

/-- One remote note summary of a listing page (`evernote::edam::NoteMetadata`). -/
structure NoteMetadata where
  guid : String
  title : String
  created : Int
  updated : Int
  updateSequenceNum : Nat
  notebookGuid : String
  tagGuids : List String
  attributes : NoteAttributes
  deleted : Int
  isset : NoteIsset
  deriving DecidableEq, Repr

/-- Result of a note listing request (`evernote::edam::NotesMetadataList`). -/
structure NotesMetadataList where
  startIndex : Nat
  totalNotes : Nat
  notes : List NoteMetadata
  searchedWords : List String
  deriving DecidableEq, Repr

/-- Binary attachment of a remote note (`evernote::edam::Resource`), reduced to the
content hash, file name and type the store passes on. -/
structure EdamResource where
  bodyHash : String
  fileName : String
  mime : String
  cached : Bool
  deriving DecidableEq, Repr

/-- Full remote note (`evernote::edam::Note`). -/
structure EdamNote where
  guid : String
  title : String
  content : String
  created : Int
  updated : Int
  deleted : Int
  updateSequenceNum : Nat
  notebookGuid : String
  tagGuids : List String
  attributes : NoteAttributes
  resources : List EdamResource
  isset : NoteIsset
  deriving DecidableEq, Repr

/-- Optional-field markers of `evernote::edam::Notebook`. -/
structure NotebookIsset where
  guid : Bool
  name : Bool
  updateSequenceNum : Bool
  serviceUpdated : Bool
  published : Bool
  defaultNotebook : Bool
  deriving DecidableEq, Repr

/-- Remote notebook (`evernote::edam::Notebook`). -/
structure EdamNotebook where
  guid : String
  name : String
  updateSequenceNum : Nat
  serviceUpdated : Int
  published : Bool
  defaultNotebook : Bool
  isset : NotebookIsset
  deriving DecidableEq, Repr

/-- Remote tag (`evernote::edam::Tag`). -/
structure EdamTag where
  guid : String
  name : String
  updateSequenceNum : Nat
  deriving DecidableEq, Repr

/-! ## Jobs and errors -/

/-- Error classes of `EvernoteConnection::ErrorCode`; the codes the store does not
name are gathered in `ErrorCodeOther`. -/
inductive ErrorCode where
  | ErrorCodeNoError
  | ErrorCodeAuthExpired
  | ErrorCodeLimitExceeded
  | ErrorCodeQutaExceeded
  | ErrorCodeOther
  deriving DecidableEq, Repr

/-- Priorities of `EvernoteJob::JobPriority`. -/
inductive JobPriority where
  | JobPriorityHigh
  | JobPriorityMedium
  | JobPriorityLow
  deriving DecidableEq, Repr

/-- Flags of `FetchNoteJob::LoadWhatFlags`. -/
structure LoadWhatFlags where
  LoadContent : Bool
  LoadResources : Bool
  deriving DecidableEq, Repr

/-- Flag set holding `FetchNoteJob::LoadContent` only. -/
def LoadContent : LoadWhatFlags := { LoadContent := true, LoadResources := false }

/-- Flag set holding `FetchNoteJob::LoadResources` only. -/
def LoadResources : LoadWhatFlags := { LoadContent := false, LoadResources := true }

/-- Slot a `FetchNoteJob` reports to. -/
inductive FetchNoteSlot where
  | fetchNoteJobDone
  | fetchConflictingNoteJobDone
  deriving DecidableEq, Repr

/-- Remote operations handed to the dispatcher. Jobs built from an object keep the
pointer to it, the others the identifier. A `FetchNoteJob` whose priority was not
set keeps the default priority of the job class (`none`). -/
inductive Job where
  | FetchNotesJob (filterNotebookGuid : String) (searchWords : String) (startIndex : Nat)
  | FetchNoteJob (guid : String) (what : LoadWhatFlags) (priority : Option JobPriority)
      (slot : FetchNoteSlot)
  | CreateNoteJob (note : Nat)
  | SaveNoteJob (note : Nat)
  | DeleteNoteJob (guid : String)
  | FetchNotebooksJob
  | CreateNotebookJob (notebook : Nat)
  | SaveNotebookJob (notebook : Nat)
  | ExpungeNotebookJob (guid : String)
  | FetchTagsJob
  | CreateTagJob (tag : Nat)
  | SaveTagJob (tag : Nat)
  | ExpungeTagJob (guid : String)
  deriving DecidableEq, Repr

/-- Ways a call fails to return. -/
inductive Fault where
  | nullPointer
  | danglingPointer
  | indexOutOfRange
  | endlessLoop
  deriving DecidableEq, Repr

/-! ## The store -/

/-- State of `NotesStore` together with the collaborators it talks to: the object
heaps, the connection (connected flag, jobs handed over), the clock and the three
groups of the cache file. -/
structure NotesStore where
  NO_EXPUNGE_NOTEBOOKS : Bool
  NO_EXPUNGE_TAGS : Bool
  connected : Bool
  currentDateTime : Int
  jobQueue : List Job
  noteObjects : List Note
  notebookObjects : List Notebook
  tagObjects : List Tag
  m_username : String
  m_loading : Bool
  m_notebooksLoading : Bool
  m_tagsLoading : Bool
  m_errorQueue : List String
  m_notes : List Nat
  m_notesHash : QHash
  m_notebooks : List Nat
  m_notebooksHash : QHash
  m_tags : List Nat
  m_tagsHash : QHash
  m_unhandledNotes : List String
  cacheNotes : CacheGroup
  cacheNotebooks : CacheGroup
  cacheTags : CacheGroup
  deriving DecidableEq, Repr

/-- Store right after construction (`NotesStore::NotesStore`), before any account is
loaded: no entity, nothing queued, an empty cache file. -/
def NotesStore.init (connected : Bool) : NotesStore :=
  { NO_EXPUNGE_NOTEBOOKS := false, NO_EXPUNGE_TAGS := false, connected := connected,
    currentDateTime := 0, jobQueue := [], noteObjects := [], notebookObjects := [],
    tagObjects := [], m_username := "@invalid ", m_loading := false,
    m_notebooksLoading := false, m_tagsLoading := false, m_errorQueue := [], m_notes := [],
    m_notesHash := [], m_notebooks := [], m_notebooksHash := [], m_tags := [],
    m_tagsHash := [], m_unhandledNotes := [], cacheNotes := [], cacheNotebooks := [],
    cacheTags := [] }

namespace NotesStore

/-! ### Access to objects and collaborators -/

/-- Reads the note object behind a pointer. -/
def derefNote (s : NotesStore) (p : Nat) : Except Fault Note :=
  match s.noteObjects[p]? with
  | some n => .ok n
  | none => .error Fault.danglingPointer

/-- Reads the notebook object behind a pointer. -/
def derefNotebook (s : NotesStore) (p : Nat) : Except Fault Notebook :=
  match s.notebookObjects[p]? with
  | some n => .ok n
  | none => .error Fault.danglingPointer

/-- Reads the tag object behind a pointer. -/
def derefTag (s : NotesStore) (p : Nat) : Except Fault Tag :=
  match s.tagObjects[p]? with
  | some t => .ok t
  | none => .error Fault.danglingPointer

/-- Writes the note object behind a pointer. -/
def setNote (s : NotesStore) (p : Nat) (n : Note) : NotesStore :=
  { s with noteObjects := s.noteObjects.set p n }

/-- Writes the notebook object behind a pointer. -/
def setNotebook (s : NotesStore) (p : Nat) (n : Notebook) : NotesStore :=
  { s with notebookObjects := s.notebookObjects.set p n }

/-- Writes the tag object behind a pointer. -/
def setTag (s : NotesStore) (p : Nat) (t : Tag) : NotesStore :=
  { s with tagObjects := s.tagObjects.set p t }

/-- Modelled from the spec: `EvernoteConnection::enqueue` (the JobDispatcher of
spec section 2, an external collaborator). The job is handed over; the model keeps
the jobs handed over in order. -/
def enqueue (s : NotesStore) (job : Job) : NotesStore :=
  { s with jobQueue := s.jobQueue ++ [job] }

/-- Modelled from the spec: `EvernoteConnection::enqueueWrite`, the entry point
for write jobs; recorded like `enqueue`. -/
def enqueueWrite (s : NotesStore) (job : Job) : NotesStore :=
  { s with jobQueue := s.jobQueue ++ [job] }

/-- Modelled from the spec: `Notebook::m_notesList` (`noteCount`, `noteAt`), the
ordered set of identifiers of the notes belonging to the notebook (spec section 3),
in the order of the note collection. -/
def notebookNotesList (s : NotesStore) (notebookGuid : String) : List String :=
  ((s.m_notes.filterMap (fun p => s.noteObjects[p]?)).filter
    (fun n => decide (n.notebookGuid = notebookGuid))).map (fun n => n.guid)

/-- Modelled from the spec: `Tag::m_notesList` (`noteCount`, `noteAt`), the ordered
set of identifiers of the notes that reference the tag (spec section 3). -/
def tagNotesList (s : NotesStore) (tagGuid : String) : List String :=
  ((s.m_notes.filterMap (fun p => s.noteObjects[p]?)).filter
    (fun n => decide (tagGuid ∈ n.tagGuids))).map (fun n => n.guid)

/-- Modelled from the spec: effect of the signal `notebookGuidChanged(old, new)` on
the notes (spec section 9: on identifier replacement every reference is re-keyed):
each note of the old notebook identifier now names the new one. -/
def rekeyNotebookGuid (s : NotesStore) (oldGuid newGuid : String) : NotesStore :=
  { s with noteObjects := s.noteObjects.map (fun n =>
      if n.notebookGuid = oldGuid then { n with notebookGuid := newGuid } else n) }

/-- Modelled from the spec: effect of the signal `tagGuidChanged(old, new)` on the
notes: each reference to the old tag identifier now names the new one. -/
def rekeyTagGuid (s : NotesStore) (oldGuid newGuid : String) : NotesStore :=
  { s with noteObjects := s.noteObjects.map (fun n =>
      { n with tagGuids := n.tagGuids.map (fun g => if g = oldGuid then newGuid else g) }) }

/-! ### Cache file -/

/-- Records a note in the `notes` group (`NotesStore::syncToCacheFile(Note*)`). -/
def syncToCacheFileNote (s : NotesStore) (note : Note) : NotesStore :=
  { s with cacheNotes := s.cacheNotes.setValue note.guid note.updateSequenceNumber }

/-- Records a notebook in the `notebooks` group (`NotesStore::syncToCacheFile(Notebook*)`). -/
def syncToCacheFileNotebook (s : NotesStore) (notebook : Notebook) : NotesStore :=
  { s with cacheNotebooks := s.cacheNotebooks.setValue notebook.guid notebook.updateSequenceNumber }

/-- Records a tag in the `tags` group (`NotesStore::syncToCacheFile(Tag*)`). -/
def syncToCacheFileTag (s : NotesStore) (tag : Tag) : NotesStore :=
  { s with cacheTags := s.cacheTags.setValue tag.guid tag.updateSequenceNumber }

/-! ### Error queue -/

/-- Queues the user-visible message of an error class (`NotesStore::handleUserError`). -/
def handleUserError (s : NotesStore) (errorCode : ErrorCode) : NotesStore :=
  match errorCode with
  | .ErrorCodeAuthExpired => { s with m_errorQueue := s.m_errorQueue ++
      ["Authentication for Evernote server expired. Please renew login information in the accounts settings."] }
  | .ErrorCodeLimitExceeded => { s with m_errorQueue := s.m_errorQueue ++
      ["Rate limit for Evernote server exceeded. Please try again later."] }
  | .ErrorCodeQutaExceeded => { s with m_errorQueue := s.m_errorQueue ++
      ["Upload quota for Evernote server exceed. Please try again later."] }
  | _ => s

/-- Dismisses the oldest message (`NotesStore::clearError`). -/
def clearError (s : NotesStore) : NotesStore :=
  { s with m_errorQueue := s.m_errorQueue.drop 1 }

/-! ### Notes: save, remove, content refresh -/

/-- Embedding of `NotesStore::saveNote`. -/
def saveNote (s : NotesStore) (guid : String) : Except Fault NotesStore :=
  match s.m_notesHash.value guid with
  | none => .ok s
  | some p =>
    match s.derefNote p with
    | .error e => .error e
    | .ok note =>
      let note := { note with
        updateSequenceNumber := note.updateSequenceNumber + 1,
        updated := some s.currentDateTime }
      let s := s.syncToCacheFileNote note
      let note := { note with isCached := true }
      if s.connected then
        let note := { note with loading := true }
        if note.lastSyncedSequenceNumber = 0 then
          .ok ((s.setNote p note).enqueueWrite (Job.CreateNoteJob p))
        else
          .ok ((s.setNote p note).enqueueWrite (Job.SaveNoteJob p))
      else
        .ok (s.setNote p note)

/-- Embedding of `NotesStore::removeNote`. -/
def removeNote (s : NotesStore) (guid : String) : Except Fault NotesStore :=
  match s.m_notesHash.value guid with
  | none => .error Fault.nullPointer
  | some p =>
    match s.derefNote p with
    | .error e => .error e
    | .ok note =>
      .ok { s with
        m_notes := removeAt s.m_notes (indexOf s.m_notes p),
        m_notesHash := s.m_notesHash.remove note.guid,
        cacheNotes := s.cacheNotes.remove note.guid }

/-- Embedding of `NotesStore::refreshNoteContent`. -/
def refreshNoteContent (s : NotesStore) (guid : String) (what : LoadWhatFlags)
    (priority : JobPriority) : Except Fault NotesStore :=
  match s.m_notesHash.value guid with
  | none => .ok s
  | some p =>
    match s.derefNote p with
    | .error e => .error e
    | .ok note =>
      if s.connected then
        let s := s.enqueue (Job.FetchNoteJob guid what (some priority) FetchNoteSlot.fetchNoteJobDone)
        if !note.loading then
          .ok (s.setNote p { note with loading := true })
        else
          .ok s
      else
        .ok s

/-! ### Note reconciliation -/

/-- Embedding of `NotesStore::refreshNotes`. -/
def refreshNotes (s : NotesStore) (filterNotebookGuid : String) (startIndex : Nat) : NotesStore :=
  if s.m_loading ∧ startIndex = 0 then s
  else if s.connected then
    let s := { s with m_loading := true }
    let s := if startIndex = 0 then { s with m_unhandledNotes := s.m_notesHash.keys } else s
    s.enqueue (Job.FetchNotesJob filterNotebookGuid "" startIndex)
  else s

/-- Embedding of `NotesStore::updateFromEDAM(const NoteMetadata &, Note *)`; the list of
changed roles it returns only feeds signals. -/
def updateFromEDAM (evNote : NoteMetadata) (note : Note) : Note :=
  let note := if note.guid ≠ evNote.guid then { note with guid := evNote.guid } else note
  let note := if evNote.isset.title ∧ note.title ≠ evNote.title
    then { note with title := evNote.title } else note
  let note := if evNote.isset.created ∧ note.created ≠ some evNote.created
    then { note with created := some evNote.created } else note
  let note := if evNote.isset.updated ∧ note.updated ≠ some evNote.updated
    then { note with updated := some evNote.updated } else note
  let note := if evNote.isset.updateSequenceNum ∧ note.updateSequenceNumber ≠ evNote.updateSequenceNum
    then { note with updateSequenceNumber := evNote.updateSequenceNum } else note
  let note := if evNote.isset.notebookGuid ∧ note.notebookGuid ≠ evNote.notebookGuid
    then { note with notebookGuid := evNote.notebookGuid } else note
  let note := if evNote.isset.tagGuids then
      (if note.tagGuids ≠ evNote.tagGuids then { note with tagGuids := evNote.tagGuids } else note)
    else note
  let note := if evNote.isset.attributes ∧ evNote.attributes.isset.reminderOrder
    then { note with reminderOrder := evNote.attributes.reminderOrder } else note
  let note := if evNote.isset.attributes ∧ evNote.attributes.isset.reminderTime then
      (let reminderTime : Option Int :=
        if evNote.attributes.reminderTime > 0 then some evNote.attributes.reminderTime else none
       if note.reminderTime ≠ reminderTime then { note with reminderTime := reminderTime } else note)
    else note
  let note := if evNote.isset.attributes ∧ evNote.attributes.isset.reminderDoneTime then
      (let reminderDoneTime : Option Int :=
        if evNote.attributes.reminderDoneTime > 0 then some evNote.attributes.reminderDoneTime
        else none
       if note.reminderDoneTime ≠ reminderDoneTime
       then { note with reminderDoneTime := reminderDoneTime } else note)
    else note
  let note := if evNote.isset.deleted
    then { note with deleted := decide (evNote.deleted ≠ 0) } else note
  { note with lastSyncedSequenceNumber := evNote.updateSequenceNum }

/-- Tail of the loop body of `fetchNotesJobDone`: a listing that answers a search
marks the note as a search result. -/
def fetchNotesJobDone_searchResult (results : NotesMetadataList) (s : NotesStore) (p : Nat) :
    NotesStore :=
  if results.searchedWords ≠ [] then
    match s.noteObjects[p]? with
    | some note => s.setNote p { note with isSearchResult := true }
    | none => s
  else s

/-- Body of the loop over the summaries of a page in `NotesStore::fetchNotesJobDone`. -/
def fetchNotesJobDone_result (results : NotesMetadataList) (s : NotesStore)
    (result : NoteMetadata) : Except Fault NotesStore :=
  let found := s.m_notesHash.value result.guid
  let s := { s with m_unhandledNotes := removeAll s.m_unhandledNotes result.guid }
  match found with
  | none =>
    let note := updateFromEDAM result (Note.new result.guid 0)
    let p := s.noteObjects.length
    let s := { s with
      noteObjects := s.noteObjects ++ [note],
      m_notesHash := s.m_notesHash.insert note.guid p,
      m_notes := s.m_notes ++ [p] }
    let s := s.syncToCacheFileNote note
    .ok (fetchNotesJobDone_searchResult results s p)
  | some p =>
    match s.derefNote p with
    | .error e => .error e
    | .ok note =>
      if note.synced then
        if note.updateSequenceNumber < result.updateSequenceNum then
          let note := updateFromEDAM result note
          let s := s.setNote p note
          match s.refreshNoteContent note.guid LoadContent JobPriority.JobPriorityMedium with
          | .error e => .error e
          | .ok s =>
            let s := s.syncToCacheFileNote note
            .ok (fetchNotesJobDone_searchResult results s p)
        else
          .ok (fetchNotesJobDone_searchResult results s p)
      else if note.lastSyncedSequenceNumber = result.updateSequenceNum then
        let note := if !note.loaded ∧ note.isCached then note.loadFromCacheFile else note
        let note := { note with loading := true }
        let s := (s.setNote p note).enqueue (Job.SaveNoteJob p)
        .ok (fetchNotesJobDone_searchResult results s p)
      else
        let note := { note with conflicting := true }
        let s := (s.setNote p note).enqueue
          (Job.FetchNoteJob note.guid { LoadContent := true, LoadResources := true }
            (some JobPriority.JobPriorityMedium) FetchNoteSlot.fetchConflictingNoteJobDone)
        .ok (fetchNotesJobDone_searchResult results s p)

/-- The check of the survivor step that every tag of the note known to the store
has been created on the server (`hasUnsyncedTag` in `fetchNotesJobDone`). -/
def hasUnsyncedTag (s : NotesStore) (note : Note) : Bool :=
  note.tagGuids.any (fun tagGuid =>
    match s.m_tagsHash.value tagGuid with
    | some t =>
      (match s.tagObjects[t]? with
       | some tag => decide (tag.lastSyncedSequenceNumber = 0)
       | none => false)
    | none => false)

/-- The check of the survivor step that the notebook of the note, when known to the
store, has not been created on the server yet. -/
def hasUnsyncedNotebook (s : NotesStore) (note : Note) : Bool :=
  match s.m_notebooksHash.value note.notebookGuid with
  | some n =>
    (match s.notebookObjects[n]? with
     | some notebook => decide (notebook.lastSyncedSequenceNumber = 0)
     | none => false)
  | none => false

/-- Body of the loop over `m_unhandledNotes` at the end of `NotesStore::fetchNotesJobDone`
(the local notes no page reported). -/
def fetchNotesJobDone_unhandled (s : NotesStore) (unhandledGuid : String) :
    Except Fault NotesStore :=
  match s.m_notesHash.value unhandledGuid with
  | none => .ok s
  | some p =>
    match s.derefNote p with
    | .error e => .error e
    | .ok note =>
      if note.lastSyncedSequenceNumber = 0 then
        if s.hasUnsyncedTag note then .ok s
        else if s.hasUnsyncedNotebook note then .ok s
        else
          let note := if !note.loaded ∧ note.isCached then note.loadFromCacheFile else note
          let note := { note with loading := true }
          .ok ((s.setNote p note).enqueue (Job.CreateNoteJob p))
      else
        match indexOf s.m_notes p with
        | none => .ok s
        | some _ =>
          if note.synced then
            s.removeNote note.guid
          else
            let s := s.enqueue
              (Job.FetchNoteJob note.guid { LoadContent := true, LoadResources := true } none
                FetchNoteSlot.fetchConflictingNoteJobDone)
            .ok (s.setNote p { note with conflicting := true })

/-- Embedding of `NotesStore::fetchNotesJobDone`. -/
def fetchNotesJobDone (s : NotesStore) (errorCode : ErrorCode) (results : NotesMetadataList)
    (filterNotebookGuid : String) : Except Fault NotesStore :=
  let s := s.handleUserError errorCode
  if errorCode ≠ ErrorCode.ErrorCodeNoError then
    .ok { s with m_loading := false }
  else
    match results.notes.foldlM (fetchNotesJobDone_result results) s with
    | .error e => .error e
    | .ok s =>
      if results.startIndex + results.notes.length < results.totalNotes then
        .ok (s.refreshNotes filterNotebookGuid (results.startIndex + results.notes.length))
      else
        let s := { s with m_loading := false }
        s.m_unhandledNotes.foldlM fetchNotesJobDone_unhandled s

/-! ### Notes: local operations and job completions -/

/-- Embedding of `NotesStore::createNote`; `newGuid` is the identifier drawn by
`QUuid::createUuid`, `content` the ENML of the document. -/
def createNote (s : NotesStore) (newGuid : String) (title notebookGuid content : String) :
    NotesStore :=
  let note := Note.new newGuid 1
  let note := { note with title := title }
  let note :=
    if notebookGuid ≠ "" then { note with notebookGuid := notebookGuid }
    else
      match s.m_notebooks with
      | [] => note
      | first :: _ =>
        let generatedNotebook : String :=
          match s.m_notebooks.find? (fun n =>
              match s.notebookObjects[n]? with
              | some notebook => notebook.isDefaultNotebook
              | none => false) with
          | some n => (match s.notebookObjects[n]? with | some notebook => notebook.guid | none => "")
          | none => (match s.notebookObjects[first]? with | some notebook => notebook.guid | none => "")
        { note with notebookGuid := generatedNotebook }
  let note := { note with enmlContent := content, loaded := true }
  let note := { note with created := some s.currentDateTime }
  let note := { note with updated := note.created }
  let p := s.noteObjects.length
  let s := { s with
    noteObjects := s.noteObjects ++ [note],
    m_notesHash := s.m_notesHash.insert note.guid p,
    m_notes := s.m_notes ++ [p] }
  let s := s.syncToCacheFileNote note
  if s.connected then s.enqueue (Job.CreateNoteJob p) else s

/-- Embedding of `NotesStore::createNoteJobDone`. -/
def createNoteJobDone (s : NotesStore) (errorCode : ErrorCode) (tmpGuid : String)
    (result : EdamNote) : Except Fault NotesStore :=
  match s.m_notesHash.value tmpGuid with
  | none => .ok s
  | some p =>
    match s.derefNote p with
    | .error e => .error e
    | .ok note =>
      let note := { note with loading := false }
      let s := s.handleUserError errorCode
      if errorCode ≠ ErrorCode.ErrorCodeNoError then
        .ok (s.setNote p { note with syncError := true })
      else
        let note := if note.syncError then { note with syncError := false } else note
        let guid := result.guid
        let s := { s with m_notesHash := s.m_notesHash.insert guid p }
        let note := { note with guid := guid }
        let s := { s with m_notesHash := s.m_notesHash.remove tmpGuid }
        let note :=
          if note.updateSequenceNumber ≠ result.updateSequenceNum then
            { note with updateSequenceNumber := result.updateSequenceNum,
                        lastSyncedSequenceNumber := result.updateSequenceNum }
          else note
        let note := if result.isset.created then { note with created := some result.created } else note
        let note := if result.isset.updated then { note with updated := some result.updated } else note
        let note := if result.isset.notebookGuid
          then { note with notebookGuid := result.notebookGuid } else note
        let note := if result.isset.title then { note with title := result.title } else note
        let note := if result.isset.content
          then { note with enmlContent := result.content, loaded := true } else note
        let s := { s with cacheNotes := s.cacheNotes.remove tmpGuid }
        .ok ((s.setNote p note).syncToCacheFileNote note)

/-- Embedding of `NotesStore::saveNoteJobDone`. -/
def saveNoteJobDone (s : NotesStore) (errorCode : ErrorCode) (result : EdamNote) :
    Except Fault NotesStore :=
  match s.m_notesHash.value result.guid with
  | none => .ok s
  | some p =>
    match s.derefNote p with
    | .error e => .error e
    | .ok note =>
      let note := { note with loading := false }
      let s := s.handleUserError errorCode
      if errorCode ≠ ErrorCode.ErrorCodeNoError then
        .ok (s.setNote p { note with syncError := true })
      else
        let note := { note with lastSyncedSequenceNumber := result.updateSequenceNum }
        .ok ((s.setNote p note).syncToCacheFileNote note)

/-- Embedding of `NotesStore::deleteNote`. -/
def deleteNote (s : NotesStore) (guid : String) : Except Fault NotesStore :=
  match s.m_notesHash.value guid with
  | none => .ok s
  | some p =>
    match s.derefNote p with
    | .error e => .error e
    | .ok note =>
      if note.lastSyncedSequenceNumber = 0 then
        s.removeNote guid
      else
        let note := { note with deleted := true,
                                updateSequenceNumber := note.updateSequenceNumber + 1 }
        let s := (s.setNote p note).syncToCacheFileNote note
        if s.connected then .ok (s.enqueue (Job.DeleteNoteJob guid)) else .ok s

/-- Embedding of `NotesStore::deleteNoteJobDone`. -/
def deleteNoteJobDone (s : NotesStore) (errorCode : ErrorCode) (guid : String) :
    Except Fault NotesStore :=
  let s := s.handleUserError errorCode
  if errorCode ≠ ErrorCode.ErrorCodeNoError then .ok s
  else s.removeNote guid

/-- Embedding of `NotesStore::clearSearchResults`. -/
def clearSearchResults (s : NotesStore) : NotesStore :=
  s.m_notes.foldl (fun s p =>
    match s.noteObjects[p]? with
    | some note => s.setNote p { note with isSearchResult := false }
    | none => s) s

/-- Embedding of `NotesStore::findNotes`; `isMatch` stands for the case-insensitive
search of the words in the title and the plain text of a note. -/
def findNotes (s : NotesStore) (searchWords : String) (isMatch : Note → Bool) : NotesStore :=
  if s.connected then
    (s.clearSearchResults).enqueue (Job.FetchNotesJob "" (searchWords ++ "*") 0)
  else
    s.m_notes.foldl (fun s p =>
      match s.noteObjects[p]? with
      | some note => s.setNote p { note with isSearchResult := isMatch note }
      | none => s) s

/-- Embedding of `NotesStore::tagNote`. -/
def tagNote (s : NotesStore) (noteGuid tagGuid : String) : Except Fault NotesStore :=
  match s.m_notesHash.value noteGuid with
  | none => .ok s
  | some p =>
    match s.m_tagsHash.value tagGuid with
    | none => .ok s
    | some _ =>
      match s.derefNote p with
      | .error e => .error e
      | .ok note =>
        if tagGuid ∈ note.tagGuids then .ok s
        else (s.setNote p { note with tagGuids := note.tagGuids ++ [tagGuid] }).saveNote noteGuid

/-- Embedding of `NotesStore::untagNote`. -/
def untagNote (s : NotesStore) (noteGuid tagGuid : String) : Except Fault NotesStore :=
  match s.m_notesHash.value noteGuid with
  | none => .ok s
  | some p =>
    match s.m_tagsHash.value tagGuid with
    | none => .ok s
    | some _ =>
      match s.derefNote p with
      | .error e => .error e
      | .ok note =>
        if ¬ tagGuid ∈ note.tagGuids then .ok s
        else (s.setNote p { note with tagGuids := removeAll note.tagGuids tagGuid }).saveNote noteGuid

/-- Modelled from the spec: `Note::addResource` over the resources of a remote note;
the note keeps its resources keyed by content hash (spec section 3). -/
def addResources (known : List String) (resources : List EdamResource) : List String :=
  resources.foldl (fun l r => if r.bodyHash ∈ l then l else l ++ [r.bodyHash]) known

/-- Reminder time as `fetchNoteJobDone` reads it: a null date unless positive. -/
def positiveTime (t : Int) : Option Int := if t > 0 then some t else none

/-- Embedding of `NotesStore::refreshTags`. -/
def refreshTags (s : NotesStore) : NotesStore :=
  if ¬ s.connected then s
  else { s with m_tagsLoading := true }.enqueue Job.FetchTagsJob

/-- Embedding of `NotesStore::fetchNoteJobDone`; `jobPriority` is the priority of the
job that reports, `resourceIsCached` tells by content hash whether the data of a
resource is already on disk. -/
def fetchNoteJobDone (s : NotesStore) (errorCode : ErrorCode) (result : EdamNote)
    (what : LoadWhatFlags) (jobPriority : JobPriority) (resourceIsCached : String → Bool) :
    Except Fault NotesStore :=
  match s.m_notesHash.value result.guid with
  | none => .ok s
  | some p =>
    match s.derefNote p with
    | .error e => .error e
    | .ok note =>
      if note.updateSequenceNumber > result.updateSequenceNum then .ok s
      else
        let s := s.handleUserError errorCode
        if errorCode ≠ ErrorCode.ErrorCodeNoError then
          .ok (s.setNote p { note with loading := false, syncError := true })
        else if result.deleted > 0 then
          s.removeNote note.guid
        else
          let note := if note.notebookGuid ≠ result.notebookGuid
            then { note with notebookGuid := result.notebookGuid } else note
          let note := if note.title ≠ result.title then { note with title := result.title } else note
          let note := if note.updated ≠ some result.updated
            then { note with updated := some result.updated } else note
          let s := result.tagGuids.foldl (fun s tag =>
            if s.m_tagsHash.contains tag then s.refreshTags else s) s
          let note := if note.tagGuids ≠ result.tagGuids
            then { note with tagGuids := result.tagGuids } else note
          let note := { note with resources := addResources note.resources result.resources }
          let refreshWithResourceData : Bool :=
            if what = LoadResources then false
            else result.resources.any (fun r => !resourceIsCached r.bodyHash)
          let note :=
            if what = LoadContent then
              { note with enmlContent := result.content, loaded := true,
                          updateSequenceNumber := result.updateSequenceNum,
                          lastSyncedSequenceNumber := result.updateSequenceNum }
            else note
          let note := if note.reminderOrder ≠ result.attributes.reminderOrder
            then { note with reminderOrder := result.attributes.reminderOrder } else note
          let note := if note.reminderTime ≠ positiveTime result.attributes.reminderTime
            then { note with reminderTime := positiveTime result.attributes.reminderTime } else note
          let note := if note.reminderDoneTime ≠ positiveTime result.attributes.reminderDoneTime
            then { note with reminderDoneTime := positiveTime result.attributes.reminderDoneTime }
            else note
          let note := { note with loading := false }
          let s := s.setNote p note
          let refreshed : Except Fault NotesStore :=
            if refreshWithResourceData then
              s.refreshNoteContent note.guid LoadResources
                (if jobPriority = JobPriority.JobPriorityMedium then JobPriority.JobPriorityLow
                 else jobPriority)
            else .ok s
          match refreshed with
          | .error e => .error e
          | .ok s =>
            let s := s.syncToCacheFileNote note
            match s.noteObjects[p]? with
            | some current => .ok (s.setNote p { current with isCached := true })
            | none => .ok s

/-- Embedding of `NotesStore::fetchConflictingNoteJobDone`. -/
def fetchConflictingNoteJobDone (s : NotesStore) (errorCode : ErrorCode) (result : EdamNote) :
    Except Fault NotesStore :=
  match s.m_notesHash.value result.guid with
  | none => .ok s
  | some p =>
    match s.derefNote p with
    | .error e => .error e
    | .ok note =>
      let s := s.handleUserError errorCode
      if errorCode ≠ ErrorCode.ErrorCodeNoError then .ok s
      else
        let note := note.loadFromCacheFile
        let serverNote := NoteData.new ("conflict-" ++ note.guid) result.updateSequenceNum
        let serverNote := { serverNote with
          updateSequenceNumber := result.updateSequenceNum,
          lastSyncedSequenceNumber := result.updateSequenceNum,
          title := result.title,
          notebookGuid := result.notebookGuid,
          created := some result.created,
          updated := some result.updated,
          deleted := decide (result.deleted > 0),
          tagGuids := result.tagGuids,
          reminderOrder := result.attributes.reminderOrder,
          reminderTime := some result.attributes.reminderTime,
          reminderDoneTime := some result.attributes.reminderDoneTime,
          enmlContent := result.content,
          loaded := true,
          resources := addResources [] result.resources }
        .ok (s.setNote p { note with conflictingNote := some serverNote, loading := false })

/-- Modes of `NotesStore::ConflictResolveMode`. -/
inductive ConflictResolveMode where
  | KeepLocal
  | KeepRemote
  deriving DecidableEq, Repr

/-- Embedding of `NotesStore::resolveConflict`. Keeping the remote version puts the
shadow object in the place of the note; the shadow becomes a note object of its own. -/
def resolveConflict (s : NotesStore) (noteGuid : String) (mode : ConflictResolveMode) :
    Except Fault NotesStore :=
  match s.m_notesHash.value noteGuid with
  | none => .ok s
  | some p =>
    match s.derefNote p with
    | .error e => .error e
    | .ok note =>
      match note.conflictingNote with
      | none => .ok s
      | some shadow =>
        if mode = ConflictResolveMode.KeepLocal then
          let note := { note with updateSequenceNumber := shadow.updateSequenceNumber + 1,
                                  conflicting := false }
          (s.setNote p note).saveNote note.guid
        else
          let newNote : Note :=
            { toNoteData := { shadow with guid := note.guid, conflicting := false },
              conflictingNote := none }
          let q := s.noteObjects.length
          let s := { s with noteObjects := s.noteObjects ++ [newNote] }
          match indexOf s.m_notes p with
          | none => .error Fault.indexOutOfRange
          | some idx =>
            let s := { s with m_notesHash := s.m_notesHash.insert note.guid q }
            let s := { s with m_notes := s.m_notes.set idx q }
            s.saveNote note.guid

/-! ### Notebooks -/

/-- Embedding of `NotesStore::updateFromEDAM(const Notebook &, Notebook *)`. -/
def updateFromEDAMNotebook (evNotebook : EdamNotebook) (notebook : Notebook) : Notebook :=
  let notebook := if evNotebook.isset.guid ∧ evNotebook.guid ≠ notebook.guid
    then { notebook with guid := evNotebook.guid } else notebook
  let notebook := if evNotebook.isset.name ∧ evNotebook.name ≠ notebook.name
    then { notebook with name := evNotebook.name } else notebook
  let notebook :=
    if evNotebook.isset.updateSequenceNum ∧
        evNotebook.updateSequenceNum ≠ notebook.updateSequenceNumber
    then { notebook with updateSequenceNumber := evNotebook.updateSequenceNum } else notebook
  let notebook :=
    if evNotebook.isset.serviceUpdated ∧ some evNotebook.serviceUpdated ≠ notebook.lastUpdated
    then { notebook with lastUpdated := some evNotebook.serviceUpdated } else notebook
  let notebook := if evNotebook.isset.published ∧ evNotebook.published ≠ notebook.published
    then { notebook with published := evNotebook.published } else notebook
  let notebook :=
    if evNotebook.isset.defaultNotebook ∧ evNotebook.defaultNotebook ≠ notebook.isDefaultNotebook
    then { notebook with isDefaultNotebook := evNotebook.defaultNotebook } else notebook
  { notebook with lastSyncedSequenceNumber := evNotebook.updateSequenceNum }

/-- Embedding of `NotesStore::createNotebook`; `newGuid` is the identifier drawn by
`QUuid::createUuid`. -/
def createNotebook (s : NotesStore) (newGuid : String) (name : String) : NotesStore :=
  let notebook := Notebook.new newGuid 1
  let notebook := { notebook with name := name }
  let notebook := if s.m_notebooks.isEmpty
    then { notebook with isDefaultNotebook := true } else notebook
  let p := s.notebookObjects.length
  let s := { s with
    notebookObjects := s.notebookObjects ++ [notebook],
    m_notebooks := s.m_notebooks ++ [p],
    m_notebooksHash := s.m_notebooksHash.insert notebook.guid p }
  let s := s.syncToCacheFileNotebook notebook
  if s.connected then
    (s.setNotebook p { notebook with loading := true }).enqueue (Job.CreateNotebookJob p)
  else s

/-- Embedding of `NotesStore::createNotebookJobDone`. -/
def createNotebookJobDone (s : NotesStore) (errorCode : ErrorCode) (tmpGuid : String)
    (result : EdamNotebook) : Except Fault NotesStore :=
  match s.m_notebooksHash.value tmpGuid with
  | none => .ok s
  | some p =>
    match s.derefNotebook p with
    | .error e => .error e
    | .ok notebook =>
      let notebook := { notebook with loading := false }
      let s := s.handleUserError errorCode
      if errorCode ≠ ErrorCode.ErrorCodeNoError then
        .ok (s.setNotebook p { notebook with syncError := true })
      else
        let guid := result.guid
        let s := { s with m_notebooksHash := s.m_notebooksHash.insert guid p }
        let notebook := { notebook with guid := result.guid }
        let s := s.rekeyNotebookGuid tmpGuid notebook.guid
        let s := { s with m_notebooksHash := s.m_notebooksHash.remove tmpGuid }
        let notebook := { notebook with
          updateSequenceNumber := result.updateSequenceNum,
          lastSyncedSequenceNumber := result.updateSequenceNum,
          name := result.name }
        let s := { s with cacheNotebooks := s.cacheNotebooks.remove tmpGuid }
        let s := (s.setNotebook p notebook).syncToCacheFileNotebook notebook
        (s.notebookNotesList notebook.guid).foldlM saveNote s

/-- Embedding of `NotesStore::saveNotebook`. -/
def saveNotebook (s : NotesStore) (guid : String) : Except Fault NotesStore :=
  match s.m_notebooksHash.value guid with
  | none => .ok s
  | some p =>
    match s.derefNotebook p with
    | .error e => .error e
    | .ok notebook =>
      let notebook := { notebook with updateSequenceNumber := notebook.updateSequenceNumber + 1 }
      let s := s.syncToCacheFileNotebook notebook
      if s.connected then
        .ok ((s.setNotebook p { notebook with loading := true }).enqueue (Job.SaveNotebookJob p))
      else
        .ok (s.setNotebook p notebook)

/-- First notebook of the collection that carries the default flag (the search loop
of `setDefaultNotebook` and `expungeNotebook`). -/
def firstDefaultNotebook (s : NotesStore) : Option Nat :=
  s.m_notebooks.find? (fun n =>
    match s.notebookObjects[n]? with
    | some notebook => notebook.isDefaultNotebook
    | none => false)

/-- The loop of `NotesStore::setDefaultNotebook` over the collection: the first
notebook that carries the default flag loses it and is saved. -/
def setDefaultNotebook_clearOld (s : NotesStore) : Except Fault NotesStore :=
  match s.firstDefaultNotebook with
  | none => .ok s
  | some t =>
    match s.derefNotebook t with
    | .error e => .error e
    | .ok tmp => (s.setNotebook t { tmp with isDefaultNotebook := false }).saveNotebook tmp.guid

/-- Embedding of `NotesStore::setDefaultNotebook`. -/
def setDefaultNotebook (s : NotesStore) (guid : String) : Except Fault NotesStore :=
  match s.m_notebooksHash.value guid with
  | none => .ok s
  | some p =>
    match s.setDefaultNotebook_clearOld with
    | .error e => .error e
    | .ok s =>
      match s.derefNotebook p with
      | .error e => .error e
      | .ok notebook => (s.setNotebook p { notebook with isDefaultNotebook := true }).saveNotebook guid

/-- The loop of `NotesStore::expungeNotebook` that moves the notes of the notebook to
the default notebook. It runs while the notebook still lists a note; a listed note
missing from the lookup table keeps the loop from ever ending. Each turn that ends
takes the first listed note out of the notebook or leaves the list as it is for good,
so the loop ends within as many turns as notes are listed at its start or never. -/
def expungeNotebook_moveNotes (notebookGuid defaultNotebook : String) :
    Nat → NotesStore → Except Fault NotesStore
  | fuel, s =>
    match s.notebookNotesList notebookGuid with
    | [] => .ok s
    | noteGuid :: _ =>
      match fuel with
      | 0 => .error Fault.endlessLoop
      | fuel + 1 =>
        match s.m_notesHash.value noteGuid with
        | none => .error Fault.endlessLoop
        | some p =>
          match s.derefNote p with
          | .error e => .error e
          | .ok note =>
            let s := s.setNote p { note with notebookGuid := defaultNotebook }
            match s.saveNote note.guid with
            | .error e => .error e
            | .ok s =>
              match s.derefNote p with
              | .error e => .error e
              | .ok saved =>
                expungeNotebook_moveNotes notebookGuid defaultNotebook fuel
                  (s.syncToCacheFileNote saved)

/-- The search of `NotesStore::expungeNotebook` for the default notebook: identifier
of the first notebook of the collection that carries the default flag, the empty
string when there is none. -/
def defaultNotebookGuid (s : NotesStore) : String :=
  match s.firstDefaultNotebook with
  | some d => (match s.notebookObjects[d]? with | some n => n.guid | none => "")
  | none => ""

/-- The block of `NotesStore::expungeNotebook` that moves the notes of a notebook
that still has notes to the default notebook; `none` stands for the early return
taken when no default notebook with an identifier is found. -/
def expungeNotebook_reassign (s : NotesStore) (notebook : Notebook) :
    Except Fault (Option NotesStore) :=
  if (s.notebookNotesList notebook.guid).length > 0 then
    if s.defaultNotebookGuid = "" then .ok none
    else
      match expungeNotebook_moveNotes notebook.guid s.defaultNotebookGuid
          (s.notebookNotesList notebook.guid).length s with
      | .error e => .error e
      | .ok s => .ok (some s)
  else .ok (some s)

/-- Embedding of `NotesStore::expungeNotebook`. -/
def expungeNotebook (s : NotesStore) (guid : String) : Except Fault NotesStore :=
  if s.NO_EXPUNGE_NOTEBOOKS ∧ s.m_username ≠ "@local" then
    .ok { s with m_errorQueue := s.m_errorQueue ++
      ["This account is managed by Evernote. Use the Evernote website to delete notebooks."] }
  else
    match s.m_notebooksHash.value guid with
    | none => .ok s
    | some p =>
      match s.derefNotebook p with
      | .error e => .error e
      | .ok notebook =>
        if notebook.isDefaultNotebook then
          .ok { s with m_errorQueue := s.m_errorQueue ++
            ["Cannot delete the default notebook. Set another notebook to be the default first."] }
        else
          match s.expungeNotebook_reassign notebook with
          | .error e => .error e
          | .ok none => .ok s
          | .ok (some s) =>
            if notebook.lastSyncedSequenceNumber = 0 then
              .ok { s with
                m_notebooks := removeAll s.m_notebooks p,
                m_notebooksHash := s.m_notebooksHash.remove notebook.guid,
                cacheNotebooks := s.cacheNotebooks.remove notebook.guid }
            else
              let notebook := { notebook with
                deleted := true, updateSequenceNumber := notebook.updateSequenceNumber + 1 }
              let s := (s.setNotebook p notebook).syncToCacheFileNotebook notebook
              if s.connected then .ok (s.enqueue (Job.ExpungeNotebookJob guid)) else .ok s

/-- Embedding of `NotesStore::expungeNotebookJobDone`. -/
def expungeNotebookJobDone (s : NotesStore) (errorCode : ErrorCode) (guid : String) :
    Except Fault NotesStore :=
  let s := s.handleUserError errorCode
  if errorCode ≠ ErrorCode.ErrorCodeNoError then .ok s
  else
    match s.m_notebooksHash.value guid with
    | none => .ok s
    | some p =>
      match s.derefNotebook p with
      | .error e => .error e
      | .ok notebook =>
        .ok { s with
          m_notebooksHash := s.m_notebooksHash.remove guid,
          m_notebooks := removeAll s.m_notebooks p,
          cacheNotebooks := s.cacheNotebooks.remove notebook.guid }

/-- Embedding of `NotesStore::saveNotebookJobDone`. -/
def saveNotebookJobDone (s : NotesStore) (errorCode : ErrorCode) (result : EdamNotebook) :
    Except Fault NotesStore :=
  match s.m_notebooksHash.value result.guid with
  | none => .ok s
  | some p =>
    match s.derefNotebook p with
    | .error e => .error e
    | .ok notebook =>
      let s := s.handleUserError errorCode
      if errorCode ≠ ErrorCode.ErrorCodeNoError then
        .ok (s.setNotebook p { notebook with syncError := true })
      else
        let notebook := { notebook with loading := false, syncError := false }
        let notebook := updateFromEDAMNotebook result notebook
        .ok ((s.setNotebook p notebook).syncToCacheFileNotebook notebook)

/-- Embedding of `NotesStore::refreshNotebooks`. -/
def refreshNotebooks (s : NotesStore) : NotesStore :=
  if ¬ s.connected then s
  else { s with m_notebooksLoading := true }.enqueue Job.FetchNotebooksJob

/-- Body of the loop over the remote notebooks in `NotesStore::fetchNotebooksJobDone`;
the state carries the list of local notebooks not yet reported. -/
def fetchNotebooksJobDone_result (acc : NotesStore × List Nat) (result : EdamNotebook) :
    Except Fault (NotesStore × List Nat) :=
  let s := acc.1
  match s.m_notebooksHash.value result.guid with
  | none =>
    let unhandledNotebooks := acc.2
    let notebook := updateFromEDAMNotebook result (Notebook.new result.guid 0)
    let p := s.notebookObjects.length
    let s := { s with
      notebookObjects := s.notebookObjects ++ [notebook],
      m_notebooksHash := s.m_notebooksHash.insert notebook.guid p,
      m_notebooks := s.m_notebooks ++ [p] }
    .ok (s.syncToCacheFileNotebook notebook, unhandledNotebooks)
  | some p =>
    let unhandledNotebooks := removeAll acc.2 p
    match s.derefNotebook p with
    | .error e => .error e
    | .ok notebook =>
      if notebook.synced then
        if notebook.updateSequenceNumber < result.updateSequenceNum then
          let notebook := updateFromEDAMNotebook result notebook
          .ok ((s.setNotebook p notebook).syncToCacheFileNotebook notebook, unhandledNotebooks)
        else .ok (s, unhandledNotebooks)
      else if result.updateSequenceNum = notebook.lastSyncedSequenceNumber then
        if notebook.deleted then
          match s.expungeNotebook notebook.guid with
          | .error e => .error e
          | .ok s => .ok (s, unhandledNotebooks)
        else
          .ok ((s.enqueue (Job.SaveNotebookJob p)).setNotebook p { notebook with loading := true },
            unhandledNotebooks)
      else
        .ok (s.setNotebook p { notebook with syncError := true }, unhandledNotebooks)

/-- Body of the loop over the local notebooks the server did not report in
`NotesStore::fetchNotebooksJobDone`. -/
def fetchNotebooksJobDone_unhandled (s : NotesStore) (p : Nat) : Except Fault NotesStore :=
  match s.derefNotebook p with
  | .error e => .error e
  | .ok notebook =>
    if notebook.lastSyncedSequenceNumber = 0 then
      .ok ((s.setNotebook p { notebook with loading := true }).enqueue (Job.CreateNotebookJob p))
    else
      .ok { s with
        m_notebooks := removeAll s.m_notebooks p,
        m_notebooksHash := s.m_notebooksHash.remove notebook.guid,
        cacheNotebooks := s.cacheNotebooks.remove notebook.guid }

/-- Embedding of `NotesStore::fetchNotebooksJobDone`. -/
def fetchNotebooksJobDone (s : NotesStore) (errorCode : ErrorCode) (results : List EdamNotebook) :
    Except Fault NotesStore :=
  let s := { s with m_notebooksLoading := false }
  let s := s.handleUserError errorCode
  if errorCode ≠ ErrorCode.ErrorCodeNoError then .ok s
  else
    match results.foldlM fetchNotebooksJobDone_result (s, s.m_notebooks) with
    | .error e => .error e
    | .ok acc => acc.2.foldlM fetchNotebooksJobDone_unhandled acc.1

/-! ### Tags -/

/-- Embedding of `NotesStore::createTag`; `newGuid` is the identifier drawn by
`QUuid::createUuid`. The tag returned is not part of the result: it is the tag of
that name, found or new. -/
def createTag (s : NotesStore) (newGuid : String) (name : String) : NotesStore :=
  if s.m_tags.any (fun t =>
      match s.tagObjects[t]? with
      | some tag => decide (tag.name = name)
      | none => false) then s
  else
    let tag := Tag.new newGuid 1
    let tag := { tag with name := name }
    let p := s.tagObjects.length
    let s := { s with
      tagObjects := s.tagObjects ++ [tag],
      m_tags := s.m_tags ++ [p],
      m_tagsHash := s.m_tagsHash.insert tag.guid p }
    let s := s.syncToCacheFileTag tag
    if s.connected then s.enqueue (Job.CreateTagJob p) else s

/-- Embedding of `NotesStore::createTagJobDone`. -/
def createTagJobDone (s : NotesStore) (errorCode : ErrorCode) (tmpGuid : String)
    (result : EdamTag) : Except Fault NotesStore :=
  match s.m_tagsHash.value tmpGuid with
  | none => .ok s
  | some p =>
    match s.derefTag p with
    | .error e => .error e
    | .ok tag =>
      let tag := { tag with loading := false }
      let s := s.handleUserError errorCode
      if errorCode ≠ ErrorCode.ErrorCodeNoError then
        .ok (s.setTag p { tag with syncError := true })
      else
        let guid := result.guid
        let s := { s with m_tagsHash := s.m_tagsHash.insert guid p }
        let tag := { tag with guid := result.guid }
        let s := s.rekeyTagGuid tmpGuid guid
        let s := { s with m_tagsHash := s.m_tagsHash.remove tmpGuid }
        let tag := { tag with
          updateSequenceNumber := result.updateSequenceNum,
          lastSyncedSequenceNumber := result.updateSequenceNum }
        let s := { s with cacheTags := s.cacheTags.remove tmpGuid }
        let s := (s.setTag p tag).syncToCacheFileTag tag
        (s.tagNotesList tag.guid).foldlM saveNote s

/-- Embedding of `NotesStore::saveTag`. -/
def saveTag (s : NotesStore) (guid : String) : Except Fault NotesStore :=
  match s.m_tagsHash.value guid with
  | none => .ok s
  | some p =>
    match s.derefTag p with
    | .error e => .error e
    | .ok tag =>
      let tag := { tag with updateSequenceNumber := tag.updateSequenceNumber + 1 }
      let s := s.syncToCacheFileTag tag
      if s.connected then
        .ok ((s.setTag p { tag with loading := true }).enqueue (Job.SaveTagJob p))
      else
        .ok (s.setTag p tag)

/-- Embedding of `NotesStore::saveTagJobDone`. -/
def saveTagJobDone (s : NotesStore) (errorCode : ErrorCode) (result : EdamTag) :
    Except Fault NotesStore :=
  match s.m_tagsHash.value result.guid with
  | none => .ok s
  | some p =>
    match s.derefTag p with
    | .error e => .error e
    | .ok tag =>
      let tag := { tag with loading := false }
      let s := s.handleUserError errorCode
      if errorCode ≠ ErrorCode.ErrorCodeNoError then
        .ok (s.setTag p { tag with syncError := true })
      else
        let tag := { tag with
          name := result.name,
          updateSequenceNumber := result.updateSequenceNum,
          lastSyncedSequenceNumber := result.updateSequenceNum }
        .ok ((s.setTag p tag).syncToCacheFileTag tag)

/-- Embedding of `NotesStore::expungeTagJobDone`. -/
def expungeTagJobDone (s : NotesStore) (errorCode : ErrorCode) (guid : String) : NotesStore :=
  let s := s.handleUserError errorCode
  if errorCode ≠ ErrorCode.ErrorCodeNoError then s
  else
    match s.m_tagsHash.value guid with
    | none => s
    | some p =>
      { s with
        m_tagsHash := s.m_tagsHash.remove guid,
        m_tags := removeAll s.m_tags p,
        cacheTags := s.cacheTags.remove guid }

/-- The loop of `NotesStore::expungeTag` that takes the tag off the notes that
reference it; the bound on its turns is as in `expungeNotebook_moveNotes`. -/
def expungeTag_untagNotes (guid tagGuid : String) : Nat → NotesStore → Except Fault NotesStore
  | fuel, s =>
    match s.tagNotesList tagGuid with
    | [] => .ok s
    | noteGuid :: _ =>
      match fuel with
      | 0 => .error Fault.endlessLoop
      | fuel + 1 =>
        match s.m_notesHash.value noteGuid with
        | none => .error Fault.endlessLoop
        | some _ =>
          match s.untagNote noteGuid guid with
          | .error e => .error e
          | .ok s => expungeTag_untagNotes guid tagGuid fuel s

/-- Embedding of `NotesStore::expungeTag`. -/
def expungeTag (s : NotesStore) (guid : String) : Except Fault NotesStore :=
  if s.NO_EXPUNGE_TAGS ∧ s.m_username ≠ "@local" then
    .ok { s with m_errorQueue := s.m_errorQueue ++
      ["This account is managed by Evernote. Please use the Evernote website to delete tags."] }
  else
    match s.m_tagsHash.value guid with
    | none => .ok s
    | some p =>
      match s.derefTag p with
      | .error e => .error e
      | .ok tag =>
        match expungeTag_untagNotes guid tag.guid (s.tagNotesList tag.guid).length s with
        | .error e => .error e
        | .ok s =>
          if tag.lastSyncedSequenceNumber = 0 then
            .ok { s with
              m_tagsHash := s.m_tagsHash.remove guid,
              m_tags := removeAll s.m_tags p,
              cacheTags := s.cacheTags.remove guid }
          else
            let tag := { tag with
              deleted := true, updateSequenceNumber := tag.updateSequenceNumber + 1 }
            let s := (s.setTag p tag).syncToCacheFileTag tag
            if s.connected then .ok (s.enqueue (Job.ExpungeTagJob guid)) else .ok s

/-- Body of the loop over the remote tags in `NotesStore::fetchTagsJobDone`; the state
carries the copy of the lookup table from which reported tags are struck. -/
def fetchTagsJobDone_result (acc : NotesStore × QHash) (result : EdamTag) :
    Except Fault (NotesStore × QHash) :=
  let s := acc.1
  let unhandledTags := acc.2.remove result.guid
  match s.m_tagsHash.value result.guid with
  | none =>
    let tag := Tag.new result.guid result.updateSequenceNum
    let tag := { tag with lastSyncedSequenceNumber := result.updateSequenceNum }
    let tag := { tag with name := result.name }
    let p := s.tagObjects.length
    let s := { s with
      tagObjects := s.tagObjects ++ [tag],
      m_tagsHash := s.m_tagsHash.insert tag.guid p,
      m_tags := s.m_tags ++ [p] }
    .ok (s.syncToCacheFileTag tag, unhandledTags)
  | some p =>
    match s.derefTag p with
    | .error e => .error e
    | .ok tag =>
      if tag.synced then
        if tag.updateSequenceNumber < result.updateSequenceNum then
          let tag := { tag with
            name := result.name,
            updateSequenceNumber := result.updateSequenceNum,
            lastSyncedSequenceNumber := result.updateSequenceNum }
          .ok ((s.setTag p tag).syncToCacheFileTag tag, unhandledTags)
        else .ok (s, unhandledTags)
      else if result.updateSequenceNum = tag.lastSyncedSequenceNumber then
        if tag.deleted then
          match s.expungeTag tag.guid with
          | .error e => .error e
          | .ok s => .ok (s, unhandledTags)
        else
          .ok ((s.enqueue (Job.SaveTagJob p)).setTag p { tag with loading := true }, unhandledTags)
      else
        .ok (s.setTag p { tag with syncError := true }, unhandledTags)

/-- Body of the loop over the local tags the server did not report in
`NotesStore::fetchTagsJobDone`. -/
def fetchTagsJobDone_unhandled (s : NotesStore) (p : Nat) : Except Fault NotesStore :=
  match s.derefTag p with
  | .error e => .error e
  | .ok tag =>
    if tag.lastSyncedSequenceNumber = 0 then
      .ok ((s.setTag p { tag with loading := true }).enqueue (Job.CreateTagJob p))
    else
      .ok { s with
        m_tags := removeAll s.m_tags p,
        m_tagsHash := s.m_tagsHash.remove tag.guid }

/-- Embedding of `NotesStore::fetchTagsJobDone`. -/
def fetchTagsJobDone (s : NotesStore) (errorCode : ErrorCode) (results : List EdamTag) :
    Except Fault NotesStore :=
  let s := { s with m_tagsLoading := false }
  let s := s.handleUserError errorCode
  if errorCode ≠ ErrorCode.ErrorCodeNoError then .ok s
  else
    match results.foldlM fetchTagsJobDone_result (s, s.m_tagsHash) with
    | .error e => .error e
    | .ok acc => acc.2.values.foldlM fetchTagsJobDone_unhandled acc.1

/-! ### Whole store -/

/-- Embedding of `NotesStore::clear`. -/
def clear (s : NotesStore) : NotesStore :=
  let s := { s with m_notes := [], m_notesHash := [] }
  let s := { s with
    m_notebooksHash := s.m_notebooks.foldl (fun (h : QHash) (p : Nat) =>
      match s.notebookObjects[p]? with
      | some notebook => QHash.remove h notebook.guid
      | none => h) s.m_notebooksHash,
    m_notebooks := [] }
  { s with
    m_tagsHash := s.m_tags.foldl (fun (h : QHash) (p : Nat) =>
      match s.tagObjects[p]? with
      | some tag => QHash.remove h tag.guid
      | none => h) s.m_tagsHash,
    m_tags := [] }

end NotesStore

/-! ## Operations as data -/

/-- The calls into the store: the operations a client invokes, the results the
dispatcher reports, and the two changes of the surroundings (connection, clock). -/
inductive Operation where
  | setConnected (connected : Bool)
  | setCurrentDateTime (now : Int)
  | createNote (newGuid title notebookGuid content : String)
  | saveNote (guid : String)
  | deleteNote (guid : String)
  | tagNote (noteGuid tagGuid : String)
  | untagNote (noteGuid tagGuid : String)
  | resolveConflict (noteGuid : String) (mode : NotesStore.ConflictResolveMode)
  | refreshNotes (filterNotebookGuid : String) (startIndex : Nat)
  | refreshNoteContent (guid : String) (what : LoadWhatFlags) (priority : JobPriority)
  | fetchNotesJobDone (errorCode : ErrorCode) (results : NotesMetadataList)
      (filterNotebookGuid : String)
  | fetchNoteJobDone (errorCode : ErrorCode) (result : EdamNote) (what : LoadWhatFlags)
      (jobPriority : JobPriority) (cachedResources : List String)
  | fetchConflictingNoteJobDone (errorCode : ErrorCode) (result : EdamNote)
  | createNoteJobDone (errorCode : ErrorCode) (tmpGuid : String) (result : EdamNote)
  | saveNoteJobDone (errorCode : ErrorCode) (result : EdamNote)
  | deleteNoteJobDone (errorCode : ErrorCode) (guid : String)
  | createNotebook (newGuid name : String)
  | saveNotebook (guid : String)
  | setDefaultNotebook (guid : String)
  | expungeNotebook (guid : String)
  | refreshNotebooks
  | fetchNotebooksJobDone (errorCode : ErrorCode) (results : List EdamNotebook)
  | createNotebookJobDone (errorCode : ErrorCode) (tmpGuid : String) (result : EdamNotebook)
  | saveNotebookJobDone (errorCode : ErrorCode) (result : EdamNotebook)
  | expungeNotebookJobDone (errorCode : ErrorCode) (guid : String)
  | createTag (newGuid name : String)
  | saveTag (guid : String)
  | expungeTag (guid : String)
  | refreshTags
  | fetchTagsJobDone (errorCode : ErrorCode) (results : List EdamTag)
  | createTagJobDone (errorCode : ErrorCode) (tmpGuid : String) (result : EdamTag)
  | saveTagJobDone (errorCode : ErrorCode) (result : EdamTag)
  | expungeTagJobDone (errorCode : ErrorCode) (guid : String)
  | clearError
  | clearSearchResults
  deriving DecidableEq, Repr

/-- Runs one call on a store. -/
def Operation.apply (s : NotesStore) : Operation → Except Fault NotesStore
  | .setConnected connected => .ok { s with connected := connected }
  | .setCurrentDateTime now => .ok { s with currentDateTime := now }
  | .createNote newGuid title notebookGuid content =>
    .ok (s.createNote newGuid title notebookGuid content)
  | .saveNote guid => s.saveNote guid
  | .deleteNote guid => s.deleteNote guid
  | .tagNote noteGuid tagGuid => s.tagNote noteGuid tagGuid
  | .untagNote noteGuid tagGuid => s.untagNote noteGuid tagGuid
  | .resolveConflict noteGuid mode => s.resolveConflict noteGuid mode
  | .refreshNotes filterNotebookGuid startIndex => .ok (s.refreshNotes filterNotebookGuid startIndex)
  | .refreshNoteContent guid what priority => s.refreshNoteContent guid what priority
  | .fetchNotesJobDone errorCode results filterNotebookGuid =>
    s.fetchNotesJobDone errorCode results filterNotebookGuid
  | .fetchNoteJobDone errorCode result what jobPriority cachedResources =>
    s.fetchNoteJobDone errorCode result what jobPriority (fun h => decide (h ∈ cachedResources))
  | .fetchConflictingNoteJobDone errorCode result => s.fetchConflictingNoteJobDone errorCode result
  | .createNoteJobDone errorCode tmpGuid result => s.createNoteJobDone errorCode tmpGuid result
  | .saveNoteJobDone errorCode result => s.saveNoteJobDone errorCode result
  | .deleteNoteJobDone errorCode guid => s.deleteNoteJobDone errorCode guid
  | .createNotebook newGuid name => .ok (s.createNotebook newGuid name)
  | .saveNotebook guid => s.saveNotebook guid
  | .setDefaultNotebook guid => s.setDefaultNotebook guid
  | .expungeNotebook guid => s.expungeNotebook guid
  | .refreshNotebooks => .ok s.refreshNotebooks
  | .fetchNotebooksJobDone errorCode results => s.fetchNotebooksJobDone errorCode results
  | .createNotebookJobDone errorCode tmpGuid result =>
    s.createNotebookJobDone errorCode tmpGuid result
  | .saveNotebookJobDone errorCode result => s.saveNotebookJobDone errorCode result
  | .expungeNotebookJobDone errorCode guid => s.expungeNotebookJobDone errorCode guid
  | .createTag newGuid name => .ok (s.createTag newGuid name)
  | .saveTag guid => s.saveTag guid
  | .expungeTag guid => s.expungeTag guid
  | .refreshTags => .ok s.refreshTags
  | .fetchTagsJobDone errorCode results => s.fetchTagsJobDone errorCode results
  | .createTagJobDone errorCode tmpGuid result => s.createTagJobDone errorCode tmpGuid result
  | .saveTagJobDone errorCode result => s.saveTagJobDone errorCode result
  | .expungeTagJobDone errorCode guid => .ok (s.expungeTagJobDone errorCode guid)
  | .clearError => .ok s.clearError
  | .clearSearchResults => .ok s.clearSearchResults

/-- Runs a sequence of calls, first call first; a fault ends the run. -/
def runOperations (s : NotesStore) (ops : List Operation) : Except Fault NotesStore :=
  ops.foldlM Operation.apply s

/-- States the store reaches from its initial state through its calls. -/
def Reachable (s : NotesStore) : Prop :=
  ∃ (connected : Bool) (ops : List Operation),
    runOperations (NotesStore.init connected) ops = .ok s

/-! ## Concrete stores and remote data used as instances -/

/-- Optional-field markers with every field present. -/
def NoteIsset.all : NoteIsset :=
  { title := true, created := true, updated := true, updateSequenceNum := true,
    notebookGuid := true, tagGuids := true, attributes := true, deleted := true,
    content := true }

/-- Optional-field markers with no field present. -/
def NoteIsset.none : NoteIsset :=
  { title := false, created := false, updated := false, updateSequenceNum := false,
    notebookGuid := false, tagGuids := false, attributes := false, deleted := false,
    content := false }

/-- Reminder attributes of a note without reminder. -/
def NoteAttributes.none : NoteAttributes :=
  { reminderOrder := 0, reminderTime := 0, reminderDoneTime := 0,
    isset := { reminderOrder := false, reminderTime := false, reminderDoneTime := false } }

/-- A remote summary that carries an identifier and a sequence number only. -/
def NoteMetadata.bare (guid : String) (updateSequenceNum : Nat) : NoteMetadata :=
  { guid := guid, title := "", created := 0, updated := 0,
    updateSequenceNum := updateSequenceNum, notebookGuid := "", tagGuids := [],
    attributes := NoteAttributes.none, deleted := 0,
    isset := { NoteIsset.none with updateSequenceNum := true } }

/-- A full remote note that carries an identifier and a sequence number only. -/
def EdamNote.bare (guid : String) (updateSequenceNum : Nat) : EdamNote :=
  { guid := guid, title := "", content := "", created := 0, updated := 0, deleted := 0,
    updateSequenceNum := updateSequenceNum, notebookGuid := "", tagGuids := [],
    attributes := NoteAttributes.none, resources := [],
    isset := { NoteIsset.none with updateSequenceNum := true } }

/-- A connected store holding one note `g` that was edited locally after its last
sync: `updateSequenceNumber = 5`, `lastSyncedSequenceNumber = 3`. -/
def conflictStore : NotesStore :=
  { NotesStore.init true with
    noteObjects := [{ Note.new "g" 5 with lastSyncedSequenceNumber := 3, title := "local" }],
    m_notes := [0], m_notesHash := [("g", 0)], cacheNotes := [("g", 5)] }

/-- The one-summary listing page that reports note `g` at sequence number 4. -/
def conflictPage : NotesMetadataList :=
  { startIndex := 0, totalNotes := 1,
    notes := [{ NoteMetadata.bare "g" 4 with title := "remote", isset := NoteIsset.all }],
    searchedWords := [] }

/-- A run in which the server answers a save with a sequence number above the local
one: the note is created (server number 7), edited and saved (local number 8), and
the save is acknowledged with server number 9. -/
def saveAcknowledgedRun : List Operation :=
  [ Operation.createNote "tmp" "title" "" "body",
    Operation.createNoteJobDone ErrorCode.ErrorCodeNoError "tmp" (EdamNote.bare "g" 7),
    Operation.saveNote "g",
    Operation.saveNoteJobDone ErrorCode.ErrorCodeNoError (EdamNote.bare "g" 9) ]

/-- A run that tags a new note with a new tag while connected, before the server has
acknowledged the tag. -/
def tagBeforeSyncRun : List Operation :=
  [ Operation.createTag "t" "urgent",
    Operation.createNote "n" "title" "" "body" ]

/-- Store a run of calls ends in, starting from the initial store; the initial store
itself when the run faults. -/
def finalStore (connected : Bool) (ops : List Operation) : NotesStore :=
  match runOperations (NotesStore.init connected) ops with
  | .ok s => s
  | .error _ => NotesStore.init connected

/-- The first two calls of the notebook scenario: notebook "Work" is created on the
empty store, then notebook "Home". -/
def workHomeRun : List Operation :=
  [ Operation.createNotebook "w" "Work",
    Operation.createNotebook "h" "Home" ]

/-- Flags and identifiers of the notebooks of the collection, in order: identifier,
name, default flag, deleted flag. -/
def notebookSummary (s : NotesStore) : List (String × String × Bool × Bool) :=
  (s.m_notebooks.filterMap (fun p => s.notebookObjects[p]?)).map
    (fun n => (n.guid, n.name, n.isDefaultNotebook, n.deleted))

/-- A run that leaves note `g` in conflict with its shadow attached: the note is
created and acknowledged at server number 3, saved twice locally (number 5), the
listing reports it at number 4, and the fetch of the remote version delivers the
shadow. -/
def shadowAttachedRun : List Operation :=
  [ Operation.createNote "tmp" "local" "" "local body",
    Operation.createNoteJobDone ErrorCode.ErrorCodeNoError "tmp" (EdamNote.bare "g" 3),
    Operation.saveNote "g",
    Operation.saveNote "g",
    Operation.fetchNotesJobDone ErrorCode.ErrorCodeNoError conflictPage "",
    Operation.fetchConflictingNoteJobDone ErrorCode.ErrorCodeNoError
      { EdamNote.bare "g" 4 with title := "remote", content := "remote body",
                                 notebookGuid := "nb", tagGuids := ["t"] } ]

/-- The shadow the run `shadowAttachedRun` attaches to note `g`. -/
def attachedShadow : NoteData :=
  { NoteData.new "conflict-g" 4 with
    lastSyncedSequenceNumber := 4, title := "remote", enmlContent := "remote body",
    notebookGuid := "nb", tagGuids := ["t"], created := some 0, updated := some 0,
    reminderTime := some 0, reminderDoneTime := some 0, loaded := true }

/-- The one-summary listing page that reports a note `g` unknown to an empty store. -/
def newNotePage : NotesMetadataList :=
  { startIndex := 0, totalNotes := 1,
    notes := [{ NoteMetadata.bare "g" 4 with title := "remote", isset := NoteIsset.all }],
    searchedWords := [] }

/-- Jobs that concern the note object `p` or the note identifier `guid`. -/
def Job.concernsNote (p : Nat) (guid : String) : Job → Bool
  | Job.CreateNoteJob q => decide (q = p)
  | Job.SaveNoteJob q => decide (q = p)
  | Job.FetchNoteJob g _ _ _ => decide (g = guid)
  | Job.DeleteNoteJob g => decide (g = guid)
  | _ => false

/-- Every entry of the note lookup table points to a note object that carries the
key as its identifier. -/
def NotesStore.HashKeyed (s : NotesStore) : Prop :=
  ∀ e ∈ s.m_notesHash, (s.noteObjects[e.2]?).map (fun n => n.guid) = some e.1

/-- What one turn of the survivor loop on an identifier other than `g` leaves alone. -/
structure NotesStore.SurvivorFrame (p : Nat) (g : String) (s s' : NotesStore) : Prop where
  keyed : s'.HashKeyed
  value : s'.m_notesHash.value g = s.m_notesHash.value g
  object : s'.noteObjects[p]? = s.noteObjects[p]?
  tags : s'.m_tagsHash = s.m_tagsHash ∧ s'.tagObjects = s.tagObjects
  notebooks : s'.m_notebooksHash = s.m_notebooksHash ∧ s'.notebookObjects = s.notebookObjects
  jobs : ∃ added, s'.jobQueue = s.jobQueue ++ added ∧ added.filter (Job.concernsNote p g) = []

/-- A run that leaves one note that exists locally only: the note is created while
disconnected, the connection comes up and a note pass is requested. -/
def localOnlyRun : List Operation :=
  [ Operation.createNote "n" "title" "" "body",
    Operation.setConnected true,
    Operation.refreshNotes "" 0 ]

/-- The empty remote listing: one page without summaries, nothing more to fetch. -/
def emptyPage : NotesMetadataList :=
  { startIndex := 0, totalNotes := 0, notes := [], searchedWords := [] }

/-- Identifier of the notebook object behind a pointer. -/
def NotesStore.notebookGuidAt (s : NotesStore) (p : Nat) : Option String :=
  (s.notebookObjects[p]?).map (fun n => n.guid)

/-- Default flag of the notebook object behind a pointer. -/
def NotesStore.isDefaultAt (s : NotesStore) (p : Nat) : Bool :=
  match s.notebookObjects[p]? with
  | some notebook => notebook.isDefaultNotebook
  | none => false

/-- Number of notebooks of the collection that carry the default flag. -/
def NotesStore.defaultCount (s : NotesStore) : Nat :=
  (s.m_notebooks.filter s.isDefaultAt).length

/-- Consistency of the notebook collection and its lookup table, and the default
flag: the collection has no pointer twice, its pointers lead to objects, each table
entry points into the collection to an object that carries the key as identifier,
and a non-empty collection has exactly one notebook with the default flag. -/
def NotesStore.NotebooksInvariant (s : NotesStore) : Prop :=
  s.m_notebooks.Nodup ∧
  (∀ p ∈ s.m_notebooks, (s.notebookGuidAt p).isSome) ∧
  (∀ e ∈ s.m_notebooksHash, e.2 ∈ s.m_notebooks ∧ s.notebookGuidAt e.2 = some e.1) ∧
  (s.m_notebooks ≠ [] → s.defaultCount = 1)

/-- A step that leaves collection, lookup table, identifiers and default flags of the
notebooks as they are. -/
def NotesStore.SameNotebooks (s s' : NotesStore) : Prop :=
  s'.m_notebooks = s.m_notebooks ∧ s'.m_notebooksHash = s.m_notebooksHash ∧
  (∀ q, s'.notebookGuidAt q = s.notebookGuidAt q) ∧
  (∀ q, s'.isDefaultAt q = s.isDefaultAt q)

/-- The calls made on the client side that the default-notebook property is stated
for: notebook creation, saving, choice of the default and removal, note creation and
saving, and the changes of connection and clock. -/
def Operation.isLocalNotebookCall : Operation → Bool
  | Operation.setConnected _ => true
  | Operation.setCurrentDateTime _ => true
  | Operation.createNotebook _ _ => true
  | Operation.saveNotebook _ => true
  | Operation.setDefaultNotebook _ => true
  | Operation.expungeNotebook _ => true
  | Operation.createNote _ _ _ _ => true
  | Operation.saveNote _ => true
  | _ => false

/-- A remote notebook with every optional field present. -/
def EdamNotebook.full (guid name : String) (updateSequenceNum : Nat) (defaultNotebook : Bool) :
    EdamNotebook :=
  { guid := guid, name := name, updateSequenceNum := updateSequenceNum, serviceUpdated := 0,
    published := false, defaultNotebook := defaultNotebook,
    isset := { guid := true, name := true, updateSequenceNum := true, serviceUpdated := true,
               published := true, defaultNotebook := true } }

/-- A run that merges the server's notebooks into a store that already has a notebook
created while disconnected: the local "Work" is the default, the server reports its
own default notebook. -/
def twoDefaultsRun : List Operation :=
  [ Operation.createNotebook "w" "Work",
    Operation.setConnected true,
    Operation.fetchNotebooksJobDone ErrorCode.ErrorCodeNoError
      [EdamNotebook.full "srv" "Personal" 12 true] ]

/-- A run in which the server answers the save of the non-default notebook "Home"
with a notebook that is the default on the server. -/
def savedAsDefaultRun : List Operation :=
  workHomeRun ++
  [ Operation.saveNotebook "h",
    Operation.saveNotebookJobDone ErrorCode.ErrorCodeNoError (EdamNotebook.full "h" "Home" 9 true) ]

/-- A run in which the notebook "Home", acknowledged by the server, is expunged, is
made the default while its expunge job is pending, and is removed when the job
reports. -/
def defaultExpungedRun : List Operation :=
  workHomeRun ++
  [ Operation.createNotebookJobDone ErrorCode.ErrorCodeNoError "h"
      (EdamNotebook.full "H" "Home" 5 false),
    Operation.expungeNotebook "H",
    Operation.setDefaultNotebook "H",
    Operation.expungeNotebookJobDone ErrorCode.ErrorCodeNoError "H" ]

/-- A step that changes at most the note objects, the `notes` group of the cache and
the job queue. -/
def NotesStore.OnlyNotesChanged (s s' : NotesStore) : Prop :=
  s' = { s with noteObjects := s'.noteObjects, cacheNotes := s'.cacheNotes,
                jobQueue := s'.jobQueue }

/-- Every pointer of the note collection leads to a note object, and the lookup table
returns that pointer for the identifier of the object. -/
def NotesStore.NotesListed (s : NotesStore) : Prop :=
  ∀ p ∈ s.m_notes, (s.noteObjects[p]?).bind (fun n => s.m_notesHash.value n.guid) = some p

/-- The note object behind a pointer belongs to the notebook of the given identifier. -/
def NotesStore.ownsNote (s : NotesStore) (notebookGuid : String) (p : Nat) : Bool :=
  match s.noteObjects[p]? with
  | some n => decide (n.notebookGuid = notebookGuid)
  | none => false

/-- What `expungeNotebook` does to a note of the collection: a note of the expunged
notebook `g` is moved to the default notebook `dg` and saved once (its
`updateSequenceNumber` grows by one, identifier, title, body, tags and
`lastSyncedSequenceNumber` stay); any other note is untouched. -/
def MovedNote (g dg : String) (note note' : Note) : Prop :=
  (note.notebookGuid = g →
    note'.notebookGuid = dg ∧
    note'.updateSequenceNumber = note.updateSequenceNumber + 1 ∧
    note'.guid = note.guid ∧ note'.title = note.title ∧
    note'.enmlContent = note.enmlContent ∧ note'.tagGuids = note.tagGuids ∧
    note'.lastSyncedSequenceNumber = note.lastSyncedSequenceNumber) ∧
  (note.notebookGuid ≠ g → note' = note)

/-- The note object `saveNote` writes back: sequence number raised by one, update
time set to the clock, content cache written, and loading while connected. -/
def NotesStore.savedNote (s : NotesStore) (note : Note) : Note :=
  { note with
    updateSequenceNumber := note.updateSequenceNumber + 1,
    updated := some s.currentDateTime,
    isCached := true,
    loading := if s.connected then true else note.loading }

/-- The job `saveNote` hands over for the note object `p`: none while disconnected, a
create job for a note never created on the server, a save job otherwise. -/
def NotesStore.saveNoteJobs (s : NotesStore) (p : Nat) (note : Note) : List Job :=
  if s.connected then
    [if note.lastSyncedSequenceNumber = 0 then Job.CreateNoteJob p else Job.SaveNoteJob p]
  else []

/-- The store after one turn of the note-moving loop of `expungeNotebook` on the note
object `r` (holding `n`): the note names the default notebook `dg` and has been saved. -/
def NotesStore.afterMove (s : NotesStore) (r : Nat) (n : Note) (dg : String) : NotesStore :=
  { s with
    noteObjects := s.noteObjects.set r (s.savedNote { n with notebookGuid := dg }),
    cacheNotes := (s.cacheNotes.setValue n.guid (n.updateSequenceNumber + 1)).setValue
      n.guid (n.updateSequenceNumber + 1),
    jobQueue := s.jobQueue ++ s.saveNoteJobs r n }

/-- A run that leaves the non-default notebook "Home" with two notes and the default
notebook "Work" with one. -/
def ownedNotesRun : List Operation :=
  workHomeRun ++
  [ Operation.createNote "n1" "first" "h" "one",
    Operation.createNote "n2" "second" "h" "two",
    Operation.createNote "n3" "third" "w" "three" ]

/-- The store the run `ownedNotesRun` ends in, disconnected. -/
def ownedNotesStore : NotesStore := finalStore false ownedNotesRun

/-- Identifier, notebook and sequence number of the notes of the collection, in order. -/
def noteSummary (s : NotesStore) : List (String × String × Nat) :=
  (s.m_notes.filterMap (fun p => s.noteObjects[p]?)).map
    (fun n => (n.guid, n.notebookGuid, n.updateSequenceNumber))

/-- One full note pass as the job dispatcher drives it: `refreshNotes` with start
index 0, then `fetchNotesJobDone` without error on every page of the remote listing
in order. `pages` are the pages that announce more notes, `last` is the page that
ends the listing and starts the step for the notes no page reported. -/
def NotesStore.reconcileNotes (s : NotesStore) (filterNotebookGuid : String)
    (pages : List NotesMetadataList) (last : NotesMetadataList) : Except Fault NotesStore :=
  (pages ++ [last]).foldlM
    (fun s page => s.fetchNotesJobDone ErrorCode.ErrorCodeNoError page filterNotebookGuid)
    (s.refreshNotes filterNotebookGuid 0)

/-- A page that announces more notes (the test at the end of `fetchNotesJobDone`). -/
def NotesMetadataList.hasMore (page : NotesMetadataList) : Prop :=
  page.startIndex + page.notes.length < page.totalNotes

/-- Summaries of all pages of a listing, in order. -/
def listedNotes (pages : List NotesMetadataList) : List NoteMetadata :=
  pages.flatMap (fun page => page.notes)

/-- The jobs that request a page of the note listing. -/
def Job.isFetchNotesJob : Job → Bool
  | Job.FetchNotesJob _ _ _ => true
  | _ => false

/-- Every note of the lookup table is synced and has been stored on the server:
the store holds no local change that waits for the server. -/
def NotesStore.NothingPending (s : NotesStore) : Prop :=
  ∀ e ∈ s.m_notesHash, ∀ note, s.noteObjects[e.2]? = some note →
    note.synced = true ∧ note.lastSyncedSequenceNumber ≠ 0

/-- Every note of the lookup table is a row of the note collection. -/
def NotesStore.TableInCollection (s : NotesStore) : Prop :=
  ∀ e ∈ s.m_notesHash, e.2 ∈ s.m_notes

/-- What the page loop of a note pass keeps when the pass starts on a store with
nothing pending; `seen` are the summaries handled so far. -/
structure NotesStore.PassClean (seen : List NoteMetadata) (s : NotesStore) : Prop where
  keyed : s.HashKeyed
  listed : s.TableInCollection
  synced : ∀ e ∈ s.m_notesHash, ∀ note, s.noteObjects[e.2]? = some note → note.synced = true
  onServer : ∀ e ∈ s.m_notesHash, ∀ note, s.noteObjects[e.2]? = some note →
    e.1 ∈ s.m_unhandledNotes → note.lastSyncedSequenceNumber ≠ 0
  covered : ∀ e ∈ s.m_notesHash, e.1 ∈ s.m_unhandledNotes ∨ ∃ r ∈ seen, r.guid = e.1
  handled : ∀ r ∈ seen, r.guid ∉ s.m_unhandledNotes ∧ ∃ p note,
    s.m_notesHash.value r.guid = some p ∧ s.noteObjects[p]? = some note ∧
    r.updateSequenceNum ≤ note.updateSequenceNumber
  conn : s.connected = true

/-- A store that agrees with a remote listing: the lookup table holds the listed
notes and no other, each synced and at least as recent as its summary. -/
structure NotesStore.AgreesWith (seen : List NoteMetadata) (s : NotesStore) : Prop where
  keyed : s.HashKeyed
  covered : ∀ e ∈ s.m_notesHash, ∃ r ∈ seen, r.guid = e.1
  handled : ∀ r ∈ seen, ∃ p note,
    s.m_notesHash.value r.guid = some p ∧ s.noteObjects[p]? = some note ∧
    note.synced = true ∧ r.updateSequenceNum ≤ note.updateSequenceNumber
  conn : s.connected = true
  idle : s.m_loading = false

/-- What the second pass keeps: the store `s` differs from `t` in the job queue, the
loading flag and the list of unhandled identifiers only, and the jobs added request
pages of the listing. -/
structure NotesStore.ListingOnly (t s : NotesStore) : Prop where
  same : s = { t with jobQueue := s.jobQueue, m_loading := s.m_loading,
                      m_unhandledNotes := s.m_unhandledNotes }
  jobs : ∃ added, s.jobQueue = t.jobQueue ++ added ∧ ∀ j ∈ added, j.isFetchNotesJob = true

/-- What the loop over the notes no page reported keeps when nothing is pending; `l`
is the part of the list still to visit. -/
structure NotesStore.SurvivorsClean (seen : List NoteMetadata) (l : List String)
    (s : NotesStore) : Prop where
  keyed : s.HashKeyed
  listed : s.TableInCollection
  synced : ∀ e ∈ s.m_notesHash, ∀ note, s.noteObjects[e.2]? = some note → note.synced = true
  onServer : ∀ e ∈ s.m_notesHash, ∀ note, s.noteObjects[e.2]? = some note →
    e.1 ∈ l → note.lastSyncedSequenceNumber ≠ 0
  handled : ∀ r ∈ seen, r.guid ∉ l ∧ ∃ p note,
    s.m_notesHash.value r.guid = some p ∧ s.noteObjects[p]? = some note ∧
    r.updateSequenceNum ≤ note.updateSequenceNumber
  conn : s.connected = true
  idle : s.m_loading = false

/-- A connected store with one note that exists locally only: the note is created
while disconnected, then the connection comes up. -/
def pendingCreateStore : NotesStore :=
  finalStore false [Operation.createNote "n" "title" "" "body", Operation.setConnected true]

/-- The store `pendingCreateStore` after the given number of note passes over the
empty remote listing. -/
def pendingCreateAfter : Nat → NotesStore
  | 0 => pendingCreateStore
  | k + 1 =>
    match (pendingCreateAfter k).reconcileNotes "" [] emptyPage with
    | .ok s => s
    | .error _ => pendingCreateAfter k

/-- An earlier remote listing: notes `a` (sequence number 3) and `b` (sequence number 2). -/
def earlierListing : NotesMetadataList :=
  { startIndex := 0, totalNotes := 2,
    notes := [NoteMetadata.bare "a" 3, NoteMetadata.bare "b" 2], searchedWords := [] }

/-- A connected, idle store that holds what a pass over `earlierListing` fetched. -/
def fetchedStore : NotesStore :=
  finalStore true
    [ Operation.refreshNotes "" 0,
      Operation.fetchNotesJobDone ErrorCode.ErrorCodeNoError earlierListing "" ]

/-- First page of a later remote listing: note `a` has moved to sequence number 5;
one more note is announced. Note `b` is gone from the server. -/
def laterFirstPage : NotesMetadataList :=
  { startIndex := 0, totalNotes := 2, notes := [NoteMetadata.bare "a" 5], searchedWords := [] }

/-- Second and last page of the later remote listing: the new note `c`. -/
def laterLastPage : NotesMetadataList :=
  { startIndex := 1, totalNotes := 2, notes := [NoteMetadata.bare "c" 1], searchedWords := [] }

/-- The store `fetchedStore` after the given number of note passes over the later
remote listing. -/
def fetchedAfter : Nat → NotesStore
  | 0 => fetchedStore
  | k + 1 =>
    match (fetchedAfter k).reconcileNotes "" [laterFirstPage] laterLastPage with
    | .ok s => s
    | .error _ => fetchedAfter k

/-- A connected store holding one synced note `g` at sequence number 3. -/
def syncedStore : NotesStore :=
  { NotesStore.init true with
    noteObjects := [{ Note.new "g" 3 with lastSyncedSequenceNumber := 3, title := "local" }],
    m_notes := [0], m_notesHash := [("g", 0)], cacheNotes := [("g", 3)] }

/-- A one-summary listing page that reports note `g` with the title "remote" at the
given sequence number. -/
def titledPage (updateSequenceNum : Nat) : NotesMetadataList :=
  { startIndex := 0, totalNotes := 1,
    notes := [{ NoteMetadata.bare "g" updateSequenceNum with
                  title := "remote", isset := NoteIsset.all }],
    searchedWords := [] }

/-- A connected store holding one note `g` edited locally since its last sync at
sequence number 4: `updateSequenceNumber = 5`, `lastSyncedSequenceNumber = 4`. -/
def editedStore : NotesStore :=
  { NotesStore.init true with
    noteObjects := [{ Note.new "g" 5 with lastSyncedSequenceNumber := 4, title := "local" }],
    m_notes := [0], m_notesHash := [("g", 0)], cacheNotes := [("g", 5)] }

/-- A listing page without summaries at start index 0 that announces one note. -/
def stalledPage : NotesMetadataList :=
  { startIndex := 0, totalNotes := 1, notes := [], searchedWords := [] }

/-- The empty connected store right after a note pass is requested. -/
def passRequestedStore : NotesStore :=
  finalStore true [Operation.refreshNotes "" 0]

/-- The run `shadowAttachedRun` followed by the resolution of the conflict in favour of
the local note. -/
def keepLocalRun : List Operation :=
  shadowAttachedRun ++ [Operation.resolveConflict "g" NotesStore.ConflictResolveMode.KeepLocal]

/-- The run `shadowAttachedRun` up to the point where the listing has flagged the
conflict and the fetch of the remote note is still under way. -/
def conflictFlaggedRun : List Operation :=
  [ Operation.createNote "tmp" "local" "" "local body",
    Operation.createNoteJobDone ErrorCode.ErrorCodeNoError "tmp" (EdamNote.bare "g" 3),
    Operation.saveNote "g",
    Operation.saveNote "g",
    Operation.fetchNotesJobDone ErrorCode.ErrorCodeNoError conflictPage "" ]

/-- The run `conflictFlaggedRun` followed by a failed fetch of the remote note. -/
def conflictFetchFailedRun : List Operation :=
  conflictFlaggedRun ++
    [Operation.fetchConflictingNoteJobDone ErrorCode.ErrorCodeOther (EdamNote.bare "g" 0)]

/-- Identifier, conflicting flag and shadow of the notes of the collection, in order. -/
def conflictSummary (s : NotesStore) : List (String × Bool × Option NoteData) :=
  (s.m_notes.filterMap (fun p => s.noteObjects[p]?)).map
    (fun n => (n.guid, n.conflicting, n.conflictingNote))

/-- A run in which the user deletes a note twice before the server answers: the note
is created and acknowledged as `g`, `deleteNote` is called twice (two delete jobs are
handed over), and the first delete job reports success. -/
def deletedTwiceRun : List Operation :=
  [ Operation.createNote "tmp" "title" "" "body",
    Operation.createNoteJobDone ErrorCode.ErrorCodeNoError "tmp" (EdamNote.bare "g" 7),
    Operation.deleteNote "g",
    Operation.deleteNote "g",
    Operation.deleteNoteJobDone ErrorCode.ErrorCodeNoError "g" ]

/-- A run that leaves a note stored on the server with a flag for removal: the note
is created and acknowledged as `g`, then `deleteNote` hands over the delete job. -/
def deleteRequestedRun : List Operation :=
  [ Operation.createNote "tmp" "title" "" "body",
    Operation.createNoteJobDone ErrorCode.ErrorCodeNoError "tmp" (EdamNote.bare "g" 7),
    Operation.deleteNote "g" ]

/-- Identifier, sync-error flag and loading flag of the notes of the collection, in
order. -/
def errorSummary (s : NotesStore) : List (String × Bool × Bool) :=
  (s.m_notes.filterMap (fun p => s.noteObjects[p]?)).map
    (fun n => (n.guid, n.syncError, n.loading))

/-- A run that leaves one tag stored on the server: the tag is created while connected
and acknowledged as `g` with server number 4. -/
def tagStoredRun : List Operation :=
  [ Operation.createTag "t" "urgent",
    Operation.createTagJobDone ErrorCode.ErrorCodeNoError "t"
      { guid := "g", name := "urgent", updateSequenceNum := 4 } ]

/-- A run that leaves a notebook that is stored on the server and was changed locally
afterwards: created and acknowledged as `g` with server number 5, then saved while
disconnected, then connected again. -/
def notebookEditedRun : List Operation :=
  [ Operation.createNotebook "t" "Work",
    Operation.createNotebookJobDone ErrorCode.ErrorCodeNoError "t"
      (EdamNotebook.full "g" "Work" 5 true),
    Operation.setConnected false,
    Operation.saveNotebook "g",
    Operation.setConnected true ]

/-- A run that leaves a tag that is stored on the server and was changed locally
afterwards: the run `tagStoredRun`, then a save while disconnected. -/
def tagEditedRun : List Operation :=
  tagStoredRun ++
    [ Operation.setConnected false,
      Operation.saveTag "g",
      Operation.setConnected true ]

/-- A run in which the server acknowledges a new note with the sequence number the
note already has locally (1). -/
def equalNumberRun : List Operation :=
  [ Operation.createNote "tmp" "title" "" "body",
    Operation.createNoteJobDone ErrorCode.ErrorCodeNoError "tmp" (EdamNote.bare "g" 1) ]

/-- A run that leaves two notes stored on the server, `g1` in notebook `A` and `g2` in
notebook `B`, and then requests a note pass for notebook `A`. -/
def filteredPassRun : List Operation :=
  [ Operation.createNote "t1" "first" "A" "one",
    Operation.createNoteJobDone ErrorCode.ErrorCodeNoError "t1" (EdamNote.bare "g1" 5),
    Operation.createNote "t2" "second" "B" "two",
    Operation.createNoteJobDone ErrorCode.ErrorCodeNoError "t2" (EdamNote.bare "g2" 6),
    Operation.refreshNotes "A" 0 ]

/-- The complete listing of notebook `A` on the server: note `g1` at sequence
number 5. -/
def notebookAPage : NotesMetadataList :=
  { startIndex := 0, totalNotes := 1,
    notes := [{ NoteMetadata.bare "g1" 5 with notebookGuid := "A" }],
    searchedWords := [] }

/-- Identifier, notebook and conflicting flag of the notes of the collection, in
order. -/
def filterSummary (s : NotesStore) : List (String × String × Bool) :=
  (s.m_notes.filterMap (fun p => s.noteObjects[p]?)).map
    (fun n => (n.guid, n.notebookGuid, n.conflicting))

/-- A run that leaves a save job of a notebook under way: the notebook is created and
acknowledged as `g`, then saved while connected. -/
def notebookSaveRun : List Operation :=
  [ Operation.createNotebook "t" "Work",
    Operation.createNotebookJobDone ErrorCode.ErrorCodeNoError "t"
      (EdamNotebook.full "g" "Work" 5 true),
    Operation.saveNotebook "g" ]

/-- Identifier, the two sequence numbers, loading flag and sync-error flag of the
notebooks of the collection, in order. -/
def notebookFlags (s : NotesStore) : List (String × Nat × Nat × Bool × Bool) :=
  (s.m_notebooks.filterMap (fun p => s.notebookObjects[p]?)).map
    (fun n => (n.guid, n.updateSequenceNumber, n.lastSyncedSequenceNumber, n.loading,
      n.syncError))

/-- Identifier, the two sequence numbers, loading flag and sync-error flag of the tags
of the collection, in order. -/
def tagFlags (s : NotesStore) : List (String × Nat × Nat × Bool × Bool) :=
  (s.m_tags.filterMap (fun p => s.tagObjects[p]?)).map
    (fun t => (t.guid, t.updateSequenceNumber, t.lastSyncedSequenceNumber, t.loading,
      t.syncError))

/-- Every pointer of the note lookup table leads to a note object. -/
def NotesStore.TableValid (s : NotesStore) : Prop :=
  ∀ e ∈ s.m_notesHash, e.2 < s.noteObjects.length

/-- The note object `createNoteJobDone` writes on a success report: the fields of the
note before the report with those the report overwrites. -/
def NotesStore.createdNote (note : Note) (result : EdamNote) : Note :=
  let note := { note with loading := false }
  let note := if note.syncError then { note with syncError := false } else note
  let note := { note with guid := result.guid }
  let note :=
    if note.updateSequenceNumber ≠ result.updateSequenceNum then
      { note with updateSequenceNumber := result.updateSequenceNum,
                  lastSyncedSequenceNumber := result.updateSequenceNum }
    else note
  let note := if result.isset.created then { note with created := some result.created } else note
  let note := if result.isset.updated then { note with updated := some result.updated } else note
  let note := if result.isset.notebookGuid
    then { note with notebookGuid := result.notebookGuid } else note
  let note := if result.isset.title then { note with title := result.title } else note
  if result.isset.content
    then { note with enmlContent := result.content, loaded := true } else note

/-- The store after `createNote "tmp"` on the empty connected store. -/
def noteCreatedStore : NotesStore :=
  finalStore true [Operation.createNote "tmp" "title" "" "body"]

/-- The store after `createNotebook "t"` and a note in that notebook, connected. -/
def notebookCreatedStore : NotesStore :=
  finalStore true [Operation.createNotebook "t" "Work",
    Operation.createNote "n" "title" "t" "body"]

/-- The store after `createTag "t"` and a note with that tag, connected. -/
def tagCreatedStore : NotesStore :=
  finalStore true [Operation.createTag "t" "urgent",
    Operation.createNote "n" "title" "" "body",
    Operation.tagNote "n" "t"]

/-- The store `createNotebookJobDone` has built on a success report before it saves the
notes of the notebook: table and cache group re-keyed from `t` to the identifier of
the report, the notes of the notebook pointed to the new identifier. -/
def NotesStore.afterNotebookRekey (s : NotesStore) (t : String) (result : EdamNotebook)
    (p : Nat) (notebook : Notebook) : NotesStore :=
  { s with
    m_notebooksHash := (s.m_notebooksHash.insert result.guid p).remove t,
    noteObjects := s.noteObjects.map (fun n =>
      if n.notebookGuid = t then { n with notebookGuid := result.guid } else n),
    notebookObjects := s.notebookObjects.set p
      { notebook with loading := false, guid := result.guid,
                      updateSequenceNumber := result.updateSequenceNum,
                      lastSyncedSequenceNumber := result.updateSequenceNum,
                      name := result.name },
    cacheNotebooks := (s.cacheNotebooks.remove t).setValue result.guid result.updateSequenceNum }

/-- The store `createTagJobDone` has built on a success report before it saves the
notes of the tag. -/
def NotesStore.afterTagRekey (s : NotesStore) (t : String) (result : EdamTag)
    (p : Nat) (tag : Tag) : NotesStore :=
  { s with
    m_tagsHash := (s.m_tagsHash.insert result.guid p).remove t,
    noteObjects := s.noteObjects.map (fun n =>
      { n with tagGuids := n.tagGuids.map (fun g => if g = t then result.guid else g) }),
    tagObjects := s.tagObjects.set p
      { tag with loading := false, guid := result.guid,
                 updateSequenceNumber := result.updateSequenceNum,
                 lastSyncedSequenceNumber := result.updateSequenceNum },
    cacheTags := (s.cacheTags.remove t).setValue result.guid result.updateSequenceNum }

/-- A step that lowers no `updateSequenceNumber`: every note object of the store before
the step is an object after it, with a number at least as high. -/
def NotesStore.NumbersKept (s s' : NotesStore) : Prop :=
  ∀ (q : Nat) (note : Note), s.noteObjects[q]? = some note →
    ∃ note', s'.noteObjects[q]? = some note' ∧
      note.updateSequenceNumber ≤ note'.updateSequenceNumber

/-- A run in which a new note is saved twice before the server acknowledges its
creation: local number 3 when the create job reports. -/
def savedBeforeCreatedRun : List Operation :=
  [ Operation.createNote "tmp" "title" "" "body",
    Operation.saveNote "tmp",
    Operation.saveNote "tmp" ]

/-- A run that ends with a conflict whose local side is four saves ahead: note `g`
acknowledged with server number 3, saved four times (local number 7), listed by the
server at number 4, and the remote version fetched as the shadow. -/
def farAheadConflictRun : List Operation :=
  [ Operation.createNote "tmp" "local" "" "local body",
    Operation.createNoteJobDone ErrorCode.ErrorCodeNoError "tmp" (EdamNote.bare "g" 3),
    Operation.saveNote "g",
    Operation.saveNote "g",
    Operation.saveNote "g",
    Operation.saveNote "g",
    Operation.fetchNotesJobDone ErrorCode.ErrorCodeNoError conflictPage "",
    Operation.fetchConflictingNoteJobDone ErrorCode.ErrorCodeNoError (EdamNote.bare "g" 4) ]

/-- A run in which a notebook stored on the server is saved twice before the first
save is acknowledged: local number 7. -/
def notebookSavedTwiceRun : List Operation :=
  [ Operation.createNotebook "t" "Work",
    Operation.createNotebookJobDone ErrorCode.ErrorCodeNoError "t"
      (EdamNotebook.full "g" "Work" 5 true),
    Operation.saveNotebook "g",
    Operation.saveNotebook "g" ]

/-- Identifier and `updateSequenceNumber` of the note objects, by pointer. -/
def noteNumbers (s : NotesStore) : List (String × Nat) :=
  s.noteObjects.map (fun n => (n.guid, n.updateSequenceNumber))

/-- The note object `fetchNoteJobDone` writes on a success report that is not ignored:
the fields of the note before the report with those the report overwrites. -/
def NotesStore.fetchedNote (note : Note) (result : EdamNote) (what : LoadWhatFlags) : Note :=
  let note := if note.notebookGuid ≠ result.notebookGuid
    then { note with notebookGuid := result.notebookGuid } else note
  let note := if note.title ≠ result.title then { note with title := result.title } else note
  let note := if note.updated ≠ some result.updated
    then { note with updated := some result.updated } else note
  let note := if note.tagGuids ≠ result.tagGuids
    then { note with tagGuids := result.tagGuids } else note
  let note := { note with resources := NotesStore.addResources note.resources result.resources }
  let note :=
    if what = LoadContent then
      { note with enmlContent := result.content, loaded := true,
                  updateSequenceNumber := result.updateSequenceNum,
                  lastSyncedSequenceNumber := result.updateSequenceNum }
    else note
  let note := if note.reminderOrder ≠ result.attributes.reminderOrder
    then { note with reminderOrder := result.attributes.reminderOrder } else note
  let note := if note.reminderTime ≠ NotesStore.positiveTime result.attributes.reminderTime
    then { note with reminderTime := NotesStore.positiveTime result.attributes.reminderTime }
    else note
  let note :=
    if note.reminderDoneTime ≠ NotesStore.positiveTime result.attributes.reminderDoneTime
    then { note with
      reminderDoneTime := NotesStore.positiveTime result.attributes.reminderDoneTime }
    else note
  { note with loading := false }

/-- The store `fetchNoteJobDone` works on after its loop over the tags of the report. -/
def NotesStore.tagsRefreshed (s : NotesStore) (result : EdamNote) : NotesStore :=
  result.tagGuids.foldl (fun s tag => if s.m_tagsHash.contains tag then s.refreshTags else s) s

/-- A run that leaves one note stored on the server: created while connected and
acknowledged as `g` with server number 7. -/
def noteStoredRun : List Operation :=
  [ Operation.createNote "tmp" "title" "" "body",
    Operation.createNoteJobDone ErrorCode.ErrorCodeNoError "tmp" (EdamNote.bare "g" 7) ]

/-- Identifiers of the note objects, by pointer. -/
def NotesStore.noteGuids (s : NotesStore) : List String :=
  s.noteObjects.map (fun n => n.guid)

/-- A note collection `notes` and a lookup table `table` that describe the same notes,
given the identifier `guids[p]` of each note object `p`: every entry of the table
points to an object that carries the key as its identifier, every note of the
collection is found in the table under its identifier, every entry of the table is a
note of the collection, and neither a note nor a key occurs twice. -/
structure NotesStore.Indexed (notes : List Nat) (table : QHash) (guids : List String) : Prop where
  keyed : ∀ e ∈ table, guids[e.2]? = some e.1
  listed : ∀ p ∈ notes, ∃ g, guids[p]? = some g ∧ table.value g = some p
  tabled : ∀ e ∈ table, e.2 ∈ notes
  notesOnce : notes.Nodup
  keysOnce : table.keys.Nodup

/-- The note collection and the lookup table of the store describe the same notes. -/
def NotesStore.NotesIndexed (s : NotesStore) : Prop :=
  NotesStore.Indexed s.m_notes s.m_notesHash s.noteGuids

/-- A step that changes neither the note collection, nor the lookup table, nor the
identifier of any note object. -/
def NotesStore.SameIndex (s t : NotesStore) : Prop :=
  t.m_notes = s.m_notes ∧ t.m_notesHash = s.m_notesHash ∧ t.noteGuids = s.noteGuids

/-- The call draws no identifier that is already in the note lookup table: `createNote`
is given an identifier not in the table, and a success report of a create job names an
identifier not in the table. -/
def Operation.drawsNewIdentifier (s : NotesStore) : Operation → Bool
  | .createNote newGuid _ _ _ => !(s.m_notesHash.contains newGuid)
  | .createNoteJobDone errorCode _ result =>
    decide (errorCode ≠ ErrorCode.ErrorCodeNoError) || !(s.m_notesHash.contains result.guid)
  | _ => true

/-- Every call of the run draws no identifier already in the table, on the store it is
made on. -/
def freshRun : NotesStore → List Operation → Bool
  | _, [] => true
  | s, op :: rest =>
    op.drawsNewIdentifier s &&
      (match op.apply s with
       | .ok t => freshRun t rest
       | .error _ => true)

/-- Embedding of `NotesStore::loadFromCacheFile`: the collections are cleared and filled
with one new object per key of the groups `notebooks`, `tags` and `notes` of the cache
file; a key of `notes` already in the table is skipped. What the constructors read
from the info file of the entity is not part of the model. -/
def NotesStore.loadFromCacheFile (s : NotesStore) : NotesStore :=
  let s := s.clear
  let s := s.cacheNotebooks.foldl (fun (s : NotesStore) (e : String × Nat) =>
    let p := s.notebookObjects.length
    { s with
      notebookObjects := s.notebookObjects ++ [Notebook.new e.1 e.2],
      m_notebooksHash := s.m_notebooksHash.insert e.1 p,
      m_notebooks := s.m_notebooks ++ [p] }) s
  let s := s.cacheTags.foldl (fun (s : NotesStore) (e : String × Nat) =>
    let p := s.tagObjects.length
    { s with
      tagObjects := s.tagObjects ++ [Tag.new e.1 e.2],
      m_tagsHash := s.m_tagsHash.insert e.1 p,
      m_tags := s.m_tags ++ [p] }) s
  s.cacheNotes.foldl (fun (s : NotesStore) (e : String × Nat) =>
    if s.m_notesHash.contains e.1 then s
    else
      let p := s.noteObjects.length
      { s with
        noteObjects := s.noteObjects ++ [Note.new e.1 e.2],
        m_notesHash := s.m_notesHash.insert e.1 p,
        m_notes := s.m_notes ++ [p] }) s

/-- A run in which the server answers the creation of a note with the temporary
identifier of the note. -/
def identifierEchoedRun : List Operation :=
  [ Operation.createNote "tmp" "title" "" "body",
    Operation.createNoteJobDone ErrorCode.ErrorCodeNoError "tmp" (EdamNote.bare "tmp" 2) ]

/-- A run in which the server answers the creation of note `a` with the identifier of
another local note, `b`. -/
def identifierTakenRun : List Operation :=
  [ Operation.createNote "a" "first" "" "one",
    Operation.createNote "b" "second" "" "two",
    Operation.createNoteJobDone ErrorCode.ErrorCodeNoError "a" (EdamNote.bare "b" 2) ]

/-- The condition of the specification for creating a local-only note on the server:
every tag the note references is held by the store with a non-zero
`lastSyncedSequenceNumber`, and so is the notebook it references (a note with an empty
notebook identifier references no notebook). -/
def NotesStore.referencesOnServer (s : NotesStore) (note : Note) : Prop :=
  (∀ tagGuid ∈ note.tagGuids, ∃ t tag, s.m_tagsHash.value tagGuid = some t ∧
      s.tagObjects[t]? = some tag ∧ tag.lastSyncedSequenceNumber ≠ 0) ∧
  (note.notebookGuid ≠ "" → ∃ n notebook,
      s.m_notebooksHash.value note.notebookGuid = some n ∧
      s.notebookObjects[n]? = some notebook ∧ notebook.lastSyncedSequenceNumber ≠ 0)

/-- A run that leaves a local-only note with a tag the store no longer holds: tag `T` is
stored on the server, a note is created and tagged with it while disconnected, the
server's tag listing comes back empty (the tag is removed locally, the note keeps the
reference), and a note pass is requested. -/
def tagVanishedRun : List Operation :=
  [ Operation.createTag "t" "urgent",
    Operation.createTagJobDone ErrorCode.ErrorCodeNoError "t"
      { guid := "T", name := "urgent", updateSequenceNum := 4 },
    Operation.setConnected false,
    Operation.createNote "n" "title" "" "body",
    Operation.tagNote "n" "T",
    Operation.setConnected true,
    Operation.fetchTagsJobDone ErrorCode.ErrorCodeNoError [],
    Operation.refreshNotes "" 0 ]

/-- A run that leaves a local-only note in a notebook the store no longer holds:
notebook `NB` is stored on the server, a note is created in it while disconnected, the
server's notebook listing comes back empty (the notebook is removed locally, the note
keeps the reference), and a note pass is requested. -/
def notebookVanishedRun : List Operation :=
  [ Operation.createNotebook "t" "Work",
    Operation.createNotebookJobDone ErrorCode.ErrorCodeNoError "t"
      (EdamNotebook.full "NB" "Work" 5 true),
    Operation.setConnected false,
    Operation.createNote "n" "title" "NB" "body",
    Operation.setConnected true,
    Operation.fetchNotebooksJobDone ErrorCode.ErrorCodeNoError [],
    Operation.refreshNotes "" 0 ]

/-- Identifier, `lastSyncedSequenceNumber`, tags and notebook of the notes of the
collection, in order. -/
def referenceSummary (s : NotesStore) : List (String × Nat × List String × String) :=
  (s.m_notes.filterMap (fun p => s.noteObjects[p]?)).map
    (fun n => (n.guid, n.lastSyncedSequenceNumber, n.tagGuids, n.notebookGuid))

/-- A run that leaves the synced note `g` (both numbers 3) on a store that has lost its
connection. -/
def syncedThenOfflineRun : List Operation :=
  [ Operation.createNote "tmp" "local" "" "body",
    Operation.createNoteJobDone ErrorCode.ErrorCodeNoError "tmp" (EdamNote.bare "g" 3),
    Operation.setConnected false ]

/-- A run that leaves the synced note `g` (both numbers 3) on a connected store. -/
def syncedOnlineRun : List Operation :=
  [ Operation.createNote "tmp" "local" "" "body",
    Operation.createNoteJobDone ErrorCode.ErrorCodeNoError "tmp" (EdamNote.bare "g" 3) ]

/-- A one-summary listing page that reports note `g` at sequence number 5 in a summary
that does not carry its sequence number (no optional field is marked present). -/
def numberlessPage : NotesMetadataList :=
  { startIndex := 0, totalNotes := 1,
    notes := [{ NoteMetadata.bare "g" 5 with isset := NoteIsset.none }],
    searchedWords := [] }

/-- A one-summary listing page that answers a search for "x" and reports note `g` at
sequence number 3. -/
def searchPage : NotesMetadataList :=
  { startIndex := 0, totalNotes := 1,
    notes := [NoteMetadata.bare "g" 3],
    searchedWords := ["x"] }

/-- Identifier, the two sequence numbers, loading flag and search-result flag of the
notes of the collection, in order. -/
def refreshSummary (s : NotesStore) : List (String × Nat × Nat × Bool × Bool) :=
  (s.m_notes.filterMap (fun p => s.noteObjects[p]?)).map
    (fun n => (n.guid, n.updateSequenceNumber, n.lastSyncedSequenceNumber, n.loading,
      n.isSearchResult))

/-! ## Theorems -/

namespace NotesStore

/-- Conflict branch of the loop body of `fetchNotesJobDone`, as an explicit result. -/
theorem fetchNotesJobDone_result_conflict (s : NotesStore) (results : NotesMetadataList)
    (result : NoteMetadata) (p : Nat) (note : Note)
    (hfound : s.m_notesHash.value result.guid = some p)
    (hnote : s.noteObjects[p]? = some note)
    (hunsynced : note.updateSequenceNumber ≠ note.lastSyncedSequenceNumber)
    (hseq : note.lastSyncedSequenceNumber ≠ result.updateSequenceNum) :
    fetchNotesJobDone_result results s result =
      .ok (fetchNotesJobDone_searchResult results
        ((({ s with m_unhandledNotes := removeAll s.m_unhandledNotes result.guid } :
            NotesStore).setNote p { note with conflicting := true }).enqueue
          (Job.FetchNoteJob note.guid { LoadContent := true, LoadResources := true }
            (some JobPriority.JobPriorityMedium) FetchNoteSlot.fetchConflictingNoteJobDone))
        p) := by
  have hsync : note.synced = false := by
    simp [NoteData.synced, hunsynced]
  simp [fetchNotesJobDone_result, hfound, derefNote, hnote, hsync, hseq]

/-- C1. Conflict detection. When the loop body of `fetchNotesJobDone` merges a remote
summary (on any store, hence at any position of any page) whose identifier is known
locally, and the local note is not synced and its `lastSyncedSequenceNumber` differs
from the sequence number of the summary, then the call returns, the note is marked
conflicting, the only job handed over is the fetch of the remote note to be attached
as shadow (no save job), and identifier, title, notebook, tags, content and both
sequence numbers of the note are the ones it had; collection, lookup table and cache
are unchanged. -/
theorem fetchNotesJobDone_marks_conflict (s : NotesStore) (results : NotesMetadataList)
    (result : NoteMetadata) (p : Nat) (note : Note)
    (hfound : s.m_notesHash.value result.guid = some p)
    (hnote : s.noteObjects[p]? = some note)
    (hunsynced : note.updateSequenceNumber ≠ note.lastSyncedSequenceNumber)
    (hseq : note.lastSyncedSequenceNumber ≠ result.updateSequenceNum) :
    ∃ s' note', fetchNotesJobDone_result results s result = .ok s' ∧
      s'.noteObjects[p]? = some note' ∧
      note'.conflicting = true ∧
      s'.jobQueue = s.jobQueue ++
        [Job.FetchNoteJob note.guid { LoadContent := true, LoadResources := true }
          (some JobPriority.JobPriorityMedium) FetchNoteSlot.fetchConflictingNoteJobDone] ∧
      note'.guid = note.guid ∧ note'.title = note.title ∧
      note'.notebookGuid = note.notebookGuid ∧ note'.tagGuids = note.tagGuids ∧
      note'.enmlContent = note.enmlContent ∧
      note'.updateSequenceNumber = note.updateSequenceNumber ∧
      note'.lastSyncedSequenceNumber = note.lastSyncedSequenceNumber ∧
      note'.conflictingNote = note.conflictingNote ∧
      s'.m_notes = s.m_notes ∧ s'.m_notesHash = s.m_notesHash ∧
      s'.cacheNotes = s.cacheNotes := by
  have hp : p < s.noteObjects.length := (List.getElem?_eq_some.1 hnote).1
  have hres := fetchNotesJobDone_result_conflict s results result p note hfound hnote
    hunsynced hseq
  by_cases hw : results.searchedWords = []
  · refine ⟨_, { note with conflicting := true }, hres, ?_⟩
    simp [fetchNotesJobDone_searchResult, hw, setNote, enqueue, hp]
  · refine ⟨_, { note with conflicting := true, isSearchResult := true }, hres, ?_⟩
    simp [fetchNotesJobDone_searchResult, hw, setNote, enqueue, hp]

/-- Instance of C1 with the numbers of the specification: local sequence number 5,
last synced 3, remote 4. -/
theorem fetchNotesJobDone_marks_conflict_witness :
    (conflictStore.m_notesHash.value "g" = some 0 ∧
     (5 : Nat) ≠ 3 ∧ (3 : Nat) ≠ 4) ∧
    ∃ s' note', fetchNotesJobDone_result conflictPage conflictStore
        { NoteMetadata.bare "g" 4 with title := "remote", isset := NoteIsset.all } = .ok s' ∧
      s'.noteObjects[0]? = some note' ∧
      note'.conflicting = true ∧
      s'.jobQueue = conflictStore.jobQueue ++
        [Job.FetchNoteJob "g" { LoadContent := true, LoadResources := true }
          (some JobPriority.JobPriorityMedium) FetchNoteSlot.fetchConflictingNoteJobDone] ∧
      note'.guid = "g" ∧ note'.title = "local" ∧
      note'.notebookGuid = "" ∧ note'.tagGuids = [] ∧
      note'.enmlContent = "" ∧
      note'.updateSequenceNumber = 5 ∧
      note'.lastSyncedSequenceNumber = 3 ∧
      note'.conflictingNote = none ∧
      s'.m_notes = conflictStore.m_notes ∧ s'.m_notesHash = conflictStore.m_notesHash ∧
      s'.cacheNotes = conflictStore.cacheNotes :=
  ⟨⟨by decide, by decide, by decide⟩,
    fetchNotesJobDone_marks_conflict conflictStore conflictPage
      { NoteMetadata.bare "g" 4 with title := "remote", isset := NoteIsset.all } 0
      { Note.new "g" 5 with lastSyncedSequenceNumber := 3, title := "local" }
      (by decide) (by decide) (by decide) (by decide)⟩

/-- C2. The store reaches a state in which a note has a `lastSyncedSequenceNumber`
above its `updateSequenceNumber`: after the run `saveAcknowledgedRun` (create,
acknowledged with server number 7; local save; save acknowledged with server number 9)
note `g` has `updateSequenceNumber = 8` and `lastSyncedSequenceNumber = 9`, because
`saveNoteJobDone` writes the server number to `lastSyncedSequenceNumber` only. -/
theorem saveNoteJobDone_leaves_update_number_behind :
    ∃ s, Reachable s ∧ s.m_notes = [0] ∧ s.m_notesHash = [("g", 0)] ∧
      (s.noteObjects[0]?).map (fun n =>
        (n.guid, n.updateSequenceNumber, n.lastSyncedSequenceNumber, n.synced)) =
        some ("g", 8, 9, false) ∧
      ¬ (8 ≥ 9) := by
  have hrun : runOperations (NotesStore.init true) saveAcknowledgedRun =
      .ok (finalStore true saveAcknowledgedRun) := rfl
  refine ⟨finalStore true saveAcknowledgedRun, ⟨true, saveAcknowledgedRun, hrun⟩, ?_⟩
  decide

/-- C6. The store reaches a state from which `tagNote` hands over a create job for a
note that references a tag with `lastSyncedSequenceNumber = 0`: after `createTag` and
`createNote` on a connected store, `tagNote "n" "t"` appends `CreateNoteJob` for the
note while tag `t` has not been acknowledged by the server. -/
theorem tagNote_creates_note_before_tag_is_synced :
    ∃ s s', Reachable s ∧
      s.tagNote "n" "t" = .ok s' ∧
      s'.jobQueue = s.jobQueue ++ [Job.CreateNoteJob 0] ∧
      s'.m_notesHash.value "n" = some 0 ∧
      (s'.noteObjects[0]?).map (fun n => (n.tagGuids, n.lastSyncedSequenceNumber)) =
        some (["t"], 0) ∧
      s'.m_tagsHash.value "t" = some 0 ∧
      (s'.tagObjects[0]?).map (fun t => t.lastSyncedSequenceNumber) = some 0 := by
  have hrun : runOperations (NotesStore.init true) tagBeforeSyncRun =
      .ok (finalStore true tagBeforeSyncRun) := rfl
  refine ⟨finalStore true tagBeforeSyncRun,
    finalStore true (tagBeforeSyncRun ++ [Operation.tagNote "n" "t"]),
    ⟨true, tagBeforeSyncRun, hrun⟩, rfl, ?_⟩
  decide

/-- C8. Expunging the default notebook is rejected: for every store, when the
identifier names a notebook that carries the default flag, `expungeNotebook` returns
the store unchanged (notebooks, notes, cache, jobs) but for one message appended to
the error queue. Scenario, from the empty store, connected or not: "Work" is created
and is the default, "Home" is created and is not; expunging "Work" is rejected; after
`setDefaultNotebook` of "Home", "Home" is the only default and expunging "Work"
removes it from the collection, the lookup table and the cache. -/
theorem expungeNotebook_default_rejected :
    (∀ (s : NotesStore) (guid : String) (p : Nat) (notebook : Notebook),
      s.m_notebooksHash.value guid = some p →
      s.notebookObjects[p]? = some notebook →
      notebook.isDefaultNotebook = true →
      ∃ message, s.expungeNotebook guid =
        .ok { s with m_errorQueue := s.m_errorQueue ++ [message] }) ∧
    (∀ connected : Bool,
      notebookSummary (finalStore connected [Operation.createNotebook "w" "Work"]) =
        [("w", "Work", true, false)] ∧
      notebookSummary (finalStore connected workHomeRun) =
        [("w", "Work", true, false), ("h", "Home", false, false)] ∧
      runOperations (NotesStore.init connected) (workHomeRun ++ [Operation.expungeNotebook "w"]) =
        .ok { finalStore connected workHomeRun with m_errorQueue :=
          ["Cannot delete the default notebook. Set another notebook to be the default first."] } ∧
      notebookSummary (finalStore connected
          (workHomeRun ++ [Operation.expungeNotebook "w", Operation.setDefaultNotebook "h"])) =
        [("w", "Work", false, false), ("h", "Home", true, false)] ∧
      (∃ s, runOperations (NotesStore.init connected)
          (workHomeRun ++ [Operation.expungeNotebook "w", Operation.setDefaultNotebook "h",
            Operation.expungeNotebook "w"]) = .ok s ∧
        notebookSummary s = [("h", "Home", true, false)] ∧
        s.m_notebooks = [1] ∧
        s.m_notebooksHash = [("h", 1)] ∧
        s.cacheNotebooks = [("h", 2)])) := by
  constructor
  · intro s guid p notebook hfound hnb hdef
    by_cases hflag : s.NO_EXPUNGE_NOTEBOOKS = true ∧ s.m_username ≠ "@local"
    · refine ⟨"This account is managed by Evernote. Use the Evernote website to delete notebooks.", ?_⟩
      simp only [expungeNotebook, if_pos hflag]
    · refine ⟨"Cannot delete the default notebook. Set another notebook to be the default first.", ?_⟩
      simp only [expungeNotebook, if_neg hflag, hfound, derefNotebook, hnb, hdef, if_true]
  · intro connected
    cases connected
    · refine ⟨by decide, by decide, rfl, by decide, ?_⟩
      exact ⟨finalStore false (workHomeRun ++ [Operation.expungeNotebook "w",
        Operation.setDefaultNotebook "h", Operation.expungeNotebook "w"]), rfl, by decide⟩
    · refine ⟨by decide, by decide, rfl, by decide, ?_⟩
      exact ⟨finalStore true (workHomeRun ++ [Operation.expungeNotebook "w",
        Operation.setDefaultNotebook "h", Operation.expungeNotebook "w"]), rfl, by decide⟩

/-- Instance of C8 on the store of the scenario: "Work" is the default notebook and
expunging it appends the message and changes nothing else. -/
theorem expungeNotebook_default_rejected_witness :
    ((finalStore false workHomeRun).m_notebooksHash.value "w" = some 0 ∧
     ((finalStore false workHomeRun).notebookObjects[0]?).map (fun n => n.isDefaultNotebook) =
       some true) ∧
    ∃ message, (finalStore false workHomeRun).expungeNotebook "w" =
      .ok { finalStore false workHomeRun with
        m_errorQueue := (finalStore false workHomeRun).m_errorQueue ++ [message] } :=
  ⟨⟨by decide, by decide⟩,
    expungeNotebook_default_rejected.1 (finalStore false workHomeRun) "w" 0
      { Notebook.new "w" 1 with name := "Work", isDefaultNotebook := true }
      (by decide) (by decide) rfl⟩

/-- An index found by `indexOf` lies inside the list. -/
theorem indexOf_lt {α : Type} [DecidableEq α] (l : List α) (x : α) (i : Nat)
    (h : indexOf l x = some i) : i < l.length := by
  induction l generalizing i with
  | nil => simp [indexOf] at h
  | cons y rest ih =>
    simp only [indexOf] at h
    by_cases hy : y = x
    · simp [hy] at h
      subst h
      simp
    · simp only [hy, if_false] at h
      cases hr : indexOf rest x with
      | none => simp [hr] at h
      | some j =>
        simp [hr] at h
        subst h
        have := ih j hr
        simp
        omega

/-- A key just stored is found with the pointer stored. -/
theorem QHash.value_insert_self (h : QHash) (key : String) (v : Nat) :
    (QHash.insert h key v).value key = some v := by
  induction h with
  | nil => simp [QHash.insert, QHash.value]
  | cons e rest ih =>
    obtain ⟨k, w⟩ := e
    by_cases hk : k = key
    · simp [QHash.insert, QHash.value, hk]
    · simp [QHash.insert, QHash.value, hk, ih]

/-- C4. Conflict resolution keeping the remote version. Let `id` name a note of the
collection (at position `idx`, stored under its own identifier) that carries a shadow
fetched from the server (so the shadow's `lastSyncedSequenceNumber` is not the
never-created value 0), on a connected store. After `resolveConflict id KeepRemote`
the lookup of `id` gives an object whose identifier is `id`, whose title, body,
notebook and tags are the shadow's, whose conflicting flag is false and which sits at
position `idx` of the collection, whose length is unchanged; and exactly one job, a
save job for that object, has been handed over. -/
theorem resolveConflict_keepRemote (s : NotesStore) (id : String) (p idx : Nat) (note : Note)
    (shadow : NoteData)
    (hfound : s.m_notesHash.value id = some p)
    (hnote : s.noteObjects[p]? = some note)
    (hguid : note.guid = id)
    (hshadow : note.conflictingNote = some shadow)
    (hidx : indexOf s.m_notes p = some idx)
    (hconn : s.connected = true)
    (hremote : shadow.lastSyncedSequenceNumber ≠ 0) :
    ∃ s' q newNote, s.resolveConflict id ConflictResolveMode.KeepRemote = .ok s' ∧
      s'.m_notesHash.value id = some q ∧
      s'.noteObjects[q]? = some newNote ∧
      newNote.guid = id ∧
      newNote.title = shadow.title ∧
      newNote.enmlContent = shadow.enmlContent ∧
      newNote.notebookGuid = shadow.notebookGuid ∧
      newNote.tagGuids = shadow.tagGuids ∧
      newNote.conflicting = false ∧
      s'.m_notes = s.m_notes.set idx q ∧
      s'.m_notes[idx]? = some q ∧
      s'.m_notes.length = s.m_notes.length ∧
      s'.jobQueue = s.jobQueue ++ [Job.SaveNoteJob q] := by
  have hlt := indexOf_lt s.m_notes p idx hidx
  subst hguid
  generalize hr : s.resolveConflict note.guid ConflictResolveMode.KeepRemote = r
  simp [resolveConflict, hfound, derefNote, hnote, hshadow, hidx, saveNote,
      QHash.value_insert_self, syncToCacheFileNote, hconn, hremote, setNote, enqueueWrite] at hr
  subst hr
  refine ⟨_, s.noteObjects.length, _, rfl, ?_, List.getElem?_concat_length _ _, ?_⟩
  · simp [QHash.value_insert_self]
  · simp [hlt]

/-- Instance of C4 on the store reached by `shadowAttachedRun`: note `g` is in conflict
with the shadow fetched at server number 4. -/
theorem resolveConflict_keepRemote_witness :
    ((finalStore true shadowAttachedRun).m_notesHash.value "g" = some 0 ∧
     ((finalStore true shadowAttachedRun).noteObjects[0]?).map
        (fun n => (n.guid, n.conflicting, n.conflictingNote)) =
        some ("g", true, some attachedShadow) ∧
     indexOf (finalStore true shadowAttachedRun).m_notes 0 = some 0 ∧
     (finalStore true shadowAttachedRun).connected = true ∧
     attachedShadow.lastSyncedSequenceNumber ≠ 0) ∧
    ∃ s' q newNote, (finalStore true shadowAttachedRun).resolveConflict "g"
        ConflictResolveMode.KeepRemote = .ok s' ∧
      s'.m_notesHash.value "g" = some q ∧
      s'.noteObjects[q]? = some newNote ∧
      newNote.guid = "g" ∧
      newNote.title = "remote" ∧
      newNote.enmlContent = "remote body" ∧
      newNote.notebookGuid = "nb" ∧
      newNote.tagGuids = ["t"] ∧
      newNote.conflicting = false ∧
      s'.m_notes = (finalStore true shadowAttachedRun).m_notes.set 0 q ∧
      s'.m_notes[0]? = some q ∧
      s'.m_notes.length = (finalStore true shadowAttachedRun).m_notes.length ∧
      s'.jobQueue = (finalStore true shadowAttachedRun).jobQueue ++ [Job.SaveNoteJob q] :=
  ⟨⟨by decide, by decide, by decide, by decide, by decide⟩,
    resolveConflict_keepRemote (finalStore true shadowAttachedRun) "g" 0 0
      ((finalStore true shadowAttachedRun).noteObjects.getD 0 (Note.new "" 0)) attachedShadow
      (by decide) (by decide) (by decide) (by decide) (by decide) (by decide) (by decide)⟩

/-! ### Fields of a note after `updateFromEDAM` -/

theorem updateFromEDAM_guid (ev : NoteMetadata) (note : Note) :
    (updateFromEDAM ev note).guid = ev.guid := by
  simp only [updateFromEDAM, apply_ite Note.toNoteData, apply_ite NoteData.guid, ite_self]
  split_ifs <;> simp_all

theorem updateFromEDAM_lastSyncedSequenceNumber (ev : NoteMetadata) (note : Note) :
    (updateFromEDAM ev note).lastSyncedSequenceNumber = ev.updateSequenceNum := by
  simp only [updateFromEDAM]

theorem updateFromEDAM_updateSequenceNumber (ev : NoteMetadata) (note : Note) :
    (updateFromEDAM ev note).updateSequenceNumber =
      if ev.isset.updateSequenceNum then ev.updateSequenceNum
      else note.updateSequenceNumber := by
  simp only [updateFromEDAM, apply_ite Note.toNoteData,
    apply_ite NoteData.updateSequenceNumber, ite_self]
  split_ifs <;> simp_all

theorem updateFromEDAM_title (ev : NoteMetadata) (note : Note) :
    (updateFromEDAM ev note).title = if ev.isset.title then ev.title else note.title := by
  simp only [updateFromEDAM, apply_ite Note.toNoteData, apply_ite NoteData.title, ite_self]
  split_ifs <;> simp_all

theorem updateFromEDAM_notebookGuid (ev : NoteMetadata) (note : Note) :
    (updateFromEDAM ev note).notebookGuid =
      if ev.isset.notebookGuid then ev.notebookGuid else note.notebookGuid := by
  simp only [updateFromEDAM, apply_ite Note.toNoteData, apply_ite NoteData.notebookGuid,
    ite_self]
  split_ifs <;> simp_all

theorem updateFromEDAM_tagGuids (ev : NoteMetadata) (note : Note) :
    (updateFromEDAM ev note).tagGuids =
      if ev.isset.tagGuids then ev.tagGuids else note.tagGuids := by
  simp only [updateFromEDAM, apply_ite Note.toNoteData, apply_ite NoteData.tagGuids, ite_self]
  split_ifs <;> simp_all

theorem updateFromEDAM_loaded (ev : NoteMetadata) (note : Note) :
    (updateFromEDAM ev note).loaded = note.loaded := by
  simp only [updateFromEDAM, apply_ite Note.toNoteData, apply_ite NoteData.loaded, ite_self]

theorem updateFromEDAM_loading (ev : NoteMetadata) (note : Note) :
    (updateFromEDAM ev note).loading = note.loading := by
  simp only [updateFromEDAM, apply_ite Note.toNoteData, apply_ite NoteData.loading, ite_self]

theorem updateFromEDAM_conflicting (ev : NoteMetadata) (note : Note) :
    (updateFromEDAM ev note).conflicting = note.conflicting := by
  simp only [updateFromEDAM, apply_ite Note.toNoteData, apply_ite NoteData.conflicting,
    ite_self]

theorem updateFromEDAM_conflictingNote (ev : NoteMetadata) (note : Note) :
    (updateFromEDAM ev note).conflictingNote = note.conflictingNote := by
  simp only [updateFromEDAM, apply_ite Note.conflictingNote, ite_self]

theorem updateFromEDAM_enmlContent (ev : NoteMetadata) (note : Note) :
    (updateFromEDAM ev note).enmlContent = note.enmlContent := by
  simp only [updateFromEDAM, apply_ite Note.toNoteData, apply_ite NoteData.enmlContent,
    ite_self]

/-- C10, as stated, fails: merging a page that reports a note unknown to the store
creates and inserts the note and hands no job to the dispatcher. On the empty
connected store the page `newNotePage` leaves the job queue empty. -/
theorem fetchNotesJobDone_new_note_no_fetch :
    ∃ s', (NotesStore.init true).fetchNotesJobDone ErrorCode.ErrorCodeNoError newNotePage "" =
        .ok s' ∧
      s'.m_notes = [0] ∧ s'.m_notesHash.value "g" = some 0 ∧
      (s'.noteObjects[0]?).map (fun n => (n.guid, n.title, n.loaded, n.loading)) =
        some ("g", "remote", false, false) ∧
      s'.jobQueue = [] :=
  ⟨finalStore true [Operation.fetchNotesJobDone ErrorCode.ErrorCodeNoError newNotePage ""],
    rfl, by decide⟩

/-- C10, amended. When the loop body of `fetchNotesJobDone` merges a summary whose
identifier is unknown locally, it returns; a new note object is appended to the
collection and stored in the lookup table under the identifier of the summary and in
the cache; the note takes the identifier of the summary, the summary's sequence number
as `lastSyncedSequenceNumber`, and title, notebook, tags and sequence number of the
summary where the summary carries them; it is not marked as content-loaded nor as
loading; and no job is handed over. -/
theorem fetchNotesJobDone_new_note (s : NotesStore) (results : NotesMetadataList)
    (result : NoteMetadata)
    (hunknown : s.m_notesHash.value result.guid = none) :
    ∃ s' note', fetchNotesJobDone_result results s result = .ok s' ∧
      s'.m_notes = s.m_notes ++ [s.noteObjects.length] ∧
      s'.m_notesHash = s.m_notesHash.insert result.guid s.noteObjects.length ∧
      s'.m_notesHash.value result.guid = some s.noteObjects.length ∧
      s'.noteObjects[s.noteObjects.length]? = some note' ∧
      s'.noteObjects.length = s.noteObjects.length + 1 ∧
      note'.guid = result.guid ∧
      note'.lastSyncedSequenceNumber = result.updateSequenceNum ∧
      (result.isset.updateSequenceNum = true →
        note'.updateSequenceNumber = result.updateSequenceNum) ∧
      (result.isset.title = true → note'.title = result.title) ∧
      (result.isset.notebookGuid = true → note'.notebookGuid = result.notebookGuid) ∧
      (result.isset.tagGuids = true → note'.tagGuids = result.tagGuids) ∧
      note'.loaded = false ∧ note'.loading = false ∧
      note'.conflicting = false ∧ note'.conflictingNote = none ∧
      s'.cacheNotes = s.cacheNotes.setValue result.guid note'.updateSequenceNumber ∧
      s'.jobQueue = s.jobQueue := by
  generalize hr : fetchNotesJobDone_result results s result = r
  simp only [fetchNotesJobDone_result, hunknown] at hr
  subst hr
  by_cases hw : results.searchedWords = []
  · refine ⟨_, updateFromEDAM result (Note.new result.guid 0), rfl, ?_⟩
    simp only [fetchNotesJobDone_searchResult, hw, syncToCacheFileNote, updateFromEDAM_guid,
      updateFromEDAM_lastSyncedSequenceNumber, updateFromEDAM_updateSequenceNumber,
      updateFromEDAM_title, updateFromEDAM_notebookGuid, updateFromEDAM_tagGuids,
      updateFromEDAM_loaded, updateFromEDAM_loading, updateFromEDAM_conflicting,
      updateFromEDAM_conflictingNote]
    simp +contextual [QHash.value_insert_self, Note.new, NoteData.new]
  · have hw' : results.searchedWords ≠ [] := hw
    refine ⟨_, { updateFromEDAM result (Note.new result.guid 0) with isSearchResult := true },
      rfl, ?_⟩
    simp only [fetchNotesJobDone_searchResult, if_pos hw', syncToCacheFileNote,
      updateFromEDAM_guid, List.getElem?_concat_length, setNote,
      updateFromEDAM_lastSyncedSequenceNumber, updateFromEDAM_updateSequenceNumber,
      updateFromEDAM_title, updateFromEDAM_notebookGuid, updateFromEDAM_tagGuids,
      updateFromEDAM_loaded, updateFromEDAM_loading, updateFromEDAM_conflicting,
      updateFromEDAM_conflictingNote]
    simp +contextual [QHash.value_insert_self, Note.new, NoteData.new]

/-- Instance of the amended C10: the empty connected store merges the summary of the
unknown note `g`. -/
theorem fetchNotesJobDone_new_note_witness :
    (NotesStore.init true).m_notesHash.value "g" = none ∧
    ∃ s' note', fetchNotesJobDone_result newNotePage (NotesStore.init true)
        { NoteMetadata.bare "g" 4 with title := "remote", isset := NoteIsset.all } = .ok s' ∧
      s'.m_notes = [0] ∧
      s'.m_notesHash = [("g", 0)] ∧
      s'.m_notesHash.value "g" = some 0 ∧
      s'.noteObjects[0]? = some note' ∧
      s'.noteObjects.length = 1 ∧
      note'.guid = "g" ∧
      note'.lastSyncedSequenceNumber = 4 ∧
      (true = true → note'.updateSequenceNumber = 4) ∧
      (true = true → note'.title = "remote") ∧
      (true = true → note'.notebookGuid = "") ∧
      (true = true → note'.tagGuids = []) ∧
      note'.loaded = false ∧ note'.loading = false ∧
      note'.conflicting = false ∧ note'.conflictingNote = none ∧
      s'.cacheNotes = CacheGroup.setValue [] "g" note'.updateSequenceNumber ∧
      s'.jobQueue = [] :=
  ⟨by decide,
    fetchNotesJobDone_new_note (NotesStore.init true) newNotePage
      { NoteMetadata.bare "g" 4 with title := "remote", isset := NoteIsset.all } (by decide)⟩

/-! ### Lookup table facts -/

theorem QHash.mem_of_value (h : QHash) (key : String) (v : Nat)
    (hv : h.value key = some v) : (key, v) ∈ h := by
  induction h with
  | nil => simp [QHash.value] at hv
  | cons e rest ih =>
    obtain ⟨k, w⟩ := e
    by_cases hk : k = key
    · simp [QHash.value, hk] at hv
      simp [hk, hv]
    · simp [QHash.value, hk] at hv
      exact List.mem_cons_of_mem _ (ih hv)

theorem QHash.value_remove_of_ne (h : QHash) (key other : String) (hne : key ≠ other) :
    (QHash.remove h other).value key = h.value key := by
  induction h with
  | nil => simp [QHash.remove, QHash.value]
  | cons e rest ih =>
    obtain ⟨k, w⟩ := e
    simp only [QHash.remove] at ih ⊢
    by_cases hk : k = other
    · have hk' : ¬ other = key := fun h' => hne h'.symm
      simp [List.filter_cons, hk, QHash.value, hk'] at ih ⊢
      exact ih
    · simp [List.filter_cons, hk, QHash.value] at ih ⊢
      rw [ih]

theorem QHash.mem_remove (h : QHash) (key : String) (e : String × Nat)
    (he : e ∈ QHash.remove h key) : e ∈ h := by
  simp only [QHash.remove, List.mem_filter] at he
  exact he.1

/-- Under `HashKeyed` a successful lookup gives an object with the key as identifier. -/
theorem HashKeyed.guid_of_value {s : NotesStore} (hk : s.HashKeyed) {g : String} {p : Nat}
    {note : Note} (hv : s.m_notesHash.value g = some p) (hn : s.noteObjects[p]? = some note) :
    note.guid = g := by
  have := hk (g, p) (QHash.mem_of_value _ _ _ hv)
  simp [hn] at this
  exact this

/-- Under `HashKeyed` a successful lookup gives a pointer to an object. -/
theorem HashKeyed.exists_of_value {s : NotesStore} (hk : s.HashKeyed) {g : String} {p : Nat}
    (hv : s.m_notesHash.value g = some p) :
    ∃ note, s.noteObjects[p]? = some note ∧ note.guid = g := by
  have := hk (g, p) (QHash.mem_of_value _ _ _ hv)
  cases hn : s.noteObjects[p]? with
  | none => simp [hn] at this
  | some note =>
    simp [hn] at this
    exact ⟨note, rfl, this⟩

/-- Writing an object with an unchanged identifier keeps `HashKeyed`. -/
theorem HashKeyed.setNote {s : NotesStore} (hk : s.HashKeyed) {p : Nat} {note x : Note}
    (hn : s.noteObjects[p]? = some note) (hg : x.guid = note.guid) :
    (s.setNote p x).HashKeyed := by
  intro e he
  have h1 := hk e he
  have hp : p < s.noteObjects.length := (List.getElem?_eq_some.1 hn).1
  by_cases hep : e.2 = p
  · simp only [NotesStore.setNote]
    rw [hep] at h1 ⊢
    simp [hn] at h1
    simp [List.getElem?_set, hp, hg, h1]
  · simp only [NotesStore.setNote]
    have hne : p ≠ e.2 := fun h => hep h.symm
    simpa [List.getElem?_set, hne] using h1

/-! ### The survivor loop of `fetchNotesJobDone` -/

theorem SurvivorFrame.frame_refl (p : Nat) (g : String) (s : NotesStore) (hk : s.HashKeyed) :
    SurvivorFrame p g s s :=
  ⟨hk, rfl, rfl, ⟨rfl, rfl⟩, ⟨rfl, rfl⟩, ⟨[], by simp, by simp⟩⟩

theorem SurvivorFrame.frame_trans {p : Nat} {g : String} {s t u : NotesStore}
    (h1 : SurvivorFrame p g s t) (h2 : SurvivorFrame p g t u) : SurvivorFrame p g s u := by
  obtain ⟨a1, hj1, hf1⟩ := h1.jobs
  obtain ⟨a2, hj2, hf2⟩ := h2.jobs
  refine ⟨h2.keyed, h2.value.trans h1.value, h2.object.trans h1.object,
    ⟨h2.tags.1.trans h1.tags.1, h2.tags.2.trans h1.tags.2⟩,
    ⟨h2.notebooks.1.trans h1.notebooks.1, h2.notebooks.2.trans h1.notebooks.2⟩,
    ⟨a1 ++ a2, ?_, ?_⟩⟩
  · rw [hj2, hj1, List.append_assoc]
  · rw [List.filter_append, hf1, hf2]
    rfl

/-- A turn of the survivor loop on an identifier other than `g` leaves the note
stored under `g`, the tags and the notebooks alone and hands over no job for it. -/
theorem fetchNotesJobDone_unhandled_other (s : NotesStore) (g g' : String) (p : Nat)
    (hk : s.HashKeyed) (hne : g' ≠ g) (hv : s.m_notesHash.value g = some p) :
    ∃ s', fetchNotesJobDone_unhandled s g' = .ok s' ∧ SurvivorFrame p g s s' := by
  cases hv' : s.m_notesHash.value g' with
  | none =>
    exact ⟨s, by simp [fetchNotesJobDone_unhandled, hv'], SurvivorFrame.frame_refl p g s hk⟩
  | some p' =>
    obtain ⟨note', hn', hg'⟩ := hk.exists_of_value hv'
    obtain ⟨note, hn, hg⟩ := hk.exists_of_value hv
    have hpp : p' ≠ p := by
      intro h
      rw [h, hn] at hn'
      cases hn'
      exact hne (hg'.symm.trans hg)
    have hpp' : p ≠ p' := fun h => hpp h.symm
    have hlen' : p' < s.noteObjects.length := (List.getElem?_eq_some.1 hn').1
    by_cases hz : note'.lastSyncedSequenceNumber = 0
    · by_cases ht : s.hasUnsyncedTag note' = true
      · exact ⟨s, by simp [fetchNotesJobDone_unhandled, hv', derefNote, hn', hz, ht],
          SurvivorFrame.frame_refl p g s hk⟩
      · by_cases hb : s.hasUnsyncedNotebook note' = true
        · exact ⟨s, by simp [fetchNotesJobDone_unhandled, hv', derefNote, hn', hz, ht, hb],
            SurvivorFrame.frame_refl p g s hk⟩
        · refine ⟨_, by simp only [fetchNotesJobDone_unhandled, hv', derefNote, hn', hz, ht, hb,
            if_true, if_false]; rfl, ?_⟩
          refine ⟨?_, rfl, ?_, ⟨rfl, rfl⟩, ⟨rfl, rfl⟩, ⟨[Job.CreateNoteJob p'], rfl, ?_⟩⟩
          · have := hk.setNote (p := p') (x :=
              { (if (!note'.loaded) = true ∧ note'.isCached = true then note'.loadFromCacheFile
                  else note') with loading := true }) hn' (by
                split_ifs <;> simp [Note.loadFromCacheFile])
            exact this
          · simp [enqueue, setNote, List.getElem?_set, hpp]
          · simp [Job.concernsNote, hpp]
    · cases hi : indexOf s.m_notes p' with
      | none =>
        exact ⟨s, by simp [fetchNotesJobDone_unhandled, hv', derefNote, hn', hz, hi],
          SurvivorFrame.frame_refl p g s hk⟩
      | some i =>
        by_cases hs : note'.synced = true
        · refine ⟨_, by simp only [fetchNotesJobDone_unhandled, hv', derefNote, hn', hz, hi, hs,
            if_true, if_false, removeNote, hg']; rfl, ?_⟩
          refine ⟨?_, ?_, rfl, ⟨rfl, rfl⟩, ⟨rfl, rfl⟩, ⟨[], by simp, by simp⟩⟩
          · intro e he
            exact hk e (QHash.mem_remove _ _ _ he)
          · exact QHash.value_remove_of_ne _ _ _ (fun h => hne h.symm)
        · refine ⟨_, by simp only [fetchNotesJobDone_unhandled, hv', derefNote, hn', hz, hi, hs,
            if_true, if_false]; rfl, ?_⟩
          refine ⟨?_, rfl, ?_, ⟨rfl, rfl⟩, ⟨rfl, rfl⟩,
            ⟨[Job.FetchNoteJob note'.guid { LoadContent := true, LoadResources := true } none
              FetchNoteSlot.fetchConflictingNoteJobDone], rfl, ?_⟩⟩
          · have hk2 : (s.enqueue (Job.FetchNoteJob note'.guid
                { LoadContent := true, LoadResources := true } none
                FetchNoteSlot.fetchConflictingNoteJobDone)).HashKeyed := hk
            exact hk2.setNote (x := { note' with conflicting := true }) hn' rfl
          · simp [enqueue, setNote, List.getElem?_set, hpp]
          · simp [Job.concernsNote, hg', hne]

/-- The survivor loop over identifiers other than `g`. -/
theorem fetchNotesJobDone_unhandled_fold (l : List String) (g : String) (p : Nat) :
    ∀ (s : NotesStore), s.HashKeyed → g ∉ l → s.m_notesHash.value g = some p →
    ∃ s', l.foldlM fetchNotesJobDone_unhandled s = .ok s' ∧ SurvivorFrame p g s s' := by
  induction l with
  | nil =>
    intro s hk _ _
    exact ⟨s, rfl, SurvivorFrame.frame_refl p g s hk⟩
  | cons g' rest ih =>
    intro s hk hnot hv
    have hne : g' ≠ g := fun h => hnot (by simp [h])
    have hrest : g ∉ rest := fun h => hnot (List.mem_cons_of_mem _ h)
    obtain ⟨t, ht, hf⟩ := fetchNotesJobDone_unhandled_other s g g' p hk hne hv
    obtain ⟨u, hu, hf2⟩ := ih t hf.keyed hrest (hf.value.trans hv)
    refine ⟨u, ?_, hf.frame_trans hf2⟩
    simp only [List.foldlM_cons, ht]
    exact hu

/-- The checks of the survivor step depend on the tag and notebook tables only. -/
theorem hasUnsynced_congr (s t : NotesStore) (note : Note)
    (htags : t.m_tagsHash = s.m_tagsHash ∧ t.tagObjects = s.tagObjects)
    (hnotebooks : t.m_notebooksHash = s.m_notebooksHash ∧ t.notebookObjects = s.notebookObjects) :
    t.hasUnsyncedTag note = s.hasUnsyncedTag note ∧
    t.hasUnsyncedNotebook note = s.hasUnsyncedNotebook note := by
  simp only [hasUnsyncedTag, hasUnsyncedNotebook, htags.1, htags.2, hnotebooks.1, hnotebooks.2,
    and_self]

/-- The survivor step, decided by the two checks of the code. Let a successful last page
be merged (no further page remains), let `sm` be the store after the summaries of the
page are merged, with a lookup table keyed by the identifiers of the notes and an
unhandled set without repetition, and let `g` be an unhandled identifier of a note whose
`lastSyncedSequenceNumber` is 0. Then `fetchNotesJobDone` returns, and among the jobs
the survivor step hands over, those that concern the note are: exactly one create job
when both checks pass (`hasUnsyncedTag` and `hasUnsyncedNotebook` are false: no tag of
the note that the tag table holds, and not its notebook if the notebook table holds it,
has `lastSyncedSequenceNumber` 0); none otherwise, in which case the note object is
unchanged. A tag or notebook the tables do not hold passes the checks. -/
theorem fetchNotesJobDone_creates_local_only_note (s sm : NotesStore)
    (results : NotesMetadataList) (filterNotebookGuid g : String) (p : Nat) (note : Note)
    (hmerge : results.notes.foldlM (fetchNotesJobDone_result results) s = .ok sm)
    (hlast : ¬ (results.startIndex + results.notes.length < results.totalNotes))
    (hk : sm.HashKeyed) (hnodup : sm.m_unhandledNotes.Nodup)
    (hg : g ∈ sm.m_unhandledNotes)
    (hfound : sm.m_notesHash.value g = some p)
    (hnote : sm.noteObjects[p]? = some note)
    (hlocal : note.lastSyncedSequenceNumber = 0) :
    ∃ s' added,
      s.fetchNotesJobDone ErrorCode.ErrorCodeNoError results filterNotebookGuid = .ok s' ∧
      s'.jobQueue = sm.jobQueue ++ added ∧
      ((sm.hasUnsyncedTag note = false ∧ sm.hasUnsyncedNotebook note = false) →
        added.filter (Job.concernsNote p g) = [Job.CreateNoteJob p]) ∧
      (¬ (sm.hasUnsyncedTag note = false ∧ sm.hasUnsyncedNotebook note = false) →
        added.filter (Job.concernsNote p g) = [] ∧ s'.noteObjects[p]? = some note) := by
  obtain ⟨l1, l2, hsplit⟩ := List.append_of_mem hg
  have hnd := hnodup
  rw [hsplit] at hnd
  have hnd' := List.nodup_append.1 hnd
  have hg1 : g ∉ l1 := fun h => hnd'.2.2 h (by simp)
  have hg2 : g ∉ l2 := (List.nodup_cons.1 hnd'.2.1).1
  let s1 : NotesStore := { sm with m_loading := false }
  have hk1 : s1.HashKeyed := hk
  obtain ⟨t, ht, hf1⟩ := fetchNotesJobDone_unhandled_fold l1 g p s1 hk1 hg1 hfound
  have hvt : t.m_notesHash.value g = some p := hf1.value.trans hfound
  have hnt : t.noteObjects[p]? = some note := hf1.object.trans hnote
  have hcong := hasUnsynced_congr s1 t note hf1.tags hf1.notebooks
  have hcong' : t.hasUnsyncedTag note = sm.hasUnsyncedTag note ∧
      t.hasUnsyncedNotebook note = sm.hasUnsyncedNotebook note := hcong
  obtain ⟨a1, hj1, hfa1⟩ := hf1.jobs
  have hj1' : t.jobQueue = sm.jobQueue ++ a1 := hj1
  have hfull : ∀ u, (g :: l2).foldlM fetchNotesJobDone_unhandled t = .ok u →
      s.fetchNotesJobDone ErrorCode.ErrorCodeNoError results filterNotebookGuid = .ok u := by
    intro u hu
    simp only [fetchNotesJobDone, handleUserError, ne_eq, not_true_eq_false, if_false, hmerge,
      hlast]
    show List.foldlM fetchNotesJobDone_unhandled s1 sm.m_unhandledNotes = Except.ok u
    rw [hsplit, List.foldlM_append, ht]
    exact hu
  by_cases hchecks : (sm.hasUnsyncedTag note = false ∧ sm.hasUnsyncedNotebook note = false)
  · let created : NotesStore :=
      (t.setNote p { (if (!note.loaded) = true ∧ note.isCached = true
          then note.loadFromCacheFile else note) with loading := true }).enqueue
        (Job.CreateNoteJob p)
    have hself : fetchNotesJobDone_unhandled t g = .ok created := by
      simp only [fetchNotesJobDone_unhandled, hvt, derefNote, hnt, hlocal, if_true,
        hcong'.1, hcong'.2, hchecks.1, hchecks.2]
      rfl
    have hkc : created.HashKeyed :=
      hf1.keyed.setNote (p := p) (x :=
        { (if (!note.loaded) = true ∧ note.isCached = true then note.loadFromCacheFile
            else note) with loading := true }) hnt (by
          split_ifs <;> simp [Note.loadFromCacheFile])
    obtain ⟨u, hu, hf2⟩ := fetchNotesJobDone_unhandled_fold l2 g p created hkc hg2 hvt
    obtain ⟨a2, hj2, hfa2⟩ := hf2.jobs
    refine ⟨u, a1 ++ [Job.CreateNoteJob p] ++ a2, hfull u ?_, ?_, ?_, ?_⟩
    · simp only [List.foldlM_cons, hself]
      exact hu
    · rw [hj2]
      show (t.jobQueue ++ [Job.CreateNoteJob p]) ++ a2 = _
      rw [hj1']
      simp [List.append_assoc]
    · intro _
      simp [List.filter_append, hfa1, hfa2, Job.concernsNote]
    · intro hcontra
      exact absurd hchecks hcontra
  · have hself : fetchNotesJobDone_unhandled t g = .ok t := by
      simp only [fetchNotesJobDone_unhandled, hvt, derefNote, hnt, hlocal, if_true,
        hcong'.1, hcong'.2]
      by_cases h1 : sm.hasUnsyncedTag note = true
      · simp [h1]
      · by_cases h2 : sm.hasUnsyncedNotebook note = true
        · simp [h1, h2]
        · exact absurd ⟨by simpa using h1, by simpa using h2⟩ hchecks
    obtain ⟨u, hu, hf2⟩ := fetchNotesJobDone_unhandled_fold l2 g p t hf1.keyed hg2 hvt
    obtain ⟨a2, hj2, hfa2⟩ := hf2.jobs
    refine ⟨u, a1 ++ a2, hfull u ?_, ?_, ?_, ?_⟩
    · simp only [List.foldlM_cons, hself]
      exact hu
    · rw [hj2, hj1', List.append_assoc]
    · intro hcontra
      exact absurd hcontra hchecks
    · intro _
      refine ⟨by simp [List.filter_append, hfa1, hfa2], ?_⟩
      exact hf2.object.trans hnt

/-- Instance with the scenario of the specification: one note that exists locally
only, without tags and without notebook, and an empty remote listing. The pass hands
over exactly one create job for the note (after the listing request). -/
theorem fetchNotesJobDone_creates_local_only_note_witness :
    ((finalStore false localOnlyRun).HashKeyed ∧
     (finalStore false localOnlyRun).m_unhandledNotes = ["n"] ∧
     (finalStore false localOnlyRun).m_notesHash.value "n" = some 0 ∧
     ((finalStore false localOnlyRun).noteObjects[0]?).map
        (fun n => (n.lastSyncedSequenceNumber, n.tagGuids, n.notebookGuid)) = some (0, [], "") ∧
     ((finalStore false localOnlyRun).hasUnsyncedTag
        ((finalStore false localOnlyRun).noteObjects.getD 0 (Note.new "" 0)) = false ∧
      (finalStore false localOnlyRun).hasUnsyncedNotebook
        ((finalStore false localOnlyRun).noteObjects.getD 0 (Note.new "" 0)) = false)) ∧
    (∃ s' added,
      (finalStore false localOnlyRun).fetchNotesJobDone ErrorCode.ErrorCodeNoError emptyPage "" =
        .ok s' ∧
      s'.jobQueue = (finalStore false localOnlyRun).jobQueue ++ added ∧
      (((finalStore false localOnlyRun).hasUnsyncedTag
          ((finalStore false localOnlyRun).noteObjects.getD 0 (Note.new "" 0)) = false ∧
        (finalStore false localOnlyRun).hasUnsyncedNotebook
          ((finalStore false localOnlyRun).noteObjects.getD 0 (Note.new "" 0)) = false) →
        added.filter (Job.concernsNote 0 "n") = [Job.CreateNoteJob 0]) ∧
      (¬ ((finalStore false localOnlyRun).hasUnsyncedTag
          ((finalStore false localOnlyRun).noteObjects.getD 0 (Note.new "" 0)) = false ∧
        (finalStore false localOnlyRun).hasUnsyncedNotebook
          ((finalStore false localOnlyRun).noteObjects.getD 0 (Note.new "" 0)) = false) →
        added.filter (Job.concernsNote 0 "n") = [] ∧
        s'.noteObjects[0]? =
          some ((finalStore false localOnlyRun).noteObjects.getD 0 (Note.new "" 0)))) ∧
    (finalStore false (localOnlyRun ++
      [Operation.fetchNotesJobDone ErrorCode.ErrorCodeNoError emptyPage ""])).jobQueue =
      [Job.FetchNotesJob "" "" 0, Job.CreateNoteJob 0] :=
  ⟨⟨by unfold HashKeyed; decide, by decide, by decide, by decide,
      ⟨by decide, by decide⟩⟩,
    fetchNotesJobDone_creates_local_only_note (finalStore false localOnlyRun)
      (finalStore false localOnlyRun) emptyPage "" "n" 0
      ((finalStore false localOnlyRun).noteObjects.getD 0 (Note.new "" 0))
      rfl (by decide) (by unfold HashKeyed; decide) (by decide) (by decide) (by decide)
      (by decide) (by decide),
    by decide⟩

/-! ### The default notebook -/

theorem SameNotebooks.same_refl (s : NotesStore) : SameNotebooks s s :=
  ⟨rfl, rfl, fun _ => rfl, fun _ => rfl⟩

theorem SameNotebooks.same_trans {s t u : NotesStore} (h1 : SameNotebooks s t)
    (h2 : SameNotebooks t u) : SameNotebooks s u :=
  ⟨h2.1.trans h1.1, h2.2.1.trans h1.2.1, fun q => (h2.2.2.1 q).trans (h1.2.2.1 q),
    fun q => (h2.2.2.2 q).trans (h1.2.2.2 q)⟩

/-- A step that leaves the three notebook fields of the store untouched. -/
theorem SameNotebooks.of_fields {s t : NotesStore} (h1 : t.m_notebooks = s.m_notebooks)
    (h2 : t.m_notebooksHash = s.m_notebooksHash)
    (h3 : t.notebookObjects = s.notebookObjects) : SameNotebooks s t :=
  ⟨h1, h2, fun q => by simp [notebookGuidAt, h3], fun q => by simp [isDefaultAt, h3]⟩

/-- Writing a notebook object that keeps identifier and default flag. -/
theorem SameNotebooks.setNotebook {s : NotesStore} {p : Nat} {notebook x : Notebook}
    (hn : s.notebookObjects[p]? = some notebook) (hg : x.guid = notebook.guid)
    (hd : x.isDefaultNotebook = notebook.isDefaultNotebook) :
    SameNotebooks s (s.setNotebook p x) := by
  have hp : p < s.notebookObjects.length := (List.getElem?_eq_some.1 hn).1
  refine ⟨rfl, rfl, fun q => ?_, fun q => ?_⟩
  · by_cases hq : p = q
    · subst hq
      simp [notebookGuidAt, NotesStore.setNotebook, List.getElem?_set, hp, hn, hg]
    · simp [notebookGuidAt, NotesStore.setNotebook, List.getElem?_set, hq]
  · by_cases hq : p = q
    · subst hq
      simp [isDefaultAt, NotesStore.setNotebook, List.getElem?_set, hp, hn, hd]
    · simp [isDefaultAt, NotesStore.setNotebook, List.getElem?_set, hq]

theorem defaultCount_congr {s s' : NotesStore} (h : SameNotebooks s s') :
    s'.defaultCount = s.defaultCount := by
  have hf : s'.isDefaultAt = s.isDefaultAt := funext h.2.2.2
  simp [defaultCount, h.1, hf]

theorem NotebooksInvariant.of_same {s s' : NotesStore} (hi : s.NotebooksInvariant)
    (h : SameNotebooks s s') : s'.NotebooksInvariant := by
  obtain ⟨h1, h2, h3, h4⟩ := hi
  refine ⟨by rw [h.1]; exact h1, ?_, ?_, ?_⟩
  · intro p hp
    rw [h.1] at hp
    rw [h.2.2.1]
    exact h2 p hp
  · intro e he
    rw [h.2.1] at he
    rw [h.1, h.2.2.1]
    exact h3 e he
  · intro hne
    rw [h.1] at hne
    rw [defaultCount_congr h]
    exact h4 hne

theorem saveNote_sameNotebooks (s s' : NotesStore) (guid : String)
    (h : s.saveNote guid = .ok s') : SameNotebooks s s' := by
  unfold saveNote at h
  cases hv : s.m_notesHash.value guid with
  | none =>
    simp [hv] at h
    subst h
    exact SameNotebooks.same_refl s
  | some p =>
    cases hn : s.noteObjects[p]? with
    | none => simp [hv, derefNote, hn] at h
    | some note =>
      simp only [hv, derefNote, hn] at h
      split_ifs at h <;> cases h <;> exact SameNotebooks.of_fields rfl rfl rfl

theorem saveNotebook_sameNotebooks (s s' : NotesStore) (guid : String)
    (h : s.saveNotebook guid = .ok s') : SameNotebooks s s' := by
  unfold saveNotebook at h
  cases hv : s.m_notebooksHash.value guid with
  | none =>
    simp [hv] at h
    subst h
    exact SameNotebooks.same_refl s
  | some p =>
    cases hn : s.notebookObjects[p]? with
    | none => simp [hv, derefNotebook, hn] at h
    | some notebook =>
      simp only [hv, derefNotebook, hn] at h
      split_ifs at h
      · cases h
        exact (SameNotebooks.setNotebook (s := s.syncToCacheFileNotebook
            { notebook with updateSequenceNumber := notebook.updateSequenceNumber + 1 })
          (x := { notebook with updateSequenceNumber := notebook.updateSequenceNumber + 1,
                                loading := true }) hn rfl rfl).same_trans
          (SameNotebooks.of_fields rfl rfl rfl) |>
            (SameNotebooks.of_fields (s := s) rfl rfl rfl).same_trans
      · cases h
        exact (SameNotebooks.of_fields (s := s) (t := s.syncToCacheFileNotebook
            { notebook with updateSequenceNumber := notebook.updateSequenceNumber + 1 })
            rfl rfl rfl).same_trans
          (SameNotebooks.setNotebook (x :=
            { notebook with updateSequenceNumber := notebook.updateSequenceNumber + 1 }) hn rfl rfl)

theorem createNote_sameNotebooks (s : NotesStore) (newGuid title notebookGuid content : String) :
    SameNotebooks s (s.createNote newGuid title notebookGuid content) := by
  unfold createNote
  simp only [syncToCacheFileNote, enqueue]
  split_ifs <;> exact SameNotebooks.of_fields rfl rfl rfl

theorem OnlyNotesChanged.only_refl (s : NotesStore) : OnlyNotesChanged s s := rfl

theorem OnlyNotesChanged.only_trans {s t u : NotesStore} (h1 : OnlyNotesChanged s t)
    (h2 : OnlyNotesChanged t u) : OnlyNotesChanged s u := by
  unfold OnlyNotesChanged at *
  rw [h2, h1]

theorem OnlyNotesChanged.sameNotebooks {s s' : NotesStore} (h : OnlyNotesChanged s s') :
    SameNotebooks s s' := by
  unfold OnlyNotesChanged at h
  rw [h]
  exact SameNotebooks.of_fields rfl rfl rfl

theorem saveNote_onlyNotesChanged (s s' : NotesStore) (guid : String)
    (h : s.saveNote guid = .ok s') : OnlyNotesChanged s s' := by
  unfold saveNote at h
  cases hv : s.m_notesHash.value guid with
  | none =>
    simp [hv] at h
    subst h
    rfl
  | some p =>
    cases hn : s.noteObjects[p]? with
    | none => simp [hv, derefNote, hn] at h
    | some note =>
      simp only [hv, derefNote, hn] at h
      split_ifs at h <;> cases h <;> rfl

theorem expungeNotebook_moveNotes_onlyNotesChanged (notebookGuid defaultNotebook : String) :
    ∀ (fuel : Nat) (s s' : NotesStore),
      expungeNotebook_moveNotes notebookGuid defaultNotebook fuel s = .ok s' →
      OnlyNotesChanged s s' := by
  intro fuel
  induction fuel with
  | zero =>
    intro s s' h
    unfold expungeNotebook_moveNotes at h
    cases hl : s.notebookNotesList notebookGuid with
    | nil =>
      simp [hl] at h
      subst h
      rfl
    | cons a rest => simp [hl] at h
  | succ fuel ih =>
    intro s s' h
    unfold expungeNotebook_moveNotes at h
    cases hl : s.notebookNotesList notebookGuid with
    | nil =>
      simp [hl] at h
      subst h
      rfl
    | cons a rest =>
      simp only [hl] at h
      cases hv : s.m_notesHash.value a with
      | none => simp [hv] at h
      | some p =>
        cases hn : s.noteObjects[p]? with
        | none => simp [hv, derefNote, hn] at h
        | some note =>
          simp only [hv, derefNote, hn] at h
          cases hs : (s.setNote p { note with notebookGuid := defaultNotebook }).saveNote
              note.guid with
          | error e => simp [hs] at h
          | ok t =>
            simp only [hs] at h
            cases hn2 : t.noteObjects[p]? with
            | none => simp [hn2] at h
            | some saved =>
              simp only [hn2] at h
              have h1 : OnlyNotesChanged s
                  (s.setNote p { note with notebookGuid := defaultNotebook }) := rfl
              have h2 := saveNote_onlyNotesChanged _ _ _ hs
              have h3 : OnlyNotesChanged t (t.syncToCacheFileNote saved) := rfl
              exact ((h1.only_trans h2).only_trans h3).only_trans (ih _ _ h)

/-! ### Filters that select one element -/

theorem filter_length_eq_one_of_eq {l : List Nat} {f : Nat → Bool} {p : Nat}
    (hnd : l.Nodup) (hp : p ∈ l) (hf : ∀ q ∈ l, f q = decide (q = p)) :
    (l.filter f).length = 1 := by
  induction l with
  | nil => simp at hp
  | cons a rest ih =>
    have hnd' := List.nodup_cons.1 hnd
    by_cases ha : a = p
    · subst ha
      have hrest : rest.filter f = [] := by
        rw [List.filter_eq_nil_iff]
        intro q hq
        rw [hf q (List.mem_cons_of_mem _ hq)]
        have : q ≠ a := fun h => hnd'.1 (h ▸ hq)
        simp [this]
      have hfa : f a = true := by rw [hf a (List.mem_cons_self _ _)]; simp
      simp [List.filter_cons, hfa, hrest]
    · have hfa : f a = false := by rw [hf a (List.mem_cons_self _ _)]; simp [ha]
      have hp' : p ∈ rest := by
        rcases List.mem_cons.1 hp with h | h
        · exact absurd h.symm ha
        · exact h
      simp only [List.filter_cons, hfa]
      exact ih hnd'.2 hp' (fun q hq => hf q (List.mem_cons_of_mem _ hq))

theorem eq_of_filter_length_eq_one {l : List Nat} {f : Nat → Bool} {t q : Nat}
    (hone : (l.filter f).length = 1) (ht : t ∈ l) (hft : f t = true)
    (hq : q ∈ l) (hfq : f q = true) : q = t := by
  have ht' : t ∈ l.filter f := List.mem_filter.2 ⟨ht, hft⟩
  have hq' : q ∈ l.filter f := List.mem_filter.2 ⟨hq, hfq⟩
  obtain ⟨x, hx⟩ := List.length_eq_one.1 hone
  rw [hx] at ht' hq'
  simp at ht' hq'
  rw [ht', hq']

theorem filter_length_congr {l : List Nat} {f f' : Nat → Bool}
    (h : ∀ q ∈ l, f' q = f q) : (l.filter f').length = (l.filter f).length := by
  rw [List.filter_congr h]

/-! ### Lookup table: entries after an insertion -/

theorem QHash.mem_insert (h : QHash) (key : String) (v : Nat) (e : String × Nat)
    (he : e ∈ QHash.insert h key v) : e = (key, v) ∨ e ∈ h := by
  induction h with
  | nil =>
    simp [QHash.insert] at he
    exact Or.inl he
  | cons x rest ih =>
    obtain ⟨k, w⟩ := x
    by_cases hk : k = key
    · simp only [QHash.insert, hk, if_true] at he
      rcases List.mem_cons.1 he with h1 | h1
      · exact Or.inl h1
      · exact Or.inr (List.mem_cons_of_mem _ h1)
    · simp only [QHash.insert, hk, if_false] at he
      rcases List.mem_cons.1 he with h1 | h1
      · exact Or.inr (by rw [h1]; exact List.mem_cons_self _ _)
      · rcases ih h1 with h2 | h2
        · exact Or.inl h2
        · exact Or.inr (List.mem_cons_of_mem _ h2)

/-! ### Notebook operations keep the invariant -/

/-- Result of `createNotebook` in one piece. -/
theorem createNotebook_eq (s : NotesStore) (newGuid name : String) :
    s.createNotebook newGuid name =
      { s with
        notebookObjects := s.notebookObjects ++
          [{ Notebook.new newGuid 1 with
             name := name, isDefaultNotebook := s.m_notebooks.isEmpty, loading := s.connected }],
        m_notebooks := s.m_notebooks ++ [s.notebookObjects.length],
        m_notebooksHash := s.m_notebooksHash.insert newGuid s.notebookObjects.length,
        cacheNotebooks := s.cacheNotebooks.setValue newGuid 1,
        jobQueue := s.jobQueue ++
          (if s.connected then [Job.CreateNotebookJob s.notebookObjects.length] else []) } := by
  unfold createNotebook
  cases hc : s.connected <;> cases he : s.m_notebooks.isEmpty <;>
    simp [Notebook.new, syncToCacheFileNotebook, setNotebook, enqueue, hc]

theorem NotebooksInvariant.lt_length {s : NotesStore} (hi : s.NotebooksInvariant) {q : Nat}
    (hq : q ∈ s.m_notebooks) : q < s.notebookObjects.length := by
  have := hi.2.1 q hq
  simp only [notebookGuidAt] at this
  by_contra hlt
  have hnone : s.notebookObjects[q]? = none := List.getElem?_eq_none (Nat.le_of_not_lt hlt)
  simp [hnone] at this

theorem createNotebook_invariant (s : NotesStore) (newGuid name : String)
    (hi : s.NotebooksInvariant) : (s.createNotebook newGuid name).NotebooksInvariant := by
  rw [createNotebook_eq]
  have hlt := fun q hq => hi.lt_length (q := q) hq
  obtain ⟨h1, h2, h3, h4⟩ := hi
  have hfresh : s.notebookObjects.length ∉ s.m_notebooks := fun h =>
    Nat.lt_irrefl _ (hlt _ h)
  have hguid : ∀ q ∈ s.m_notebooks, NotesStore.notebookGuidAt
      { s with
        notebookObjects := s.notebookObjects ++
          [{ Notebook.new newGuid 1 with
             name := name, isDefaultNotebook := s.m_notebooks.isEmpty, loading := s.connected }],
        m_notebooks := s.m_notebooks ++ [s.notebookObjects.length],
        m_notebooksHash := s.m_notebooksHash.insert newGuid s.notebookObjects.length,
        cacheNotebooks := s.cacheNotebooks.setValue newGuid 1,
        jobQueue := s.jobQueue ++
          (if s.connected then [Job.CreateNotebookJob s.notebookObjects.length] else []) } q =
      s.notebookGuidAt q := by
    intro q hq
    simp [notebookGuidAt, List.getElem?_append_left (hlt q hq)]
  have hdef : ∀ q ∈ s.m_notebooks, NotesStore.isDefaultAt
      { s with
        notebookObjects := s.notebookObjects ++
          [{ Notebook.new newGuid 1 with
             name := name, isDefaultNotebook := s.m_notebooks.isEmpty, loading := s.connected }],
        m_notebooks := s.m_notebooks ++ [s.notebookObjects.length],
        m_notebooksHash := s.m_notebooksHash.insert newGuid s.notebookObjects.length,
        cacheNotebooks := s.cacheNotebooks.setValue newGuid 1,
        jobQueue := s.jobQueue ++
          (if s.connected then [Job.CreateNotebookJob s.notebookObjects.length] else []) } q =
      s.isDefaultAt q := by
    intro q hq
    simp [isDefaultAt, List.getElem?_append_left (hlt q hq)]
  refine ⟨?_, ?_, ?_, ?_⟩
  · show (s.m_notebooks ++ [s.notebookObjects.length]).Nodup
    rw [List.nodup_append]
    refine ⟨h1, by simp, ?_⟩
    intro a ha hb
    simp at hb
    exact hfresh (hb ▸ ha)
  · intro p hp
    have hp' : p ∈ s.m_notebooks ++ [s.notebookObjects.length] := hp
    rcases List.mem_append.1 hp' with h | h
    · rw [hguid p h]
      exact h2 p h
    · simp at h
      subst h
      simp [notebookGuidAt]
  · intro e he
    have he' : e ∈ s.m_notebooksHash.insert newGuid s.notebookObjects.length := he
    rcases QHash.mem_insert _ _ _ _ he' with h | h
    · subst h
      refine ⟨?_, ?_⟩
      · show s.notebookObjects.length ∈ s.m_notebooks ++ [s.notebookObjects.length]
        simp
      · simp [notebookGuidAt, Notebook.new]
    · have := h3 e h
      refine ⟨?_, ?_⟩
      · show e.2 ∈ s.m_notebooks ++ [s.notebookObjects.length]
        exact List.mem_append_left _ this.1
      · rw [hguid e.2 this.1]
        exact this.2
  · intro _
    show (List.filter _ (s.m_notebooks ++ [s.notebookObjects.length])).length = 1
    rw [List.filter_append, List.length_append, filter_length_congr hdef]
    cases hl : s.m_notebooks with
    | nil => simp [isDefaultAt]
    | cons a rest =>
      have := h4 (by simp [hl])
      simp only [defaultCount, hl] at this
      simp [isDefaultAt, this]

theorem notebookGuidAt_setNotebook (s : NotesStore) (p q : Nat) (x : Notebook) :
    (s.setNotebook p x).notebookGuidAt q =
      if p = q ∧ p < s.notebookObjects.length then some x.guid else s.notebookGuidAt q := by
  by_cases hq : p = q
  · subst hq
    by_cases hp : p < s.notebookObjects.length
    · simp [notebookGuidAt, NotesStore.setNotebook, List.getElem?_set, hp]
    · have hnone : s.notebookObjects[p]? = none :=
        List.getElem?_eq_none (Nat.le_of_not_lt hp)
      simp [notebookGuidAt, NotesStore.setNotebook, List.getElem?_set, hp, hnone]
  · simp [notebookGuidAt, NotesStore.setNotebook, List.getElem?_set, hq]

theorem isDefaultAt_setNotebook (s : NotesStore) (p q : Nat) (x : Notebook) :
    (s.setNotebook p x).isDefaultAt q =
      if p = q ∧ p < s.notebookObjects.length then x.isDefaultNotebook else s.isDefaultAt q := by
  by_cases hq : p = q
  · subst hq
    by_cases hp : p < s.notebookObjects.length
    · simp [isDefaultAt, NotesStore.setNotebook, List.getElem?_set, hp]
    · have hnone : s.notebookObjects[p]? = none :=
        List.getElem?_eq_none (Nat.le_of_not_lt hp)
      simp [isDefaultAt, NotesStore.setNotebook, List.getElem?_set, hp, hnone]
  · simp [isDefaultAt, NotesStore.setNotebook, List.getElem?_set, hq]

theorem firstDefaultNotebook_eq (s : NotesStore) :
    s.firstDefaultNotebook = s.m_notebooks.find? s.isDefaultAt := rfl

theorem setDefaultNotebook_invariant (s s' : NotesStore) (guid : String)
    (hi : s.NotebooksInvariant) (h : s.setDefaultNotebook guid = .ok s') :
    s'.NotebooksInvariant := by
  unfold setDefaultNotebook at h
  cases hv : s.m_notebooksHash.value guid with
  | none =>
    simp [hv] at h
    subst h
    exact hi
  | some p =>
    simp only [hv] at h
    have hmem := hi.2.2.1 (guid, p) (QHash.mem_of_value _ _ _ hv)
    have hpl : p ∈ s.m_notebooks := hmem.1
    have hpg : s.notebookGuidAt p = some guid := hmem.2
    have hne : s.m_notebooks ≠ [] := List.ne_nil_of_mem hpl
    have hone := hi.2.2.2 hne
    have hcleared : ∀ c : NotesStore, s.setDefaultNotebook_clearOld = .ok c →
        c.m_notebooks = s.m_notebooks ∧ c.m_notebooksHash = s.m_notebooksHash ∧
        (∀ q, c.notebookGuidAt q = s.notebookGuidAt q) ∧
        (∀ q ∈ s.m_notebooks, c.isDefaultAt q = false) := by
      intro c hc
      unfold setDefaultNotebook_clearOld at hc
      cases hfd : s.firstDefaultNotebook with
      | none =>
        simp only [hfd] at hc
        cases hc
        refine ⟨rfl, rfl, fun _ => rfl, ?_⟩
        rw [firstDefaultNotebook_eq, List.find?_eq_none] at hfd
        intro q hq
        simpa using hfd q hq
      | some t =>
        simp only [hfd] at hc
        rw [firstDefaultNotebook_eq] at hfd
        have htl : t ∈ s.m_notebooks := List.mem_of_find?_eq_some hfd
        have htd : s.isDefaultAt t = true := List.find?_some hfd
        have htlt := hi.lt_length htl
        cases hn : s.notebookObjects[t]? with
        | none => simp [derefNotebook, hn] at hc
        | some tmp =>
          simp only [derefNotebook, hn] at hc
          have hsame := saveNotebook_sameNotebooks _ _ _ hc
          refine ⟨hsame.1, hsame.2.1, ?_, ?_⟩
          · intro q
            rw [hsame.2.2.1, notebookGuidAt_setNotebook]
            by_cases hq : t = q
            · subst hq
              simp [htlt, notebookGuidAt, hn]
            · simp [hq]
          · intro q hq
            rw [hsame.2.2.2, isDefaultAt_setNotebook]
            by_cases hqt : t = q
            · subst hqt
              simp [htlt]
            · have : s.isDefaultAt q = false := by
                by_contra hcon
                have hqd : s.isDefaultAt q = true := by simpa using hcon
                exact hqt (eq_of_filter_length_eq_one hone htl htd hq hqd).symm
              simp [hqt, this]
    cases hcl : s.setDefaultNotebook_clearOld with
    | error e => simp [hcl] at h
    | ok c =>
      simp only [hcl] at h
      obtain ⟨hc1, hc2, hc3, hc4⟩ := hcleared c hcl
      have hcg : c.notebookGuidAt p = some guid := by rw [hc3]; exact hpg
      cases hn : c.notebookObjects[p]? with
      | none => simp [notebookGuidAt, hn] at hcg
      | some notebook =>
        simp only [derefNotebook, hn] at h
        have hsame := saveNotebook_sameNotebooks _ _ _ h
        have hplt : p < c.notebookObjects.length := (List.getElem?_eq_some.1 hn).1
        have hg : notebook.guid = guid := by simpa [notebookGuidAt, hn] using hcg
        apply NotebooksInvariant.of_same _ hsame
        refine ⟨by show c.m_notebooks.Nodup; rw [hc1]; exact hi.1, ?_, ?_, ?_⟩
        · intro q hq
          have hq' : q ∈ s.m_notebooks := by rw [← hc1]; exact hq
          rw [notebookGuidAt_setNotebook]
          by_cases hqp : p = q
          · subst hqp
            simp [hplt]
          · simp only [hqp, false_and, if_false]
            rw [hc3]
            exact hi.2.1 q hq'
        · intro e he
          have he' : e ∈ s.m_notebooksHash := by rw [← hc2]; exact he
          have := hi.2.2.1 e he'
          refine ⟨by show e.2 ∈ c.m_notebooks; rw [hc1]; exact this.1, ?_⟩
          rw [notebookGuidAt_setNotebook]
          by_cases hqp : p = e.2
          · rw [← hqp] at this ⊢
            rw [hpg] at this
            simp only [true_and, hplt, if_true, hg]
            exact this.2
          · simp only [hqp, false_and, if_false]
            rw [hc3]
            exact this.2
        · intro _
          show (List.filter _ c.m_notebooks).length = 1
          rw [hc1]
          apply filter_length_eq_one_of_eq hi.1 hpl
          intro q hq
          rw [isDefaultAt_setNotebook]
          by_cases hqp : p = q
          · subst hqp
            simp [hplt]
          · have hqp' : ¬ q = p := fun h => hqp h.symm
            simp [hqp, hqp', hc4 q hq]

theorem expungeNotebook_reassign_onlyNotesChanged (s t : NotesStore) (notebook : Notebook)
    (h : s.expungeNotebook_reassign notebook = .ok (some t)) : OnlyNotesChanged s t := by
  unfold expungeNotebook_reassign at h
  by_cases h1 : (s.notebookNotesList notebook.guid).length > 0
  · simp only [h1, if_true] at h
    by_cases h2 : s.defaultNotebookGuid = ""
    · simp [h2] at h
    · simp only [h2, if_false] at h
      cases hm : expungeNotebook_moveNotes notebook.guid s.defaultNotebookGuid
          (s.notebookNotesList notebook.guid).length s with
      | error e => simp [hm] at h
      | ok u =>
        simp only [hm] at h
        cases h
        exact expungeNotebook_moveNotes_onlyNotesChanged _ _ _ _ _ hm
  · simp only [h1, if_false] at h
    cases h
    rfl

theorem filter_removeAll_of_false {l : List Nat} {f : Nat → Bool} {p : Nat}
    (hp : f p = false) : (removeAll l p).filter f = l.filter f := by
  unfold removeAll
  rw [List.filter_filter]
  apply List.filter_congr
  intro a _
  by_cases ha : a = p
  · subst ha
    simp [hp]
  · simp [ha]

theorem expungeNotebook_invariant (s s' : NotesStore) (guid : String)
    (hi : s.NotebooksInvariant) (h : s.expungeNotebook guid = .ok s') :
    s'.NotebooksInvariant := by
  unfold expungeNotebook at h
  split_ifs at h with hflag
  · cases h
    exact hi.of_same (SameNotebooks.of_fields rfl rfl rfl)
  · cases hv : s.m_notebooksHash.value guid with
    | none =>
      simp [hv] at h
      subst h
      exact hi
    | some p =>
      simp only [hv] at h
      cases hn : s.notebookObjects[p]? with
      | none => simp [derefNotebook, hn] at h
      | some notebook =>
        simp only [derefNotebook, hn] at h
        by_cases hdef : notebook.isDefaultNotebook = true
        · simp only [hdef, if_true] at h
          cases h
          exact hi.of_same (SameNotebooks.of_fields rfl rfl rfl)
        · simp only [if_neg hdef] at h
          cases hr : s.expungeNotebook_reassign notebook with
          | error e => simp [hr] at h
          | ok o =>
            cases o with
            | none =>
              simp [hr] at h
              subst h
              exact hi
            | some t =>
              simp only [hr] at h
              have hchg := expungeNotebook_reassign_onlyNotesChanged s t notebook hr
              have hsame := hchg.sameNotebooks
              have hit := hi.of_same hsame
              have hobj : t.notebookObjects = s.notebookObjects := by
                unfold OnlyNotesChanged at hchg
                rw [hchg]
              have hnt : t.notebookObjects[p]? = some notebook := by rw [hobj]; exact hn
              by_cases hz : notebook.lastSyncedSequenceNumber = 0
              · simp only [if_pos hz] at h
                cases h
                have hpd : t.isDefaultAt p = false := by
                  simp [isDefaultAt, hnt, hdef]
                obtain ⟨h1, h2, h3, h4⟩ := hit
                refine ⟨?_, ?_, ?_, ?_⟩
                · show (removeAll t.m_notebooks p).Nodup
                  exact List.Nodup.filter _ h1
                · intro q hq
                  have hq' : q ∈ removeAll t.m_notebooks p := hq
                  simp only [removeAll, List.mem_filter] at hq'
                  exact h2 q hq'.1
                · intro e he
                  have he' : e ∈ QHash.remove t.m_notebooksHash notebook.guid := he
                  simp only [QHash.remove, List.mem_filter] at he'
                  have := h3 e he'.1
                  refine ⟨?_, this.2⟩
                  show e.2 ∈ removeAll t.m_notebooks p
                  simp only [removeAll, List.mem_filter]
                  refine ⟨this.1, ?_⟩
                  have hne : e.2 ≠ p := by
                    intro hep
                    have h5 := this.2
                    rw [hep] at h5
                    simp only [notebookGuidAt, hnt, Option.map_some', Option.some.injEq] at h5
                    have := he'.2
                    simp [h5] at this
                  simpa using hne
                · intro hne
                  have hne' : removeAll t.m_notebooks p ≠ [] := hne
                  have hl : t.m_notebooks ≠ [] := by
                    intro hnil
                    apply hne'
                    simp [removeAll, hnil]
                  have hone := h4 hl
                  show (List.filter _ (removeAll t.m_notebooks p)).length = 1
                  have hf : NotesStore.isDefaultAt
                      { t with
                        m_notebooks := removeAll t.m_notebooks p,
                        m_notebooksHash := QHash.remove t.m_notebooksHash notebook.guid,
                        cacheNotebooks := CacheGroup.remove t.cacheNotebooks notebook.guid } =
                      t.isDefaultAt := rfl
                  rw [hf, filter_removeAll_of_false hpd]
                  exact hone
              · simp only [if_neg hz] at h
                have hbase : SameNotebooks t (t.setNotebook p
                    { notebook with deleted := true,
                                    updateSequenceNumber := notebook.updateSequenceNumber + 1 }) :=
                  SameNotebooks.setNotebook hnt rfl rfl
                split_ifs at h
                · cases h
                  exact hit.of_same (hbase.same_trans (SameNotebooks.of_fields rfl rfl rfl))
                · cases h
                  exact hit.of_same (hbase.same_trans (SameNotebooks.of_fields rfl rfl rfl))

theorem init_notebooksInvariant (connected : Bool) :
    (NotesStore.init connected).NotebooksInvariant := by
  refine ⟨List.nodup_nil, ?_, ?_, ?_⟩
  · intro p hp
    simp [NotesStore.init] at hp
  · intro e he
    simp [NotesStore.init] at he
  · intro h
    simp [NotesStore.init] at h

/-- Each of the client-side calls keeps the notebook invariant. -/
theorem apply_localCall_invariant (op : Operation) (s s' : NotesStore)
    (hop : op.isLocalNotebookCall = true) (hi : s.NotebooksInvariant)
    (h : op.apply s = .ok s') : s'.NotebooksInvariant := by
  cases op <;> simp only [Operation.isLocalNotebookCall] at hop <;>
    simp only [Operation.apply] at h
  case setConnected c =>
    cases h
    exact hi.of_same (SameNotebooks.of_fields rfl rfl rfl)
  case setCurrentDateTime n =>
    cases h
    exact hi.of_same (SameNotebooks.of_fields rfl rfl rfl)
  case createNote g t n c =>
    cases h
    exact hi.of_same (createNote_sameNotebooks s g t n c)
  case saveNote g =>
    exact hi.of_same (saveNote_sameNotebooks s s' g h)
  case createNotebook g n =>
    cases h
    exact createNotebook_invariant s g n hi
  case saveNotebook g =>
    exact hi.of_same (saveNotebook_sameNotebooks s s' g h)
  case setDefaultNotebook g =>
    exact setDefaultNotebook_invariant s s' g hi h
  case expungeNotebook g =>
    exact expungeNotebook_invariant s s' g hi h
  all_goals exact absurd hop (by simp)

theorem runOperations_invariant (ops : List Operation) :
    ∀ (s s' : NotesStore), (∀ op ∈ ops, op.isLocalNotebookCall = true) →
      s.NotebooksInvariant → runOperations s ops = .ok s' → s'.NotebooksInvariant := by
  induction ops with
  | nil =>
    intro s s' _ hi h
    cases h
    exact hi
  | cons op rest ih =>
    intro s s' hl hi h
    simp only [runOperations, List.foldlM_cons] at h
    cases ha : op.apply s with
    | error e =>
      rw [ha] at h
      cases h
    | ok t =>
      rw [ha] at h
      exact ih t s' (fun o ho => hl o (List.mem_cons_of_mem _ ho))
        (apply_localCall_invariant op s t (hl op (List.mem_cons_self _ _)) hi ha) h

/-- C7. Merging server data breaks the default-notebook property, which the client-side
calls maintain. Each of the three runs ends in a reachable store with a non-empty
notebook collection in which the number of notebooks with the default flag is not one:
two after `fetchNotebooksJobDone` adds the server's default notebook to a local
default, two after `saveNotebookJobDone` takes the default flag from the server's
answer, none after `expungeNotebookJobDone` removes the notebook that carries the
flag. -/
theorem default_notebook_not_unique_after_merge :
    (Reachable (finalStore false twoDefaultsRun) ∧
      notebookSummary (finalStore false twoDefaultsRun) =
        [("w", "Work", true, false), ("srv", "Personal", true, false)] ∧
      (finalStore false twoDefaultsRun).defaultCount = 2) ∧
    (Reachable (finalStore true savedAsDefaultRun) ∧
      notebookSummary (finalStore true savedAsDefaultRun) =
        [("w", "Work", true, false), ("h", "Home", true, false)] ∧
      (finalStore true savedAsDefaultRun).defaultCount = 2) ∧
    (Reachable (finalStore true defaultExpungedRun) ∧
      notebookSummary (finalStore true defaultExpungedRun) = [("w", "Work", false, false)] ∧
      (finalStore true defaultExpungedRun).defaultCount = 0) :=
  ⟨⟨⟨false, twoDefaultsRun, rfl⟩, by decide, by decide⟩,
   ⟨⟨true, savedAsDefaultRun, rfl⟩, by decide, by decide⟩,
   ⟨⟨true, defaultExpungedRun, rfl⟩, by decide, by decide⟩⟩

/-- The client-side calls keep the default-notebook property. In every store reached
from the initial store through the client-side calls (`createNotebook`, `saveNotebook`,
`setDefaultNotebook`, `expungeNotebook`, `createNote`, `saveNote`, changes of connection
and clock), a non-empty notebook collection holds exactly one notebook that carries the
default flag. -/
theorem local_calls_keep_one_default_notebook (connected : Bool) (ops : List Operation)
    (s : NotesStore)
    (hlocal : ∀ op ∈ ops, op.isLocalNotebookCall = true)
    (hrun : runOperations (NotesStore.init connected) ops = .ok s)
    (hne : s.m_notebooks ≠ []) :
    s.defaultCount = 1 :=
  (runOperations_invariant ops _ s hlocal (init_notebooksInvariant connected) hrun).2.2.2 hne

/-- Instance for the client-side calls: the notebook scenario followed by the change
of the default and the removal of "Work". -/
theorem local_calls_keep_one_default_notebook_witness :
    ((∀ op ∈ workHomeRun ++ [Operation.setDefaultNotebook "h", Operation.expungeNotebook "w"],
        op.isLocalNotebookCall = true) ∧
     runOperations (NotesStore.init true)
        (workHomeRun ++ [Operation.setDefaultNotebook "h", Operation.expungeNotebook "w"]) =
       .ok (finalStore true
        (workHomeRun ++ [Operation.setDefaultNotebook "h", Operation.expungeNotebook "w"])) ∧
     (finalStore true
        (workHomeRun ++ [Operation.setDefaultNotebook "h", Operation.expungeNotebook "w"])
        ).m_notebooks ≠ []) ∧
    (finalStore true
      (workHomeRun ++ [Operation.setDefaultNotebook "h", Operation.expungeNotebook "w"])
      ).defaultCount = 1 :=
  ⟨⟨by decide, rfl, by decide⟩,
    local_calls_keep_one_default_notebook true
      (workHomeRun ++ [Operation.setDefaultNotebook "h", Operation.expungeNotebook "w"])
      _ (by decide) rfl (by decide)⟩

/-! ### Moving the notes of an expunged notebook -/

theorem filter_length_le_of_imp {l : List Nat} {f f' : Nat → Bool}
    (hle : ∀ q ∈ l, f' q = true → f q = true) :
    (l.filter f').length ≤ (l.filter f).length := by
  induction l with
  | nil => simp
  | cons a rest ih =>
    have ih' := ih (fun q hq => hle q (List.mem_cons_of_mem _ hq))
    have ha := hle a (List.mem_cons_self _ _)
    cases hfa' : f' a with
    | false =>
      cases hfa : f a with
      | false => simpa [List.filter_cons, hfa, hfa'] using ih'
      | true =>
        simp only [List.filter_cons, hfa, hfa', if_true, List.length_cons]
        simp
        omega
    | true =>
      have hfa := ha hfa'
      simp only [List.filter_cons, hfa, hfa', if_true, List.length_cons]
      omega

theorem filter_length_lt {l : List Nat} {f f' : Nat → Bool} {r : Nat}
    (hle : ∀ q ∈ l, f' q = true → f q = true) (hr : r ∈ l) (hfr : f r = true)
    (hfr' : f' r = false) : (l.filter f').length < (l.filter f).length := by
  induction l with
  | nil => simp at hr
  | cons a rest ih =>
    have hle' : ∀ q ∈ rest, f' q = true → f q = true :=
      fun q hq => hle q (List.mem_cons_of_mem _ hq)
    by_cases har : a = r
    · subst har
      have := filter_length_le_of_imp hle'
      simp only [List.filter_cons, hfr, hfr', if_true, List.length_cons]
      simp
      omega
    · have hr' : r ∈ rest := by
        rcases List.mem_cons.1 hr with h | h
        · exact absurd h.symm har
        · exact h
      have ih' := ih hle' hr'
      have ha := hle a (List.mem_cons_self _ _)
      cases hfa' : f' a with
      | false =>
        cases hfa : f a with
        | false => simpa [List.filter_cons, hfa, hfa'] using ih'
        | true =>
          simp only [List.filter_cons, hfa, hfa', if_true, List.length_cons]
          simp
          omega
      | true =>
        have hfa := ha hfa'
        simp only [List.filter_cons, hfa, hfa', if_true, List.length_cons]
        omega

/-- The notes a notebook lists are the notes of the collection it owns. -/
theorem notebookNotesList_length (s : NotesStore) (g : String) :
    (s.notebookNotesList g).length = (s.m_notes.filter (s.ownsNote g)).length := by
  unfold notebookNotesList
  rw [List.length_map]
  generalize s.m_notes = l
  induction l with
  | nil => rfl
  | cons a rest ih =>
    cases hn : s.noteObjects[a]? with
    | none => simp [List.filterMap_cons, hn, List.filter_cons, ownsNote, ih]
    | some n =>
      by_cases hg : n.notebookGuid = g
      · simp [List.filterMap_cons, hn, List.filter_cons, ownsNote, hg, ih]
      · simp [List.filterMap_cons, hn, List.filter_cons, ownsNote, hg, ih]

/-- A listed identifier is the identifier of a note of the collection owned by the
notebook. -/
theorem notebookNotesList_mem (s : NotesStore) (g a : String)
    (h : a ∈ s.notebookNotesList g) :
    ∃ r note, r ∈ s.m_notes ∧ s.noteObjects[r]? = some note ∧ note.notebookGuid = g ∧
      note.guid = a := by
  unfold notebookNotesList at h
  simp only [List.mem_map, List.mem_filter, List.mem_filterMap, decide_eq_true_eq] at h
  obtain ⟨n, ⟨⟨r, hr, hn⟩, hg⟩, ha⟩ := h
  exact ⟨r, n, hr, hn, hg, ha⟩

/-- Result of `saveNote` on a note that is found, in one piece. -/
theorem saveNote_found (s : NotesStore) (guid : String) (p : Nat) (note : Note)
    (hv : s.m_notesHash.value guid = some p) (hn : s.noteObjects[p]? = some note) :
    s.saveNote guid = .ok { s with
      noteObjects := s.noteObjects.set p (s.savedNote note),
      cacheNotes := s.cacheNotes.setValue note.guid (note.updateSequenceNumber + 1),
      jobQueue := s.jobQueue ++ s.saveNoteJobs p note } := by
  unfold saveNote
  simp only [hv, derefNote, hn]
  by_cases hc : s.connected = true
  · by_cases hz : note.lastSyncedSequenceNumber = 0
    · simp [syncToCacheFileNote, hc, hz, savedNote, saveNoteJobs, setNote, enqueueWrite]
    · simp [syncToCacheFileNote, hc, hz, savedNote, saveNoteJobs, setNote, enqueueWrite]
  · simp [syncToCacheFileNote, hc, savedNote, saveNoteJobs, setNote]

/-- One turn of the note-moving loop. -/
theorem expungeNotebook_moveNotes_succ (g dg : String) (fuel : Nat) (s : NotesStore)
    (a : String) (rest : List String) (r : Nat) (n : Note)
    (hlist : s.notebookNotesList g = a :: rest)
    (hva : s.m_notesHash.value a = some r)
    (hvn : s.m_notesHash.value n.guid = some r)
    (hn : s.noteObjects[r]? = some n) :
    expungeNotebook_moveNotes g dg (fuel + 1) s =
      expungeNotebook_moveNotes g dg fuel (s.afterMove r n dg) := by
  have hrlt : r < s.noteObjects.length := (List.getElem?_eq_some.1 hn).1
  have hn1 : (s.setNote r { n with notebookGuid := dg }).noteObjects[r]? =
      some { n with notebookGuid := dg } := by
    simp [NotesStore.setNote, List.getElem?_set, hrlt]
  have hsave := saveNote_found (s.setNote r { n with notebookGuid := dg }) n.guid r
    { n with notebookGuid := dg } hvn hn1
  conv => lhs; unfold expungeNotebook_moveNotes
  simp only [hlist, hva, derefNote, hn, hsave]
  have hget : (List.set (s.setNote r { n with notebookGuid := dg }).noteObjects r
      ((s.setNote r { n with notebookGuid := dg }).savedNote { n with notebookGuid := dg }))[r]? =
      some ((s.setNote r { n with notebookGuid := dg }).savedNote
        { n with notebookGuid := dg }) := by
    simp [NotesStore.setNote, List.getElem?_set, hrlt]
  simp only [hget]
  congr 1
  simp [NotesStore.afterMove, NotesStore.setNote, syncToCacheFileNote, savedNote, saveNoteJobs]

/-- The loop of `expungeNotebook` ends and moves exactly the notes of the notebook,
on a store whose note collection is listed in the lookup table, when the default
notebook is another notebook and the fuel covers the notes of the notebook. -/
theorem expungeNotebook_moveNotes_spec (g dg : String) (hne : dg ≠ g) :
    ∀ (fuel : Nat) (s : NotesStore), s.NotesListed →
      (s.m_notes.filter (s.ownsNote g)).length ≤ fuel →
      ∃ s', expungeNotebook_moveNotes g dg fuel s = .ok s' ∧ OnlyNotesChanged s s' ∧
        (∀ p ∈ s.m_notes, ∀ note, s.noteObjects[p]? = some note →
          ∃ note', s'.noteObjects[p]? = some note' ∧ MovedNote g dg note note') := by
  have hdone : ∀ (fuel : Nat) (s : NotesStore), s.notebookNotesList g = [] →
      ∃ s', expungeNotebook_moveNotes g dg fuel s = .ok s' ∧ OnlyNotesChanged s s' ∧
        (∀ p ∈ s.m_notes, ∀ note, s.noteObjects[p]? = some note →
          ∃ note', s'.noteObjects[p]? = some note' ∧ MovedNote g dg note note') := by
    intro fuel s hnil
    refine ⟨s, by unfold expungeNotebook_moveNotes; simp [hnil], rfl, ?_⟩
    intro p hp note hn
    refine ⟨note, hn, ?_, fun _ => rfl⟩
    intro hg
    exfalso
    have hmem : p ∈ s.m_notes.filter (s.ownsNote g) :=
      List.mem_filter.2 ⟨hp, by simp [ownsNote, hn, hg]⟩
    have hlen : (s.m_notes.filter (s.ownsNote g)).length = 0 := by
      rw [← notebookNotesList_length, hnil]
      rfl
    rw [List.length_eq_zero.1 hlen] at hmem
    simp at hmem
  intro fuel
  induction fuel with
  | zero =>
    intro s _ hc
    apply hdone
    apply List.length_eq_zero.1
    rw [notebookNotesList_length]
    omega
  | succ fuel ih =>
    intro s hl hc
    cases hlist : s.notebookNotesList g with
    | nil => exact hdone _ s hlist
    | cons a rest =>
      obtain ⟨r, n, hr, hn, hg, ha⟩ := notebookNotesList_mem s g a (by rw [hlist]; simp)
      have hvr : s.m_notesHash.value n.guid = some r := by
        have := hl r hr
        simpa [hn] using this
      have hva : s.m_notesHash.value a = some r := ha ▸ hvr
      have hrlt : r < s.noteObjects.length := (List.getElem?_eq_some.1 hn).1
      have hstep := expungeNotebook_moveNotes_succ g dg fuel s a rest r n hlist hva hvr hn
      have hobj3 : ∀ q, q ≠ r → (s.afterMove r n dg).noteObjects[q]? = s.noteObjects[q]? := by
        intro q hq
        have hq' : ¬ r = q := fun h => hq h.symm
        simp [NotesStore.afterMove, List.getElem?_set, hq']
      have hobjr : (s.afterMove r n dg).noteObjects[r]? =
          some (s.savedNote { n with notebookGuid := dg }) := by
        simp [NotesStore.afterMove, List.getElem?_set, hrlt]
      have hl3 : (s.afterMove r n dg).NotesListed := by
        intro q hq
        have hq0 : q ∈ s.m_notes := hq
        by_cases hqr : q = r
        · subst hqr
          rw [hobjr]
          simpa [savedNote, NotesStore.afterMove] using hvr
        · rw [hobj3 q hqr]
          exact hl q hq0
      have hc3 : ((s.afterMove r n dg).m_notes.filter ((s.afterMove r n dg).ownsNote g)).length
          ≤ fuel := by
        have hlt : (s.m_notes.filter ((s.afterMove r n dg).ownsNote g)).length <
            (s.m_notes.filter (s.ownsNote g)).length := by
          apply filter_length_lt (r := r) _ hr
          · simp [ownsNote, hn, hg]
          · simp [ownsNote, hobjr, savedNote, hne]
          · intro q _ hq3
            by_cases hqr : q = r
            · subst hqr
              simp [ownsNote, hobjr, savedNote, hne] at hq3
            · simpa [ownsNote, hobj3 q hqr] using hq3
        have hm : (s.afterMove r n dg).m_notes = s.m_notes := rfl
        rw [hm]
        omega
      obtain ⟨s', hrun, hchg, hpost⟩ := ih (s.afterMove r n dg) hl3 hc3
      refine ⟨s', by rw [hstep]; exact hrun, ?_, ?_⟩
      · have h03 : OnlyNotesChanged s (s.afterMove r n dg) := rfl
        exact h03.only_trans hchg
      · intro p hp note hnp
        by_cases hpr : p = r
        · subst hpr
          rw [hn] at hnp
          cases hnp
          obtain ⟨note', hn', hm⟩ := hpost p hp _ hobjr
          have heq := hm.2 (by simp [savedNote, hne])
          refine ⟨note', hn', ?_, fun h => absurd hg h⟩
          intro _
          rw [heq]
          simp [savedNote]
        · obtain ⟨note', hn', hm⟩ := hpost p hp note (by rw [hobj3 p hpr]; exact hnp)
          exact ⟨note', hn', hm⟩

theorem QHash.value_remove_self (h : QHash) (key : String) :
    (QHash.remove h key).value key = none := by
  induction h with
  | nil => rfl
  | cons e rest ih =>
    obtain ⟨k, w⟩ := e
    simp only [QHash.remove] at ih ⊢
    by_cases hk : k = key
    · simp [List.filter_cons, hk] at ih ⊢
      exact ih
    · simp [List.filter_cons, hk, QHash.value] at ih ⊢
      exact ih

/-- The block of `expungeNotebook` that moves the notes, on a consistent store with
another notebook as default: it returns a store and has moved exactly the notes of the
notebook. -/
theorem expungeNotebook_reassign_spec (s : NotesStore) (d : Nat) (notebook defaultNb : Notebook)
    (hd : s.firstDefaultNotebook = some d)
    (hdn : s.notebookObjects[d]? = some defaultNb)
    (hdg : defaultNb.guid ≠ "")
    (hdne : defaultNb.guid ≠ notebook.guid)
    (hl : s.NotesListed) :
    ∃ t, s.expungeNotebook_reassign notebook = .ok (some t) ∧ OnlyNotesChanged s t ∧
      (∀ q ∈ s.m_notes, ∀ note, s.noteObjects[q]? = some note →
        ∃ note', t.noteObjects[q]? = some note' ∧
          MovedNote notebook.guid defaultNb.guid note note') := by
  have hdef : s.defaultNotebookGuid = defaultNb.guid := by
    simp [defaultNotebookGuid, hd, hdn]
  unfold expungeNotebook_reassign
  by_cases hN : (s.notebookNotesList notebook.guid).length > 0
  · simp only [hN, if_true, hdef, hdg, if_false]
    obtain ⟨t, ht, hchg, hpost⟩ := expungeNotebook_moveNotes_spec notebook.guid defaultNb.guid
      hdne (s.notebookNotesList notebook.guid).length s hl
      (by rw [notebookNotesList_length])
    exact ⟨t, by rw [ht], hchg, hpost⟩
  · simp only [hN, if_false]
    obtain ⟨t, ht, hchg, hpost⟩ := expungeNotebook_moveNotes_spec notebook.guid defaultNb.guid
      hdne 0 s hl (by rw [← notebookNotesList_length]; omega)
    have hnil : s.notebookNotesList notebook.guid = [] :=
      List.length_eq_zero.1 (by omega)
    have hts : t = s := by
      unfold expungeNotebook_moveNotes at ht
      simp [hnil] at ht
      exact ht.symm
    subst hts
    exact ⟨t, rfl, hchg, hpost⟩

/-- After the notes are moved the notebook lists no note. -/
theorem notebookNotesList_eq_nil_of_moved (s t : NotesStore) (g dg : String) (hne : dg ≠ g)
    (hl : s.NotesListed) (hnotes : t.m_notes = s.m_notes)
    (hpost : ∀ q ∈ s.m_notes, ∀ note, s.noteObjects[q]? = some note →
        ∃ note', t.noteObjects[q]? = some note' ∧ MovedNote g dg note note') :
    t.notebookNotesList g = [] := by
  apply List.length_eq_zero.1
  rw [notebookNotesList_length, hnotes, List.length_eq_zero, List.filter_eq_nil_iff]
  intro q hq
  have hlq := hl q hq
  cases hn : s.noteObjects[q]? with
  | none => simp [hn] at hlq
  | some note =>
    obtain ⟨note', hn', hm⟩ := hpost q hq note hn
    by_cases hg : note.notebookGuid = g
    · have := (hm.1 hg).1
      simp [ownsNote, hn', this, hne]
    · have := hm.2 hg
      subst this
      simp [ownsNote, hn', hg]

/-- C9. Expunging a notebook that owns notes. Let `guid` name a notebook that is
stored under its own identifier and does not carry the default flag, let the first
default notebook of the collection be another notebook with a non-empty identifier,
and let every note of the collection be found in the lookup table under its own
identifier (the build does not forbid expunging). Then `expungeNotebook` returns;
every note of the notebook now names the default notebook and has been saved once
(its `updateSequenceNumber` is one higher; identifier, title, body, tags and
`lastSyncedSequenceNumber` are unchanged), every other note is unchanged, and the
notebook lists no note any more. If the notebook's `lastSyncedSequenceNumber` is 0 it
is gone from the collection, the lookup table and the cache; otherwise it stays in
the collection and the lookup table with its deleted flag set. -/
theorem expungeNotebook_reassigns_notes (s : NotesStore) (guid : String) (p d : Nat)
    (notebook defaultNb : Notebook)
    (hflag : ¬ (s.NO_EXPUNGE_NOTEBOOKS = true ∧ s.m_username ≠ "@local"))
    (hv : s.m_notebooksHash.value guid = some p)
    (hn : s.notebookObjects[p]? = some notebook)
    (hkey : notebook.guid = guid)
    (hnd : notebook.isDefaultNotebook = false)
    (hd : s.firstDefaultNotebook = some d)
    (hdn : s.notebookObjects[d]? = some defaultNb)
    (hdg : defaultNb.guid ≠ "")
    (hdne : defaultNb.guid ≠ notebook.guid)
    (hl : s.NotesListed) :
    ∃ s', s.expungeNotebook guid = .ok s' ∧
      s'.m_notes = s.m_notes ∧ s'.m_notesHash = s.m_notesHash ∧
      (∀ q ∈ s.m_notes, ∀ note, s.noteObjects[q]? = some note →
        ∃ note', s'.noteObjects[q]? = some note' ∧ MovedNote guid defaultNb.guid note note') ∧
      s'.notebookNotesList guid = [] ∧
      (notebook.lastSyncedSequenceNumber = 0 →
        s'.m_notebooks = removeAll s.m_notebooks p ∧ p ∉ s'.m_notebooks ∧
        s'.m_notebooksHash.value guid = none ∧
        (∀ e ∈ s'.cacheNotebooks, e.1 ≠ guid)) ∧
      (notebook.lastSyncedSequenceNumber ≠ 0 →
        s'.m_notebooks = s.m_notebooks ∧ s'.m_notebooksHash = s.m_notebooksHash ∧
        ∃ notebook', s'.notebookObjects[p]? = some notebook' ∧ notebook'.deleted = true ∧
          notebook'.guid = guid ∧
          notebook'.updateSequenceNumber = notebook.updateSequenceNumber + 1) := by
  obtain ⟨t, ht, hchg, hpost⟩ := expungeNotebook_reassign_spec s d notebook defaultNb hd hdn
    hdg hdne hl
  have htn : t.m_notes = s.m_notes := by unfold OnlyNotesChanged at hchg; rw [hchg]
  have hth : t.m_notesHash = s.m_notesHash := by unfold OnlyNotesChanged at hchg; rw [hchg]
  have htnb : t.m_notebooks = s.m_notebooks := by unfold OnlyNotesChanged at hchg; rw [hchg]
  have htnh : t.m_notebooksHash = s.m_notebooksHash := by
    unfold OnlyNotesChanged at hchg; rw [hchg]
  have htno : t.notebookObjects = s.notebookObjects := by
    unfold OnlyNotesChanged at hchg; rw [hchg]
  have hplt : p < t.notebookObjects.length := by
    rw [htno]
    exact (List.getElem?_eq_some.1 hn).1
  have hnil := notebookNotesList_eq_nil_of_moved s t notebook.guid defaultNb.guid hdne hl htn
    hpost
  have hnd' : ¬ notebook.isDefaultNotebook = true := by simp [hnd]
  subst hkey
  unfold expungeNotebook
  simp only [if_neg hflag, hv, derefNotebook, hn, if_neg hnd', ht]
  by_cases hz : notebook.lastSyncedSequenceNumber = 0
  · simp only [if_pos hz]
    refine ⟨_, rfl, htn, hth, hpost, hnil, ?_, fun h => absurd hz h⟩
    intro _
    refine ⟨by rw [← htnb], ?_, ?_, ?_⟩
    · show p ∉ removeAll t.m_notebooks p
      simp [removeAll]
    · exact QHash.value_remove_self _ _
    · intro e he
      have he' : e ∈ CacheGroup.remove t.cacheNotebooks notebook.guid := he
      simp only [CacheGroup.remove, List.mem_filter, decide_eq_true_eq] at he'
      exact he'.2
  · simp only [if_neg hz, syncToCacheFileNotebook, setNotebook]
    by_cases hc : t.connected = true
    · rw [if_pos hc]
      refine ⟨_, rfl, htn, hth, hpost, hnil, fun h => absurd h hz, ?_⟩
      intro _
      refine ⟨htnb, htnh,
        { notebook with deleted := true,
                        updateSequenceNumber := notebook.updateSequenceNumber + 1 },
        ?_, rfl, rfl, rfl⟩
      simp [enqueue, List.getElem?_set, hplt]
    · rw [if_neg hc]
      refine ⟨_, rfl, htn, hth, hpost, hnil, fun h => absurd h hz, ?_⟩
      intro _
      refine ⟨htnb, htnh,
        { notebook with deleted := true,
                        updateSequenceNumber := notebook.updateSequenceNumber + 1 },
        ?_, rfl, rfl, rfl⟩
      simp [List.getElem?_set, hplt]

/-- Instance of C9: notebook "Home" owns two notes and was never synced, "Work" is
the default. Expunging "Home" moves both notes to "Work", saves them (sequence number
2) and removes "Home". -/
theorem expungeNotebook_reassigns_notes_witness :
    (¬ (ownedNotesStore.NO_EXPUNGE_NOTEBOOKS = true ∧ ownedNotesStore.m_username ≠ "@local") ∧
     ownedNotesStore.m_notebooksHash.value "h" = some 1 ∧
     (ownedNotesStore.notebookObjects[1]?).map
        (fun n => (n.guid, n.isDefaultNotebook, n.lastSyncedSequenceNumber)) =
        some ("h", false, 0) ∧
     ownedNotesStore.firstDefaultNotebook = some 0 ∧
     (ownedNotesStore.notebookObjects[0]?).map (fun n => n.guid) = some "w" ∧
     ownedNotesStore.NotesListed ∧
     noteSummary ownedNotesStore = [("n1", "h", 1), ("n2", "h", 1), ("n3", "w", 1)]) ∧
    (∃ s', ownedNotesStore.expungeNotebook "h" = .ok s' ∧
      s'.m_notes = ownedNotesStore.m_notes ∧ s'.m_notesHash = ownedNotesStore.m_notesHash ∧
      (∀ q ∈ ownedNotesStore.m_notes, ∀ note, ownedNotesStore.noteObjects[q]? = some note →
        ∃ note', s'.noteObjects[q]? = some note' ∧ MovedNote "h" "w" note note') ∧
      s'.notebookNotesList "h" = [] ∧
      ((0 : Nat) = 0 →
        s'.m_notebooks = removeAll ownedNotesStore.m_notebooks 1 ∧ 1 ∉ s'.m_notebooks ∧
        s'.m_notebooksHash.value "h" = none ∧
        (∀ e ∈ s'.cacheNotebooks, e.1 ≠ "h")) ∧
      ((0 : Nat) ≠ 0 →
        s'.m_notebooks = ownedNotesStore.m_notebooks ∧
        s'.m_notebooksHash = ownedNotesStore.m_notebooksHash ∧
        ∃ notebook', s'.notebookObjects[1]? = some notebook' ∧ notebook'.deleted = true ∧
          notebook'.guid = "h" ∧
          notebook'.updateSequenceNumber = 1 + 1)) ∧
    noteSummary (finalStore false (ownedNotesRun ++ [Operation.expungeNotebook "h"])) =
      [("n1", "w", 2), ("n2", "w", 2), ("n3", "w", 1)] ∧
    notebookSummary (finalStore false (ownedNotesRun ++ [Operation.expungeNotebook "h"])) =
      [("w", "Work", true, false)] :=
  ⟨⟨by decide, by decide, by decide, by decide, by decide,
      by unfold NotesListed; decide, by decide⟩,
    expungeNotebook_reassigns_notes ownedNotesStore "h" 1 0
      (ownedNotesStore.notebookObjects.getD 1 (Notebook.new "" 0))
      (ownedNotesStore.notebookObjects.getD 0 (Notebook.new "" 0))
      (by decide) (by decide) (by decide) (by decide) (by decide) (by decide) (by decide)
      (by decide) (by decide) (by unfold NotesListed; decide),
    by decide, by decide⟩

/-! ### Two note passes in a row -/

theorem QHash.value_insert_of_ne (h : QHash) (key other : String) (v : Nat)
    (hne : key ≠ other) : (QHash.insert h other v).value key = h.value key := by
  induction h with
  | nil => simp [QHash.insert, QHash.value, Ne.symm hne]
  | cons e rest ih =>
    obtain ⟨k, w⟩ := e
    by_cases hk : k = other
    · subst hk
      simp [QHash.insert, QHash.value, Ne.symm hne]
    · by_cases hkk : k = key
      · subst hkk
        simp [QHash.insert, QHash.value, hne]
      · simp [QHash.insert, QHash.value, hk, hkk, ih]

theorem QHash.not_mem_of_value_none (h : QHash) (key : String)
    (hv : h.value key = none) (e : String × Nat) (he : e ∈ h) : e.1 ≠ key := by
  induction h with
  | nil => simp at he
  | cons x rest ih =>
    obtain ⟨k, w⟩ := x
    by_cases hk : k = key
    · simp [QHash.value, hk] at hv
    · simp only [QHash.value, if_neg hk] at hv
      rcases List.mem_cons.1 he with h1 | h1
      · subst h1
        exact hk
      · exact ih hv h1

theorem indexOf_of_mem {α : Type} [DecidableEq α] (l : List α) (x : α) (hx : x ∈ l) :
    ∃ i, indexOf l x = some i := by
  induction l with
  | nil => simp at hx
  | cons y rest ih =>
    by_cases hy : y = x
    · exact ⟨0, by simp [indexOf, hy]⟩
    · rcases List.mem_cons.1 hx with h1 | h1
      · exact absurd h1.symm hy
      · obtain ⟨i, hi⟩ := ih h1
        exact ⟨i + 1, by simp [indexOf, hy, hi]⟩

theorem mem_eraseIdx_indexOf {α : Type} [DecidableEq α] (l : List α) (x y : α) (i : Nat)
    (hi : indexOf l x = some i) (hy : y ∈ l) (hne : y ≠ x) : y ∈ l.eraseIdx i := by
  induction l generalizing i with
  | nil => simp at hy
  | cons z rest ih =>
    by_cases hz : z = x
    · simp [indexOf, hz] at hi
      subst hi
      rcases List.mem_cons.1 hy with h1 | h1
      · exact absurd (h1.trans hz) hne
      · simpa using h1
    · simp only [indexOf, if_neg hz] at hi
      cases hr : indexOf rest x with
      | none => simp [hr] at hi
      | some j =>
        simp [hr] at hi
        subst hi
        rcases List.mem_cons.1 hy with h1 | h1
        · subst h1
          simp
        · simp only [List.eraseIdx_cons_succ, List.mem_cons]
          exact Or.inr (ih j hr h1)

/-- A step of the page loop that found the note of the summary keeps `PassClean`. -/
theorem PassClean.step_found {seen : List NoteMetadata} {s t : NotesStore} {r : NoteMetadata}
    {p : Nat} {note x : Note} (h : s.PassClean seen)
    (hv : s.m_notesHash.value r.guid = some p) (hn : s.noteObjects[p]? = some note)
    (hhash : t.m_notesHash = s.m_notesHash) (hnotes : t.m_notes = s.m_notes)
    (hun : t.m_unhandledNotes = removeAll s.m_unhandledNotes r.guid)
    (hobj : ∀ q, q ≠ p → t.noteObjects[q]? = s.noteObjects[q]?)
    (hx : t.noteObjects[p]? = some x) (hg : x.guid = note.guid) (hs : x.synced = true)
    (hmono : note.updateSequenceNumber ≤ x.updateSequenceNumber)
    (hr : r.updateSequenceNum ≤ x.updateSequenceNumber)
    (hconn : t.connected = s.connected) : t.PassClean (seen ++ [r]) := by
  have hguid : note.guid = r.guid := h.keyed.guid_of_value hv hn
  have hkey : ∀ e ∈ s.m_notesHash, e.2 = p → e.1 = r.guid := by
    intro e he hep
    have := h.keyed e he
    rw [hep, hn] at this
    simp at this
    rw [← this, hguid]
  have hmemUn : ∀ g, g ∈ t.m_unhandledNotes ↔ g ∈ s.m_unhandledNotes ∧ g ≠ r.guid := by
    intro g
    rw [hun]
    simp [removeAll, List.mem_filter]
  refine ⟨?_, ?_, ?_, ?_, ?_, ?_, ?_⟩
  · intro e he
    rw [hhash] at he
    by_cases hep : e.2 = p
    · rw [hep, hx]
      simp [hg, hguid, hkey e he hep]
    · rw [hobj _ hep]
      exact h.keyed e he
  · intro e he
    rw [hhash] at he
    rw [hnotes]
    exact h.listed e he
  · intro e he n hne
    rw [hhash] at he
    by_cases hep : e.2 = p
    · rw [hep, hx] at hne
      cases hne
      exact hs
    · rw [hobj _ hep] at hne
      exact h.synced e he n hne
  · intro e he n hne hmem
    rw [hhash] at he
    have hm := (hmemUn e.1).1 hmem
    by_cases hep : e.2 = p
    · exact absurd (hkey e he hep) hm.2
    · rw [hobj _ hep] at hne
      exact h.onServer e he n hne hm.1
  · intro e he
    rw [hhash] at he
    by_cases heg : e.1 = r.guid
    · exact Or.inr ⟨r, by simp, heg.symm⟩
    · rcases h.covered e he with h1 | ⟨r', hr', hg'⟩
      · exact Or.inl ((hmemUn e.1).2 ⟨h1, heg⟩)
      · exact Or.inr ⟨r', by simp [hr'], hg'⟩
  · intro r' hr'
    rcases List.mem_append.1 hr' with h1 | h1
    · obtain ⟨hnot, q, n, hq, hqn, hle⟩ := h.handled r' h1
      refine ⟨fun hm => hnot ((hmemUn _).1 hm).1, ?_⟩
      by_cases hqp : q = p
      · subst hqp
        rw [hn] at hqn
        cases hqn
        exact ⟨q, x, by rw [hhash]; exact hq, hx, le_trans hle hmono⟩
      · exact ⟨q, n, by rw [hhash]; exact hq, by rw [hobj _ hqp]; exact hqn, hle⟩
    · simp at h1
      subst h1
      refine ⟨fun hm => ((hmemUn _).1 hm).2 rfl, p, x, by rw [hhash]; exact hv, hx, hr⟩
  · rw [hconn]
    exact h.conn

theorem refreshNoteContent_found (s : NotesStore) (guid : String) (what : LoadWhatFlags)
    (priority : JobPriority) (p : Nat) (note : Note)
    (hv : s.m_notesHash.value guid = some p) (hn : s.noteObjects[p]? = some note) :
    ∃ t x, s.refreshNoteContent guid what priority = .ok t ∧
      t = { s with jobQueue := t.jobQueue, noteObjects := s.noteObjects.set p x } ∧
      (x = note ∨ x = { note with loading := true }) := by
  have hset : s.noteObjects.set p note = s.noteObjects := by
    apply List.ext_getElem?
    intro i
    by_cases hi : p = i
    · subst hi
      simp [List.getElem?_set, hn, (List.getElem?_eq_some.1 hn).1]
    · simp [List.getElem?_set, hi]
  simp only [refreshNoteContent, hv, derefNote, hn]
  by_cases hc : s.connected = true
  · by_cases hl : note.loading = true
    · refine ⟨_, note, by simp only [hc, hl, if_true]; rfl, ?_, Or.inl rfl⟩
      simp [enqueue, hset]
    · refine ⟨_, { note with loading := true }, by simp only [hc, hl, if_true]; rfl, ?_,
        Or.inr rfl⟩
      simp [enqueue, setNote]
  · refine ⟨_, note, by simp only [hc]; rfl, ?_, Or.inl rfl⟩
    simp [hset]

theorem synced_iff (n : Note) :
    n.synced = true ↔ n.updateSequenceNumber = n.lastSyncedSequenceNumber := by
  simp [NoteData.synced]

theorem fetchNotesJobDone_searchResult_noWords (results : NotesMetadataList) (s : NotesStore)
    (p : Nat) (hwords : results.searchedWords = []) :
    fetchNotesJobDone_searchResult results s p = s := by
  simp [fetchNotesJobDone_searchResult, hwords]

/-- One summary of a page handled on a store that keeps `PassClean`. -/
theorem fetchNotesJobDone_result_clean {seen : List NoteMetadata} {s : NotesStore}
    (results : NotesMetadataList) (r : NoteMetadata) (h : s.PassClean seen)
    (hisset : r.isset.updateSequenceNum = true) (hwords : results.searchedWords = []) :
    ∃ t, fetchNotesJobDone_result results s r = .ok t ∧ t.PassClean (seen ++ [r]) ∧
      t.m_loading = s.m_loading := by
  cases hv : s.m_notesHash.value r.guid with
  | none =>
    have hnew : (updateFromEDAM r (Note.new r.guid 0)).synced = true := by
      rw [synced_iff, updateFromEDAM_updateSequenceNumber,
        updateFromEDAM_lastSyncedSequenceNumber, hisset]
      simp
    have husn : (updateFromEDAM r (Note.new r.guid 0)).updateSequenceNumber =
        r.updateSequenceNum := by
      rw [updateFromEDAM_updateSequenceNumber, hisset]
      simp
    have hlen : ∀ e ∈ s.m_notesHash, e.2 < s.noteObjects.length := by
      intro e he
      have := h.keyed e he
      cases hq : s.noteObjects[e.2]? with
      | none => simp [hq] at this
      | some n => exact (List.getElem?_eq_some.1 hq).1
    generalize hres : fetchNotesJobDone_result results s r = res
    simp only [fetchNotesJobDone_result, hv,
      fetchNotesJobDone_searchResult_noWords _ _ _ hwords] at hres
    subst hres
    refine ⟨_, rfl, ?_, rfl⟩
    simp only [syncToCacheFileNote, updateFromEDAM_guid]
    refine ⟨?_, ?_, ?_, ?_, ?_, ?_, h.conn⟩
    · intro e he
      rcases QHash.mem_insert _ _ _ _ he with h1 | h1
      · subst h1
        simp [updateFromEDAM_guid]
      · have := h.keyed e h1
        simpa [List.getElem?_append_left (hlen e h1)] using this
    · intro e he
      rcases QHash.mem_insert _ _ _ _ he with h1 | h1
      · subst h1
        simp
      · exact List.mem_append_left _ (h.listed e h1)
    · intro e he n hne
      rcases QHash.mem_insert _ _ _ _ he with h1 | h1
      · subst h1
        simp at hne
        subst hne
        exact hnew
      · simp only [List.getElem?_append_left (hlen e h1)] at hne
        exact h.synced e h1 n hne
    · intro e he n hne hmem
      simp only [removeAll, List.mem_filter, decide_eq_true_eq] at hmem
      rcases QHash.mem_insert _ _ _ _ he with h1 | h1
      · subst h1
        exact absurd rfl hmem.2
      · simp only [List.getElem?_append_left (hlen e h1)] at hne
        exact h.onServer e h1 n hne hmem.1
    · intro e he
      rcases QHash.mem_insert _ _ _ _ he with h1 | h1
      · subst h1
        exact Or.inr ⟨r, by simp, rfl⟩
      · by_cases heg : e.1 = r.guid
        · exact Or.inr ⟨r, by simp, heg.symm⟩
        · rcases h.covered e h1 with h2 | ⟨r', hr', hg'⟩
          · exact Or.inl (by simp [removeAll, List.mem_filter, h2, heg])
          · exact Or.inr ⟨r', by simp [hr'], hg'⟩
    · intro r' hr'
      rcases List.mem_append.1 hr' with h1 | h1
      · obtain ⟨hnot, q, n, hq, hqn, hle⟩ := h.handled r' h1
        have hne : r'.guid ≠ r.guid := by
          intro heq
          rw [heq, hv] at hq
          cases hq
        refine ⟨fun hm => hnot (by
          simp only [removeAll, List.mem_filter] at hm
          exact hm.1), q, n, ?_, ?_, hle⟩
        · rw [QHash.value_insert_of_ne _ _ _ _ hne]
          exact hq
        · rw [List.getElem?_append_left (List.getElem?_eq_some.1 hqn).1]
          exact hqn
      · simp at h1
        subst h1
        refine ⟨fun hm => by simp [removeAll, List.mem_filter] at hm, s.noteObjects.length, _,
          QHash.value_insert_self _ _ _, List.getElem?_concat_length _ _, le_of_eq husn.symm⟩
  | some p =>
    obtain ⟨note, hn, hg⟩ := h.keyed.exists_of_value hv
    have hs : note.synced = true := h.synced _ (QHash.mem_of_value _ _ _ hv) note hn
    by_cases hlt : note.updateSequenceNumber < r.updateSequenceNum
    · have hv1 : ({ s with m_unhandledNotes := removeAll s.m_unhandledNotes r.guid }.setNote p
          (updateFromEDAM r note)).m_notesHash.value (updateFromEDAM r note).guid = some p := by
        rw [updateFromEDAM_guid]
        exact hv
      have hp : p < s.noteObjects.length := (List.getElem?_eq_some.1 hn).1
      have hn1 : ({ s with m_unhandledNotes := removeAll s.m_unhandledNotes r.guid }.setNote p
          (updateFromEDAM r note)).noteObjects[p]? = some (updateFromEDAM r note) := by
        simp [setNote, List.getElem?_set, hp]
      obtain ⟨t, x, ht, hteq, hx⟩ := refreshNoteContent_found _ _ LoadContent
        JobPriority.JobPriorityMedium p _ hv1 hn1
      have husn : (updateFromEDAM r note).updateSequenceNumber = r.updateSequenceNum := by
        rw [updateFromEDAM_updateSequenceNumber, hisset]
        simp
      have hxs : x.synced = true ∧ x.guid = r.guid ∧
          x.updateSequenceNumber = r.updateSequenceNum := by
        rcases hx with hx | hx <;> subst hx <;>
          simp [synced_iff, NoteData.synced, updateFromEDAM_guid, husn,
            updateFromEDAM_lastSyncedSequenceNumber]
      refine ⟨t.syncToCacheFileNote (updateFromEDAM r note), by
        simp only [fetchNotesJobDone_result, hv, derefNote, hn, hs, hlt, if_true, ht,
          fetchNotesJobDone_searchResult_noWords _ _ _ hwords], ?_, ?_⟩
      · apply PassClean.step_found h hv hn (x := x)
        · rw [hteq]; rfl
        · rw [hteq]; rfl
        · rw [hteq]; rfl
        · intro q hq
          rw [hteq]
          simp [syncToCacheFileNote, setNote, List.getElem?_set, Ne.symm hq]
        · rw [hteq]
          simp [syncToCacheFileNote, setNote, List.getElem?_set, hp]
        · rw [hxs.2.1, hg]
        · exact hxs.1
        · rw [hxs.2.2]
          exact le_of_lt hlt
        · rw [hxs.2.2]
        · rw [hteq]; rfl
      · rw [hteq]; rfl
    · refine ⟨{ s with m_unhandledNotes := removeAll s.m_unhandledNotes r.guid }, by
        simp only [fetchNotesJobDone_result, hv, derefNote, hn, hs, hlt, if_true, if_false,
          fetchNotesJobDone_searchResult_noWords _ _ _ hwords], ?_, rfl⟩
      exact PassClean.step_found h hv hn rfl rfl rfl (fun q _ => rfl) hn rfl hs (le_refl _)
        (not_lt.1 hlt) rfl

theorem fetchNotesJobDone_results_clean (results : NotesMetadataList) (l : List NoteMetadata)
    (hwords : results.searchedWords = []) :
    ∀ (seen : List NoteMetadata) (s : NotesStore), s.PassClean seen →
    (∀ r ∈ l, r.isset.updateSequenceNum = true) →
    ∃ t, l.foldlM (fetchNotesJobDone_result results) s = .ok t ∧ t.PassClean (seen ++ l) ∧
      t.m_loading = s.m_loading := by
  induction l with
  | nil =>
    intro seen s h _
    exact ⟨s, rfl, by simpa using h, rfl⟩
  | cons r rest ih =>
    intro seen s h hisset
    obtain ⟨t, ht, hc, hl⟩ := fetchNotesJobDone_result_clean results r h
      (hisset r (by simp)) hwords
    obtain ⟨u, hu, hc2, hl2⟩ := ih (seen ++ [r]) t hc
      (fun r' hr' => hisset r' (List.mem_cons_of_mem _ hr'))
    refine ⟨u, ?_, by simpa using hc2, hl2.trans hl⟩
    simp only [List.foldlM_cons, ht]
    exact hu

/-- One turn of the loop over the unreported notes when nothing is pending: the note,
if the table still holds it, is removed. -/
theorem fetchNotesJobDone_unhandled_clean {seen : List NoteMetadata} {l : List String}
    {s : NotesStore} (g : String) (h : s.SurvivorsClean seen (g :: l)) :
    ∃ t, fetchNotesJobDone_unhandled s g = .ok t ∧ t.SurvivorsClean seen l ∧
      ∀ e ∈ t.m_notesHash, e ∈ s.m_notesHash ∧ e.1 ≠ g := by
  have hweak : s.SurvivorsClean seen l :=
    ⟨h.keyed, h.listed, h.synced,
      fun e he n hn hm => h.onServer e he n hn (List.mem_cons_of_mem _ hm),
      fun r hr => ⟨fun hm => (h.handled r hr).1 (List.mem_cons_of_mem _ hm), (h.handled r hr).2⟩,
      h.conn, h.idle⟩
  cases hv : s.m_notesHash.value g with
  | none =>
    refine ⟨s, by simp [fetchNotesJobDone_unhandled, hv], hweak, fun e he => ⟨he, ?_⟩⟩
    exact QHash.not_mem_of_value_none _ _ hv e he
  | some p =>
    obtain ⟨note, hn, hg⟩ := h.keyed.exists_of_value hv
    have hmem := QHash.mem_of_value _ _ _ hv
    have hs : note.synced = true := h.synced _ hmem note hn
    have hz : note.lastSyncedSequenceNumber ≠ 0 := h.onServer _ hmem note hn (by simp)
    obtain ⟨i, hi⟩ := indexOf_of_mem s.m_notes p (h.listed _ hmem)
    have hother : ∀ e ∈ s.m_notesHash, e.1 ≠ g → e.2 ≠ p := by
      intro e he hne hep
      have := h.keyed e he
      rw [hep, hn] at this
      simp at this
      exact hne (this.symm.trans hg)
    refine ⟨_, by
      simp only [fetchNotesJobDone_unhandled, hv, derefNote, hn, hz, hi, hs, if_true, if_false,
        removeNote, hg]
      rfl, ?_, ?_⟩
    · refine ⟨?_, ?_, ?_, ?_, ?_, h.conn, h.idle⟩
      · intro e he
        exact h.keyed e (QHash.mem_remove _ _ _ he)
      · intro e he
        have he1 := QHash.mem_remove _ _ _ he
        have hne : e.1 ≠ g := by
          simp only [QHash.remove, List.mem_filter, decide_eq_true_eq] at he
          exact he.2
        exact mem_eraseIdx_indexOf _ _ _ _ hi (h.listed e he1) (hother e he1 hne)
      · intro e he n hne
        exact h.synced e (QHash.mem_remove _ _ _ he) n hne
      · intro e he n hne hm
        exact h.onServer e (QHash.mem_remove _ _ _ he) n hne (List.mem_cons_of_mem _ hm)
      · intro r hr
        obtain ⟨hnot, q, n, hq, hqn, hle⟩ := h.handled r hr
        have hne : r.guid ≠ g := fun heq => hnot (by simp [heq])
        refine ⟨fun hm => hnot (List.mem_cons_of_mem _ hm), q, n, ?_, hqn, hle⟩
        show (QHash.remove s.m_notesHash g).value r.guid = some q
        rw [QHash.value_remove_of_ne _ _ _ hne]
        exact hq
    · intro e he
      refine ⟨QHash.mem_remove _ _ _ he, ?_⟩
      simp only [QHash.remove, List.mem_filter, decide_eq_true_eq] at he
      exact he.2

theorem fetchNotesJobDone_unhandled_clean_fold (seen : List NoteMetadata) (l : List String) :
    ∀ (s : NotesStore), s.SurvivorsClean seen l →
    ∃ t, l.foldlM fetchNotesJobDone_unhandled s = .ok t ∧ t.SurvivorsClean seen [] ∧
      ∀ e ∈ t.m_notesHash, e ∈ s.m_notesHash ∧ e.1 ∉ l := by
  induction l with
  | nil =>
    intro s h
    exact ⟨s, rfl, h, fun e he => ⟨he, by simp⟩⟩
  | cons g rest ih =>
    intro s h
    obtain ⟨t, ht, hc, hsub⟩ := fetchNotesJobDone_unhandled_clean g h
    obtain ⟨u, hu, hc2, hsub2⟩ := ih t hc
    refine ⟨u, ?_, hc2, fun e he => ?_⟩
    · simp only [List.foldlM_cons, ht]
      exact hu
    · obtain ⟨h1, h2⟩ := hsub2 e he
      obtain ⟨h3, h4⟩ := hsub e h1
      exact ⟨h3, by simp [h4, h2]⟩

/-- Only the fields named in `PassClean` matter for it. -/
theorem PassClean.congr_fields {seen : List NoteMetadata} {s t : NotesStore} (h : s.PassClean seen)
    (h1 : t.m_notesHash = s.m_notesHash) (h2 : t.m_notes = s.m_notes)
    (h3 : t.noteObjects = s.noteObjects) (h4 : t.m_unhandledNotes = s.m_unhandledNotes)
    (h5 : t.connected = s.connected) : t.PassClean seen := by
  refine ⟨?_, ?_, ?_, ?_, ?_, ?_, ?_⟩
  · intro e he
    rw [h1] at he
    rw [h3]
    exact h.keyed e he
  · intro e he
    rw [h1] at he
    rw [h2]
    exact h.listed e he
  · intro e he n hn
    rw [h1] at he
    rw [h3] at hn
    exact h.synced e he n hn
  · intro e he n hn hm
    rw [h1] at he
    rw [h3] at hn
    rw [h4] at hm
    exact h.onServer e he n hn hm
  · intro e he
    rw [h1] at he
    rw [h4]
    exact h.covered e he
  · intro r hr
    rw [h1, h3, h4]
    exact h.handled r hr
  · rw [h5]
    exact h.conn

/-- The request for the next page during a pass changes the job queue only. -/
theorem refreshNotes_loading (s : NotesStore) (filterNotebookGuid : String) (k : Nat)
    (hl : s.m_loading = true) :
    ∃ added, s.refreshNotes filterNotebookGuid k = { s with jobQueue := s.jobQueue ++ added } ∧
      ∀ j ∈ added, j.isFetchNotesJob = true := by
  by_cases hk : k = 0
  · have hs : s.refreshNotes filterNotebookGuid k = s := by simp [refreshNotes, hl, hk]
    exact ⟨[], by rw [hs, List.append_nil], by simp⟩
  · by_cases hc : s.connected = true
    · refine ⟨[Job.FetchNotesJob filterNotebookGuid "" k], ?_, by simp [Job.isFetchNotesJob]⟩
      have hs : s.refreshNotes filterNotebookGuid k =
          { s with m_loading := true,
                   jobQueue := s.jobQueue ++ [Job.FetchNotesJob filterNotebookGuid "" k] } := by
        simp [refreshNotes, hk, hc, enqueue]
      rw [hs, ← hl]
    · have hs : s.refreshNotes filterNotebookGuid k = s := by
        simp [refreshNotes, hk, hc]
      exact ⟨[], by rw [hs, List.append_nil], by simp⟩

/-- A page that announces more notes, handled during a pass with nothing pending. -/
theorem fetchNotesJobDone_page_clean {seen : List NoteMetadata} {s : NotesStore}
    (page : NotesMetadataList) (filterNotebookGuid : String) (h : s.PassClean seen)
    (hl : s.m_loading = true) (hmore : page.hasMore)
    (hisset : ∀ r ∈ page.notes, r.isset.updateSequenceNum = true)
    (hwords : page.searchedWords = []) :
    ∃ t, s.fetchNotesJobDone ErrorCode.ErrorCodeNoError page filterNotebookGuid = .ok t ∧
      t.PassClean (seen ++ page.notes) ∧ t.m_loading = true := by
  obtain ⟨u, hu, hc, hul⟩ := fetchNotesJobDone_results_clean page page.notes hwords seen s h hisset
  obtain ⟨added, hr, _⟩ := refreshNotes_loading u filterNotebookGuid
    (page.startIndex + page.notes.length) (hul.trans hl)
  have hmore' : page.startIndex + page.notes.length < page.totalNotes := hmore
  refine ⟨_, by
    simp only [fetchNotesJobDone, handleUserError, ne_eq, not_true_eq_false, if_false, hu]
    rw [if_pos hmore', hr], ?_, ?_⟩
  · exact hc.congr_fields rfl rfl rfl rfl rfl
  · exact hul.trans hl

/-- The page that ends the listing, handled during a pass with nothing pending: the
store agrees with the listing afterwards. -/
theorem fetchNotesJobDone_last_clean {seen : List NoteMetadata} {s : NotesStore}
    (page : NotesMetadataList) (filterNotebookGuid : String) (h : s.PassClean seen)
    (hmore : ¬ page.hasMore)
    (hisset : ∀ r ∈ page.notes, r.isset.updateSequenceNum = true)
    (hwords : page.searchedWords = []) :
    ∃ t, s.fetchNotesJobDone ErrorCode.ErrorCodeNoError page filterNotebookGuid = .ok t ∧
      t.AgreesWith (seen ++ page.notes) := by
  obtain ⟨u, hu, hc, _⟩ := fetchNotesJobDone_results_clean page page.notes hwords seen s h hisset
  have hsc : ({ u with m_loading := false } : NotesStore).SurvivorsClean (seen ++ page.notes)
      u.m_unhandledNotes :=
    ⟨hc.keyed, hc.listed, hc.synced, hc.onServer, hc.handled, hc.conn, rfl⟩
  obtain ⟨t, ht, hfin, hsub⟩ := fetchNotesJobDone_unhandled_clean_fold _ _ _ hsc
  have hmore' : ¬ page.startIndex + page.notes.length < page.totalNotes := hmore
  refine ⟨t, by
    simp only [fetchNotesJobDone, handleUserError, ne_eq, not_true_eq_false, if_false, hu]
    rw [if_neg hmore']
    exact ht, ?_⟩
  refine ⟨hfin.keyed, ?_, ?_, hfin.conn, hfin.idle⟩
  · intro e he
    obtain ⟨h1, h2⟩ := hsub e he
    rcases hc.covered e h1 with h3 | h3
    · exact absurd h3 h2
    · exact h3
  · intro r hr
    obtain ⟨_, q, n, hq, hqn, hle⟩ := hfin.handled r hr
    exact ⟨q, n, hq, hqn, hfin.synced _ (QHash.mem_of_value _ _ _ hq) n hqn, hle⟩

/-- The pages of a listing handled in order during a pass with nothing pending. -/
theorem fetchNotesJobDone_pages_clean (filterNotebookGuid : String)
    (pages : List NotesMetadataList) (last : NotesMetadataList) :
    ∀ (seen : List NoteMetadata) (s : NotesStore), s.PassClean seen → s.m_loading = true →
    (∀ page ∈ pages, page.hasMore) → ¬ last.hasMore →
    (∀ page ∈ pages ++ [last], ∀ r ∈ page.notes, r.isset.updateSequenceNum = true) →
    (∀ page ∈ pages ++ [last], page.searchedWords = []) →
    ∃ t, (pages ++ [last]).foldlM
        (fun s page => s.fetchNotesJobDone ErrorCode.ErrorCodeNoError page filterNotebookGuid) s
        = .ok t ∧ t.AgreesWith (seen ++ listedNotes (pages ++ [last])) := by
  induction pages with
  | nil =>
    intro seen s h _ _ hlast hisset hwords
    obtain ⟨t, ht, ha⟩ := fetchNotesJobDone_last_clean last filterNotebookGuid h hlast
      (hisset last (by simp)) (hwords last (by simp))
    refine ⟨t, ?_, by simpa [listedNotes] using ha⟩
    simp only [List.nil_append, List.foldlM_cons, ht, List.foldlM_nil]
    rfl
  | cons page rest ih =>
    intro seen s h hl hmore hlast hisset hwords
    obtain ⟨t, ht, hc, htl⟩ := fetchNotesJobDone_page_clean page filterNotebookGuid h hl
      (hmore page (by simp)) (hisset page (by simp)) (hwords page (by simp))
    obtain ⟨u, hu, ha⟩ := ih (seen ++ page.notes) t hc htl
      (fun q hq => hmore q (List.mem_cons_of_mem _ hq)) hlast
      (fun q hq => hisset q (by simp at hq ⊢; tauto))
      (fun q hq => hwords q (by simp at hq ⊢; tauto))
    refine ⟨u, ?_, by simpa [listedNotes] using ha⟩
    simp only [List.cons_append, List.foldlM_cons, ht]
    exact hu

/-- The start of a pass on an idle, connected store with nothing pending. -/
theorem refreshNotes_clean (s : NotesStore) (filterNotebookGuid : String)
    (hconn : s.connected = true) (hidle : s.m_loading = false) (hk : s.HashKeyed)
    (hcol : s.TableInCollection) (hpend : s.NothingPending) :
    (s.refreshNotes filterNotebookGuid 0).PassClean [] ∧
      (s.refreshNotes filterNotebookGuid 0).m_loading = true := by
  have hr : s.refreshNotes filterNotebookGuid 0 =
      { s with m_loading := true, m_unhandledNotes := s.m_notesHash.keys,
               jobQueue := s.jobQueue ++ [Job.FetchNotesJob filterNotebookGuid "" 0] } := by
    simp [refreshNotes, hconn, hidle, enqueue]
  rw [hr]
  refine ⟨⟨hk, hcol, fun e he n hn => (hpend e he n hn).1, fun e he n hn _ => (hpend e he n hn).2,
    fun e he => Or.inl ?_, by simp, hconn⟩, rfl⟩
  simp only [QHash.keys, List.mem_map]
  exact ⟨e, he, rfl⟩

/-- A pass on an idle, connected store with nothing pending returns a store that
agrees with the listing. -/
theorem reconcileNotes_clean (s : NotesStore) (filterNotebookGuid : String)
    (pages : List NotesMetadataList) (last : NotesMetadataList)
    (hconn : s.connected = true) (hidle : s.m_loading = false) (hk : s.HashKeyed)
    (hcol : s.TableInCollection) (hpend : s.NothingPending)
    (hmore : ∀ page ∈ pages, page.hasMore) (hlast : ¬ last.hasMore)
    (hisset : ∀ page ∈ pages ++ [last], ∀ r ∈ page.notes, r.isset.updateSequenceNum = true)
    (hwords : ∀ page ∈ pages ++ [last], page.searchedWords = []) :
    ∃ t, s.reconcileNotes filterNotebookGuid pages last = .ok t ∧
      t.AgreesWith (listedNotes (pages ++ [last])) := by
  obtain ⟨hc, hl⟩ := refreshNotes_clean s filterNotebookGuid hconn hidle hk hcol hpend
  obtain ⟨t, ht, ha⟩ := fetchNotesJobDone_pages_clean filterNotebookGuid pages last [] _ hc hl
    hmore hlast hisset hwords
  exact ⟨t, ht, by simpa using ha⟩

theorem listedNotes_cons (page : NotesMetadataList) (rest : List NotesMetadataList) :
    listedNotes (page :: rest) = page.notes ++ listedNotes rest := by
  simp [listedNotes]

theorem listedNotes_single (page : NotesMetadataList) : listedNotes [page] = page.notes := by
  simp [listedNotes]

theorem ListingOnly.start (t : NotesStore) : t.ListingOnly t :=
  ⟨rfl, [], by simp, by simp⟩

/-- A change of the list of unhandled identifiers stays within `ListingOnly`. -/
theorem ListingOnly.setUnhandled {t s : NotesStore} (h : t.ListingOnly s) (l : List String) :
    t.ListingOnly { s with m_unhandledNotes := l } := by
  obtain ⟨hsame, added, hj, hf⟩ := h
  refine ⟨?_, added, hj, hf⟩
  conv_lhs => rw [hsame]

/-- A change of the loading flag stays within `ListingOnly`. -/
theorem ListingOnly.setLoading {t s : NotesStore} (h : t.ListingOnly s) (b : Bool) :
    t.ListingOnly { s with m_loading := b } := by
  obtain ⟨hsame, added, hj, hf⟩ := h
  refine ⟨?_, added, hj, hf⟩
  conv_lhs => rw [hsame]

/-- Requests for pages stay within `ListingOnly`. -/
theorem ListingOnly.addJobs {t s : NotesStore} (h : t.ListingOnly s) (more : List Job)
    (hmore : ∀ j ∈ more, j.isFetchNotesJob = true) :
    t.ListingOnly { s with jobQueue := s.jobQueue ++ more } := by
  obtain ⟨hsame, added, hj, hf⟩ := h
  refine ⟨?_, added ++ more, ?_, ?_⟩
  · conv_lhs => rw [hsame]
  · show s.jobQueue ++ more = t.jobQueue ++ (added ++ more)
    rw [hj, List.append_assoc]
  · intro j hjm
    rcases List.mem_append.1 hjm with h1 | h1
    · exact hf j h1
    · exact hmore j h1

/-- One summary handled in the second pass: only the list of unhandled identifiers
loses the identifier. -/
theorem fetchNotesJobDone_result_agrees {t s : NotesStore} (results : NotesMetadataList)
    (r : NoteMetadata) (h : t.ListingOnly s)
    (hr : ∃ p note, t.m_notesHash.value r.guid = some p ∧ t.noteObjects[p]? = some note ∧
      note.synced = true ∧ r.updateSequenceNum ≤ note.updateSequenceNumber)
    (hwords : results.searchedWords = []) :
    fetchNotesJobDone_result results s r =
      .ok { s with m_unhandledNotes := removeAll s.m_unhandledNotes r.guid } := by
  obtain ⟨p, note, hv, hn, hs, hle⟩ := hr
  have hhash : s.m_notesHash = t.m_notesHash := by
    have := congrArg NotesStore.m_notesHash h.same
    exact this
  have hobj : s.noteObjects = t.noteObjects := by
    have := congrArg NotesStore.noteObjects h.same
    exact this
  rw [← hhash] at hv
  rw [← hobj] at hn
  have hnlt : ¬ note.updateSequenceNumber < r.updateSequenceNum := not_lt.2 hle
  simp only [fetchNotesJobDone_result, hv, derefNote, hn, hs, hnlt, if_true, if_false,
    fetchNotesJobDone_searchResult_noWords _ _ _ hwords]

theorem fetchNotesJobDone_results_agrees {t : NotesStore} (results : NotesMetadataList)
    (l : List NoteMetadata) (hwords : results.searchedWords = []) :
    ∀ (s : NotesStore), t.ListingOnly s →
    (∀ r ∈ l, ∃ p note, t.m_notesHash.value r.guid = some p ∧ t.noteObjects[p]? = some note ∧
      note.synced = true ∧ r.updateSequenceNum ≤ note.updateSequenceNumber) →
    ∃ u, l.foldlM (fetchNotesJobDone_result results) s = .ok u ∧ t.ListingOnly u ∧
      u.m_loading = s.m_loading ∧
      ∀ g, g ∈ u.m_unhandledNotes ↔ (g ∈ s.m_unhandledNotes ∧ ∀ r ∈ l, r.guid ≠ g) := by
  induction l with
  | nil =>
    intro s h _
    exact ⟨s, rfl, h, rfl, by simp⟩
  | cons r rest ih =>
    intro s h hall
    have ht := fetchNotesJobDone_result_agrees results r h (hall r (by simp)) hwords
    obtain ⟨u, hu, hlo, hl, hmem⟩ := ih _ (h.setUnhandled (removeAll s.m_unhandledNotes r.guid))
      (fun r' hr' => hall r' (List.mem_cons_of_mem _ hr'))
    refine ⟨u, ?_, hlo, hl, fun g => ?_⟩
    · simp only [List.foldlM_cons, ht]
      exact hu
    · rw [hmem g]
      simp only [removeAll, List.mem_filter, decide_eq_true_eq, List.mem_cons, forall_eq_or_imp]
      constructor
      · rintro ⟨⟨h1, h2⟩, h3⟩
        exact ⟨h1, fun h => h2 h.symm, h3⟩
      · rintro ⟨h1, h2, h3⟩
        exact ⟨⟨h1, fun h => h2 h.symm⟩, h3⟩

/-- The pages of the listing handled in order on a store that agrees with it. -/
theorem fetchNotesJobDone_pages_agrees {t : NotesStore} (filterNotebookGuid : String)
    (pages : List NotesMetadataList) (last : NotesMetadataList) :
    ∀ (s : NotesStore), t.ListingOnly s → s.m_loading = true →
    (∀ r ∈ listedNotes (pages ++ [last]), ∃ p note, t.m_notesHash.value r.guid = some p ∧
      t.noteObjects[p]? = some note ∧ note.synced = true ∧
      r.updateSequenceNum ≤ note.updateSequenceNumber) →
    (∀ g ∈ s.m_unhandledNotes, ∃ r ∈ listedNotes (pages ++ [last]), r.guid = g) →
    (∀ page ∈ pages, page.hasMore) → ¬ last.hasMore →
    (∀ page ∈ pages ++ [last], page.searchedWords = []) →
    ∃ u, (pages ++ [last]).foldlM
        (fun s page => s.fetchNotesJobDone ErrorCode.ErrorCodeNoError page filterNotebookGuid) s
        = .ok u ∧ t.ListingOnly u ∧ u.m_loading = false ∧ u.m_unhandledNotes = [] := by
  induction pages with
  | nil =>
    intro s h _ hall hrem _ hlast hwords
    have hlast' : ¬ last.startIndex + last.notes.length < last.totalNotes := hlast
    obtain ⟨u, hu, hlo, _, hmem⟩ := fetchNotesJobDone_results_agrees last last.notes
      (hwords last (by simp)) s h (fun r hr => hall r (by
        rw [List.nil_append, listedNotes_single]
        exact hr))
    have hnil : u.m_unhandledNotes = [] := by
      apply List.eq_nil_iff_forall_not_mem.2
      intro g hg
      obtain ⟨h1, h2⟩ := (hmem g).1 hg
      obtain ⟨r, hr, hrg⟩ := hrem g h1
      rw [List.nil_append, listedNotes_single] at hr
      exact h2 r hr hrg
    refine ⟨{ u with m_loading := false }, ?_, hlo.setLoading false, rfl, hnil⟩
    simp only [List.nil_append, List.foldlM_cons, List.foldlM_nil, fetchNotesJobDone,
      handleUserError, ne_eq, not_true_eq_false, if_false, hu]
    rw [if_neg hlast', hnil]
    rfl
  | cons page rest ih =>
    intro s h hl hall hrem hmore hlast hwords
    have hmore' : page.startIndex + page.notes.length < page.totalNotes := hmore page (by simp)
    obtain ⟨u, hu, hlo, hul, hmem⟩ := fetchNotesJobDone_results_agrees page page.notes
      (hwords page (by simp)) s h (fun r hr => hall r (by
        rw [List.cons_append, listedNotes_cons]
        exact List.mem_append_left _ hr))
    obtain ⟨added, hr, hf⟩ := refreshNotes_loading u filterNotebookGuid
      (page.startIndex + page.notes.length) (hul.trans hl)
    obtain ⟨w, hw, hlo2, hwl, hwn⟩ := ih _ (hlo.addJobs added hf) (hul.trans hl)
      (fun r hr => hall r (by
        rw [List.cons_append, listedNotes_cons]
        exact List.mem_append_right _ hr))
      (fun g hg => by
        obtain ⟨h1, h2⟩ := (hmem g).1 hg
        obtain ⟨r, hr, hrg⟩ := hrem g h1
        rw [List.cons_append, listedNotes_cons] at hr
        rcases List.mem_append.1 hr with h3 | h3
        · exact absurd hrg (h2 r h3)
        · exact ⟨r, h3, hrg⟩)
      (fun q hq => hmore q (List.mem_cons_of_mem _ hq)) hlast
      (fun q hq => hwords q (by simp at hq ⊢; tauto))
    refine ⟨w, ?_, hlo2, hwl, hwn⟩
    simp only [List.cons_append, List.foldlM_cons, fetchNotesJobDone, handleUserError, ne_eq,
      not_true_eq_false, if_false, hu]
    rw [if_pos hmore', hr]
    exact hw

/-- A pass on an idle store that agrees with the listing changes the job queue and
the list of unhandled identifiers only. -/
theorem reconcileNotes_agrees (t : NotesStore) (filterNotebookGuid : String)
    (pages : List NotesMetadataList) (last : NotesMetadataList)
    (h : t.AgreesWith (listedNotes (pages ++ [last])))
    (hmore : ∀ page ∈ pages, page.hasMore) (hlast : ¬ last.hasMore)
    (hwords : ∀ page ∈ pages ++ [last], page.searchedWords = []) :
    ∃ added, t.reconcileNotes filterNotebookGuid pages last =
        .ok { t with jobQueue := t.jobQueue ++ added, m_unhandledNotes := [] } ∧
      ∀ j ∈ added, j.isFetchNotesJob = true := by
  have hr : t.refreshNotes filterNotebookGuid 0 =
      { t with m_loading := true, m_unhandledNotes := t.m_notesHash.keys,
               jobQueue := t.jobQueue ++ [Job.FetchNotesJob filterNotebookGuid "" 0] } := by
    simp [refreshNotes, h.conn, h.idle, enqueue]
  have hstart : t.ListingOnly (t.refreshNotes filterNotebookGuid 0) := by
    rw [hr]
    exact ⟨rfl, [Job.FetchNotesJob filterNotebookGuid "" 0], rfl, by simp [Job.isFetchNotesJob]⟩
  obtain ⟨u, hu, hlo, hul, hun⟩ := fetchNotesJobDone_pages_agrees filterNotebookGuid pages last
    _ hstart (by rw [hr]) h.handled
    (fun g hg => by
      rw [hr] at hg
      simp only [QHash.keys, List.mem_map] at hg
      obtain ⟨e, he, heg⟩ := hg
      obtain ⟨r, hr1, hr2⟩ := h.covered e he
      exact ⟨r, hr1, hr2.trans heg⟩)
    hmore hlast hwords
  obtain ⟨hsame, added, hj, hf⟩ := hlo
  refine ⟨added, ?_, hf⟩
  show (pages ++ [last]).foldlM _ _ = _
  rw [hu, hsame, hj, hul, hun, ← h.idle]

/-- C3, as stated, fails: a note that exists locally only and an empty remote
listing. The first pass hands over a create job for the note; the second pass over
the same listing, with no local edit in between, hands over a second create job for
the same note. -/
theorem reconcileNotes_twice_repeats_create :
    pendingCreateStore.reconcileNotes "" [] emptyPage = .ok (pendingCreateAfter 1) ∧
    (pendingCreateAfter 1).reconcileNotes "" [] emptyPage = .ok (pendingCreateAfter 2) ∧
    (pendingCreateAfter 1).jobQueue = [Job.FetchNotesJob "" "" 0, Job.CreateNoteJob 0] ∧
    (pendingCreateAfter 2).jobQueue =
      (pendingCreateAfter 1).jobQueue ++ [Job.FetchNotesJob "" "" 0, Job.CreateNoteJob 0] :=
  ⟨rfl, rfl, by decide, by decide⟩

/-- C3 (amended): on a connected, idle store with nothing pending (every note of the
lookup table is synced and has been stored on the server; the table is keyed by the
identifiers of its notes and lies within the collection), two note passes in a row
over the same remote listing both return, and the second pass changes nothing but
the job queue, which gains requests for pages of the listing only, and the list of
unhandled identifiers, which it leaves empty: no note object, collection row, lookup
entry or cache record changes and no create, save or fetch-note job is handed over.
The pages are those of `refreshNotes` (no search words) and every summary carries
its update sequence number. -/
theorem reconcileNotes_twice_nothing_pending (s : NotesStore) (filterNotebookGuid : String)
    (pages : List NotesMetadataList) (last : NotesMetadataList)
    (hconn : s.connected = true) (hidle : s.m_loading = false) (hk : s.HashKeyed)
    (hcol : s.TableInCollection) (hpend : s.NothingPending)
    (hmore : ∀ page ∈ pages, page.hasMore) (hlast : ¬ last.hasMore)
    (hisset : ∀ page ∈ pages ++ [last], ∀ r ∈ page.notes, r.isset.updateSequenceNum = true)
    (hwords : ∀ page ∈ pages ++ [last], page.searchedWords = []) :
    ∃ t added, s.reconcileNotes filterNotebookGuid pages last = .ok t ∧
      t.reconcileNotes filterNotebookGuid pages last =
        .ok { t with jobQueue := t.jobQueue ++ added, m_unhandledNotes := [] } ∧
      ∀ j ∈ added, j.isFetchNotesJob = true := by
  obtain ⟨t, ht, ha⟩ := reconcileNotes_clean s filterNotebookGuid pages last hconn hidle hk hcol
    hpend hmore hlast hisset hwords
  obtain ⟨added, hu, hf⟩ := reconcileNotes_agrees t filterNotebookGuid pages last ha hmore hlast
    hwords
  exact ⟨t, added, ht, hu, hf⟩

/-- Instance of the amended C3: the store holds the synced notes `a` (sequence number
3) and `b`; the listing, in two pages, reports `a` at sequence number 5 and a new
note `c`. The first pass refreshes `a`, inserts `c` and removes `b`; the second pass
leaves the notes, the lookup table and the cache as they are and adds the two page
requests only. -/
theorem reconcileNotes_twice_nothing_pending_witness :
    (fetchedStore.connected = true ∧ fetchedStore.m_loading = false ∧
      noteSummary fetchedStore = [("a", "", 3), ("b", "", 2)]) ∧
    (∃ t added, fetchedStore.reconcileNotes "" [laterFirstPage] laterLastPage = .ok t ∧
      t.reconcileNotes "" [laterFirstPage] laterLastPage =
        .ok { t with jobQueue := t.jobQueue ++ added, m_unhandledNotes := [] } ∧
      ∀ j ∈ added, j.isFetchNotesJob = true) ∧
    noteSummary (fetchedAfter 1) = [("a", "", 5), ("c", "", 1)] ∧
    (fetchedAfter 2).noteObjects = (fetchedAfter 1).noteObjects ∧
    (fetchedAfter 2).m_notesHash = (fetchedAfter 1).m_notesHash ∧
    (fetchedAfter 2).cacheNotes = (fetchedAfter 1).cacheNotes ∧
    (fetchedAfter 2).jobQueue = (fetchedAfter 1).jobQueue ++
      [Job.FetchNotesJob "" "" 0, Job.FetchNotesJob "" "" 1] :=
  ⟨⟨by decide, by decide, by decide⟩,
    reconcileNotes_twice_nothing_pending fetchedStore "" [laterFirstPage] laterLastPage
      (by decide) (by decide) (by unfold HashKeyed; decide)
      (by unfold TableInCollection; decide)
      (fun e he note hn =>
        (by decide : ∀ e ∈ fetchedStore.m_notesHash, ∀ note ∈ fetchedStore.noteObjects[e.2]?,
          note.synced = true ∧ note.lastSyncedSequenceNumber ≠ 0) e he note hn)
      (by simp [NotesMetadataList.hasMore, laterFirstPage])
      (by simp [NotesMetadataList.hasMore, laterLastPage])
      (by decide) (by decide),
    by decide, by decide, by decide, by decide, by decide⟩

/-! ### Known notes in the page loop: refresh and push -/

theorem updateFromEDAM_created (ev : NoteMetadata) (note : Note) :
    (updateFromEDAM ev note).created =
      if ev.isset.created then some ev.created else note.created := by
  simp only [updateFromEDAM, apply_ite Note.toNoteData, apply_ite NoteData.created, ite_self]
  split_ifs <;> simp_all

theorem updateFromEDAM_updated (ev : NoteMetadata) (note : Note) :
    (updateFromEDAM ev note).updated =
      if ev.isset.updated then some ev.updated else note.updated := by
  simp only [updateFromEDAM, apply_ite Note.toNoteData, apply_ite NoteData.updated, ite_self]
  split_ifs <;> simp_all

theorem updateFromEDAM_deleted (ev : NoteMetadata) (note : Note) :
    (updateFromEDAM ev note).deleted =
      if ev.isset.deleted then decide (ev.deleted ≠ 0) else note.deleted := by
  simp only [updateFromEDAM, apply_ite Note.toNoteData, apply_ite NoteData.deleted, ite_self]

theorem updateFromEDAM_isSearchResult (ev : NoteMetadata) (note : Note) :
    (updateFromEDAM ev note).isSearchResult = note.isSearchResult := by
  simp only [updateFromEDAM, apply_ite Note.toNoteData, apply_ite NoteData.isSearchResult,
    ite_self]

/-- The tail of the loop body, applied to a note object that is there. -/
theorem fetchNotesJobDone_searchResult_eq (results : NotesMetadataList) (s : NotesStore)
    (p : Nat) (note : Note) (hn : s.noteObjects[p]? = some note) :
    fetchNotesJobDone_searchResult results s p =
      s.setNote p { note with
        isSearchResult := decide (results.searchedWords ≠ []) || note.isSearchResult } := by
  have hp : p < s.noteObjects.length := (List.getElem?_eq_some.1 hn).1
  have hset : s.noteObjects.set p note = s.noteObjects := by
    apply List.ext_getElem?
    intro i
    by_cases hi : p = i
    · subst hi
      simp [List.getElem?_set, hn, hp]
    · simp [List.getElem?_set, hi]
  by_cases hw : results.searchedWords = []
  · have h0 : (decide (results.searchedWords ≠ []) || note.isSearchResult) =
        note.isSearchResult := by simp [hw]
    rw [h0]
    show _ = s.setNote p note
    simp only [fetchNotesJobDone_searchResult, hw, ne_eq, not_true_eq_false, if_false, setNote,
      hset]
  · simp [fetchNotesJobDone_searchResult, hw, hn]

/-- The content refresh of a known note on a connected store, as an explicit result. -/
theorem refreshNoteContent_connected (s : NotesStore) (guid : String) (what : LoadWhatFlags)
    (priority : JobPriority) (p : Nat) (note : Note)
    (hv : s.m_notesHash.value guid = some p) (hn : s.noteObjects[p]? = some note)
    (hc : s.connected = true) :
    s.refreshNoteContent guid what priority =
      .ok { s with
        jobQueue := s.jobQueue ++
          [Job.FetchNoteJob guid what (some priority) FetchNoteSlot.fetchNoteJobDone],
        noteObjects := s.noteObjects.set p { note with loading := true } } := by
  have hp : p < s.noteObjects.length := (List.getElem?_eq_some.1 hn).1
  have hset : s.noteObjects.set p note = s.noteObjects := by
    apply List.ext_getElem?
    intro i
    by_cases hi : p = i
    · subst hi
      simp [List.getElem?_set, hn, hp]
    · simp [List.getElem?_set, hi]
  by_cases hl : note.loading = true
  · have h1 : ({ note with loading := true } : Note) = note := by
      rw [← hl]
    rw [h1, hset]
    simp [refreshNoteContent, hv, derefNote, hn, hc, hl, enqueue]
  · simp [refreshNoteContent, hv, derefNote, hn, hc, hl, enqueue, setNote]

/-- Refresh branch of the loop body of `fetchNotesJobDone`, as an explicit result. -/
theorem fetchNotesJobDone_result_refresh (s : NotesStore) (results : NotesMetadataList)
    (result : NoteMetadata) (p : Nat) (note : Note)
    (hfound : s.m_notesHash.value result.guid = some p)
    (hnote : s.noteObjects[p]? = some note)
    (hsynced : note.updateSequenceNumber = note.lastSyncedSequenceNumber)
    (hlt : note.updateSequenceNumber < result.updateSequenceNum)
    (hisset : result.isset.updateSequenceNum = true) (hconn : s.connected = true) :
    fetchNotesJobDone_result results s result =
      .ok { s with
        m_unhandledNotes := removeAll s.m_unhandledNotes result.guid,
        jobQueue := s.jobQueue ++
          [Job.FetchNoteJob result.guid LoadContent (some JobPriority.JobPriorityMedium)
            FetchNoteSlot.fetchNoteJobDone],
        noteObjects := s.noteObjects.set p { updateFromEDAM result note with
          loading := true,
          isSearchResult := decide (results.searchedWords ≠ []) || note.isSearchResult },
        cacheNotes := s.cacheNotes.setValue result.guid result.updateSequenceNum } := by
  have hp : p < s.noteObjects.length := (List.getElem?_eq_some.1 hnote).1
  have hs : note.synced = true := (synced_iff note).2 hsynced
  have hv1 : ({ s with m_unhandledNotes := removeAll s.m_unhandledNotes result.guid }.setNote p
      (updateFromEDAM result note)).m_notesHash.value (updateFromEDAM result note).guid
        = some p := by
    rw [updateFromEDAM_guid]
    exact hfound
  have hn1 : ({ s with m_unhandledNotes := removeAll s.m_unhandledNotes result.guid }.setNote p
      (updateFromEDAM result note)).noteObjects[p]? = some (updateFromEDAM result note) := by
    simp [setNote, List.getElem?_set, hp]
  have hr := refreshNoteContent_connected _ _ LoadContent JobPriority.JobPriorityMedium p _
    hv1 hn1 hconn
  simp only [fetchNotesJobDone_result, hfound, derefNote, hnote, hs, hlt, if_true, hr]
  rw [fetchNotesJobDone_searchResult_eq results _ p { updateFromEDAM result note with
    loading := true } (by simp [syncToCacheFileNote, setNote, hp])]
  simp [syncToCacheFileNote, setNote, updateFromEDAM_guid, updateFromEDAM_isSearchResult,
    updateFromEDAM_updateSequenceNumber, hisset]

/-- C11 (amended). A remote summary whose identifier is known locally and whose local
note is synced, merged by the loop body of `fetchNotesJobDone` on a connected store (the
summary carrying its sequence number). If the sequence number of the summary is above
the `updateSequenceNumber` of the note, the note becomes `updateFromEDAM` of the
summary: title, notebook, tags, creation and update time and deleted flag are those of
the summary where the summary carries them, both sequence numbers are the one of the
summary, the content is kept; the note is marked loading, exactly one job, the
medium-priority fetch of the content, is handed over, and the cache records the new
number. Otherwise the note object is the one it was (the loop tail marks it as search
result when the listing answers a search), and job queue, cache, collection and lookup
table are unchanged. -/
theorem fetchNotesJobDone_refreshes_synced_note (s : NotesStore) (results : NotesMetadataList)
    (result : NoteMetadata) (p : Nat) (note : Note)
    (hfound : s.m_notesHash.value result.guid = some p)
    (hnote : s.noteObjects[p]? = some note)
    (hsynced : note.updateSequenceNumber = note.lastSyncedSequenceNumber)
    (hisset : result.isset.updateSequenceNum = true)
    (hconn : s.connected = true) :
    (note.updateSequenceNumber < result.updateSequenceNum →
      ∃ s' note', fetchNotesJobDone_result results s result = .ok s' ∧
        s'.noteObjects[p]? = some note' ∧
        note' = { updateFromEDAM result note with
          loading := true,
          isSearchResult := decide (results.searchedWords ≠ []) || note.isSearchResult } ∧
        note'.updateSequenceNumber = result.updateSequenceNum ∧
        note'.lastSyncedSequenceNumber = result.updateSequenceNum ∧
        note'.guid = result.guid ∧
        note'.title = (if result.isset.title then result.title else note.title) ∧
        note'.notebookGuid =
          (if result.isset.notebookGuid then result.notebookGuid else note.notebookGuid) ∧
        note'.tagGuids = (if result.isset.tagGuids then result.tagGuids else note.tagGuids) ∧
        note'.created = (if result.isset.created then some result.created else note.created) ∧
        note'.updated = (if result.isset.updated then some result.updated else note.updated) ∧
        note'.deleted =
          (if result.isset.deleted then decide (result.deleted ≠ 0) else note.deleted) ∧
        note'.enmlContent = note.enmlContent ∧
        s'.jobQueue = s.jobQueue ++
          [Job.FetchNoteJob result.guid LoadContent (some JobPriority.JobPriorityMedium)
            FetchNoteSlot.fetchNoteJobDone] ∧
        s'.cacheNotes = s.cacheNotes.setValue result.guid result.updateSequenceNum ∧
        s'.m_notes = s.m_notes ∧ s'.m_notesHash = s.m_notesHash) ∧
    (¬ note.updateSequenceNumber < result.updateSequenceNum →
      ∃ s', fetchNotesJobDone_result results s result = .ok s' ∧
        s'.noteObjects = s.noteObjects.set p { note with
          isSearchResult := decide (results.searchedWords ≠ []) || note.isSearchResult } ∧
        s'.jobQueue = s.jobQueue ∧ s'.cacheNotes = s.cacheNotes ∧
        s'.m_notes = s.m_notes ∧ s'.m_notesHash = s.m_notesHash) := by
  constructor
  · intro hlt
    refine ⟨_, _, fetchNotesJobDone_result_refresh s results result p note hfound hnote hsynced
      hlt hisset hconn, by simp [(List.getElem?_eq_some.1 hnote).1], rfl, ?_⟩
    simp [updateFromEDAM_guid, updateFromEDAM_lastSyncedSequenceNumber,
      updateFromEDAM_updateSequenceNumber, hisset, updateFromEDAM_title,
      updateFromEDAM_notebookGuid, updateFromEDAM_tagGuids, updateFromEDAM_created,
      updateFromEDAM_updated, updateFromEDAM_deleted, updateFromEDAM_enmlContent]
  · intro hlt
    have hs : note.synced = true := (synced_iff note).2 hsynced
    generalize hres : fetchNotesJobDone_result results s result = res
    simp only [fetchNotesJobDone_result, hfound, derefNote, hnote, hs, hlt, if_true,
      if_false] at hres
    rw [fetchNotesJobDone_searchResult_eq results
      { s with m_unhandledNotes := removeAll s.m_unhandledNotes result.guid } p note hnote] at hres
    subst hres
    exact ⟨_, rfl, rfl, rfl, rfl, rfl, rfl⟩

/-- Instance of the amended C11: the synced note `g` at sequence number 3 on a connected
store. The summary at sequence number 5 refreshes it (title "remote", both numbers 5,
one content fetch); the summary at sequence number 3 leaves everything as it is. -/
theorem fetchNotesJobDone_refreshes_synced_note_witness :
    (syncedStore.m_notesHash.value "g" = some 0 ∧ syncedStore.connected = true) ∧
    ((3 < 5 →
      ∃ s' note', fetchNotesJobDone_result (titledPage 5) syncedStore
          { NoteMetadata.bare "g" 5 with title := "remote", isset := NoteIsset.all } = .ok s' ∧
        s'.noteObjects[0]? = some note' ∧
        note' = { updateFromEDAM
            { NoteMetadata.bare "g" 5 with title := "remote", isset := NoteIsset.all }
            { Note.new "g" 3 with lastSyncedSequenceNumber := 3, title := "local" } with
          loading := true,
          isSearchResult := decide ((titledPage 5).searchedWords ≠ []) || false } ∧
        note'.updateSequenceNumber = 5 ∧
        note'.lastSyncedSequenceNumber = 5 ∧
        note'.guid = "g" ∧
        note'.title = (if true then "remote" else "local") ∧
        note'.notebookGuid = (if true then "" else "") ∧
        note'.tagGuids = (if true then [] else []) ∧
        note'.created = (if true then some 0 else none) ∧
        note'.updated = (if true then some 0 else none) ∧
        note'.deleted = (if true then decide ((0 : Int) ≠ 0) else false) ∧
        note'.enmlContent = "" ∧
        s'.jobQueue = syncedStore.jobQueue ++
          [Job.FetchNoteJob "g" LoadContent (some JobPriority.JobPriorityMedium)
            FetchNoteSlot.fetchNoteJobDone] ∧
        s'.cacheNotes = syncedStore.cacheNotes.setValue "g" 5 ∧
        s'.m_notes = syncedStore.m_notes ∧ s'.m_notesHash = syncedStore.m_notesHash) ∧
     (¬ 3 < 5 →
      ∃ s', fetchNotesJobDone_result (titledPage 5) syncedStore
          { NoteMetadata.bare "g" 5 with title := "remote", isset := NoteIsset.all } = .ok s' ∧
        s'.noteObjects = syncedStore.noteObjects.set 0
          { Note.new "g" 3 with
            lastSyncedSequenceNumber := 3, title := "local",
            isSearchResult := decide ((titledPage 5).searchedWords ≠ []) || false } ∧
        s'.jobQueue = syncedStore.jobQueue ∧ s'.cacheNotes = syncedStore.cacheNotes ∧
        s'.m_notes = syncedStore.m_notes ∧ s'.m_notesHash = syncedStore.m_notesHash)) ∧
    (fetchNotesJobDone_result (titledPage 3) syncedStore
        { NoteMetadata.bare "g" 3 with title := "remote", isset := NoteIsset.all }
      = .ok syncedStore) :=
  ⟨⟨by decide, by decide⟩,
    fetchNotesJobDone_refreshes_synced_note syncedStore (titledPage 5)
      { NoteMetadata.bare "g" 5 with title := "remote", isset := NoteIsset.all } 0
      { Note.new "g" 3 with lastSyncedSequenceNumber := 3, title := "local" }
      (by decide) (by decide) (by decide) (by decide) (by decide),
    rfl⟩

/-- Push branch of the loop body of `fetchNotesJobDone`, as an explicit result. -/
theorem fetchNotesJobDone_result_push (s : NotesStore) (results : NotesMetadataList)
    (result : NoteMetadata) (p : Nat) (note : Note)
    (hfound : s.m_notesHash.value result.guid = some p)
    (hnote : s.noteObjects[p]? = some note)
    (hunsynced : note.updateSequenceNumber ≠ note.lastSyncedSequenceNumber)
    (hseq : note.lastSyncedSequenceNumber = result.updateSequenceNum) :
    fetchNotesJobDone_result results s result =
      .ok { s with
        m_unhandledNotes := removeAll s.m_unhandledNotes result.guid,
        jobQueue := s.jobQueue ++ [Job.SaveNoteJob p],
        noteObjects := s.noteObjects.set p { note with
          loaded := note.loaded || note.isCached,
          loading := true,
          isSearchResult := decide (results.searchedWords ≠ []) || note.isSearchResult } } := by
  have hp : p < s.noteObjects.length := (List.getElem?_eq_some.1 hnote).1
  have hsync : note.synced = false := by
    simp [NoteData.synced, hunsynced]
  simp only [fetchNotesJobDone_result, hfound, derefNote, hnote, hsync, if_pos hseq,
    Bool.false_eq_true, if_false]
  rw [fetchNotesJobDone_searchResult_eq results _ p
    { (if (!note.loaded) = true ∧ note.isCached = true then note.loadFromCacheFile else note) with
      loading := true } (by simp [enqueue, setNote, hp])]
  cases hl : note.loaded <;> cases hc : note.isCached <;>
    simp [enqueue, setNote, Note.loadFromCacheFile, hl, hc]

/-- C12. Local change wins. When the loop body of `fetchNotesJobDone` merges a remote
summary whose identifier is known locally, and the local note is not synced and its
`lastSyncedSequenceNumber` equals the sequence number of the summary, the call
returns and hands over exactly one job, the save of this note; the conflicting flag
and the shadow of the note are the ones it had, and identifier, title, notebook, tags,
content, timestamps and both sequence numbers are not taken from the summary: they
are the local ones. The note is marked loading; collection, lookup table and cache are
unchanged. -/
theorem fetchNotesJobDone_pushes_local_change (s : NotesStore) (results : NotesMetadataList)
    (result : NoteMetadata) (p : Nat) (note : Note)
    (hfound : s.m_notesHash.value result.guid = some p)
    (hnote : s.noteObjects[p]? = some note)
    (hunsynced : note.updateSequenceNumber ≠ note.lastSyncedSequenceNumber)
    (hseq : note.lastSyncedSequenceNumber = result.updateSequenceNum) :
    ∃ s' note', fetchNotesJobDone_result results s result = .ok s' ∧
      s'.noteObjects[p]? = some note' ∧
      s'.jobQueue = s.jobQueue ++ [Job.SaveNoteJob p] ∧
      note'.conflicting = note.conflicting ∧
      note'.conflictingNote = note.conflictingNote ∧
      note'.guid = note.guid ∧ note'.title = note.title ∧
      note'.notebookGuid = note.notebookGuid ∧ note'.tagGuids = note.tagGuids ∧
      note'.enmlContent = note.enmlContent ∧
      note'.created = note.created ∧ note'.updated = note.updated ∧
      note'.deleted = note.deleted ∧
      note'.updateSequenceNumber = note.updateSequenceNumber ∧
      note'.lastSyncedSequenceNumber = note.lastSyncedSequenceNumber ∧
      note'.loading = true ∧
      s'.m_notes = s.m_notes ∧ s'.m_notesHash = s.m_notesHash ∧
      s'.cacheNotes = s.cacheNotes := by
  have hp : p < s.noteObjects.length := (List.getElem?_eq_some.1 hnote).1
  refine ⟨_, { note with
      loaded := note.loaded || note.isCached,
      loading := true,
      isSearchResult := decide (results.searchedWords ≠ []) || note.isSearchResult },
    fetchNotesJobDone_result_push s results result p note hfound hnote hunsynced hseq,
    by simp [hp], ?_⟩
  simp

/-- Instance of C12: note `g` with local sequence number 5 and last synced number 4,
and a summary that reports `g` at sequence number 4 with the title "remote". The note
keeps its title "local" and its numbers, and the save job is the only job. -/
theorem fetchNotesJobDone_pushes_local_change_witness :
    (editedStore.m_notesHash.value "g" = some 0 ∧ (5 : Nat) ≠ 4) ∧
    ∃ s' note', fetchNotesJobDone_result (titledPage 4) editedStore
        { NoteMetadata.bare "g" 4 with title := "remote", isset := NoteIsset.all } = .ok s' ∧
      s'.noteObjects[0]? = some note' ∧
      s'.jobQueue = editedStore.jobQueue ++ [Job.SaveNoteJob 0] ∧
      note'.conflicting = false ∧
      note'.conflictingNote = none ∧
      note'.guid = "g" ∧ note'.title = "local" ∧
      note'.notebookGuid = "" ∧ note'.tagGuids = [] ∧
      note'.enmlContent = "" ∧
      note'.created = none ∧ note'.updated = none ∧
      note'.deleted = false ∧
      note'.updateSequenceNumber = 5 ∧
      note'.lastSyncedSequenceNumber = 4 ∧
      note'.loading = true ∧
      s'.m_notes = editedStore.m_notes ∧ s'.m_notesHash = editedStore.m_notesHash ∧
      s'.cacheNotes = editedStore.cacheNotes :=
  ⟨⟨by decide, by decide⟩,
    fetchNotesJobDone_pushes_local_change editedStore (titledPage 4)
      { NoteMetadata.bare "g" 4 with title := "remote", isset := NoteIsset.all } 0
      { Note.new "g" 5 with lastSyncedSequenceNumber := 4, title := "local" }
      (by decide) (by decide) (by decide) (by decide)⟩

/-! ### The list of unhandled identifiers over a pass -/

theorem List.set_getElem?_self {α : Type} (l : List α) (p : Nat) (x : α)
    (h : l[p]? = some x) : l.set p x = l := by
  apply List.ext_getElem?
  intro i
  by_cases hi : p = i
  · subst hi
    simp [List.getElem?_set, h, (List.getElem?_eq_some.1 h).1]
  · simp [List.getElem?_set, hi]

/-- A store that differs from a keyed store in one note object, which keeps its
identifier, and in fields other than the lookup table, is keyed. -/
theorem HashKeyed.of_set {s t : NotesStore} (hk : s.HashKeyed) {p : Nat} {note x : Note}
    (hn : s.noteObjects[p]? = some note) (hg : x.guid = note.guid)
    (hobj : t.noteObjects = s.noteObjects.set p x) (hhash : t.m_notesHash = s.m_notesHash) :
    t.HashKeyed := by
  have h1 : (s.setNote p x).HashKeyed := hk.setNote hn hg
  intro e he
  rw [hhash] at he
  rw [hobj]
  exact h1 e he

/-- What every branch of the loop body of `fetchNotesJobDone` does to the list of
unhandled identifiers: the identifier of the summary is struck from it. -/
theorem fetchNotesJobDone_result_unhandled (results : NotesMetadataList) (r : NoteMetadata)
    (s : NotesStore) (hk : s.HashKeyed) :
    ∃ t, fetchNotesJobDone_result results s r = .ok t ∧ t.HashKeyed ∧
      t.m_unhandledNotes = removeAll s.m_unhandledNotes r.guid ∧
      t.m_loading = s.m_loading ∧ t.connected = s.connected := by
  have tail : ∀ (u : NotesStore) (p : Nat) (note x : Note),
      s.noteObjects[p]? = some note → x.guid = note.guid →
      u.noteObjects = s.noteObjects.set p x → u.m_notesHash = s.m_notesHash →
      u.m_unhandledNotes = removeAll s.m_unhandledNotes r.guid →
      u.m_loading = s.m_loading → u.connected = s.connected →
      (fetchNotesJobDone_searchResult results u p).HashKeyed ∧
      (fetchNotesJobDone_searchResult results u p).m_unhandledNotes =
        removeAll s.m_unhandledNotes r.guid ∧
      (fetchNotesJobDone_searchResult results u p).m_loading = s.m_loading ∧
      (fetchNotesJobDone_searchResult results u p).connected = s.connected := by
    intro u p note x hn hg hobj hhash hun hl hc
    have hp : p < s.noteObjects.length := (List.getElem?_eq_some.1 hn).1
    have hux : u.noteObjects[p]? = some x := by
      rw [hobj]
      simp [List.getElem?_set, hp]
    rw [fetchNotesJobDone_searchResult_eq results u p x hux]
    refine ⟨?_, hun, hl, hc⟩
    refine hk.of_set hn (x := { x with
      isSearchResult := decide (results.searchedWords ≠ []) || x.isSearchResult }) hg ?_ hhash
    show u.noteObjects.set p _ = _
    rw [hobj, List.set_set]
  cases hv : s.m_notesHash.value r.guid with
  | none =>
    have hlen : ∀ e ∈ s.m_notesHash, e.2 < s.noteObjects.length := by
      intro e he
      have := hk e he
      cases hq : s.noteObjects[e.2]? with
      | none => simp [hq] at this
      | some n => exact (List.getElem?_eq_some.1 hq).1
    have hk1 : ({ s with
        m_unhandledNotes := removeAll s.m_unhandledNotes r.guid,
        noteObjects := s.noteObjects ++ [updateFromEDAM r (Note.new r.guid 0)],
        m_notesHash := s.m_notesHash.insert r.guid s.noteObjects.length,
        m_notes := s.m_notes ++ [s.noteObjects.length],
        cacheNotes := s.cacheNotes.setValue r.guid
          (updateFromEDAM r (Note.new r.guid 0)).updateSequenceNumber } : NotesStore).HashKeyed := by
      intro e he
      rcases QHash.mem_insert _ _ _ _ he with h1 | h1
      · subst h1
        simp [updateFromEDAM_guid]
      · have := hk e h1
        simpa [List.getElem?_append_left (hlen e h1)] using this
    generalize hres : fetchNotesJobDone_result results s r = res
    simp only [fetchNotesJobDone_result, hv, syncToCacheFileNote, updateFromEDAM_guid] at hres
    rw [fetchNotesJobDone_searchResult_eq results _ s.noteObjects.length
      (updateFromEDAM r (Note.new r.guid 0)) (by simp)] at hres
    subst hres
    refine ⟨_, rfl, ?_, rfl, rfl, rfl⟩
    exact hk1.setNote (x := { updateFromEDAM r (Note.new r.guid 0) with
      isSearchResult := decide (results.searchedWords ≠ []) ||
        (updateFromEDAM r (Note.new r.guid 0)).isSearchResult })
      (List.getElem?_concat_length _ _) rfl
  | some p =>
    obtain ⟨note, hn, hg⟩ := hk.exists_of_value hv
    have hp : p < s.noteObjects.length := (List.getElem?_eq_some.1 hn).1
    have hself : s.noteObjects = s.noteObjects.set p note :=
      (List.set_getElem?_self _ _ _ hn).symm
    by_cases hs : note.synced = true
    · by_cases hlt : note.updateSequenceNumber < r.updateSequenceNum
      · have hv1 : ({ s with m_unhandledNotes := removeAll s.m_unhandledNotes r.guid }.setNote p
            (updateFromEDAM r note)).m_notesHash.value (updateFromEDAM r note).guid = some p := by
          rw [updateFromEDAM_guid]
          exact hv
        have hn1 : ({ s with m_unhandledNotes := removeAll s.m_unhandledNotes r.guid }.setNote p
            (updateFromEDAM r note)).noteObjects[p]? = some (updateFromEDAM r note) := by
          simp [setNote, List.getElem?_set, hp]
        obtain ⟨t, x, ht, hteq, hx⟩ := refreshNoteContent_found _ _ LoadContent
          JobPriority.JobPriorityMedium p _ hv1 hn1
        have hxg : x.guid = note.guid := by
          rcases hx with hx | hx <;> subst hx <;> simp [updateFromEDAM_guid, hg]
        refine ⟨_, by
          simp only [fetchNotesJobDone_result, hv, derefNote, hn, hs, hlt, if_true, ht]
          rfl, ?_⟩
        apply tail _ p note x hn hxg
        · rw [hteq]
          simp [syncToCacheFileNote, setNote]
        · rw [hteq]; rfl
        · rw [hteq]; rfl
        · rw [hteq]; rfl
        · rw [hteq]; rfl
      · refine ⟨_, by
          simp only [fetchNotesJobDone_result, hv, derefNote, hn, hs, hlt, if_true, if_false]
          rfl, ?_⟩
        exact tail _ p note note hn rfl hself rfl rfl rfl rfl
    · have hs' : note.synced = false := by simpa using hs
      generalize hres : fetchNotesJobDone_result results s r = res
      by_cases hq : note.lastSyncedSequenceNumber = r.updateSequenceNum
      · simp only [fetchNotesJobDone_result, hv, derefNote, hn, hs', if_pos hq,
          Bool.false_eq_true, if_false] at hres
        subst hres
        refine ⟨_, rfl, ?_⟩
        refine tail _ p note _ hn ?_ rfl rfl rfl rfl rfl
        split_ifs <;> simp [Note.loadFromCacheFile]
      · simp only [fetchNotesJobDone_result, hv, derefNote, hn, hs', if_neg hq,
          Bool.false_eq_true, if_false] at hres
        subst hres
        refine ⟨_, rfl, ?_⟩
        exact tail _ p note { note with conflicting := true } hn rfl rfl rfl rfl rfl rfl

theorem fetchNotesJobDone_results_unhandled (results : NotesMetadataList)
    (l : List NoteMetadata) :
    ∀ (s : NotesStore), s.HashKeyed →
    ∃ t, l.foldlM (fetchNotesJobDone_result results) s = .ok t ∧ t.HashKeyed ∧
      t.m_unhandledNotes = s.m_unhandledNotes.filter
        (fun g => decide (g ∉ l.map (fun r => r.guid))) ∧
      t.m_loading = s.m_loading ∧ t.connected = s.connected := by
  induction l with
  | nil =>
    intro s hk
    exact ⟨s, rfl, hk, by simp, rfl, rfl⟩
  | cons r rest ih =>
    intro s hk
    obtain ⟨t, ht, hkt, hun, hl, hc⟩ := fetchNotesJobDone_result_unhandled results r s hk
    obtain ⟨u, hu, hku, hun2, hl2, hc2⟩ := ih t hkt
    refine ⟨u, ?_, hku, ?_, hl2.trans hl, hc2.trans hc⟩
    · simp only [List.foldlM_cons, ht]
      exact hu
    · rw [hun2, hun, removeAll, List.filter_filter]
      apply List.filter_congr
      intro g _
      simp only [List.map_cons, List.mem_cons, not_or, Bool.decide_and, Bool.and_comm]

/-- A turn of the loop over the unreported notes leaves the list of unhandled
identifiers alone and returns on a keyed store. -/
theorem fetchNotesJobDone_unhandled_keyed (s : NotesStore) (g : String) (hk : s.HashKeyed) :
    ∃ t, fetchNotesJobDone_unhandled s g = .ok t ∧ t.HashKeyed ∧
      t.m_unhandledNotes = s.m_unhandledNotes ∧ t.m_loading = s.m_loading := by
  cases hv : s.m_notesHash.value g with
  | none => exact ⟨s, by simp [fetchNotesJobDone_unhandled, hv], hk, rfl, rfl⟩
  | some p =>
    obtain ⟨note, hn, hg⟩ := hk.exists_of_value hv
    generalize hres : fetchNotesJobDone_unhandled s g = res
    by_cases hz : note.lastSyncedSequenceNumber = 0
    · by_cases ht : s.hasUnsyncedTag note = true
      · simp [fetchNotesJobDone_unhandled, hv, derefNote, hn, hz, ht] at hres
        subst hres
        exact ⟨s, rfl, hk, rfl, rfl⟩
      · by_cases hb : s.hasUnsyncedNotebook note = true
        · simp [fetchNotesJobDone_unhandled, hv, derefNote, hn, hz, ht, hb] at hres
          subst hres
          exact ⟨s, rfl, hk, rfl, rfl⟩
        · simp only [fetchNotesJobDone_unhandled, hv, derefNote, hn, hz, ht, hb, if_true,
            if_false] at hres
          subst hres
          refine ⟨_, rfl, ?_, rfl, rfl⟩
          exact hk.of_set hn (x := { (if (!note.loaded) = true ∧ note.isCached = true
              then note.loadFromCacheFile else note) with loading := true })
            (by split_ifs <;> simp [Note.loadFromCacheFile]) rfl rfl
    · cases hi : indexOf s.m_notes p with
      | none =>
        simp [fetchNotesJobDone_unhandled, hv, derefNote, hn, hz, hi] at hres
        subst hres
        exact ⟨s, rfl, hk, rfl, rfl⟩
      | some i =>
        by_cases hs : note.synced = true
        · simp only [fetchNotesJobDone_unhandled, hv, derefNote, hn, hz, hi, hs, if_true,
            if_false, removeNote, hg] at hres
          subst hres
          refine ⟨_, rfl, ?_, rfl, rfl⟩
          intro e he
          exact hk e (QHash.mem_remove _ _ _ he)
        · simp only [fetchNotesJobDone_unhandled, hv, derefNote, hn, hz, hi, hs, if_true,
            if_false] at hres
          subst hres
          refine ⟨_, rfl, ?_, rfl, rfl⟩
          exact hk.of_set hn (x := { note with conflicting := true }) rfl rfl rfl

theorem fetchNotesJobDone_unhandled_keyed_fold (l : List String) :
    ∀ (s : NotesStore), s.HashKeyed →
    ∃ t, l.foldlM fetchNotesJobDone_unhandled s = .ok t ∧ t.HashKeyed ∧
      t.m_unhandledNotes = s.m_unhandledNotes ∧ t.m_loading = s.m_loading := by
  induction l with
  | nil =>
    intro s hk
    exact ⟨s, rfl, hk, rfl, rfl⟩
  | cons g rest ih =>
    intro s hk
    obtain ⟨t, ht, hkt, hun, hl⟩ := fetchNotesJobDone_unhandled_keyed s g hk
    obtain ⟨u, hu, hku, hun2, hl2⟩ := ih t hkt
    refine ⟨u, ?_, hku, hun2.trans hun, hl2.trans hl⟩
    simp only [List.foldlM_cons, ht]
    exact hu

/-- The pages of a listing handled in order on a keyed store during a pass: the list
of unhandled identifiers loses the reported identifiers and nothing else. -/
theorem fetchNotesJobDone_pages_unhandled (filterNotebookGuid : String)
    (pages : List NotesMetadataList) (last : NotesMetadataList) :
    ∀ (s : NotesStore), s.HashKeyed → s.m_loading = true →
    (∀ page ∈ pages, page.hasMore) → ¬ last.hasMore →
    ∃ t, (pages ++ [last]).foldlM
        (fun s page => s.fetchNotesJobDone ErrorCode.ErrorCodeNoError page filterNotebookGuid) s
        = .ok t ∧
      t.m_unhandledNotes = s.m_unhandledNotes.filter
        (fun g => decide (g ∉ (listedNotes (pages ++ [last])).map (fun r => r.guid))) ∧
      t.m_loading = false := by
  induction pages with
  | nil =>
    intro s hk _ _ hlast
    have hlast' : ¬ last.startIndex + last.notes.length < last.totalNotes := hlast
    obtain ⟨u, hu, hku, hun, _, _⟩ := fetchNotesJobDone_results_unhandled last last.notes s hk
    have hku' : ({ u with m_loading := false } : NotesStore).HashKeyed := hku
    obtain ⟨t, ht, _, hun2, hl2⟩ := fetchNotesJobDone_unhandled_keyed_fold u.m_unhandledNotes _ hku'
    refine ⟨t, ?_, ?_, hl2⟩
    · simp only [List.nil_append, List.foldlM_cons, List.foldlM_nil, fetchNotesJobDone,
        handleUserError, ne_eq, not_true_eq_false, if_false, hu]
      rw [if_neg hlast']
      simp only [ht]
      rfl
    · rw [hun2, List.nil_append, listedNotes_single]
      exact hun
  | cons page rest ih =>
    intro s hk hl hmore hlast
    have hmore' : page.startIndex + page.notes.length < page.totalNotes := hmore page (by simp)
    obtain ⟨u, hu, hku, hun, hul, _⟩ := fetchNotesJobDone_results_unhandled page page.notes s hk
    obtain ⟨added, hr, _⟩ := refreshNotes_loading u filterNotebookGuid
      (page.startIndex + page.notes.length) (hul.trans hl)
    have hkw : ({ u with jobQueue := u.jobQueue ++ added } : NotesStore).HashKeyed := hku
    obtain ⟨t, ht, hun2, hl2⟩ := ih _ hkw (hul.trans hl)
      (fun q hq => hmore q (List.mem_cons_of_mem _ hq)) hlast
    refine ⟨t, ?_, ?_, hl2⟩
    · simp only [List.cons_append, List.foldlM_cons, fetchNotesJobDone, handleUserError, ne_eq,
        not_true_eq_false, if_false, hu]
      rw [if_pos hmore', hr]
      exact ht
    · rw [hun2]
      show List.filter _ u.m_unhandledNotes = _
      rw [hun, List.filter_filter, List.cons_append, listedNotes_cons]
      apply List.filter_congr
      intro g _
      simp only [List.map_append, List.mem_append, not_or, Bool.decide_and, Bool.and_comm]

/-- C13. The list of unhandled identifiers over a multi-page note pass. The request
with start index 0 on a connected, idle store sets it to the identifiers of the lookup
table; a request with another start index, or any request while the store is loading,
leaves it as it is; every branch of the loop body strikes the identifier of the
summary from it; and a pass on a keyed store returns with the list holding exactly the
identifiers known at its start (in table order) that no page reported. -/
theorem reconcileNotes_unhandled (s : NotesStore) (filterNotebookGuid : String)
    (pages : List NotesMetadataList) (last : NotesMetadataList)
    (hconn : s.connected = true) (hidle : s.m_loading = false) (hk : s.HashKeyed)
    (hmore : ∀ page ∈ pages, page.hasMore) (hlast : ¬ last.hasMore) :
    (s.refreshNotes filterNotebookGuid 0).m_unhandledNotes = s.m_notesHash.keys ∧
    (∀ (t : NotesStore) (k : Nat), k ≠ 0 ∨ t.m_loading = true →
      (t.refreshNotes filterNotebookGuid k).m_unhandledNotes = t.m_unhandledNotes) ∧
    (∀ (t : NotesStore) (results : NotesMetadataList) (r : NoteMetadata), t.HashKeyed →
      ∃ u, fetchNotesJobDone_result results t r = .ok u ∧
        u.m_unhandledNotes = removeAll t.m_unhandledNotes r.guid) ∧
    ∃ t, s.reconcileNotes filterNotebookGuid pages last = .ok t ∧
      t.m_unhandledNotes = s.m_notesHash.keys.filter
        (fun g => decide (g ∉ (listedNotes (pages ++ [last])).map (fun r => r.guid))) := by
  have hr : s.refreshNotes filterNotebookGuid 0 =
      { s with m_loading := true, m_unhandledNotes := s.m_notesHash.keys,
               jobQueue := s.jobQueue ++ [Job.FetchNotesJob filterNotebookGuid "" 0] } := by
    simp [refreshNotes, hconn, hidle, enqueue]
  refine ⟨by rw [hr], ?_, ?_, ?_⟩
  · intro t k hk0
    by_cases hl : t.m_loading = true
    · obtain ⟨added, hadd, _⟩ := refreshNotes_loading t filterNotebookGuid k hl
      rw [hadd]
    · have hk1 : k ≠ 0 := by
        rcases hk0 with h | h
        · exact h
        · exact absurd h hl
      by_cases hc : t.connected = true
      · simp [refreshNotes, hk1, hc, enqueue]
      · simp [refreshNotes, hk1, hc]
  · intro t results r hkt
    obtain ⟨u, hu, _, hun, _, _⟩ := fetchNotesJobDone_result_unhandled results r t hkt
    exact ⟨u, hu, hun⟩
  · have hks : (s.refreshNotes filterNotebookGuid 0).HashKeyed := by
      rw [hr]
      exact hk
    obtain ⟨t, ht, hun, _⟩ := fetchNotesJobDone_pages_unhandled filterNotebookGuid pages last _
      hks (by rw [hr]) hmore hlast
    refine ⟨t, ht, ?_⟩
    rw [hun, hr]

/-- Instance of C13: the store holds the notes `a` and `b`; the two pages of the
listing report `a` and the new note `c`. The list of unhandled identifiers is set to
`a`, `b` by the first request and holds `b` alone when the pass ends. -/
theorem reconcileNotes_unhandled_witness :
    (fetchedStore.connected = true ∧ fetchedStore.m_loading = false ∧
      fetchedStore.m_notesHash.keys = ["a", "b"]) ∧
    ((fetchedStore.refreshNotes "" 0).m_unhandledNotes = fetchedStore.m_notesHash.keys ∧
    (∀ (t : NotesStore) (k : Nat), k ≠ 0 ∨ t.m_loading = true →
      (t.refreshNotes "" k).m_unhandledNotes = t.m_unhandledNotes) ∧
    (∀ (t : NotesStore) (results : NotesMetadataList) (r : NoteMetadata), t.HashKeyed →
      ∃ u, fetchNotesJobDone_result results t r = .ok u ∧
        u.m_unhandledNotes = removeAll t.m_unhandledNotes r.guid) ∧
    ∃ t, fetchedStore.reconcileNotes "" [laterFirstPage] laterLastPage = .ok t ∧
      t.m_unhandledNotes = fetchedStore.m_notesHash.keys.filter
        (fun g => decide (g ∉ (listedNotes ([laterFirstPage] ++ [laterLastPage])).map
          (fun r => r.guid)))) ∧
    (fetchedAfter 1).m_unhandledNotes = ["b"] :=
  ⟨⟨by decide, by decide, by decide⟩,
    reconcileNotes_unhandled fetchedStore "" [laterFirstPage] laterLastPage
      (by decide) (by decide) (by unfold HashKeyed; decide)
      (by simp [NotesMetadataList.hasMore, laterFirstPage])
      (by simp [NotesMetadataList.hasMore, laterLastPage]),
    by decide⟩

/-! ### The end of a page: next request or survivor step -/

/-- The end of `fetchNotesJobDone` on a connected, keyed store. When the page announces
more notes and the next start index is not 0, the request for the next page is the
only job handed over, the store stays loading and the list of unhandled identifiers is
the one the page loop left; no turn of the survivor loop runs. When the page announces
no more notes, no page is requested, the loading flag is cleared and the survivor loop
runs over the list of unhandled identifiers and returns. -/
theorem fetchNotesJobDone_page_end (s : NotesStore) (results : NotesMetadataList)
    (filterNotebookGuid : String) (hk : s.HashKeyed) (hconn : s.connected = true) :
    ∃ u, results.notes.foldlM (fetchNotesJobDone_result results) s = .ok u ∧
      (results.hasMore → results.startIndex + results.notes.length ≠ 0 →
        s.fetchNotesJobDone ErrorCode.ErrorCodeNoError results filterNotebookGuid =
          .ok { u with
            m_loading := true,
            jobQueue := u.jobQueue ++ [Job.FetchNotesJob filterNotebookGuid ""
              (results.startIndex + results.notes.length)] }) ∧
      (¬ results.hasMore →
        ∃ t, s.fetchNotesJobDone ErrorCode.ErrorCodeNoError results filterNotebookGuid = .ok t ∧
          u.m_unhandledNotes.foldlM fetchNotesJobDone_unhandled { u with m_loading := false }
            = .ok t ∧
          t.m_loading = false ∧ t.m_unhandledNotes = u.m_unhandledNotes) := by
  obtain ⟨u, hu, hku, _, _, hc⟩ := fetchNotesJobDone_results_unhandled results results.notes s hk
  refine ⟨u, hu, ?_, ?_⟩
  · intro hmore hnz
    have hmore' : results.startIndex + results.notes.length < results.totalNotes := hmore
    simp only [fetchNotesJobDone, handleUserError, ne_eq, not_true_eq_false, if_false, hu]
    rw [if_pos hmore']
    simp [refreshNotes, hnz, hc.trans hconn, enqueue]
  · intro hmore
    have hmore' : ¬ results.startIndex + results.notes.length < results.totalNotes := hmore
    have hku' : ({ u with m_loading := false } : NotesStore).HashKeyed := hku
    obtain ⟨t, ht, _, hun, hl⟩ := fetchNotesJobDone_unhandled_keyed_fold u.m_unhandledNotes _ hku'
    refine ⟨t, ?_, ht, hl, hun⟩
    simp only [fetchNotesJobDone, handleUserError, ne_eq, not_true_eq_false, if_false, hu]
    rw [if_neg hmore']
    exact ht

/-- C14 fails for a page without summaries at start index 0 that announces more notes.
The connected store has requested a note pass (it is loading, the listing request is
queued). The page `stalledPage` has `startIndex + size = 0 < 1 = total`, yet merging it
hands over no request for a next page: `fetchNotesJobDone` calls `refreshNotes` with
start index 0, which returns at once because the store is loading. The store is left
as it was, still loading, and a later `refreshNotes` with start index 0 is refused in
the same way: the pass never completes. -/
theorem fetchNotesJobDone_empty_first_page_stalls :
    Reachable passRequestedStore ∧
    passRequestedStore.connected = true ∧ passRequestedStore.m_loading = true ∧
    passRequestedStore.jobQueue = [Job.FetchNotesJob "" "" 0] ∧
    stalledPage.startIndex + stalledPage.notes.length < stalledPage.totalNotes ∧
    passRequestedStore.fetchNotesJobDone ErrorCode.ErrorCodeNoError stalledPage "" =
      .ok passRequestedStore ∧
    passRequestedStore.refreshNotes "" 0 = passRequestedStore :=
  ⟨⟨true, [Operation.refreshNotes "" 0], rfl⟩, by decide, by decide, by decide, by decide, rfl,
    by decide⟩

/-! ### Unreported notes that were stored on the server before -/

theorem removeAt_indexOf {α : Type} [DecidableEq α] (l : List α) (x : α) :
    removeAt l (indexOf l x) = l.erase x := by
  induction l with
  | nil => rfl
  | cons y rest ih =>
    by_cases hy : y = x
    · subst hy
      simp [indexOf, removeAt]
    · have hne : (y == x) = false := by simpa using hy
      cases hr : indexOf rest x with
      | none =>
        rw [hr] at ih
        simp only [indexOf, if_neg hy, hr, Option.map_none', removeAt, List.erase_cons, hne]
        simp only [removeAt] at ih
        simp [← ih]
      | some i =>
        rw [hr] at ih
        simp only [indexOf, if_neg hy, hr, Option.map_some', removeAt, List.erase_cons, hne,
          List.eraseIdx_cons_succ]
        simp only [removeAt] at ih
        simp [← ih]

/-- C17 fails in one point: `resolveConflict` with `KeepLocal` does not discard the
shadow. On the store reached by `shadowAttachedRun` (note `g` in conflict, local
sequence number 5, shadow fetched at sequence number 4) the call leaves the note with
sequence number 6, above the shadow's, with the conflicting flag cleared, identifier
and body unchanged and a save job handed over, but the note still carries the
shadow. -/
theorem resolveConflict_keepLocal_keeps_shadow :
    Reachable (finalStore true keepLocalRun) ∧
    conflictSummary (finalStore true shadowAttachedRun) = [("g", true, some attachedShadow)] ∧
    ((finalStore true shadowAttachedRun).noteObjects[0]?).map
      (fun n => (n.guid, n.updateSequenceNumber, n.enmlContent)) =
      some ("g", 5, "local body") ∧
    (finalStore true shadowAttachedRun).resolveConflict "g" ConflictResolveMode.KeepLocal =
      .ok (finalStore true keepLocalRun) ∧
    ((finalStore true keepLocalRun).noteObjects[0]?).map
      (fun n => (n.guid, n.updateSequenceNumber, n.enmlContent)) =
      some ("g", 6, "local body") ∧
    attachedShadow.updateSequenceNumber = 4 ∧
    (finalStore true keepLocalRun).jobQueue =
      (finalStore true shadowAttachedRun).jobQueue ++ [Job.SaveNoteJob 0] ∧
    conflictSummary (finalStore true keepLocalRun) = [("g", false, some attachedShadow)] :=
  ⟨⟨true, keepLocalRun, rfl⟩, by decide, by decide, rfl, by decide, by decide, by decide,
    by decide⟩

/-- C18. `resolveConflict` on an identifier the lookup table does not know, or on a
note that carries no shadow, returns the store as it is, for both modes: no note,
number, flag, row or cache record changes and no job is handed over. -/
theorem resolveConflict_without_shadow (s : NotesStore) (noteGuid : String)
    (mode : ConflictResolveMode)
    (h : s.m_notesHash.value noteGuid = none ∨
      ∃ p note, s.m_notesHash.value noteGuid = some p ∧ s.noteObjects[p]? = some note ∧
        note.conflictingNote = none) :
    s.resolveConflict noteGuid mode = .ok s := by
  rcases h with h | ⟨p, note, hv, hn, hc⟩
  · simp [resolveConflict, h]
  · simp [resolveConflict, hv, derefNote, hn, hc]

/-- Instance of C18: on `conflictStore` the identifier `x` is unknown and note `g`
carries no shadow; both modes return the store unchanged. -/
theorem resolveConflict_without_shadow_witness :
    (conflictStore.m_notesHash.value "x" = none ∧
      conflictStore.m_notesHash.value "g" = some 0 ∧
      (conflictStore.noteObjects[0]?).map (fun n => n.conflictingNote) = some none) ∧
    conflictStore.resolveConflict "x" ConflictResolveMode.KeepLocal = .ok conflictStore ∧
    conflictStore.resolveConflict "x" ConflictResolveMode.KeepRemote = .ok conflictStore ∧
    conflictStore.resolveConflict "g" ConflictResolveMode.KeepLocal = .ok conflictStore ∧
    conflictStore.resolveConflict "g" ConflictResolveMode.KeepRemote = .ok conflictStore :=
  ⟨⟨by decide, by decide, by decide⟩,
    resolveConflict_without_shadow conflictStore "x" ConflictResolveMode.KeepLocal
      (Or.inl (by decide)),
    resolveConflict_without_shadow conflictStore "x" ConflictResolveMode.KeepRemote
      (Or.inl (by decide)),
    resolveConflict_without_shadow conflictStore "g" ConflictResolveMode.KeepLocal
      (Or.inr ⟨0, { Note.new "g" 5 with lastSyncedSequenceNumber := 3, title := "local" },
        by decide, by decide, by decide⟩),
    resolveConflict_without_shadow conflictStore "g" ConflictResolveMode.KeepRemote
      (Or.inr ⟨0, { Note.new "g" 5 with lastSyncedSequenceNumber := 3, title := "local" },
        by decide, by decide, by decide⟩)⟩

/-- C19, as stated, fails: a note is flagged conflicting before its shadow exists.
After the listing has flagged note `g` (run `conflictFlaggedRun`) the note is
conflicting and carries no shadow; a failed fetch of the remote note leaves it so; only
the successful fetch (run `shadowAttachedRun`) attaches the shadow. -/
theorem conflicting_note_without_shadow :
    Reachable (finalStore true conflictFlaggedRun) ∧
    conflictSummary (finalStore true conflictFlaggedRun) = [("g", true, none)] ∧
    Reachable (finalStore true conflictFetchFailedRun) ∧
    conflictSummary (finalStore true conflictFetchFailedRun) = [("g", true, none)] ∧
    conflictSummary (finalStore true shadowAttachedRun) = [("g", true, some attachedShadow)] :=
  ⟨⟨true, conflictFlaggedRun, rfl⟩, by decide, ⟨true, conflictFetchFailedRun, rfl⟩, by decide,
    by decide⟩

/-- C19 (amended). The shadow of a conflicting note comes with the answer to the fetch
of the remote note, after the flag. For a note stored under identifier `g`: the
conflict branch of the page loop of `fetchNotesJobDone` sets the conflicting flag and
leaves the shadow as it was (none, if the note had none); `fetchConflictingNoteJobDone`
without error attaches a shadow built from the server's note (identifier prefixed with
`conflict-`, both sequence numbers, title, body, notebook and tags of the server's
note) and leaves the flag as it was; `fetchConflictingNoteJobDone` with an error
leaves every note object as it was, so a flagged note stays flagged without shadow. -/
theorem conflict_shadow_follows_flag (s : NotesStore) (g : String) (p : Nat) (note : Note)
    (results : NotesMetadataList) (summary : NoteMetadata) (remote : EdamNote)
    (hfound : s.m_notesHash.value g = some p)
    (hnote : s.noteObjects[p]? = some note)
    (hsummary : summary.guid = g) (hremote : remote.guid = g) :
    (note.updateSequenceNumber ≠ note.lastSyncedSequenceNumber →
      note.lastSyncedSequenceNumber ≠ summary.updateSequenceNum →
      ∃ s' note', fetchNotesJobDone_result results s summary = .ok s' ∧
        s'.noteObjects[p]? = some note' ∧ note'.conflicting = true ∧
        note'.conflictingNote = note.conflictingNote) ∧
    (∃ s' note' shadow,
        s.fetchConflictingNoteJobDone ErrorCode.ErrorCodeNoError remote = .ok s' ∧
        s'.noteObjects[p]? = some note' ∧ note'.conflictingNote = some shadow ∧
        note'.conflicting = note.conflicting ∧ note'.guid = note.guid ∧
        shadow.guid = "conflict-" ++ note.guid ∧
        shadow.updateSequenceNumber = remote.updateSequenceNum ∧
        shadow.lastSyncedSequenceNumber = remote.updateSequenceNum ∧
        shadow.title = remote.title ∧ shadow.enmlContent = remote.content ∧
        shadow.notebookGuid = remote.notebookGuid ∧ shadow.tagGuids = remote.tagGuids) ∧
    (∀ errorCode, errorCode ≠ ErrorCode.ErrorCodeNoError →
      ∃ s', s.fetchConflictingNoteJobDone errorCode remote = .ok s' ∧
        s'.noteObjects = s.noteObjects ∧ s'.jobQueue = s.jobQueue) := by
  have hp : p < s.noteObjects.length := (List.getElem?_eq_some.1 hnote).1
  subst hsummary
  refine ⟨?_, ?_, ?_⟩
  · intro hunsynced hseq
    have hres := fetchNotesJobDone_result_conflict s results summary p note hfound hnote
      hunsynced hseq
    by_cases hw : results.searchedWords = []
    · refine ⟨_, { note with conflicting := true }, hres, ?_⟩
      simp [fetchNotesJobDone_searchResult, hw, setNote, enqueue, hp]
    · refine ⟨_, { note with conflicting := true, isSearchResult := true }, hres, ?_⟩
      simp [fetchNotesJobDone_searchResult, hw, setNote, enqueue, hp]
  · generalize hres : s.fetchConflictingNoteJobDone ErrorCode.ErrorCodeNoError remote = res
    simp only [fetchConflictingNoteJobDone, hremote, hfound, derefNote, hnote, handleUserError,
      ne_eq, not_true_eq_false, if_false] at hres
    subst hres
    have key : ∀ x : Note, (s.setNote p x).noteObjects[p]? = some x := by
      intro x
      simp [setNote, hp]
    refine ⟨_, _, _, rfl, key _, rfl, ?_⟩
    simp [Note.loadFromCacheFile, NoteData.new]
  · intro errorCode herr
    generalize hres : s.fetchConflictingNoteJobDone errorCode remote = res
    simp only [fetchConflictingNoteJobDone, hremote, hfound, derefNote, hnote, ne_eq, herr,
      not_false_eq_true, if_true] at hres
    subst hres
    refine ⟨_, rfl, ?_, ?_⟩ <;> cases errorCode <;> simp [handleUserError]

/-- Instance of the amended C19 on `conflictStore`: note `g` with local sequence
number 5 and last synced number 3, the summary and the server's note at sequence
number 4. -/
theorem conflict_shadow_follows_flag_witness :
    (conflictStore.m_notesHash.value "g" = some 0 ∧
      (conflictStore.noteObjects[0]?).map (fun n => (n.conflicting, n.conflictingNote)) =
        some (false, none)) ∧
    ((5 : Nat) ≠ 3 → (3 : Nat) ≠ 4 →
      ∃ s' note', fetchNotesJobDone_result conflictPage conflictStore
          (NoteMetadata.bare "g" 4) = .ok s' ∧
        s'.noteObjects[0]? = some note' ∧ note'.conflicting = true ∧
        note'.conflictingNote = none) ∧
    (∃ s' note' shadow,
        conflictStore.fetchConflictingNoteJobDone ErrorCode.ErrorCodeNoError
          { EdamNote.bare "g" 4 with title := "remote", content := "remote body" } = .ok s' ∧
        s'.noteObjects[0]? = some note' ∧ note'.conflictingNote = some shadow ∧
        note'.conflicting = false ∧ note'.guid = "g" ∧
        shadow.guid = "conflict-" ++ "g" ∧
        shadow.updateSequenceNumber = 4 ∧
        shadow.lastSyncedSequenceNumber = 4 ∧
        shadow.title = "remote" ∧ shadow.enmlContent = "remote body" ∧
        shadow.notebookGuid = "" ∧ shadow.tagGuids = []) ∧
    (∀ errorCode, errorCode ≠ ErrorCode.ErrorCodeNoError →
      ∃ s', conflictStore.fetchConflictingNoteJobDone errorCode
          { EdamNote.bare "g" 4 with title := "remote", content := "remote body" } = .ok s' ∧
        s'.noteObjects = conflictStore.noteObjects ∧ s'.jobQueue = conflictStore.jobQueue) :=
  ⟨⟨by decide, by decide⟩,
    conflict_shadow_follows_flag conflictStore "g" 0
      { Note.new "g" 5 with lastSyncedSequenceNumber := 3, title := "local" }
      conflictPage (NoteMetadata.bare "g" 4)
      { EdamNote.bare "g" 4 with title := "remote", content := "remote body" }
      (by decide) (by decide) rfl rfl⟩

/-! ### Local removal and removal on the server -/

/-- A success report of a delete job for an identifier that is not in the lookup table
ends in the access to a missing note (`removeNote` has no check), whatever the store. -/
theorem deleteNoteJobDone_unknown (s : NotesStore) (guid : String)
    (h : s.m_notesHash.value guid = none) :
    s.deleteNoteJobDone ErrorCode.ErrorCodeNoError guid = .error Fault.nullPointer := by
  simp [deleteNoteJobDone, handleUserError, removeNote, h]

/-- C21. The store reaches a state in which a report for a note that is gone does not
return: after the run `deletedTwiceRun` (a note stored as `g`, `deleteNote` called
twice, the first delete job reported) note `g` is in no collection and the second
delete job is still under way; its success report `deleteNoteJobDone` reads the
missing note and ends in a null-pointer access, while `saveNoteJobDone` and
`fetchNoteJobDone` for the same identifier return the store unchanged. -/
theorem deleteNoteJobDone_reads_missing_note :
    ∃ s, Reachable s ∧
      s.m_notesHash.value "g" = none ∧ s.m_notes = [] ∧
      s.jobQueue = [Job.CreateNoteJob 0, Job.DeleteNoteJob "g", Job.DeleteNoteJob "g"] ∧
      s.deleteNoteJobDone ErrorCode.ErrorCodeNoError "g" = .error Fault.nullPointer ∧
      s.saveNoteJobDone ErrorCode.ErrorCodeNoError (EdamNote.bare "g" 9) = .ok s ∧
      s.fetchNoteJobDone ErrorCode.ErrorCodeNoError (EdamNote.bare "g" 9) LoadContent
        JobPriority.JobPriorityMedium (fun _ => true) = .ok s := by
  have hrun : runOperations (NotesStore.init true) deletedTwiceRun =
      .ok (finalStore true deletedTwiceRun) := rfl
  refine ⟨finalStore true deletedTwiceRun, ⟨true, deletedTwiceRun, hrun⟩, ?_, ?_, ?_, rfl, rfl,
    rfl⟩ <;> decide

/-- C22. The store reaches states in which a failed job leaves the sync-error flag of
its note unset. After `conflictFlaggedRun` the fetch of the remote version of note `g`
is under way; its failure report (`fetchConflictingNoteJobDone` with an error outside
the three user-visible classes) returns the store as it was, the flag still unset.
After `deleteRequestedRun` the delete job of note `g` is under way; its failure report
(`deleteNoteJobDone`) returns the store as it was, the flag still unset. -/
theorem failed_fetch_and_delete_set_no_sync_error :
    (∃ s, Reachable s ∧ errorSummary s = [("g", false, true)] ∧
      s.fetchConflictingNoteJobDone ErrorCode.ErrorCodeOther (EdamNote.bare "g" 0) = .ok s) ∧
    (∃ s, Reachable s ∧ errorSummary s = [("g", false, false)] ∧
      s.deleteNoteJobDone ErrorCode.ErrorCodeOther "g" = .ok s) := by
  have hrun : runOperations (NotesStore.init true) conflictFlaggedRun =
      .ok (finalStore true conflictFlaggedRun) := rfl
  have hrun' : runOperations (NotesStore.init true) deleteRequestedRun =
      .ok (finalStore true deleteRequestedRun) := rfl
  refine ⟨⟨finalStore true conflictFlaggedRun, ⟨true, conflictFlaggedRun, hrun⟩, ?_, rfl⟩,
    ⟨finalStore true deleteRequestedRun, ⟨true, deleteRequestedRun, hrun'⟩, ?_, rfl⟩⟩ <;> decide

/-- C23. The store reaches a state from which the removal of a tag that vanished on the
server leaves its record in the cache group: after `tagStoredRun` the table and the
group `tags` both hold exactly `g`; an empty tag listing removes `g` from the
collection and the table, and the group still records `g`. -/
theorem fetchTagsJobDone_keeps_cache_record :
    ∃ s s', Reachable s ∧
      s.m_tagsHash.keys = ["g"] ∧ s.cacheTags.map Prod.fst = ["g"] ∧
      s.fetchTagsJobDone ErrorCode.ErrorCodeNoError [] = .ok s' ∧
      s'.m_tags = [] ∧ s'.m_tagsHash.keys = [] ∧ s'.cacheTags.map Prod.fst = ["g"] := by
  have hrun : runOperations (NotesStore.init true) tagStoredRun =
      .ok (finalStore true tagStoredRun) := rfl
  refine ⟨finalStore true tagStoredRun, _, ⟨true, tagStoredRun, hrun⟩, ?_, ?_, rfl, ?_, ?_, ?_⟩ <;>
    decide

/-- C25. The store reaches states from which a notebook, and a tag, with local changes
is deleted when the server no longer lists it. After `notebookEditedRun` notebook `g`
has `updateSequenceNumber = 6` and `lastSyncedSequenceNumber = 5`; an empty notebook
listing removes it from the collection and the table, and its sync-error flag is never
set. After `tagEditedRun` tag `g` has the numbers 5 and 4; an empty tag listing removes
it in the same way. -/
theorem unreported_modified_notebook_and_tag_removed :
    (∃ s s', Reachable s ∧ notebookFlags s = [("g", 6, 5, false, false)] ∧
      s.fetchNotebooksJobDone ErrorCode.ErrorCodeNoError [] = .ok s' ∧
      s'.m_notebooks = [] ∧ s'.m_notebooksHash = [] ∧
      s'.notebookObjects.map (fun n => (n.guid, n.syncError)) = [("g", false)]) ∧
    (∃ s s', Reachable s ∧ tagFlags s = [("g", 5, 4, false, false)] ∧
      s.fetchTagsJobDone ErrorCode.ErrorCodeNoError [] = .ok s' ∧
      s'.m_tags = [] ∧ s'.m_tagsHash = [] ∧
      s'.tagObjects.map (fun t => (t.guid, t.syncError)) = [("g", false)]) := by
  have hrun : runOperations (NotesStore.init true) notebookEditedRun =
      .ok (finalStore true notebookEditedRun) := rfl
  have hrun' : runOperations (NotesStore.init true) tagEditedRun =
      .ok (finalStore true tagEditedRun) := rfl
  refine ⟨⟨finalStore true notebookEditedRun, _, ⟨true, notebookEditedRun, hrun⟩, ?_, rfl,
      ?_, ?_, ?_⟩,
    ⟨finalStore true tagEditedRun, _, ⟨true, tagEditedRun, hrun'⟩, ?_, rfl, ?_, ?_, ?_⟩⟩ <;>
    decide

/-- C27. The store reaches a state in which a note acknowledged by the server has
never-synced numbers: after `equalNumberRun` (note created with local number 1, create
job acknowledged with server number 1) note `g` has `updateSequenceNumber = 1` and
`lastSyncedSequenceNumber = 0` and is not reported synced, because `createNoteJobDone`
writes both numbers only when the server number differs from the local one. -/
theorem createNoteJobDone_equal_number_not_synced :
    ∃ s, Reachable s ∧ s.m_notesHash = [("g", 0)] ∧
      (s.noteObjects[0]?).map (fun n =>
        (n.guid, n.updateSequenceNumber, n.lastSyncedSequenceNumber, n.synced)) =
        some ("g", 1, 0, false) := by
  have hrun : runOperations (NotesStore.init true) equalNumberRun =
      .ok (finalStore true equalNumberRun) := rfl
  refine ⟨finalStore true equalNumberRun, ⟨true, equalNumberRun, hrun⟩, ?_, ?_⟩ <;> decide

/-- C28. The store reaches a state from which a note pass for one notebook removes a
note of another notebook: after `filteredPassRun` the notes `g1` (notebook `A`) and
`g2` (notebook `B`) are stored on the server and in sync, and a pass for notebook `A`
has been requested; the report of the complete listing of notebook `A` leaves `g1`
alone and removes `g2` from the collection, the table and the cache group. -/
theorem filtered_pass_removes_note_of_other_notebook :
    ∃ s s', Reachable s ∧
      filterSummary s = [("g1", "A", false), ("g2", "B", false)] ∧
      s.fetchNotesJobDone ErrorCode.ErrorCodeNoError notebookAPage "A" = .ok s' ∧
      filterSummary s' = [("g1", "A", false)] ∧
      s'.m_notesHash.value "g2" = none ∧
      s'.cacheNotes.map Prod.fst = ["g1"] := by
  have hrun : runOperations (NotesStore.init true) filteredPassRun =
      .ok (finalStore true filteredPassRun) := rfl
  refine ⟨finalStore true filteredPassRun, _, ⟨true, filteredPassRun, hrun⟩, ?_, rfl, ?_, ?_,
    ?_⟩ <;> decide

/-- C30. The store reaches a state in which a notebook stays flagged as loading with
no job under way for it: after `notebookSaveRun` the save job of notebook `g` is the
one job not yet reported and the notebook is loading; the failure report
`saveNotebookJobDone` sets the sync-error flag, hands over no job, and leaves the
loading flag set. -/
theorem saveNotebookJobDone_failure_keeps_loading :
    ∃ s s', Reachable s ∧
      notebookFlags s = [("g", 6, 5, true, false)] ∧
      s.jobQueue = [Job.CreateNotebookJob 0, Job.SaveNotebookJob 0] ∧
      s.saveNotebookJobDone ErrorCode.ErrorCodeOther (EdamNotebook.full "g" "Work" 0 true) =
        .ok s' ∧
      s'.jobQueue = s.jobQueue ∧
      notebookFlags s' = [("g", 6, 5, true, true)] := by
  have hrun : runOperations (NotesStore.init true) notebookSaveRun =
      .ok (finalStore true notebookSaveRun) := rfl
  refine ⟨finalStore true notebookSaveRun, _, ⟨true, notebookSaveRun, hrun⟩, ?_, ?_, rfl, ?_,
    ?_⟩ <;> decide

/-! ### Identifier replacement after remote creation -/

theorem CacheGroup.mem_keys_setValue (c : CacheGroup) (key : String) (v : Nat) (k : String) :
    k ∈ (CacheGroup.setValue c key v).map Prod.fst ↔ k = key ∨ k ∈ c.map Prod.fst := by
  induction c with
  | nil => simp [CacheGroup.setValue]
  | cons e rest ih =>
    obtain ⟨a, w⟩ := e
    by_cases ha : a = key
    · subst ha
      simp only [CacheGroup.setValue, if_true, List.map_cons, List.mem_cons]
      tauto
    · simp only [CacheGroup.setValue, if_neg ha, List.map_cons, List.mem_cons, ih]
      tauto

theorem CacheGroup.mem_keys_remove (c : CacheGroup) (key : String) (k : String) :
    k ∈ (CacheGroup.remove c key).map Prod.fst ↔ k ≠ key ∧ k ∈ c.map Prod.fst := by
  simp only [CacheGroup.remove, List.mem_map, List.mem_filter, decide_eq_true_eq]
  constructor
  · rintro ⟨e, ⟨he, hne⟩, rfl⟩
    exact ⟨hne, e, he, rfl⟩
  · rintro ⟨hne, e, he, rfl⟩
    exact ⟨e, ⟨he, hne⟩, rfl⟩

theorem createdNote_guid (note : Note) (result : EdamNote) :
    (createdNote note result).guid = result.guid := by
  simp only [createdNote, apply_ite Note.toNoteData, apply_ite NoteData.guid, ite_self]

/-- Explicit result of `createNoteJobDone` on a success report for a note that is in
the table. -/
theorem createNoteJobDone_found (s : NotesStore) (t : String) (result : EdamNote) (p : Nat)
    (note : Note) (hv : s.m_notesHash.value t = some p) (hn : s.noteObjects[p]? = some note) :
    s.createNoteJobDone ErrorCode.ErrorCodeNoError t result = .ok { s with
      m_notesHash := (s.m_notesHash.insert result.guid p).remove t,
      noteObjects := s.noteObjects.set p (createdNote note result),
      cacheNotes := (s.cacheNotes.remove t).setValue result.guid
        (createdNote note result).updateSequenceNumber } := by
  have h : s.createNoteJobDone ErrorCode.ErrorCodeNoError t result = .ok { s with
      m_notesHash := (s.m_notesHash.insert result.guid p).remove t,
      noteObjects := s.noteObjects.set p (createdNote note result),
      cacheNotes := (s.cacheNotes.remove t).setValue (createdNote note result).guid
        (createdNote note result).updateSequenceNumber } := by
    simp only [createNoteJobDone, hv, derefNote, hn, handleUserError, ne_eq, not_true_eq_false,
      if_false, setNote, syncToCacheFileNote]
    rfl
  rw [h, createdNote_guid]

/-- A call of `saveNote` returns when every pointer of the table leads to an object; it
changes note objects, cache group and job queue only and keeps the number of objects. -/
theorem saveNote_succeeds (s : NotesStore) (guid : String) (hv : s.TableValid) :
    ∃ s', s.saveNote guid = .ok s' ∧ OnlyNotesChanged s s' ∧
      s'.noteObjects.length = s.noteObjects.length := by
  cases hg : s.m_notesHash.value guid with
  | none =>
    refine ⟨s, by simp [saveNote, hg], OnlyNotesChanged.only_refl s, rfl⟩
  | some p =>
    have hp : p < s.noteObjects.length := hv (guid, p) (QHash.mem_of_value _ _ _ hg)
    have hn : s.noteObjects[p]? = some s.noteObjects[p] := List.getElem?_eq_getElem hp
    refine ⟨_, saveNote_found s guid p _ hg hn, ?_, ?_⟩
    · unfold OnlyNotesChanged
      rfl
    · simp

theorem saveNote_fold_succeeds (l : List String) (s : NotesStore) (hv : s.TableValid) :
    ∃ s', l.foldlM saveNote s = .ok s' ∧ OnlyNotesChanged s s' ∧
      s'.noteObjects.length = s.noteObjects.length := by
  induction l generalizing s with
  | nil => exact ⟨s, rfl, OnlyNotesChanged.only_refl s, rfl⟩
  | cons g rest ih =>
    obtain ⟨s1, h1, ho1, hl1⟩ := saveNote_succeeds s g hv
    have hh : s1.m_notesHash = s.m_notesHash := by
      have := congrArg NotesStore.m_notesHash ho1
      exact this
    have hv1 : s1.TableValid := by
      intro e he
      rw [hh] at he
      rw [hl1]
      exact hv e he
    obtain ⟨s2, h2, ho2, hl2⟩ := ih s1 hv1
    refine ⟨s2, ?_, ho1.only_trans ho2, hl2.trans hl1⟩
    simp only [List.foldlM_cons, h1]
    exact h2

theorem createNotebookJobDone_found (s : NotesStore) (t : String) (result : EdamNotebook)
    (p : Nat) (notebook : Notebook) (hv : s.m_notebooksHash.value t = some p)
    (hn : s.notebookObjects[p]? = some notebook) :
    s.createNotebookJobDone ErrorCode.ErrorCodeNoError t result =
      ((s.afterNotebookRekey t result p notebook).notebookNotesList result.guid).foldlM
        saveNote (s.afterNotebookRekey t result p notebook) := by
  simp only [createNotebookJobDone, hv, derefNotebook, hn, handleUserError, ne_eq,
    not_true_eq_false, if_false, setNotebook, syncToCacheFileNotebook, rekeyNotebookGuid]
  rfl

theorem createTagJobDone_found (s : NotesStore) (t : String) (result : EdamTag)
    (p : Nat) (tag : Tag) (hv : s.m_tagsHash.value t = some p)
    (hn : s.tagObjects[p]? = some tag) :
    s.createTagJobDone ErrorCode.ErrorCodeNoError t result =
      ((s.afterTagRekey t result p tag).tagNotesList result.guid).foldlM
        saveNote (s.afterTagRekey t result p tag) := by
  simp only [createTagJobDone, hv, derefTag, hn, handleUserError, ne_eq,
    not_true_eq_false, if_false, setTag, syncToCacheFileTag, rekeyTagGuid]
  rfl

theorem createNoteJobDone_rekeys (s : NotesStore) (t : String) (result : EdamNote) (p : Nat)
    (note : Note) (hv : s.m_notesHash.value t = some p) (hn : s.noteObjects[p]? = some note)
    (hne : result.guid ≠ t) :
    ∃ s' note', s.createNoteJobDone ErrorCode.ErrorCodeNoError t result = .ok s' ∧
      s'.m_notesHash.value result.guid = some p ∧
      s'.noteObjects[p]? = some note' ∧ note'.guid = result.guid ∧
      s'.m_notesHash.value t = none ∧
      s'.m_notes = s.m_notes ∧
      result.guid ∈ s'.cacheNotes.map Prod.fst ∧ t ∉ s'.cacheNotes.map Prod.fst := by
  have hp : p < s.noteObjects.length := (List.getElem?_eq_some.1 hn).1
  refine ⟨_, createdNote note result, createNoteJobDone_found s t result p note hv hn, ?_, ?_,
    createdNote_guid note result, ?_, rfl, ?_, ?_⟩
  · show ((s.m_notesHash.insert result.guid p).remove t).value result.guid = some p
    rw [QHash.value_remove_of_ne _ _ _ hne, QHash.value_insert_self]
  · show (s.noteObjects.set p (createdNote note result))[p]? = some _
    exact List.getElem?_set_self hp
  · exact QHash.value_remove_self _ _
  · exact (CacheGroup.mem_keys_setValue _ _ _ _).2 (Or.inl rfl)
  · intro hmem
    rcases (CacheGroup.mem_keys_setValue _ _ _ _).1 hmem with h | h
    · exact hne h.symm
    · exact ((CacheGroup.mem_keys_remove _ _ _).1 h).1 rfl

theorem createNotebookJobDone_rekeys (s : NotesStore) (t : String) (result : EdamNotebook)
    (p : Nat) (notebook : Notebook) (hv : s.m_notebooksHash.value t = some p)
    (hn : s.notebookObjects[p]? = some notebook) (hne : result.guid ≠ t)
    (hvalid : s.TableValid) :
    ∃ s' notebook', s.createNotebookJobDone ErrorCode.ErrorCodeNoError t result = .ok s' ∧
      s'.m_notebooksHash.value result.guid = some p ∧
      s'.notebookObjects[p]? = some notebook' ∧ notebook'.guid = result.guid ∧
      s'.m_notebooksHash.value t = none ∧
      s'.m_notebooks = s.m_notebooks ∧
      result.guid ∈ s'.cacheNotebooks.map Prod.fst ∧
      t ∉ s'.cacheNotebooks.map Prod.fst := by
  have hp : p < s.notebookObjects.length := (List.getElem?_eq_some.1 hn).1
  have hvalid1 : (s.afterNotebookRekey t result p notebook).TableValid := by
    intro e he
    have := hvalid e he
    simpa [afterNotebookRekey] using this
  obtain ⟨s', hrun, ho, -⟩ := saveNote_fold_succeeds
    ((s.afterNotebookRekey t result p notebook).notebookNotesList result.guid) _ hvalid1
  have h1 : s'.m_notebooksHash = (s.m_notebooksHash.insert result.guid p).remove t := by
    have := congrArg NotesStore.m_notebooksHash ho
    exact this
  have h2 : s'.notebookObjects = s.notebookObjects.set p
      { notebook with loading := false, guid := result.guid,
                      updateSequenceNumber := result.updateSequenceNum,
                      lastSyncedSequenceNumber := result.updateSequenceNum,
                      name := result.name } := by
    have := congrArg NotesStore.notebookObjects ho
    exact this
  have h3 : s'.m_notebooks = s.m_notebooks := by
    have := congrArg NotesStore.m_notebooks ho
    exact this
  have h4 : s'.cacheNotebooks =
      (s.cacheNotebooks.remove t).setValue result.guid result.updateSequenceNum := by
    have := congrArg NotesStore.cacheNotebooks ho
    exact this
  obtain ⟨x, hx, hxg⟩ : ∃ x, s'.notebookObjects[p]? = some x ∧ x.guid = result.guid := by
    rw [h2]
    exact ⟨_, List.getElem?_set_self hp, rfl⟩
  refine ⟨s', x, (createNotebookJobDone_found s t result p notebook hv hn).trans hrun, ?_, hx,
    hxg, ?_, h3, ?_, ?_⟩
  · rw [h1, QHash.value_remove_of_ne _ _ _ hne, QHash.value_insert_self]
  · rw [h1]
    exact QHash.value_remove_self _ _
  · rw [h4]
    exact (CacheGroup.mem_keys_setValue _ _ _ _).2 (Or.inl rfl)
  · rw [h4]
    intro hmem
    rcases (CacheGroup.mem_keys_setValue _ _ _ _).1 hmem with h | h
    · exact hne h.symm
    · exact ((CacheGroup.mem_keys_remove _ _ _).1 h).1 rfl

theorem createTagJobDone_rekeys (s : NotesStore) (t : String) (result : EdamTag)
    (p : Nat) (tag : Tag) (hv : s.m_tagsHash.value t = some p)
    (hn : s.tagObjects[p]? = some tag) (hne : result.guid ≠ t)
    (hvalid : s.TableValid) :
    ∃ s' tag', s.createTagJobDone ErrorCode.ErrorCodeNoError t result = .ok s' ∧
      s'.m_tagsHash.value result.guid = some p ∧
      s'.tagObjects[p]? = some tag' ∧ tag'.guid = result.guid ∧
      s'.m_tagsHash.value t = none ∧
      s'.m_tags = s.m_tags ∧
      result.guid ∈ s'.cacheTags.map Prod.fst ∧
      t ∉ s'.cacheTags.map Prod.fst := by
  have hp : p < s.tagObjects.length := (List.getElem?_eq_some.1 hn).1
  have hvalid1 : (s.afterTagRekey t result p tag).TableValid := by
    intro e he
    have := hvalid e he
    simpa [afterTagRekey] using this
  obtain ⟨s', hrun, ho, -⟩ := saveNote_fold_succeeds
    ((s.afterTagRekey t result p tag).tagNotesList result.guid) _ hvalid1
  have h1 : s'.m_tagsHash = (s.m_tagsHash.insert result.guid p).remove t := by
    have := congrArg NotesStore.m_tagsHash ho
    exact this
  have h2 : s'.tagObjects = s.tagObjects.set p
      { tag with loading := false, guid := result.guid,
                 updateSequenceNumber := result.updateSequenceNum,
                 lastSyncedSequenceNumber := result.updateSequenceNum } := by
    have := congrArg NotesStore.tagObjects ho
    exact this
  have h3 : s'.m_tags = s.m_tags := by
    have := congrArg NotesStore.m_tags ho
    exact this
  have h4 : s'.cacheTags =
      (s.cacheTags.remove t).setValue result.guid result.updateSequenceNum := by
    have := congrArg NotesStore.cacheTags ho
    exact this
  obtain ⟨x, hx, hxg⟩ : ∃ x, s'.tagObjects[p]? = some x ∧ x.guid = result.guid := by
    rw [h2]
    exact ⟨_, List.getElem?_set_self hp, rfl⟩
  refine ⟨s', x, (createTagJobDone_found s t result p tag hv hn).trans hrun, ?_, hx,
    hxg, ?_, h3, ?_, ?_⟩
  · rw [h1, QHash.value_remove_of_ne _ _ _ hne, QHash.value_insert_self]
  · rw [h1]
    exact QHash.value_remove_self _ _
  · rw [h4]
    exact (CacheGroup.mem_keys_setValue _ _ _ _).2 (Or.inl rfl)
  · rw [h4]
    intro hmem
    rcases (CacheGroup.mem_keys_setValue _ _ _ _).1 hmem with h | h
    · exact hne h.symm
    · exact ((CacheGroup.mem_keys_remove _ _ _).1 h).1 rfl

/-- C24. A success report of a create job that names a server identifier `g` other than
the temporary identifier `t` re-keys the entity: `createNoteJobDone`,
`createNotebookJobDone` and `createTagJobDone` return (the latter two on a store whose
note table leads to objects, as they save the notes of the entity), the table returns
the entity for `g` and nothing for `t`, the entity carries `g` as its identifier, the
ordered collection is the same list of entities, and the cache group of the kind has a
record for `g` and none for `t`. -/
theorem create_job_done_replaces_identifier :
    (∀ (s : NotesStore) (t : String) (result : EdamNote) (p : Nat) (note : Note),
      s.m_notesHash.value t = some p → s.noteObjects[p]? = some note → result.guid ≠ t →
      ∃ s' note', s.createNoteJobDone ErrorCode.ErrorCodeNoError t result = .ok s' ∧
        s'.m_notesHash.value result.guid = some p ∧
        s'.noteObjects[p]? = some note' ∧ note'.guid = result.guid ∧
        s'.m_notesHash.value t = none ∧
        s'.m_notes = s.m_notes ∧
        result.guid ∈ s'.cacheNotes.map Prod.fst ∧ t ∉ s'.cacheNotes.map Prod.fst) ∧
    (∀ (s : NotesStore) (t : String) (result : EdamNotebook) (p : Nat) (notebook : Notebook),
      s.m_notebooksHash.value t = some p → s.notebookObjects[p]? = some notebook →
      result.guid ≠ t → s.TableValid →
      ∃ s' notebook', s.createNotebookJobDone ErrorCode.ErrorCodeNoError t result = .ok s' ∧
        s'.m_notebooksHash.value result.guid = some p ∧
        s'.notebookObjects[p]? = some notebook' ∧ notebook'.guid = result.guid ∧
        s'.m_notebooksHash.value t = none ∧
        s'.m_notebooks = s.m_notebooks ∧
        result.guid ∈ s'.cacheNotebooks.map Prod.fst ∧
        t ∉ s'.cacheNotebooks.map Prod.fst) ∧
    (∀ (s : NotesStore) (t : String) (result : EdamTag) (p : Nat) (tag : Tag),
      s.m_tagsHash.value t = some p → s.tagObjects[p]? = some tag →
      result.guid ≠ t → s.TableValid →
      ∃ s' tag', s.createTagJobDone ErrorCode.ErrorCodeNoError t result = .ok s' ∧
        s'.m_tagsHash.value result.guid = some p ∧
        s'.tagObjects[p]? = some tag' ∧ tag'.guid = result.guid ∧
        s'.m_tagsHash.value t = none ∧
        s'.m_tags = s.m_tags ∧
        result.guid ∈ s'.cacheTags.map Prod.fst ∧
        t ∉ s'.cacheTags.map Prod.fst) :=
  ⟨createNoteJobDone_rekeys, createNotebookJobDone_rekeys, createTagJobDone_rekeys⟩

theorem create_job_done_replaces_identifier_witness :
    (∃ s' note', noteCreatedStore.createNoteJobDone ErrorCode.ErrorCodeNoError "tmp"
        (EdamNote.bare "g" 7) = .ok s' ∧
      s'.m_notesHash.value "g" = some 0 ∧
      s'.noteObjects[0]? = some note' ∧ note'.guid = "g" ∧
      s'.m_notesHash.value "tmp" = none ∧
      s'.m_notes = noteCreatedStore.m_notes ∧
      "g" ∈ s'.cacheNotes.map Prod.fst ∧ "tmp" ∉ s'.cacheNotes.map Prod.fst) ∧
    (∃ s' notebook', notebookCreatedStore.createNotebookJobDone ErrorCode.ErrorCodeNoError "t"
        (EdamNotebook.full "g" "Work" 5 true) = .ok s' ∧
      s'.m_notebooksHash.value "g" = some 0 ∧
      s'.notebookObjects[0]? = some notebook' ∧ notebook'.guid = "g" ∧
      s'.m_notebooksHash.value "t" = none ∧
      s'.m_notebooks = notebookCreatedStore.m_notebooks ∧
      "g" ∈ s'.cacheNotebooks.map Prod.fst ∧ "t" ∉ s'.cacheNotebooks.map Prod.fst) ∧
    (∃ s' tag', tagCreatedStore.createTagJobDone ErrorCode.ErrorCodeNoError "t"
        { guid := "g", name := "urgent", updateSequenceNum := 4 } = .ok s' ∧
      s'.m_tagsHash.value "g" = some 0 ∧
      s'.tagObjects[0]? = some tag' ∧ tag'.guid = "g" ∧
      s'.m_tagsHash.value "t" = none ∧
      s'.m_tags = tagCreatedStore.m_tags ∧
      "g" ∈ s'.cacheTags.map Prod.fst ∧ "t" ∉ s'.cacheTags.map Prod.fst) :=
  ⟨create_job_done_replaces_identifier.1 noteCreatedStore "tmp" (EdamNote.bare "g" 7) 0
      { Note.new "tmp" 1 with title := "title", enmlContent := "body", loaded := true,
                              created := some 0, updated := some 0 }
      (by decide) (by decide) (by decide),
    create_job_done_replaces_identifier.2.1 notebookCreatedStore "t"
      (EdamNotebook.full "g" "Work" 5 true) 0
      { Notebook.new "t" 1 with name := "Work", isDefaultNotebook := true, loading := true }
      (by decide) (by decide) (by decide) (by unfold TableValid; decide),
    create_job_done_replaces_identifier.2.2 tagCreatedStore "t"
      { guid := "g", name := "urgent", updateSequenceNum := 4 } 0
      { Tag.new "t" 1 with name := "urgent" }
      (by decide) (by decide) (by decide) (by unfold TableValid; decide)⟩

/-! ### Sequence numbers that are never lowered -/

theorem NumbersKept.numbers_refl (s : NotesStore) : NumbersKept s s :=
  fun _ note h => ⟨note, h, le_rfl⟩

theorem NumbersKept.numbers_trans {s t u : NotesStore} (h1 : NumbersKept s t)
    (h2 : NumbersKept t u) : NumbersKept s u := by
  intro q note hq
  obtain ⟨x, hx, hle⟩ := h1 q note hq
  obtain ⟨y, hy, hle'⟩ := h2 q x hx
  exact ⟨y, hy, le_trans hle hle'⟩

theorem NumbersKept.of_objects {s t : NotesStore} (h : t.noteObjects = s.noteObjects) :
    NumbersKept s t := by
  intro q note hq
  exact ⟨note, by rw [h]; exact hq, le_rfl⟩

theorem NumbersKept.numbers_of_set {s t : NotesStore} {p : Nat} {x : Note}
    (hobj : t.noteObjects = s.noteObjects.set p x)
    (hle : ∀ note, s.noteObjects[p]? = some note →
      note.updateSequenceNumber ≤ x.updateSequenceNumber) : NumbersKept s t := by
  intro q note hq
  by_cases hqp : p = q
  · subst hqp
    have hp : p < s.noteObjects.length := (List.getElem?_eq_some.1 hq).1
    exact ⟨x, by rw [hobj]; exact List.getElem?_set_self hp, hle note hq⟩
  · exact ⟨note, by rw [hobj, List.getElem?_set_ne hqp]; exact hq, le_rfl⟩

theorem NumbersKept.numbers_of_append {s t : NotesStore} {l : List Note}
    (hobj : t.noteObjects = s.noteObjects ++ l) : NumbersKept s t := by
  intro q note hq
  have hp : q < s.noteObjects.length := (List.getElem?_eq_some.1 hq).1
  exact ⟨note, by rw [hobj, List.getElem?_append_left hp]; exact hq, le_rfl⟩

/-- A fold of a step that keeps a reflexive and transitive relation between the store
before and after keeps the relation. -/
theorem foldlM_keeps {α : Type} (R : NotesStore → NotesStore → Prop)
    (hrefl : ∀ s, R s s) (htrans : ∀ s t u, R s t → R t u → R s u)
    (f : NotesStore → α → Except Fault NotesStore)
    (hf : ∀ s a t, f s a = .ok t → R s t) (l : List α) :
    ∀ s t, l.foldlM f s = .ok t → R s t := by
  induction l with
  | nil =>
    intro s t h
    simp only [List.foldlM_nil] at h
    cases h
    exact hrefl s
  | cons a rest ih =>
    intro s t h
    simp only [List.foldlM_cons] at h
    cases h1 : f s a with
    | error e =>
      rw [h1] at h
      cases h
    | ok s1 =>
      rw [h1] at h
      exact htrans s s1 t (hf s a s1 h1) (ih s1 t h)

theorem saveNote_numbersKept (s t : NotesStore) (guid : String)
    (h : s.saveNote guid = .ok t) : NumbersKept s t := by
  cases hv : s.m_notesHash.value guid with
  | none =>
    simp [saveNote, hv] at h
    subst h
    exact NumbersKept.numbers_refl s
  | some p =>
    cases hn : s.noteObjects[p]? with
    | none => simp [saveNote, hv, derefNote, hn] at h
    | some note =>
      rw [saveNote_found s guid p note hv hn] at h
      cases h
      refine NumbersKept.numbers_of_set rfl ?_
      intro x hx
      rw [hn] at hx
      cases hx
      simp [savedNote]

theorem removeNote_numbersKept (s t : NotesStore) (guid : String)
    (h : s.removeNote guid = .ok t) : NumbersKept s t := by
  cases hv : s.m_notesHash.value guid with
  | none => simp [removeNote, hv] at h
  | some p =>
    cases hn : s.noteObjects[p]? with
    | none => simp [removeNote, hv, derefNote, hn] at h
    | some note =>
      simp only [removeNote, hv, derefNote, hn] at h
      cases h
      exact NumbersKept.of_objects rfl

theorem deleteNote_numbersKept (s t : NotesStore) (guid : String)
    (h : s.deleteNote guid = .ok t) : NumbersKept s t := by
  cases hv : s.m_notesHash.value guid with
  | none =>
    simp [deleteNote, hv] at h
    subst h
    exact NumbersKept.numbers_refl s
  | some p =>
    cases hn : s.noteObjects[p]? with
    | none => simp [deleteNote, hv, derefNote, hn] at h
    | some note =>
      simp only [deleteNote, hv, derefNote, hn] at h
      split at h
      · exact removeNote_numbersKept s t guid h
      · have hle : ∀ x, s.noteObjects[p]? = some x → x.updateSequenceNumber ≤
            note.updateSequenceNumber + 1 := by
          intro x hx
          rw [hn] at hx
          cases hx
          exact Nat.le_succ _
        split at h <;> cases h <;> exact NumbersKept.numbers_of_set rfl hle

theorem refreshNoteContent_numbersKept (s t : NotesStore) (guid : String)
    (what : LoadWhatFlags) (priority : JobPriority)
    (h : s.refreshNoteContent guid what priority = .ok t) : NumbersKept s t := by
  cases hv : s.m_notesHash.value guid with
  | none =>
    simp [refreshNoteContent, hv] at h
    subst h
    exact NumbersKept.numbers_refl s
  | some p =>
    cases hn : s.noteObjects[p]? with
    | none => simp [refreshNoteContent, hv, derefNote, hn] at h
    | some note =>
      obtain ⟨u, x, hu, hfields, hx⟩ := refreshNoteContent_found s guid what priority p note hv hn
      rw [hu] at h
      cases h
      refine NumbersKept.numbers_of_set (by rw [hfields]) ?_
      intro y hy
      rw [hn] at hy
      cases hy
      rcases hx with rfl | rfl <;> exact le_rfl

theorem fetchNotesJobDone_searchResult_numbersKept (results : NotesMetadataList)
    (s : NotesStore) (p : Nat) : NumbersKept s (fetchNotesJobDone_searchResult results s p) := by
  cases hn : s.noteObjects[p]? with
  | none =>
    have : fetchNotesJobDone_searchResult results s p = s := by
      simp only [fetchNotesJobDone_searchResult, hn]
      split <;> rfl
    rw [this]
    exact NumbersKept.numbers_refl s
  | some note =>
    rw [fetchNotesJobDone_searchResult_eq results s p note hn]
    refine NumbersKept.numbers_of_set rfl ?_
    intro y hy
    rw [hn] at hy
    cases hy
    exact le_rfl

theorem fetchNotesJobDone_result_numbersKept (results : NotesMetadataList) (s t : NotesStore)
    (r : NoteMetadata) (h : fetchNotesJobDone_result results s r = .ok t) :
    NumbersKept s t := by
  cases hv : s.m_notesHash.value r.guid with
  | none =>
    simp only [fetchNotesJobDone_result, hv] at h
    cases h
    refine NumbersKept.numbers_trans ?_ (fetchNotesJobDone_searchResult_numbersKept _ _ _)
    exact NumbersKept.numbers_of_append (l := [updateFromEDAM r (Note.new r.guid 0)]) rfl
  | some p =>
    cases hn : s.noteObjects[p]? with
    | none => simp [fetchNotesJobDone_result, hv, derefNote, hn] at h
    | some note =>
      have hsame : ∀ x : Note, x.updateSequenceNumber = note.updateSequenceNumber →
          ∀ y, s.noteObjects[p]? = some y → y.updateSequenceNumber ≤ x.updateSequenceNumber := by
        intro x hx y hy
        rw [hn] at hy
        cases hy
        exact le_of_eq hx.symm
      simp only [fetchNotesJobDone_result, hv, derefNote, hn] at h
      split at h
      · split at h
        · rename_i hlt
          split at h
          · cases h
          · rename_i u hu
            cases h
            refine NumbersKept.numbers_trans ?_ (fetchNotesJobDone_searchResult_numbersKept _ _ _)
            refine NumbersKept.numbers_trans ?_
              (NumbersKept.numbers_trans (refreshNoteContent_numbersKept _ _ _ _ _ hu)
                (NumbersKept.of_objects rfl))
            refine NumbersKept.numbers_of_set (p := p) (x := updateFromEDAM r note) rfl ?_
            intro y hy
            rw [hn] at hy
            cases hy
            rw [updateFromEDAM_updateSequenceNumber]
            split
            · exact le_of_lt hlt
            · exact le_rfl
        · cases h
          refine NumbersKept.numbers_trans ?_ (fetchNotesJobDone_searchResult_numbersKept _ _ _)
          exact NumbersKept.of_objects rfl
      · split at h
        · cases h
          refine NumbersKept.numbers_trans ?_ (fetchNotesJobDone_searchResult_numbersKept _ _ _)
          refine NumbersKept.numbers_of_set (p := p) rfl (hsame _ ?_)
          split <;> rfl
        · cases h
          refine NumbersKept.numbers_trans ?_ (fetchNotesJobDone_searchResult_numbersKept _ _ _)
          exact NumbersKept.numbers_of_set (p := p) rfl (hsame _ rfl)

theorem fetchNotesJobDone_unhandled_numbersKept (s t : NotesStore) (g : String)
    (h : fetchNotesJobDone_unhandled s g = .ok t) : NumbersKept s t := by
  cases hv : s.m_notesHash.value g with
  | none =>
    simp [fetchNotesJobDone_unhandled, hv] at h
    subst h
    exact NumbersKept.numbers_refl s
  | some p =>
    cases hn : s.noteObjects[p]? with
    | none => simp [fetchNotesJobDone_unhandled, hv, derefNote, hn] at h
    | some note =>
      have hsame : ∀ x : Note, x.updateSequenceNumber = note.updateSequenceNumber →
          ∀ y, s.noteObjects[p]? = some y → y.updateSequenceNumber ≤ x.updateSequenceNumber := by
        intro x hx y hy
        rw [hn] at hy
        cases hy
        exact le_of_eq hx.symm
      simp only [fetchNotesJobDone_unhandled, hv, derefNote, hn] at h
      split at h
      · split at h
        · cases h
          exact NumbersKept.numbers_refl s
        · split at h
          · cases h
            exact NumbersKept.numbers_refl s
          · cases h
            refine NumbersKept.numbers_of_set (p := p) rfl (hsame _ ?_)
            split <;> rfl
      · split at h
        · cases h
          exact NumbersKept.numbers_refl s
        · split at h
          · exact removeNote_numbersKept _ _ _ h
          · cases h
            exact NumbersKept.numbers_of_set (p := p) rfl (hsame _ rfl)

theorem fetchNotesJobDone_numbersKept (s t : NotesStore) (errorCode : ErrorCode)
    (results : NotesMetadataList) (filterNotebookGuid : String)
    (h : s.fetchNotesJobDone errorCode results filterNotebookGuid = .ok t) :
    NumbersKept s t := by
  have h0 : NumbersKept s (s.handleUserError errorCode) := by
    apply NumbersKept.of_objects
    cases errorCode <;> rfl
  refine NumbersKept.numbers_trans h0 ?_
  simp only [fetchNotesJobDone] at h
  split at h
  · cases h
    exact NumbersKept.of_objects rfl
  · split at h
    · cases h
    · rename_i u hu
      have h1 : NumbersKept (s.handleUserError errorCode) u :=
        foldlM_keeps NumbersKept NumbersKept.numbers_refl
          (fun _ _ _ => NumbersKept.numbers_trans) _
          (fun a r b => fetchNotesJobDone_result_numbersKept results a b r) _ _ _ hu
      refine NumbersKept.numbers_trans h1 ?_
      split at h
      · cases h
        apply NumbersKept.of_objects
        simp only [refreshNotes]
        split
        · rfl
        · split
          · split <;> rfl
          · rfl
      · have h2 := foldlM_keeps NumbersKept NumbersKept.numbers_refl
          (fun _ _ _ => NumbersKept.numbers_trans) _
          (fun a g b => fetchNotesJobDone_unhandled_numbersKept a b g) _ _ _ h
        exact NumbersKept.numbers_trans (NumbersKept.of_objects rfl) h2

theorem tagsRefreshed_fields (s : NotesStore) (result : EdamNote) :
    (s.tagsRefreshed result).noteObjects = s.noteObjects ∧
    (s.tagsRefreshed result).m_notesHash = s.m_notesHash ∧
    (s.tagsRefreshed result).m_notes = s.m_notes := by
  unfold tagsRefreshed
  generalize result.tagGuids = l
  induction l generalizing s with
  | nil => exact ⟨rfl, rfl, rfl⟩
  | cons a rest ih =>
    simp only [List.foldl_cons]
    have h1 : (if s.m_tagsHash.contains a then s.refreshTags else s).noteObjects =
        s.noteObjects ∧
        (if s.m_tagsHash.contains a then s.refreshTags else s).m_notesHash = s.m_notesHash ∧
        (if s.m_tagsHash.contains a then s.refreshTags else s).m_notes = s.m_notes := by
      split
      · simp only [refreshTags]
        split <;> exact ⟨rfl, rfl, rfl⟩
      · exact ⟨rfl, rfl, rfl⟩
    exact ⟨(ih _).1.trans h1.1, (ih _).2.1.trans h1.2.1, (ih _).2.2.trans h1.2.2⟩

/-- Explicit form of `fetchNoteJobDone` on a success report that is not ignored and
does not announce a deletion. -/
theorem fetchNoteJobDone_merged (s : NotesStore) (result : EdamNote) (what : LoadWhatFlags)
    (jobPriority : JobPriority) (resourceIsCached : String → Bool) (p : Nat) (note : Note)
    (hv : s.m_notesHash.value result.guid = some p) (hn : s.noteObjects[p]? = some note)
    (hle : ¬ note.updateSequenceNumber > result.updateSequenceNum)
    (hdel : ¬ result.deleted > 0) :
    s.fetchNoteJobDone ErrorCode.ErrorCodeNoError result what jobPriority resourceIsCached =
      match (if (if what = LoadResources then false
                 else result.resources.any (fun r => !resourceIsCached r.bodyHash)) = true then
          ((s.tagsRefreshed result).setNote p (fetchedNote note result what)).refreshNoteContent
            (fetchedNote note result what).guid LoadResources
            (if jobPriority = JobPriority.JobPriorityMedium then JobPriority.JobPriorityLow
             else jobPriority)
        else .ok ((s.tagsRefreshed result).setNote p (fetchedNote note result what))) with
      | .error e => .error e
      | .ok u =>
        match (u.syncToCacheFileNote (fetchedNote note result what)).noteObjects[p]? with
        | some current =>
          .ok ((u.syncToCacheFileNote (fetchedNote note result what)).setNote p
            { current with isCached := true })
        | none => .ok (u.syncToCacheFileNote (fetchedNote note result what)) := by
  unfold fetchNoteJobDone
  simp -zeta only [hv, derefNote, hn, if_neg hle, if_neg hdel, ne_eq, not_true_eq_false,
    if_false]
  rfl

theorem fetchedNote_updateSequenceNumber (note : Note) (result : EdamNote)
    (what : LoadWhatFlags) :
    (fetchedNote note result what).updateSequenceNumber =
      if what = LoadContent then result.updateSequenceNum else note.updateSequenceNumber := by
  simp only [fetchedNote, apply_ite Note.toNoteData, apply_ite NoteData.updateSequenceNumber,
    ite_self]

theorem fetchedNote_guid (note : Note) (result : EdamNote) (what : LoadWhatFlags) :
    (fetchedNote note result what).guid = note.guid := by
  simp only [fetchedNote, apply_ite Note.toNoteData, apply_ite NoteData.guid, ite_self]

theorem fetchedNote_loading (note : Note) (result : EdamNote) (what : LoadWhatFlags) :
    (fetchedNote note result what).loading = false := by
  simp only [fetchedNote]

theorem fetchNoteJobDone_numbersKept (s t : NotesStore) (errorCode : ErrorCode)
    (result : EdamNote) (what : LoadWhatFlags) (jobPriority : JobPriority)
    (resourceIsCached : String → Bool)
    (h : s.fetchNoteJobDone errorCode result what jobPriority resourceIsCached = .ok t) :
    NumbersKept s t := by
  have hobj0 : (s.handleUserError errorCode).noteObjects = s.noteObjects := by
    cases errorCode <;> rfl
  cases hv : s.m_notesHash.value result.guid with
  | none =>
    simp [fetchNoteJobDone, hv] at h
    subst h
    exact NumbersKept.numbers_refl s
  | some p =>
    cases hn : s.noteObjects[p]? with
    | none => simp [fetchNoteJobDone, hv, derefNote, hn] at h
    | some note =>
      by_cases hgt : note.updateSequenceNumber > result.updateSequenceNum
      · unfold fetchNoteJobDone at h
        simp -zeta only [hv, derefNote, hn, if_pos hgt] at h
        cases h
        exact NumbersKept.numbers_refl s
      · by_cases herr : errorCode ≠ ErrorCode.ErrorCodeNoError
        · unfold fetchNoteJobDone at h
          simp -zeta only [hv, derefNote, hn, if_neg hgt, if_pos herr] at h
          cases h
          refine NumbersKept.numbers_of_set (p := p) (by
            show ((s.handleUserError errorCode).noteObjects.set p _) = _
            rw [hobj0]) ?_
          intro y hy
          rw [hn] at hy
          cases hy
          exact le_rfl
        · have herr' : errorCode = ErrorCode.ErrorCodeNoError := not_not.1 herr
          subst herr'
          by_cases hdel : result.deleted > 0
          · unfold fetchNoteJobDone at h
            simp -zeta only [hv, derefNote, hn, if_neg hgt, if_neg herr, if_pos hdel] at h
            exact removeNote_numbersKept _ _ _ h
          · rw [fetchNoteJobDone_merged s result what jobPriority resourceIsCached p note hv hn
              hgt hdel] at h
            have hle : note.updateSequenceNumber ≤
                (fetchedNote note result what).updateSequenceNumber := by
              rw [fetchedNote_updateSequenceNumber]
              split
              · exact Nat.le_of_not_gt hgt
              · exact le_rfl
            have hstep : NumbersKept s
                ((s.tagsRefreshed result).setNote p (fetchedNote note result what)) := by
              refine NumbersKept.numbers_of_set (p := p) (x := fetchedNote note result what)
                (by
                  show (s.tagsRefreshed result).noteObjects.set p _ = _
                  rw [(tagsRefreshed_fields s result).1]) ?_
              intro y hy
              rw [hn] at hy
              cases hy
              exact hle
            generalize (if what = LoadResources then false
              else result.resources.any (fun r => !resourceIsCached r.bodyHash)) = c at h
            have hany : ∀ u, (if c = true then
                ((s.tagsRefreshed result).setNote p
                  (fetchedNote note result what)).refreshNoteContent
                  (fetchedNote note result what).guid LoadResources
                  (if jobPriority = JobPriority.JobPriorityMedium then JobPriority.JobPriorityLow
                   else jobPriority)
                else .ok ((s.tagsRefreshed result).setNote p (fetchedNote note result what))) =
                  .ok u → NumbersKept s u := by
              intro u hu
              cases c
              · simp only [Bool.false_eq_true, if_false] at hu
                cases hu
                exact hstep
              · simp only [if_true] at hu
                exact hstep.numbers_trans (refreshNoteContent_numbersKept _ _ _ _ _ hu)
            split at h
            · cases h
            · rename_i u hu
              refine (hany u hu).numbers_trans ?_
              split at h
              · rename_i current hc
                cases h
                refine NumbersKept.numbers_of_set (p := p) rfl ?_
                intro y hy
                have hc' : u.noteObjects[p]? = some current := hc
                rw [hc'] at hy
                cases hy
                exact le_rfl
              · cases h
                exact NumbersKept.of_objects rfl

/-- C26 (counterexample). The store reaches states from which a call lowers an
`updateSequenceNumber`. After `savedBeforeCreatedRun` the new note has local number 3;
the success report of its create job with server number 2 sets the number to 2. After
`farAheadConflictRun` note `g` has local number 7 and a shadow with number 4;
`resolveConflict` in favour of the local note leaves number 6. After
`notebookSavedTwiceRun` notebook `g` has local number 7; the success report of its save
job with server number 6 sets the number to 6. -/
theorem sequence_number_lowered_by_server_report :
    (∃ s s', Reachable s ∧ noteNumbers s = [("tmp", 3)] ∧
      s.createNoteJobDone ErrorCode.ErrorCodeNoError "tmp" (EdamNote.bare "g" 2) = .ok s' ∧
      noteNumbers s' = [("g", 2)]) ∧
    (∃ s s', Reachable s ∧ noteNumbers s = [("g", 7)] ∧
      s.resolveConflict "g" ConflictResolveMode.KeepLocal = .ok s' ∧
      noteNumbers s' = [("g", 6)]) ∧
    (∃ s s', Reachable s ∧ notebookFlags s = [("g", 7, 5, true, false)] ∧
      s.saveNotebookJobDone ErrorCode.ErrorCodeNoError (EdamNotebook.full "g" "Work" 6 true) =
        .ok s' ∧
      notebookFlags s' = [("g", 6, 6, false, false)]) := by
  have hrun1 : runOperations (NotesStore.init true) savedBeforeCreatedRun =
      .ok (finalStore true savedBeforeCreatedRun) := rfl
  have hrun2 : runOperations (NotesStore.init true) farAheadConflictRun =
      .ok (finalStore true farAheadConflictRun) := rfl
  have hrun3 : runOperations (NotesStore.init true) notebookSavedTwiceRun =
      .ok (finalStore true notebookSavedTwiceRun) := rfl
  refine ⟨⟨finalStore true savedBeforeCreatedRun, _, ⟨true, _, hrun1⟩, ?_, rfl, ?_⟩,
    ⟨finalStore true farAheadConflictRun, _, ⟨true, _, hrun2⟩, ?_, rfl, ?_⟩,
    ⟨finalStore true notebookSavedTwiceRun, _, ⟨true, _, hrun3⟩, ?_, rfl, ?_⟩⟩ <;> decide

/-- C26 (amended). The local edits and the reports of fetches never lower the
`updateSequenceNumber` of a note: after `saveNote`, `deleteNote`, `fetchNoteJobDone`
(single note) and `fetchNotesJobDone` (a page of the listing, with the survivor step at
its end) every note object of the store before the call is an object of the store
after it with a number at least as high. -/
theorem edits_and_fetches_keep_sequence_numbers :
    (∀ (s t : NotesStore) (guid : String), s.saveNote guid = .ok t → NumbersKept s t) ∧
    (∀ (s t : NotesStore) (guid : String), s.deleteNote guid = .ok t → NumbersKept s t) ∧
    (∀ (s t : NotesStore) (errorCode : ErrorCode) (result : EdamNote) (what : LoadWhatFlags)
      (jobPriority : JobPriority) (resourceIsCached : String → Bool),
      s.fetchNoteJobDone errorCode result what jobPriority resourceIsCached = .ok t →
      NumbersKept s t) ∧
    (∀ (s t : NotesStore) (errorCode : ErrorCode) (results : NotesMetadataList)
      (filterNotebookGuid : String),
      s.fetchNotesJobDone errorCode results filterNotebookGuid = .ok t → NumbersKept s t) :=
  ⟨saveNote_numbersKept, deleteNote_numbersKept, fetchNoteJobDone_numbersKept,
    fetchNotesJobDone_numbersKept⟩

theorem edits_and_fetches_keep_sequence_numbers_witness :
    NumbersKept (finalStore true noteStoredRun)
      (finalStore true (noteStoredRun ++ [Operation.saveNote "g"])) ∧
    NumbersKept (finalStore true noteStoredRun)
      (finalStore true (noteStoredRun ++ [Operation.deleteNote "g"])) ∧
    NumbersKept (finalStore true noteStoredRun)
      (finalStore true (noteStoredRun ++
        [Operation.fetchNoteJobDone ErrorCode.ErrorCodeNoError (EdamNote.bare "g" 9)
          LoadContent JobPriority.JobPriorityMedium []])) ∧
    NumbersKept conflictStore
      { conflictStore with
        noteObjects := [{ Note.new "g" 5 with
          lastSyncedSequenceNumber := 3, title := "local", conflicting := true }],
        jobQueue := [Job.FetchNoteJob "g" { LoadContent := true, LoadResources := true }
          (some JobPriority.JobPriorityMedium) FetchNoteSlot.fetchConflictingNoteJobDone] } :=
  ⟨edits_and_fetches_keep_sequence_numbers.1 _ _ "g" rfl,
    edits_and_fetches_keep_sequence_numbers.2.1 _ _ "g" rfl,
    edits_and_fetches_keep_sequence_numbers.2.2.1 _ _ ErrorCode.ErrorCodeNoError
      (EdamNote.bare "g" 9) LoadContent JobPriority.JobPriorityMedium
      (fun h => decide (h ∈ ([] : List String))) rfl,
    edits_and_fetches_keep_sequence_numbers.2.2.2 _ _ ErrorCode.ErrorCodeNoError conflictPage ""
      rfl⟩

/-! ### The note collection and the lookup table describe the same notes -/

theorem QHash.value_none_iff (h : QHash) (key : String) :
    h.value key = none ↔ key ∉ h.keys := by
  induction h with
  | nil => simp [QHash.value, QHash.keys]
  | cons e rest ih =>
    obtain ⟨k, w⟩ := e
    by_cases hk : k = key
    · simp [QHash.value, QHash.keys, hk]
    · have hk' : ¬ key = k := fun h => hk h.symm
      simp only [QHash.value, if_neg hk, ih, QHash.keys, List.map_cons, List.mem_cons, hk',
        false_or]

theorem QHash.keys_insert_new (h : QHash) (key : String) (v : Nat)
    (hv : h.value key = none) : (QHash.insert h key v).keys = h.keys ++ [key] := by
  induction h with
  | nil => rfl
  | cons e rest ih =>
    obtain ⟨k, w⟩ := e
    by_cases hk : k = key
    · simp [QHash.value, hk] at hv
    · simp only [QHash.value, if_neg hk] at hv
      simp only [QHash.insert, if_neg hk, QHash.keys, List.map_cons, List.cons_append,
        List.cons.injEq, true_and]
      exact ih hv

theorem QHash.keys_insert_known (h : QHash) (key : String) (v w : Nat)
    (hv : h.value key = some w) : (QHash.insert h key v).keys = h.keys := by
  induction h with
  | nil => simp [QHash.value] at hv
  | cons e rest ih =>
    obtain ⟨k, u⟩ := e
    by_cases hk : k = key
    · simp [QHash.insert, QHash.keys, hk]
    · simp only [QHash.value, if_neg hk] at hv
      simp only [QHash.insert, if_neg hk, QHash.keys, List.map_cons, List.cons.injEq, true_and]
      exact ih hv

theorem QHash.keys_insert_nodup (h : QHash) (key : String) (v : Nat)
    (hnd : h.keys.Nodup) : (QHash.insert h key v).keys.Nodup := by
  cases hv : h.value key with
  | none =>
    rw [QHash.keys_insert_new h key v hv]
    refine List.Nodup.append hnd (List.nodup_singleton _) ?_
    intro a ha hb
    rw [List.mem_singleton] at hb
    subst hb
    exact (QHash.value_none_iff h a).1 hv ha
  | some w =>
    rw [QHash.keys_insert_known h key v w hv]
    exact hnd

theorem QHash.keys_remove_nodup (h : QHash) (key : String)
    (hnd : h.keys.Nodup) : (QHash.remove h key).keys.Nodup := by
  have hsub : List.Sublist (QHash.remove h key) h := List.filter_sublist _
  exact List.Nodup.sublist (List.Sublist.map Prod.fst hsub) hnd

/-- With distinct keys, the entries of a table after an insertion are the new entry
and the entries of the other keys. -/
theorem QHash.mem_insert_other (h : QHash) (key : String) (v : Nat) (e : String × Nat)
    (hnd : h.keys.Nodup) (he : e ∈ QHash.insert h key v) :
    e = (key, v) ∨ (e ∈ h ∧ e.1 ≠ key) := by
  induction h with
  | nil =>
    simp [QHash.insert] at he
    exact Or.inl he
  | cons x rest ih =>
    obtain ⟨k, w⟩ := x
    have hnd' := List.nodup_cons.1 hnd
    by_cases hk : k = key
    · simp only [QHash.insert, if_pos hk, List.mem_cons] at he
      rcases he with he | he
      · left
        rw [he, hk]
      · right
        refine ⟨List.mem_cons_of_mem _ he, ?_⟩
        intro h1
        apply hnd'.1
        rw [hk, ← h1]
        have hm : e.1 ∈ rest.map Prod.fst := List.mem_map_of_mem Prod.fst he
        exact hm
    · simp only [QHash.insert, if_neg hk, List.mem_cons] at he
      rcases he with he | he
      · right
        refine ⟨by rw [he]; exact List.mem_cons_self _ _, ?_⟩
        rw [he]
        exact hk
      · rcases ih hnd'.2 he with h1 | ⟨h1, h2⟩
        · exact Or.inl h1
        · exact Or.inr ⟨List.mem_cons_of_mem _ h1, h2⟩

/-- With distinct keys, an entry of the table is what the lookup of its key returns. -/
theorem QHash.value_of_mem (h : QHash) (e : String × Nat) (hnd : h.keys.Nodup)
    (he : e ∈ h) : h.value e.1 = some e.2 := by
  induction h with
  | nil => simp at he
  | cons x rest ih =>
    obtain ⟨k, w⟩ := x
    have hnd' := List.nodup_cons.1 hnd
    rcases List.mem_cons.1 he with h1 | h1
    · rw [h1]
      simp [QHash.value]
    · have hk : k ≠ e.1 := by
        intro hk
        apply hnd'.1
        rw [hk]
        have hm : e.1 ∈ rest.map Prod.fst := List.mem_map_of_mem Prod.fst h1
        exact hm
      simp only [QHash.value, if_neg hk]
      exact ih hnd'.2 h1

theorem mem_set_indexOf (l : List Nat) (p x y idx : Nat) (hnd : l.Nodup)
    (hi : indexOf l p = some idx) (hy : y ∈ l.set idx x) : y = x ∨ (y ∈ l ∧ y ≠ p) := by
  induction l generalizing idx with
  | nil => simp [indexOf] at hi
  | cons z rest ih =>
    have hnd' := List.nodup_cons.1 hnd
    by_cases hz : z = p
    · simp [indexOf, hz] at hi
      subst hi
      simp only [List.set_cons_zero, List.mem_cons] at hy
      rcases hy with hy | hy
      · exact Or.inl hy
      · right
        refine ⟨List.mem_cons_of_mem _ hy, ?_⟩
        intro h1
        apply hnd'.1
        rw [hz, ← h1]
        exact hy
    · simp only [indexOf, if_neg hz, Option.map_eq_some'] at hi
      obtain ⟨j, hj, rfl⟩ := hi
      simp only [List.set_cons_succ, List.mem_cons] at hy
      rcases hy with hy | hy
      · right
        exact ⟨by rw [hy]; exact List.mem_cons_self _ _, by rw [hy]; exact hz⟩
      · rcases ih j hnd'.2 hj hy with h1 | ⟨h1, h2⟩
        · exact Or.inl h1
        · exact Or.inr ⟨List.mem_cons_of_mem _ h1, h2⟩

theorem mem_set_indexOf_of_ne (l : List Nat) (p x y idx : Nat)
    (hi : indexOf l p = some idx) (hy : y ∈ l) (hne : y ≠ p) : y ∈ l.set idx x := by
  induction l generalizing idx with
  | nil => simp at hy
  | cons z rest ih =>
    by_cases hz : z = p
    · simp [indexOf, hz] at hi
      subst hi
      rcases List.mem_cons.1 hy with h1 | h1
      · exact absurd (h1.trans hz) hne
      · simp only [List.set_cons_zero, List.mem_cons]
        exact Or.inr h1
    · simp only [indexOf, if_neg hz, Option.map_eq_some'] at hi
      obtain ⟨j, hj, rfl⟩ := hi
      simp only [List.set_cons_succ, List.mem_cons]
      rcases List.mem_cons.1 hy with h1 | h1
      · exact Or.inl h1
      · exact Or.inr (ih j hj h1)

theorem self_mem_set_indexOf (l : List Nat) (p x idx : Nat)
    (hi : indexOf l p = some idx) : x ∈ l.set idx x := by
  induction l generalizing idx with
  | nil => simp [indexOf] at hi
  | cons z rest ih =>
    by_cases hz : z = p
    · simp [indexOf, hz] at hi
      subst hi
      simp
    · simp only [indexOf, if_neg hz, Option.map_eq_some'] at hi
      obtain ⟨j, hj, rfl⟩ := hi
      simp only [List.set_cons_succ, List.mem_cons]
      exact Or.inr (ih j hj)

theorem nodup_set_indexOf (l : List Nat) (p x idx : Nat) (hnd : l.Nodup)
    (hi : indexOf l p = some idx) (hx : x ∉ l) : (l.set idx x).Nodup := by
  induction l generalizing idx with
  | nil => simp [indexOf] at hi
  | cons z rest ih =>
    have hnd' := List.nodup_cons.1 hnd
    by_cases hz : z = p
    · simp [indexOf, hz] at hi
      subst hi
      simp only [List.set_cons_zero]
      exact List.nodup_cons.2 ⟨fun h => hx (List.mem_cons_of_mem _ h), hnd'.2⟩
    · simp only [indexOf, if_neg hz, Option.map_eq_some'] at hi
      obtain ⟨j, hj, rfl⟩ := hi
      simp only [List.set_cons_succ]
      refine List.nodup_cons.2 ⟨?_, ih j hnd'.2 hj (fun h => hx (List.mem_cons_of_mem _ h))⟩
      intro hmem
      rcases List.mem_or_eq_of_mem_set hmem with h1 | h1
      · exact hnd'.1 h1
      · exact hx (by rw [← h1]; exact List.mem_cons_self _ _)

theorem Indexed.empty (guids : List String) : Indexed [] [] guids :=
  ⟨fun _ he => by simp at he, fun _ hp => by simp at hp, fun _ he => by simp at he,
    List.nodup_nil, List.nodup_nil⟩

theorem Indexed.lt_of_listed {notes : List Nat} {table : QHash} {guids : List String}
    (h : Indexed notes table guids) {p : Nat} (hp : p ∈ notes) : p < guids.length := by
  obtain ⟨g, hg, -⟩ := h.listed p hp
  exact (List.getElem?_eq_some.1 hg).1

theorem Indexed.key_of_pointer {notes : List Nat} {table : QHash} {guids : List String}
    (h : Indexed notes table guids) {g : String} {p : Nat} (hv : table.value g = some p)
    {e : String × Nat} (he : e ∈ table) (hp : e.2 = p) : e.1 = g := by
  have h1 := h.keyed e he
  have h2 := h.keyed (g, p) (QHash.mem_of_value _ _ _ hv)
  rw [hp] at h1
  rw [h1] at h2
  exact Option.some.inj h2

/-- A new note with an identifier not yet in the table: object appended, identifier
inserted, pointer appended to the collection. -/
theorem Indexed.append_new {notes : List Nat} {table : QHash} {guids : List String}
    (h : Indexed notes table guids) (g : String) (hv : table.value g = none) :
    Indexed (notes ++ [guids.length]) (table.insert g guids.length) (guids ++ [g]) := by
  refine ⟨?_, ?_, ?_, ?_, QHash.keys_insert_nodup _ _ _ h.keysOnce⟩
  · intro e he
    rcases QHash.mem_insert _ _ _ _ he with h1 | h1
    · rw [h1]
      simp
    · have h2 := h.keyed e h1
      have hlt : e.2 < guids.length := (List.getElem?_eq_some.1 h2).1
      rw [List.getElem?_append_left hlt]
      exact h2
  · intro p hp
    rcases List.mem_append.1 hp with h1 | h1
    · obtain ⟨g', hg', hv'⟩ := h.listed p h1
      have hlt : p < guids.length := (List.getElem?_eq_some.1 hg').1
      refine ⟨g', by rw [List.getElem?_append_left hlt]; exact hg', ?_⟩
      have hne : g' ≠ g := by
        intro heq
        rw [heq, hv] at hv'
        cases hv'
      rw [QHash.value_insert_of_ne _ _ _ _ hne]
      exact hv'
    · rw [List.mem_singleton] at h1
      subst h1
      exact ⟨g, by simp, QHash.value_insert_self _ _ _⟩
  · intro e he
    rcases QHash.mem_insert _ _ _ _ he with h1 | h1
    · rw [h1]
      simp
    · exact List.mem_append_left _ (h.tabled e h1)
  · refine List.Nodup.append h.notesOnce (List.nodup_singleton _) ?_
    intro a ha hb
    rw [List.mem_singleton] at hb
    subst hb
    exact absurd (h.lt_of_listed ha) (lt_irrefl _)

/-- The identifier of a note replaced by one not yet in the table. -/
theorem Indexed.rekey {notes : List Nat} {table : QHash} {guids : List String}
    (h : Indexed notes table guids) (t g : String) (p : Nat)
    (ht : table.value t = some p) (hg : table.value g = none) :
    Indexed notes ((table.insert g p).remove t) (guids.set p g) := by
  have hne : g ≠ t := by
    intro heq
    rw [heq, ht] at hg
    cases hg
  have hmem : (t, p) ∈ table := QHash.mem_of_value _ _ _ ht
  have hp : p < guids.length := (List.getElem?_eq_some.1 (h.keyed _ hmem)).1
  have hentry : ∀ e ∈ (table.insert g p).remove t,
      e = (g, p) ∨ (e ∈ table ∧ e.1 ≠ t ∧ e.2 ≠ p) := by
    intro e he
    simp only [QHash.remove, List.mem_filter, decide_eq_true_eq] at he
    rcases QHash.mem_insert _ _ _ _ he.1 with h1 | h1
    · exact Or.inl h1
    · refine Or.inr ⟨h1, he.2, ?_⟩
      intro h2
      exact he.2 (h.key_of_pointer ht h1 h2)
  refine ⟨?_, ?_, ?_, h.notesOnce, QHash.keys_remove_nodup _ _
    (QHash.keys_insert_nodup _ _ _ h.keysOnce)⟩
  · intro e he
    rcases hentry e he with h1 | ⟨h1, -, h3⟩
    · rw [h1]
      exact List.getElem?_set_self hp
    · rw [List.getElem?_set_ne (Ne.symm h3)]
      exact h.keyed e h1
  · intro q hq
    obtain ⟨g', hg', hv'⟩ := h.listed q hq
    by_cases hqp : q = p
    · subst hqp
      refine ⟨g, List.getElem?_set_self hp, ?_⟩
      rw [QHash.value_remove_of_ne _ _ _ hne]
      exact QHash.value_insert_self _ _ _
    · refine ⟨g', by rw [List.getElem?_set_ne (Ne.symm hqp)]; exact hg', ?_⟩
      have h1 : g' ≠ t := by
        intro heq
        rw [heq, ht] at hv'
        exact hqp (Option.some.inj hv').symm
      have h2 : g' ≠ g := by
        intro heq
        rw [heq, hg] at hv'
        cases hv'
      rw [QHash.value_remove_of_ne _ _ _ h1, QHash.value_insert_of_ne _ _ _ _ h2]
      exact hv'
  · intro e he
    rcases hentry e he with h1 | ⟨h1, -, -⟩
    · rw [h1]
      exact h.tabled (t, p) hmem
    · exact h.tabled e h1

/-- A note taken out of the collection and the table. -/
theorem Indexed.remove {notes : List Nat} {table : QHash} {guids : List String}
    (h : Indexed notes table guids) (g : String) (p : Nat) (hv : table.value g = some p) :
    Indexed (removeAt notes (indexOf notes p)) (table.remove g) guids := by
  rw [removeAt_indexOf]
  refine ⟨?_, ?_, ?_, List.Nodup.erase _ h.notesOnce, QHash.keys_remove_nodup _ _ h.keysOnce⟩
  · intro e he
    exact h.keyed e (QHash.mem_remove _ _ _ he)
  · intro q hq
    have hq' := (List.Nodup.mem_erase_iff h.notesOnce).1 hq
    obtain ⟨g', hg', hv'⟩ := h.listed q hq'.2
    refine ⟨g', hg', ?_⟩
    have hne : g' ≠ g := by
      intro heq
      rw [heq, hv] at hv'
      exact hq'.1 (Option.some.inj hv').symm
    rw [QHash.value_remove_of_ne _ _ _ hne]
    exact hv'
  · intro e he
    have he' : e ∈ table ∧ e.1 ≠ g := by
      simpa [QHash.remove, List.mem_filter] using he
    refine (List.Nodup.mem_erase_iff h.notesOnce).2 ⟨?_, h.tabled e he'.1⟩
    intro h2
    exact he'.2 (h.key_of_pointer hv he'.1 h2)

/-- A note object replaced by a new object of the same identifier. -/
theorem Indexed.replace {notes : List Nat} {table : QHash} {guids : List String}
    (h : Indexed notes table guids) (g : String) (p idx : Nat)
    (hv : table.value g = some p) (hi : indexOf notes p = some idx) :
    Indexed (notes.set idx guids.length) (table.insert g guids.length) (guids ++ [g]) := by
  have hnew : guids.length ∉ notes := fun hmem => absurd (h.lt_of_listed hmem) (lt_irrefl _)
  refine ⟨?_, ?_, ?_, nodup_set_indexOf _ _ _ _ h.notesOnce hi hnew,
    QHash.keys_insert_nodup _ _ _ h.keysOnce⟩
  · intro e he
    rcases QHash.mem_insert _ _ _ _ he with h1 | h1
    · rw [h1]
      simp
    · have h2 := h.keyed e h1
      have hlt : e.2 < guids.length := (List.getElem?_eq_some.1 h2).1
      rw [List.getElem?_append_left hlt]
      exact h2
  · intro q hq
    rcases mem_set_indexOf _ _ _ _ _ h.notesOnce hi hq with h1 | ⟨h1, h2⟩
    · subst h1
      exact ⟨g, by simp, QHash.value_insert_self _ _ _⟩
    · obtain ⟨g', hg', hv'⟩ := h.listed q h1
      have hlt : q < guids.length := (List.getElem?_eq_some.1 hg').1
      refine ⟨g', by rw [List.getElem?_append_left hlt]; exact hg', ?_⟩
      have hne : g' ≠ g := by
        intro heq
        rw [heq, hv] at hv'
        exact h2 (Option.some.inj hv').symm
      rw [QHash.value_insert_of_ne _ _ _ _ hne]
      exact hv'
  · intro e he
    rcases QHash.mem_insert_other _ _ _ _ h.keysOnce he with h1 | ⟨h1, h2⟩
    · rw [h1]
      exact self_mem_set_indexOf _ _ _ _ hi
    · refine mem_set_indexOf_of_ne _ _ _ _ _ hi (h.tabled e h1) ?_
      intro h3
      exact h2 (h.key_of_pointer hv h1 h3)

theorem NotesIndexed.of_sameIndex {s t : NotesStore} (h : s.NotesIndexed)
    (hs : SameIndex s t) : t.NotesIndexed := by
  unfold NotesIndexed
  rw [hs.1, hs.2.1, hs.2.2]
  exact h

theorem SameIndex.index_refl (s : NotesStore) : SameIndex s s := ⟨rfl, rfl, rfl⟩

theorem SameIndex.index_trans {s t u : NotesStore} (h1 : SameIndex s t)
    (h2 : SameIndex t u) : SameIndex s u :=
  ⟨h2.1.trans h1.1, h2.2.1.trans h1.2.1, h2.2.2.trans h1.2.2⟩

theorem SameIndex.index_of_fields {s t : NotesStore} (hobj : t.noteObjects = s.noteObjects)
    (hn : t.m_notes = s.m_notes) (hh : t.m_notesHash = s.m_notesHash) : SameIndex s t :=
  ⟨hn, hh, by unfold noteGuids; rw [hobj]⟩

theorem SameIndex.index_of_set {s t : NotesStore} {p : Nat} {x : Note}
    (hobj : t.noteObjects = s.noteObjects.set p x)
    (hg : ∀ note, s.noteObjects[p]? = some note → x.guid = note.guid)
    (hn : t.m_notes = s.m_notes) (hh : t.m_notesHash = s.m_notesHash) : SameIndex s t := by
  refine ⟨hn, hh, ?_⟩
  unfold noteGuids
  rw [hobj]
  apply List.ext_getElem?
  intro i
  by_cases hi : p = i
  · subst hi
    cases hp : s.noteObjects[p]? with
    | none =>
      have hlen : s.noteObjects.length ≤ p := List.getElem?_eq_none_iff.1 hp
      simp [List.getElem?_map, List.getElem?_set, hp, hlen]
    | some note =>
      have hlt : p < s.noteObjects.length := (List.getElem?_eq_some.1 hp).1
      have hget : s.noteObjects[p] = note := (List.getElem?_eq_some.1 hp).2
      simp [List.getElem?_map, List.getElem?_set, hp, hlt, hg note hp, hget]
  · simp [List.getElem?_map, List.getElem?_set, hi]

theorem SameIndex.of_map {s t : NotesStore} {f : Note → Note}
    (hobj : t.noteObjects = s.noteObjects.map f) (hf : ∀ n, (f n).guid = n.guid)
    (hn : t.m_notes = s.m_notes) (hh : t.m_notesHash = s.m_notesHash) : SameIndex s t := by
  refine ⟨hn, hh, ?_⟩
  unfold noteGuids
  rw [hobj, List.map_map]
  apply List.map_congr_left
  intro n _
  exact hf n

/-- A fold of a fallible step over any state keeps a reflexive and transitive relation
that each step keeps. -/
theorem foldlM_keeps_on {σ α : Type} (R : σ → σ → Prop)
    (hrefl : ∀ s, R s s) (htrans : ∀ s t u, R s t → R t u → R s u)
    (f : σ → α → Except Fault σ)
    (hf : ∀ s a t, f s a = .ok t → R s t) (l : List α) :
    ∀ s t, l.foldlM f s = .ok t → R s t := by
  induction l with
  | nil =>
    intro s t h
    simp only [List.foldlM_nil] at h
    cases h
    exact hrefl s
  | cons a rest ih =>
    intro s t h
    simp only [List.foldlM_cons] at h
    cases h1 : f s a with
    | error e =>
      rw [h1] at h
      cases h
    | ok s1 =>
      rw [h1] at h
      exact htrans s s1 t (hf s a s1 h1) (ih s1 t h)

theorem foldlM_sameIndex {α : Type} (f : NotesStore → α → Except Fault NotesStore)
    (hf : ∀ s a t, f s a = .ok t → SameIndex s t) (l : List α) (s t : NotesStore)
    (h : l.foldlM f s = .ok t) : SameIndex s t :=
  foldlM_keeps_on SameIndex SameIndex.index_refl (fun _ _ _ => SameIndex.index_trans) f hf l s t h

theorem handleUserError_sameIndex (s : NotesStore) (errorCode : ErrorCode) :
    SameIndex s (s.handleUserError errorCode) := by
  cases errorCode <;> exact ⟨rfl, rfl, rfl⟩

theorem saveNote_sameIndex (s t : NotesStore) (guid : String)
    (h : s.saveNote guid = .ok t) : SameIndex s t := by
  cases hv : s.m_notesHash.value guid with
  | none =>
    simp [saveNote, hv] at h
    subst h
    exact SameIndex.index_refl s
  | some p =>
    cases hn : s.noteObjects[p]? with
    | none => simp [saveNote, hv, derefNote, hn] at h
    | some note =>
      rw [saveNote_found s guid p note hv hn] at h
      cases h
      refine SameIndex.index_of_set (p := p) rfl ?_ rfl rfl
      intro x hx
      rw [hn] at hx
      cases hx
      rfl

theorem setNote_sameIndex (s : NotesStore) (p : Nat) (note x : Note)
    (hn : s.noteObjects[p]? = some note) (hg : x.guid = note.guid) :
    SameIndex s (s.setNote p x) := by
  refine SameIndex.index_of_set (p := p) rfl ?_ rfl rfl
  intro y hy
  rw [hn] at hy
  cases hy
  exact hg

theorem tagNote_sameIndex (s t : NotesStore) (noteGuid tagGuid : String)
    (h : s.tagNote noteGuid tagGuid = .ok t) : SameIndex s t := by
  cases hv : s.m_notesHash.value noteGuid with
  | none =>
    simp [tagNote, hv] at h
    subst h
    exact SameIndex.index_refl s
  | some p =>
    cases ht : s.m_tagsHash.value tagGuid with
    | none =>
      simp [tagNote, hv, ht] at h
      subst h
      exact SameIndex.index_refl s
    | some q =>
      cases hn : s.noteObjects[p]? with
      | none => simp [tagNote, hv, ht, derefNote, hn] at h
      | some note =>
        simp only [tagNote, hv, ht, derefNote, hn] at h
        split at h
        · cases h
          exact SameIndex.index_refl s
        · refine SameIndex.index_trans ?_ (saveNote_sameIndex _ _ _ h)
          exact setNote_sameIndex s p note _ hn rfl

theorem untagNote_sameIndex (s t : NotesStore) (noteGuid tagGuid : String)
    (h : s.untagNote noteGuid tagGuid = .ok t) : SameIndex s t := by
  cases hv : s.m_notesHash.value noteGuid with
  | none =>
    simp [untagNote, hv] at h
    subst h
    exact SameIndex.index_refl s
  | some p =>
    cases ht : s.m_tagsHash.value tagGuid with
    | none =>
      simp [untagNote, hv, ht] at h
      subst h
      exact SameIndex.index_refl s
    | some q =>
      cases hn : s.noteObjects[p]? with
      | none => simp [untagNote, hv, ht, derefNote, hn] at h
      | some note =>
        simp only [untagNote, hv, ht, derefNote, hn] at h
        split at h
        · cases h
          exact SameIndex.index_refl s
        · refine SameIndex.index_trans ?_ (saveNote_sameIndex _ _ _ h)
          exact setNote_sameIndex s p note _ hn rfl

theorem refreshNoteContent_sameIndex (s t : NotesStore) (guid : String)
    (what : LoadWhatFlags) (priority : JobPriority)
    (h : s.refreshNoteContent guid what priority = .ok t) : SameIndex s t := by
  cases hv : s.m_notesHash.value guid with
  | none =>
    simp [refreshNoteContent, hv] at h
    subst h
    exact SameIndex.index_refl s
  | some p =>
    cases hn : s.noteObjects[p]? with
    | none => simp [refreshNoteContent, hv, derefNote, hn] at h
    | some note =>
      obtain ⟨u, x, hu, hfields, hx⟩ := refreshNoteContent_found s guid what priority p note hv hn
      rw [hu] at h
      cases h
      refine SameIndex.index_of_set (p := p) (x := x) (by rw [hfields]) ?_ (by rw [hfields])
        (by rw [hfields])
      intro y hy
      rw [hn] at hy
      cases hy
      rcases hx with rfl | rfl <;> rfl

theorem fetchConflictingNoteJobDone_sameIndex (s t : NotesStore) (errorCode : ErrorCode)
    (result : EdamNote) (h : s.fetchConflictingNoteJobDone errorCode result = .ok t) :
    SameIndex s t := by
  cases hv : s.m_notesHash.value result.guid with
  | none =>
    simp [fetchConflictingNoteJobDone, hv] at h
    subst h
    exact SameIndex.index_refl s
  | some p =>
    cases hn : s.noteObjects[p]? with
    | none => simp [fetchConflictingNoteJobDone, hv, derefNote, hn] at h
    | some note =>
      simp only [fetchConflictingNoteJobDone, hv, derefNote, hn] at h
      refine (handleUserError_sameIndex s errorCode).index_trans ?_
      have hn' : (s.handleUserError errorCode).noteObjects[p]? = some note := by
        have : (s.handleUserError errorCode).noteObjects = s.noteObjects := by
          cases errorCode <;> rfl
        rw [this]
        exact hn
      split at h
      · cases h
        exact SameIndex.index_refl _
      · cases h
        exact setNote_sameIndex _ p note _ hn' rfl

theorem saveNoteJobDone_sameIndex (s t : NotesStore) (errorCode : ErrorCode)
    (result : EdamNote) (h : s.saveNoteJobDone errorCode result = .ok t) :
    SameIndex s t := by
  cases hv : s.m_notesHash.value result.guid with
  | none =>
    simp [saveNoteJobDone, hv] at h
    subst h
    exact SameIndex.index_refl s
  | some p =>
    cases hn : s.noteObjects[p]? with
    | none => simp [saveNoteJobDone, hv, derefNote, hn] at h
    | some note =>
      simp only [saveNoteJobDone, hv, derefNote, hn] at h
      refine (handleUserError_sameIndex s errorCode).index_trans ?_
      have hn' : (s.handleUserError errorCode).noteObjects[p]? = some note := by
        have : (s.handleUserError errorCode).noteObjects = s.noteObjects := by
          cases errorCode <;> rfl
        rw [this]
        exact hn
      split at h
      · cases h
        exact setNote_sameIndex _ p note _ hn' rfl
      · cases h
        refine SameIndex.index_of_set (p := p) rfl ?_ rfl rfl
        intro y hy
        rw [hn'] at hy
        cases hy
        rfl

theorem refreshNotes_sameIndex (s : NotesStore) (filterNotebookGuid : String)
    (startIndex : Nat) : SameIndex s (s.refreshNotes filterNotebookGuid startIndex) := by
  simp only [refreshNotes]
  split
  · exact SameIndex.index_refl s
  · split
    · split <;> exact ⟨rfl, rfl, rfl⟩
    · exact SameIndex.index_refl s

theorem clearSearchResults_sameIndex (s : NotesStore) :
    SameIndex s s.clearSearchResults := by
  unfold clearSearchResults
  generalize s.m_notes = l
  induction l generalizing s with
  | nil => exact SameIndex.index_refl s
  | cons p rest ih =>
    simp only [List.foldl_cons]
    refine SameIndex.index_trans ?_ (ih _)
    cases hn : s.noteObjects[p]? with
    | none => exact SameIndex.index_refl s
    | some note => exact setNote_sameIndex s p note _ hn rfl

theorem derefNote_eq_ok (s : NotesStore) (p : Nat) (note : Note)
    (h : s.derefNote p = .ok note) : s.noteObjects[p]? = some note := by
  unfold derefNote at h
  split at h
  · cases h
    assumption
  · cases h

theorem createNotebook_sameIndex (s : NotesStore) (newGuid name : String) :
    SameIndex s (s.createNotebook newGuid name) := by
  refine SameIndex.index_of_fields ?_ ?_ ?_ <;>
  · simp only [createNotebook]
    split_ifs <;> rfl

theorem saveNotebook_sameIndex (s t : NotesStore) (guid : String)
    (h : s.saveNotebook guid = .ok t) : SameIndex s t := by
  simp only [saveNotebook] at h
  split at h
  · cases h
    exact ⟨rfl, rfl, rfl⟩
  · split at h
    · cases h
    · split at h <;> cases h <;> exact ⟨rfl, rfl, rfl⟩

theorem setDefaultNotebook_clearOld_sameIndex (s t : NotesStore)
    (h : s.setDefaultNotebook_clearOld = .ok t) : SameIndex s t := by
  unfold setDefaultNotebook_clearOld at h
  split at h
  · cases h
    exact ⟨rfl, rfl, rfl⟩
  · split at h
    · cases h
    · refine SameIndex.index_trans ?_ (saveNotebook_sameIndex _ _ _ h)
      exact ⟨rfl, rfl, rfl⟩

theorem setDefaultNotebook_sameIndex (s t : NotesStore) (guid : String)
    (h : s.setDefaultNotebook guid = .ok t) : SameIndex s t := by
  unfold setDefaultNotebook at h
  split at h
  · cases h
    exact ⟨rfl, rfl, rfl⟩
  · split at h
    · cases h
    · rename_i u hu
      refine (setDefaultNotebook_clearOld_sameIndex _ _ hu).index_trans ?_
      split at h
      · cases h
      · refine SameIndex.index_trans ?_ (saveNotebook_sameIndex _ _ _ h)
        exact ⟨rfl, rfl, rfl⟩

theorem expungeNotebook_moveNotes_sameIndex (g dg : String) (fuel : Nat) :
    ∀ s t, expungeNotebook_moveNotes g dg fuel s = .ok t → SameIndex s t := by
  induction fuel with
  | zero =>
    intro s t h
    unfold expungeNotebook_moveNotes at h
    split at h
    · cases h
      exact ⟨rfl, rfl, rfl⟩
    · cases h
  | succ n ih =>
    intro s t h
    unfold expungeNotebook_moveNotes at h
    cases hl : s.notebookNotesList g with
    | nil =>
      simp only [hl] at h
      cases h
      exact ⟨rfl, rfl, rfl⟩
    | cons a rest =>
      cases hv : s.m_notesHash.value a with
      | none =>
        simp only [hl, hv] at h
        cases h
      | some p =>
        cases hn : s.noteObjects[p]? with
        | none =>
          simp only [hl, hv, derefNote, hn] at h
          cases h
        | some note =>
          simp only [hl, hv, derefNote, hn] at h
          have h1 : SameIndex s (s.setNote p { note with notebookGuid := dg }) :=
            setNote_sameIndex s p note _ hn rfl
          split at h
          · cases h
          · rename_i u hu
            have h2 := saveNote_sameIndex _ _ _ hu
            split at h
            · cases h
            · have h3 := ih _ _ h
              exact (h1.index_trans h2).index_trans
                (SameIndex.index_trans ⟨rfl, rfl, rfl⟩ h3)

theorem expungeNotebook_reassign_sameIndex (s t : NotesStore) (notebook : Notebook)
    (h : s.expungeNotebook_reassign notebook = .ok (some t)) : SameIndex s t := by
  unfold expungeNotebook_reassign at h
  split at h
  · split at h
    · cases h
    · split at h
      · cases h
      · rename_i u hu
        cases h
        exact expungeNotebook_moveNotes_sameIndex _ _ _ _ _ hu
  · cases h
    exact ⟨rfl, rfl, rfl⟩

theorem expungeNotebook_sameIndex (s t : NotesStore) (guid : String)
    (h : s.expungeNotebook guid = .ok t) : SameIndex s t := by
  simp only [expungeNotebook] at h
  split at h
  · cases h
    exact ⟨rfl, rfl, rfl⟩
  · split at h
    · cases h
      exact ⟨rfl, rfl, rfl⟩
    · split at h
      · cases h
      · split at h
        · cases h
          exact ⟨rfl, rfl, rfl⟩
        · split at h
          · cases h
          · cases h
            exact ⟨rfl, rfl, rfl⟩
          · rename_i u hu
            refine (expungeNotebook_reassign_sameIndex _ _ _ hu).index_trans ?_
            split at h
            · cases h
              exact ⟨rfl, rfl, rfl⟩
            · split at h <;> cases h <;> exact ⟨rfl, rfl, rfl⟩

theorem expungeNotebookJobDone_sameIndex (s t : NotesStore) (errorCode : ErrorCode)
    (guid : String) (h : s.expungeNotebookJobDone errorCode guid = .ok t) :
    SameIndex s t := by
  refine (handleUserError_sameIndex s errorCode).index_trans ?_
  simp only [expungeNotebookJobDone] at h
  split at h
  · cases h
    exact ⟨rfl, rfl, rfl⟩
  · split at h
    · cases h
      exact ⟨rfl, rfl, rfl⟩
    · split at h
      · cases h
      · cases h
        exact ⟨rfl, rfl, rfl⟩

theorem saveNotebookJobDone_sameIndex (s t : NotesStore) (errorCode : ErrorCode)
    (result : EdamNotebook) (h : s.saveNotebookJobDone errorCode result = .ok t) :
    SameIndex s t := by
  simp only [saveNotebookJobDone] at h
  split at h
  · cases h
    exact ⟨rfl, rfl, rfl⟩
  · split at h
    · cases h
    · refine (handleUserError_sameIndex s errorCode).index_trans ?_
      split at h <;> cases h <;> exact ⟨rfl, rfl, rfl⟩

theorem refreshNotebooks_sameIndex (s : NotesStore) : SameIndex s s.refreshNotebooks := by
  simp only [refreshNotebooks]
  split <;> exact ⟨rfl, rfl, rfl⟩

theorem refreshTags_sameIndex (s : NotesStore) : SameIndex s s.refreshTags := by
  simp only [refreshTags]
  split <;> exact ⟨rfl, rfl, rfl⟩

theorem fetchNotebooksJobDone_result_sameIndex (acc acc' : NotesStore × List Nat)
    (result : EdamNotebook) (h : fetchNotebooksJobDone_result acc result = .ok acc') :
    SameIndex acc.1 acc'.1 := by
  simp only [fetchNotebooksJobDone_result] at h
  split at h
  · cases h
    exact ⟨rfl, rfl, rfl⟩
  · split at h
    · cases h
    · split at h
      · split at h <;> cases h <;> exact ⟨rfl, rfl, rfl⟩
      · split at h
        · split at h
          · split at h
            · cases h
            · rename_i u hu
              cases h
              exact expungeNotebook_sameIndex _ _ _ hu
          · cases h
            exact ⟨rfl, rfl, rfl⟩
        · cases h
          exact ⟨rfl, rfl, rfl⟩

theorem fetchNotebooksJobDone_unhandled_sameIndex (s t : NotesStore) (p : Nat)
    (h : fetchNotebooksJobDone_unhandled s p = .ok t) : SameIndex s t := by
  simp only [fetchNotebooksJobDone_unhandled] at h
  split at h
  · cases h
  · split at h <;> cases h <;> exact ⟨rfl, rfl, rfl⟩

theorem fetchNotebooksJobDone_sameIndex (s t : NotesStore) (errorCode : ErrorCode)
    (results : List EdamNotebook) (h : s.fetchNotebooksJobDone errorCode results = .ok t) :
    SameIndex s t := by
  have h0 : SameIndex s ({ s with m_notebooksLoading := false }.handleUserError errorCode) :=
    SameIndex.index_trans ⟨rfl, rfl, rfl⟩ (handleUserError_sameIndex _ errorCode)
  refine h0.index_trans ?_
  simp only [fetchNotebooksJobDone] at h
  split at h
  · cases h
    exact ⟨rfl, rfl, rfl⟩
  · split at h
    · cases h
    · rename_i acc hacc
      have h1 := foldlM_keeps_on (fun (a b : NotesStore × List Nat) => SameIndex a.1 b.1)
        (fun a => SameIndex.index_refl a.1) (fun _ _ _ => SameIndex.index_trans)
        fetchNotebooksJobDone_result
        (fun a r b => fetchNotebooksJobDone_result_sameIndex a b r) _ _ _ hacc
      have h2 := foldlM_sameIndex fetchNotebooksJobDone_unhandled
        (fun a p b => fetchNotebooksJobDone_unhandled_sameIndex a b p) _ _ _ h
      exact SameIndex.index_trans h1 h2

theorem createNotebookJobDone_sameIndex (s t : NotesStore) (errorCode : ErrorCode)
    (tmpGuid : String) (result : EdamNotebook)
    (h : s.createNotebookJobDone errorCode tmpGuid result = .ok t) : SameIndex s t := by
  simp only [createNotebookJobDone] at h
  split at h
  · cases h
    exact ⟨rfl, rfl, rfl⟩
  · split at h
    · cases h
    · refine (handleUserError_sameIndex s errorCode).index_trans ?_
      split at h
      · cases h
        exact ⟨rfl, rfl, rfl⟩
      · refine SameIndex.index_trans ?_ (foldlM_sameIndex saveNote
          (fun a g b => saveNote_sameIndex a b g) _ _ _ h)
        refine SameIndex.of_map (f := fun n =>
          if n.notebookGuid = tmpGuid then { n with notebookGuid := result.guid } else n)
          rfl ?_ rfl rfl
        intro n
        by_cases hc : n.notebookGuid = tmpGuid <;> simp [hc]

theorem createTag_sameIndex (s : NotesStore) (newGuid name : String) :
    SameIndex s (s.createTag newGuid name) := by
  refine SameIndex.index_of_fields ?_ ?_ ?_ <;>
  · simp only [createTag]
    split_ifs <;> rfl

theorem saveTag_sameIndex (s t : NotesStore) (guid : String)
    (h : s.saveTag guid = .ok t) : SameIndex s t := by
  simp only [saveTag] at h
  split at h
  · cases h
    exact ⟨rfl, rfl, rfl⟩
  · split at h
    · cases h
    · split at h <;> cases h <;> exact ⟨rfl, rfl, rfl⟩

theorem saveTagJobDone_sameIndex (s t : NotesStore) (errorCode : ErrorCode)
    (result : EdamTag) (h : s.saveTagJobDone errorCode result = .ok t) :
    SameIndex s t := by
  simp only [saveTagJobDone] at h
  split at h
  · cases h
    exact ⟨rfl, rfl, rfl⟩
  · split at h
    · cases h
    · refine (handleUserError_sameIndex s errorCode).index_trans ?_
      split at h <;> cases h <;> exact ⟨rfl, rfl, rfl⟩

theorem expungeTagJobDone_sameIndex (s : NotesStore) (errorCode : ErrorCode)
    (guid : String) : SameIndex s (s.expungeTagJobDone errorCode guid) := by
  refine (handleUserError_sameIndex s errorCode).index_trans ?_
  simp only [expungeTagJobDone]
  split
  · exact ⟨rfl, rfl, rfl⟩
  · split <;> exact ⟨rfl, rfl, rfl⟩

theorem expungeTag_untagNotes_sameIndex (guid tagGuid : String) (fuel : Nat) :
    ∀ s t, expungeTag_untagNotes guid tagGuid fuel s = .ok t → SameIndex s t := by
  induction fuel with
  | zero =>
    intro s t h
    unfold expungeTag_untagNotes at h
    split at h
    · cases h
      exact ⟨rfl, rfl, rfl⟩
    · cases h
  | succ n ih =>
    intro s t h
    unfold expungeTag_untagNotes at h
    cases hl : s.tagNotesList tagGuid with
    | nil =>
      simp only [hl] at h
      cases h
      exact ⟨rfl, rfl, rfl⟩
    | cons a rest =>
      cases hv : s.m_notesHash.value a with
      | none =>
        simp only [hl, hv] at h
        cases h
      | some p =>
        simp only [hl, hv] at h
        split at h
        · cases h
        · rename_i u hu
          exact (untagNote_sameIndex _ _ _ _ hu).index_trans (ih _ _ h)

theorem expungeTag_sameIndex (s t : NotesStore) (guid : String)
    (h : s.expungeTag guid = .ok t) : SameIndex s t := by
  simp only [expungeTag] at h
  split at h
  · cases h
    exact ⟨rfl, rfl, rfl⟩
  · split at h
    · cases h
      exact ⟨rfl, rfl, rfl⟩
    · split at h
      · cases h
      · split at h
        · cases h
        · rename_i u hu
          refine (expungeTag_untagNotes_sameIndex _ _ _ _ _ hu).index_trans ?_
          split at h
          · cases h
            exact ⟨rfl, rfl, rfl⟩
          · split at h <;> cases h <;> exact ⟨rfl, rfl, rfl⟩

theorem fetchTagsJobDone_result_sameIndex (acc acc' : NotesStore × QHash)
    (result : EdamTag) (h : fetchTagsJobDone_result acc result = .ok acc') :
    SameIndex acc.1 acc'.1 := by
  simp only [fetchTagsJobDone_result] at h
  split at h
  · cases h
    exact ⟨rfl, rfl, rfl⟩
  · split at h
    · cases h
    · split at h
      · split at h <;> cases h <;> exact ⟨rfl, rfl, rfl⟩
      · split at h
        · split at h
          · split at h
            · cases h
            · rename_i u hu
              cases h
              exact expungeTag_sameIndex _ _ _ hu
          · cases h
            exact ⟨rfl, rfl, rfl⟩
        · cases h
          exact ⟨rfl, rfl, rfl⟩

theorem fetchTagsJobDone_unhandled_sameIndex (s t : NotesStore) (p : Nat)
    (h : fetchTagsJobDone_unhandled s p = .ok t) : SameIndex s t := by
  simp only [fetchTagsJobDone_unhandled] at h
  split at h
  · cases h
  · split at h <;> cases h <;> exact ⟨rfl, rfl, rfl⟩

theorem fetchTagsJobDone_sameIndex (s t : NotesStore) (errorCode : ErrorCode)
    (results : List EdamTag) (h : s.fetchTagsJobDone errorCode results = .ok t) :
    SameIndex s t := by
  have h0 : SameIndex s ({ s with m_tagsLoading := false }.handleUserError errorCode) :=
    SameIndex.index_trans ⟨rfl, rfl, rfl⟩ (handleUserError_sameIndex _ errorCode)
  refine h0.index_trans ?_
  simp only [fetchTagsJobDone] at h
  split at h
  · cases h
    exact ⟨rfl, rfl, rfl⟩
  · split at h
    · cases h
    · rename_i acc hacc
      have h1 := foldlM_keeps_on (fun (a b : NotesStore × QHash) => SameIndex a.1 b.1)
        (fun a => SameIndex.index_refl a.1) (fun _ _ _ => SameIndex.index_trans)
        fetchTagsJobDone_result
        (fun a r b => fetchTagsJobDone_result_sameIndex a b r) _ _ _ hacc
      have h2 := foldlM_sameIndex fetchTagsJobDone_unhandled
        (fun a p b => fetchTagsJobDone_unhandled_sameIndex a b p) _ _ _ h
      exact SameIndex.index_trans h1 h2

theorem createTagJobDone_sameIndex (s t : NotesStore) (errorCode : ErrorCode)
    (tmpGuid : String) (result : EdamTag)
    (h : s.createTagJobDone errorCode tmpGuid result = .ok t) : SameIndex s t := by
  simp only [createTagJobDone] at h
  split at h
  · cases h
    exact ⟨rfl, rfl, rfl⟩
  · split at h
    · cases h
    · refine (handleUserError_sameIndex s errorCode).index_trans ?_
      split at h
      · cases h
        exact ⟨rfl, rfl, rfl⟩
      · refine SameIndex.index_trans ?_ (foldlM_sameIndex saveNote
          (fun a g b => saveNote_sameIndex a b g) _ _ _ h)
        refine SameIndex.of_map (f := fun n => { n with
          tagGuids := n.tagGuids.map (fun g => if g = tmpGuid then result.guid else g) })
          rfl ?_ rfl rfl
        intro n
        rfl

theorem noteGuids_length (s : NotesStore) : s.noteGuids.length = s.noteObjects.length := by
  simp [noteGuids]

theorem NotesIndexed.indexed_guid_of_value {s : NotesStore} (hi : s.NotesIndexed) {g : String}
    {p : Nat} {note : Note} (hv : s.m_notesHash.value g = some p)
    (hn : s.noteObjects[p]? = some note) : note.guid = g := by
  have h1 := hi.keyed (g, p) (QHash.mem_of_value _ _ _ hv)
  simp only [noteGuids, List.getElem?_map, hn, Option.map_some', Option.some.injEq] at h1
  exact h1

/-- A fold of a fallible step keeps a property that each step keeps. -/
theorem foldlM_invariant {α : Type} (P : NotesStore → Prop)
    (f : NotesStore → α → Except Fault NotesStore)
    (hf : ∀ s a t, P s → f s a = .ok t → P t) (l : List α) :
    ∀ s t, P s → l.foldlM f s = .ok t → P t := by
  induction l with
  | nil =>
    intro s t hp h
    simp only [List.foldlM_nil] at h
    cases h
    exact hp
  | cons a rest ih =>
    intro s t hp h
    simp only [List.foldlM_cons] at h
    cases h1 : f s a with
    | error e =>
      rw [h1] at h
      cases h
    | ok s1 =>
      rw [h1] at h
      exact ih s1 t (hf s a s1 hp h1) h

theorem NotesIndexed.indexed_of_append {s t : NotesStore} (hi : s.NotesIndexed) (note : Note)
    (hnew : s.m_notesHash.value note.guid = none)
    (hobj : t.noteObjects = s.noteObjects ++ [note])
    (hn : t.m_notes = s.m_notes ++ [s.noteObjects.length])
    (hh : t.m_notesHash = s.m_notesHash.insert note.guid s.noteObjects.length) :
    t.NotesIndexed := by
  have h := Indexed.append_new hi note.guid hnew
  rw [noteGuids_length] at h
  unfold NotesIndexed
  rw [hn, hh]
  have hg : t.noteGuids = s.noteGuids ++ [note.guid] := by
    unfold noteGuids
    rw [hobj]
    simp
  rw [hg]
  exact h

theorem createNote_indexed (s : NotesStore) (newGuid title notebookGuid content : String)
    (hi : s.NotesIndexed) (hnew : s.m_notesHash.value newGuid = none) :
    (s.createNote newGuid title notebookGuid content).NotesIndexed := by
  obtain ⟨note, hg, hobj, hn, hh⟩ : ∃ note : Note, note.guid = newGuid ∧
      (s.createNote newGuid title notebookGuid content).noteObjects = s.noteObjects ++ [note] ∧
      (s.createNote newGuid title notebookGuid content).m_notes =
        s.m_notes ++ [s.noteObjects.length] ∧
      (s.createNote newGuid title notebookGuid content).m_notesHash =
        s.m_notesHash.insert note.guid s.noteObjects.length := by
    cases hnb : s.m_notebooks with
    | nil =>
      simp only [createNote, hnb]
      split_ifs <;> exact ⟨_, rfl, rfl, rfl, rfl⟩
    | cons a rest =>
      simp only [createNote, hnb]
      split_ifs <;> exact ⟨_, rfl, rfl, rfl, rfl⟩
  exact hi.indexed_of_append note (by rw [hg]; exact hnew) hobj hn hh

theorem removeNote_indexed (s t : NotesStore) (guid : String) (hi : s.NotesIndexed)
    (h : s.removeNote guid = .ok t) : t.NotesIndexed := by
  cases hv : s.m_notesHash.value guid with
  | none => simp [removeNote, hv] at h
  | some p =>
    cases hn : s.noteObjects[p]? with
    | none => simp [removeNote, hv, derefNote, hn] at h
    | some note =>
      simp only [removeNote, hv, derefNote, hn] at h
      cases h
      have hg : note.guid = guid := hi.indexed_guid_of_value hv hn
      rw [hg]
      exact Indexed.remove hi guid p hv

theorem deleteNote_indexed (s t : NotesStore) (guid : String) (hi : s.NotesIndexed)
    (h : s.deleteNote guid = .ok t) : t.NotesIndexed := by
  cases hv : s.m_notesHash.value guid with
  | none =>
    simp [deleteNote, hv] at h
    subst h
    exact hi
  | some p =>
    cases hn : s.noteObjects[p]? with
    | none => simp [deleteNote, hv, derefNote, hn] at h
    | some note =>
      simp only [deleteNote, hv, derefNote, hn] at h
      split at h
      · exact removeNote_indexed s t guid hi h
      · have h1 : SameIndex s (s.setNote p { note with
            deleted := true, updateSequenceNumber := note.updateSequenceNumber + 1 }) :=
          setNote_sameIndex s p note _ hn rfl
        split at h <;> cases h <;>
          exact hi.of_sameIndex (h1.index_trans ⟨rfl, rfl, rfl⟩)

theorem deleteNoteJobDone_indexed (s t : NotesStore) (errorCode : ErrorCode) (guid : String)
    (hi : s.NotesIndexed) (h : s.deleteNoteJobDone errorCode guid = .ok t) :
    t.NotesIndexed := by
  have h0 := hi.of_sameIndex (handleUserError_sameIndex s errorCode)
  simp only [deleteNoteJobDone] at h
  split at h
  · cases h
    exact h0
  · exact removeNote_indexed _ t guid h0 h

theorem createNoteJobDone_indexed (s t : NotesStore) (errorCode : ErrorCode)
    (tmpGuid : String) (result : EdamNote) (hi : s.NotesIndexed)
    (hfresh : errorCode = ErrorCode.ErrorCodeNoError → s.m_notesHash.value result.guid = none)
    (h : s.createNoteJobDone errorCode tmpGuid result = .ok t) : t.NotesIndexed := by
  cases hv : s.m_notesHash.value tmpGuid with
  | none =>
    simp [createNoteJobDone, hv] at h
    subst h
    exact hi
  | some p =>
    cases hn : s.noteObjects[p]? with
    | none => simp [createNoteJobDone, hv, derefNote, hn] at h
    | some note =>
      by_cases herr : errorCode = ErrorCode.ErrorCodeNoError
      · subst herr
        rw [createNoteJobDone_found s tmpGuid result p note hv hn] at h
        cases h
        have h1 := Indexed.rekey hi tmpGuid result.guid p hv (hfresh rfl)
        unfold NotesIndexed
        have hg : ({ s with
            m_notesHash := (s.m_notesHash.insert result.guid p).remove tmpGuid,
            noteObjects := s.noteObjects.set p (createdNote note result),
            cacheNotes := (s.cacheNotes.remove tmpGuid).setValue result.guid
              (createdNote note result).updateSequenceNumber } : NotesStore).noteGuids =
            s.noteGuids.set p result.guid := by
          simp only [noteGuids, List.map_set, createdNote_guid]
        rw [hg]
        exact h1
      · simp only [createNoteJobDone, hv, derefNote, hn, ne_eq, herr, not_false_eq_true,
          if_true] at h
        cases h
        refine (hi.of_sameIndex (handleUserError_sameIndex s errorCode)).of_sameIndex ?_
        refine SameIndex.index_of_set (p := p) rfl ?_ rfl rfl
        intro y hy
        have hobj : (s.handleUserError errorCode).noteObjects = s.noteObjects := by
          cases errorCode <;> rfl
        rw [hobj, hn] at hy
        cases hy
        rfl

theorem fetchNotesJobDone_searchResult_sameIndex (results : NotesMetadataList)
    (s : NotesStore) (p : Nat) : SameIndex s (fetchNotesJobDone_searchResult results s p) := by
  cases hn : s.noteObjects[p]? with
  | none =>
    have : fetchNotesJobDone_searchResult results s p = s := by
      simp only [fetchNotesJobDone_searchResult, hn]
      split <;> rfl
    rw [this]
    exact SameIndex.index_refl s
  | some note =>
    rw [fetchNotesJobDone_searchResult_eq results s p note hn]
    exact setNote_sameIndex s p note _ hn rfl

theorem fetchNoteJobDone_indexed (s t : NotesStore) (errorCode : ErrorCode)
    (result : EdamNote) (what : LoadWhatFlags) (jobPriority : JobPriority)
    (resourceIsCached : String → Bool) (hi : s.NotesIndexed)
    (h : s.fetchNoteJobDone errorCode result what jobPriority resourceIsCached = .ok t) :
    t.NotesIndexed := by
  have hobj0 : (s.handleUserError errorCode).noteObjects = s.noteObjects := by
    cases errorCode <;> rfl
  have hi0 := hi.of_sameIndex (handleUserError_sameIndex s errorCode)
  cases hv : s.m_notesHash.value result.guid with
  | none =>
    simp [fetchNoteJobDone, hv] at h
    subst h
    exact hi
  | some p =>
    cases hn : s.noteObjects[p]? with
    | none => simp [fetchNoteJobDone, hv, derefNote, hn] at h
    | some note =>
      by_cases hgt : note.updateSequenceNumber > result.updateSequenceNum
      · unfold fetchNoteJobDone at h
        simp -zeta only [hv, derefNote, hn, if_pos hgt] at h
        cases h
        exact hi
      · by_cases herr : errorCode ≠ ErrorCode.ErrorCodeNoError
        · unfold fetchNoteJobDone at h
          simp -zeta only [hv, derefNote, hn, if_neg hgt, if_pos herr] at h
          cases h
          refine hi0.of_sameIndex (setNote_sameIndex _ p note _ ?_ rfl)
          rw [hobj0]
          exact hn
        · have herr' : errorCode = ErrorCode.ErrorCodeNoError := not_not.1 herr
          subst herr'
          by_cases hdel : result.deleted > 0
          · unfold fetchNoteJobDone at h
            simp -zeta only [hv, derefNote, hn, if_neg hgt, if_neg herr, if_pos hdel] at h
            have hg : note.guid = result.guid := hi.indexed_guid_of_value hv hn
            exact removeNote_indexed _ t _ hi0 h
          · rw [fetchNoteJobDone_merged s result what jobPriority resourceIsCached p note hv hn
              hgt hdel] at h
            have hf := tagsRefreshed_fields s result
            have hstep : SameIndex s
                ((s.tagsRefreshed result).setNote p (fetchedNote note result what)) := by
              refine SameIndex.index_of_set (p := p) (x := fetchedNote note result what)
                (by
                  show (s.tagsRefreshed result).noteObjects.set p _ = _
                  rw [hf.1]) ?_ hf.2.2 hf.2.1
              intro y hy
              rw [hn] at hy
              cases hy
              exact fetchedNote_guid _ _ _
            generalize (if what = LoadResources then false
              else result.resources.any (fun r => !resourceIsCached r.bodyHash)) = c at h
            have hany : ∀ u, (if c = true then
                ((s.tagsRefreshed result).setNote p
                  (fetchedNote note result what)).refreshNoteContent
                  (fetchedNote note result what).guid LoadResources
                  (if jobPriority = JobPriority.JobPriorityMedium then JobPriority.JobPriorityLow
                   else jobPriority)
                else .ok ((s.tagsRefreshed result).setNote p (fetchedNote note result what))) =
                  .ok u → SameIndex s u := by
              intro u hu
              cases c
              · simp only [Bool.false_eq_true, if_false] at hu
                cases hu
                exact hstep
              · simp only [if_true] at hu
                exact hstep.index_trans (refreshNoteContent_sameIndex _ _ _ _ _ hu)
            split at h
            · cases h
            · rename_i u hu
              refine hi.of_sameIndex ((hany u hu).index_trans ?_)
              split at h
              · rename_i current hc
                cases h
                have hc' : u.noteObjects[p]? = some current := hc
                refine SameIndex.index_of_set (p := p) rfl ?_ rfl rfl
                intro y hy
                rw [hc'] at hy
                cases hy
                rfl
              · cases h
                exact ⟨rfl, rfl, rfl⟩

theorem resolveConflict_indexed (s t : NotesStore) (noteGuid : String)
    (mode : ConflictResolveMode) (hi : s.NotesIndexed)
    (h : s.resolveConflict noteGuid mode = .ok t) : t.NotesIndexed := by
  cases hv : s.m_notesHash.value noteGuid with
  | none =>
    simp [resolveConflict, hv] at h
    subst h
    exact hi
  | some p =>
    cases hn : s.noteObjects[p]? with
    | none => simp [resolveConflict, hv, derefNote, hn] at h
    | some note =>
      have hg : note.guid = noteGuid := hi.indexed_guid_of_value hv hn
      cases hc : note.conflictingNote with
      | none =>
        simp [resolveConflict, hv, derefNote, hn, hc] at h
        subst h
        exact hi
      | some shadow =>
        simp only [resolveConflict, hv, derefNote, hn, hc] at h
        split at h
        · refine hi.of_sameIndex (SameIndex.index_trans ?_ (saveNote_sameIndex _ _ _ h))
          exact setNote_sameIndex s p note _ hn rfl
        · split at h
          · cases h
          · rename_i idx hidx
            refine NotesIndexed.of_sameIndex ?_ (saveNote_sameIndex _ _ _ h)
            have h1 := Indexed.replace hi note.guid p idx (by rw [hg]; exact hv) hidx
            rw [noteGuids_length] at h1
            unfold NotesIndexed
            have hgs : ({ s with
                noteObjects := s.noteObjects ++
                  [({ toNoteData := { shadow with guid := note.guid, conflicting := false },
                      conflictingNote := none } : Note)],
                m_notesHash := s.m_notesHash.insert note.guid s.noteObjects.length,
                m_notes := s.m_notes.set idx s.noteObjects.length } : NotesStore).noteGuids =
                s.noteGuids ++ [note.guid] := by
              simp [noteGuids]
            exact hgs ▸ h1

theorem fetchNotesJobDone_result_indexed (results : NotesMetadataList) (s t : NotesStore)
    (r : NoteMetadata) (hi : s.NotesIndexed)
    (h : fetchNotesJobDone_result results s r = .ok t) : t.NotesIndexed := by
  cases hv : s.m_notesHash.value r.guid with
  | none =>
    simp only [fetchNotesJobDone_result, hv] at h
    cases h
    refine NotesIndexed.of_sameIndex ?_ (fetchNotesJobDone_searchResult_sameIndex _ _ _)
    exact hi.indexed_of_append (updateFromEDAM r (Note.new r.guid 0))
      (by rw [updateFromEDAM_guid]; exact hv) rfl rfl rfl
  | some p =>
    cases hn : s.noteObjects[p]? with
    | none => simp [fetchNotesJobDone_result, hv, derefNote, hn] at h
    | some note =>
      have hg : note.guid = r.guid := hi.indexed_guid_of_value hv hn
      simp only [fetchNotesJobDone_result, hv, derefNote, hn] at h
      refine hi.of_sameIndex ?_
      split at h
      · split at h
        · split at h
          · cases h
          · rename_i u hu
            cases h
            refine SameIndex.index_trans ?_ (fetchNotesJobDone_searchResult_sameIndex _ _ _)
            refine SameIndex.index_trans ?_
              (SameIndex.index_trans (refreshNoteContent_sameIndex _ _ _ _ _ hu)
                ⟨rfl, rfl, rfl⟩)
            refine SameIndex.index_of_set (p := p) (x := updateFromEDAM r note) rfl ?_ rfl rfl
            intro y hy
            rw [hn] at hy
            cases hy
            rw [updateFromEDAM_guid, hg]
        · cases h
          refine SameIndex.index_trans ?_ (fetchNotesJobDone_searchResult_sameIndex _ _ _)
          exact ⟨rfl, rfl, rfl⟩
      · split at h
        · cases h
          refine SameIndex.index_trans ?_ (fetchNotesJobDone_searchResult_sameIndex _ _ _)
          refine SameIndex.index_of_set (p := p) rfl ?_ rfl rfl
          intro y hy
          rw [hn] at hy
          cases hy
          split <;> rfl
        · cases h
          refine SameIndex.index_trans ?_ (fetchNotesJobDone_searchResult_sameIndex _ _ _)
          refine SameIndex.index_of_set (p := p) rfl ?_ rfl rfl
          intro y hy
          rw [hn] at hy
          cases hy
          rfl

theorem fetchNotesJobDone_unhandled_indexed (s t : NotesStore) (g : String)
    (hi : s.NotesIndexed) (h : fetchNotesJobDone_unhandled s g = .ok t) :
    t.NotesIndexed := by
  cases hv : s.m_notesHash.value g with
  | none =>
    simp [fetchNotesJobDone_unhandled, hv] at h
    subst h
    exact hi
  | some p =>
    cases hn : s.noteObjects[p]? with
    | none => simp [fetchNotesJobDone_unhandled, hv, derefNote, hn] at h
    | some note =>
      simp only [fetchNotesJobDone_unhandled, hv, derefNote, hn] at h
      split at h
      · split at h
        · cases h
          exact hi
        · split at h
          · cases h
            exact hi
          · cases h
            refine hi.of_sameIndex (SameIndex.index_of_set (p := p) rfl ?_ rfl rfl)
            intro y hy
            rw [hn] at hy
            cases hy
            split <;> rfl
      · split at h
        · cases h
          exact hi
        · split at h
          · exact removeNote_indexed _ _ _ hi h
          · cases h
            refine hi.of_sameIndex (SameIndex.index_of_set (p := p) rfl ?_ rfl rfl)
            intro y hy
            rw [hn] at hy
            cases hy
            rfl

theorem fetchNotesJobDone_indexed (s t : NotesStore) (errorCode : ErrorCode)
    (results : NotesMetadataList) (filterNotebookGuid : String) (hi : s.NotesIndexed)
    (h : s.fetchNotesJobDone errorCode results filterNotebookGuid = .ok t) :
    t.NotesIndexed := by
  have hi0 := hi.of_sameIndex (handleUserError_sameIndex s errorCode)
  simp only [fetchNotesJobDone] at h
  split at h
  · cases h
    exact hi0.of_sameIndex ⟨rfl, rfl, rfl⟩
  · split at h
    · cases h
    · rename_i u hu
      have h1 : u.NotesIndexed :=
        foldlM_invariant NotesIndexed _
          (fun a r b ha hab => fetchNotesJobDone_result_indexed results a b r ha hab) _ _ _ hi0 hu
      split at h
      · cases h
        exact h1.of_sameIndex (refreshNotes_sameIndex _ _ _)
      · have h2 : ({ u with m_loading := false } : NotesStore).NotesIndexed :=
          h1.of_sameIndex ⟨rfl, rfl, rfl⟩
        exact foldlM_invariant NotesIndexed _
          (fun a g b ha hab => fetchNotesJobDone_unhandled_indexed a b g ha hab) _ _ _ h2 h

theorem clear_indexed (s : NotesStore) : s.clear.NotesIndexed := by
  have h1 : s.clear.m_notes = [] := rfl
  have h2 : s.clear.m_notesHash = [] := rfl
  unfold NotesIndexed
  rw [h1, h2]
  exact Indexed.empty _

theorem loadFromCacheFile_indexed (s : NotesStore) : s.loadFromCacheFile.NotesIndexed := by
  have hnb : ∀ (l : List (String × Nat)) (u : NotesStore), SameIndex u
      (l.foldl (fun (s : NotesStore) (e : String × Nat) =>
        { s with
          notebookObjects := s.notebookObjects ++ [Notebook.new e.1 e.2],
          m_notebooksHash := s.m_notebooksHash.insert e.1 s.notebookObjects.length,
          m_notebooks := s.m_notebooks ++ [s.notebookObjects.length] }) u) := by
    intro l
    induction l with
    | nil => exact fun u => SameIndex.index_refl u
    | cons e rest ih =>
      intro u
      simp only [List.foldl_cons]
      exact SameIndex.index_trans ⟨rfl, rfl, rfl⟩ (ih _)
  have htag : ∀ (l : List (String × Nat)) (u : NotesStore), SameIndex u
      (l.foldl (fun (s : NotesStore) (e : String × Nat) =>
        { s with
          tagObjects := s.tagObjects ++ [Tag.new e.1 e.2],
          m_tagsHash := s.m_tagsHash.insert e.1 s.tagObjects.length,
          m_tags := s.m_tags ++ [s.tagObjects.length] }) u) := by
    intro l
    induction l with
    | nil => exact fun u => SameIndex.index_refl u
    | cons e rest ih =>
      intro u
      simp only [List.foldl_cons]
      exact SameIndex.index_trans ⟨rfl, rfl, rfl⟩ (ih _)
  have hnote : ∀ (l : List (String × Nat)) (u : NotesStore), u.NotesIndexed →
      (l.foldl (fun (s : NotesStore) (e : String × Nat) =>
        if s.m_notesHash.contains e.1 then s
        else
          { s with
            noteObjects := s.noteObjects ++ [Note.new e.1 e.2],
            m_notesHash := s.m_notesHash.insert e.1 s.noteObjects.length,
            m_notes := s.m_notes ++ [s.noteObjects.length] }) u).NotesIndexed := by
    intro l
    induction l with
    | nil => exact fun u hu => hu
    | cons e rest ih =>
      intro u hu
      simp only [List.foldl_cons]
      apply ih
      cases hc : u.m_notesHash.value e.1 with
      | some q =>
        have : u.m_notesHash.contains e.1 = true := by simp [QHash.contains, hc]
        rw [if_pos this]
        exact hu
      | none =>
        have : ¬ u.m_notesHash.contains e.1 = true := by simp [QHash.contains, hc]
        rw [if_neg this]
        exact hu.indexed_of_append (Note.new e.1 e.2) hc rfl rfl rfl
  unfold loadFromCacheFile
  exact hnote _ _ (((clear_indexed s).of_sameIndex (hnb _ _)).of_sameIndex (htag _ _))

theorem QHash.value_none_of_not_contains (h : QHash) (key : String)
    (hc : (!(h.contains key)) = true) : h.value key = none := by
  cases hv : h.value key with
  | none => rfl
  | some v => simp [QHash.contains, hv] at hc

theorem Operation.apply_indexed (s t : NotesStore) (op : Operation) (hi : s.NotesIndexed)
    (hf : op.drawsNewIdentifier s = true) (h : op.apply s = .ok t) : t.NotesIndexed := by
  cases op with
  | setConnected c =>
    cases h
    exact hi.of_sameIndex ⟨rfl, rfl, rfl⟩
  | setCurrentDateTime n =>
    cases h
    exact hi.of_sameIndex ⟨rfl, rfl, rfl⟩
  | createNote newGuid title notebookGuid content =>
    simp only [Operation.apply] at h
    cases h
    exact createNote_indexed s _ _ _ _ hi (QHash.value_none_of_not_contains _ _ hf)
  | saveNote guid => exact hi.of_sameIndex (saveNote_sameIndex _ _ _ h)
  | deleteNote guid => exact deleteNote_indexed _ _ _ hi h
  | tagNote a b => exact hi.of_sameIndex (tagNote_sameIndex _ _ _ _ h)
  | untagNote a b => exact hi.of_sameIndex (untagNote_sameIndex _ _ _ _ h)
  | resolveConflict g m => exact resolveConflict_indexed _ _ _ _ hi h
  | refreshNotes f i =>
    cases h
    exact hi.of_sameIndex (refreshNotes_sameIndex _ _ _)
  | refreshNoteContent g w p => exact hi.of_sameIndex (refreshNoteContent_sameIndex _ _ _ _ _ h)
  | fetchNotesJobDone e r f => exact fetchNotesJobDone_indexed _ _ _ _ _ hi h
  | fetchNoteJobDone e r w p c =>
    have h' : s.fetchNoteJobDone e r w p (fun x => decide (x ∈ c)) = .ok t := h
    exact fetchNoteJobDone_indexed _ _ _ _ _ _ _ hi h'
  | fetchConflictingNoteJobDone e r =>
    exact hi.of_sameIndex (fetchConflictingNoteJobDone_sameIndex _ _ _ _ h)
  | createNoteJobDone e g r =>
    refine createNoteJobDone_indexed _ _ _ _ _ hi ?_ h
    intro he
    simp only [Operation.drawsNewIdentifier, he, ne_eq, not_true_eq_false, decide_False,
      Bool.false_or] at hf
    exact QHash.value_none_of_not_contains _ _ hf
  | saveNoteJobDone e r => exact hi.of_sameIndex (saveNoteJobDone_sameIndex _ _ _ _ h)
  | deleteNoteJobDone e g => exact deleteNoteJobDone_indexed _ _ _ _ hi h
  | createNotebook g n =>
    cases h
    exact hi.of_sameIndex (createNotebook_sameIndex _ _ _)
  | saveNotebook g => exact hi.of_sameIndex (saveNotebook_sameIndex _ _ _ h)
  | setDefaultNotebook g => exact hi.of_sameIndex (setDefaultNotebook_sameIndex _ _ _ h)
  | expungeNotebook g => exact hi.of_sameIndex (expungeNotebook_sameIndex _ _ _ h)
  | refreshNotebooks =>
    cases h
    exact hi.of_sameIndex (refreshNotebooks_sameIndex _)
  | fetchNotebooksJobDone e r => exact hi.of_sameIndex (fetchNotebooksJobDone_sameIndex _ _ _ _ h)
  | createNotebookJobDone e g r =>
    exact hi.of_sameIndex (createNotebookJobDone_sameIndex _ _ _ _ _ h)
  | saveNotebookJobDone e r => exact hi.of_sameIndex (saveNotebookJobDone_sameIndex _ _ _ _ h)
  | expungeNotebookJobDone e g =>
    exact hi.of_sameIndex (expungeNotebookJobDone_sameIndex _ _ _ _ h)
  | createTag g n =>
    cases h
    exact hi.of_sameIndex (createTag_sameIndex _ _ _)
  | saveTag g => exact hi.of_sameIndex (saveTag_sameIndex _ _ _ h)
  | expungeTag g => exact hi.of_sameIndex (expungeTag_sameIndex _ _ _ h)
  | refreshTags =>
    cases h
    exact hi.of_sameIndex (refreshTags_sameIndex _)
  | fetchTagsJobDone e r => exact hi.of_sameIndex (fetchTagsJobDone_sameIndex _ _ _ _ h)
  | createTagJobDone e g r => exact hi.of_sameIndex (createTagJobDone_sameIndex _ _ _ _ _ h)
  | saveTagJobDone e r => exact hi.of_sameIndex (saveTagJobDone_sameIndex _ _ _ _ h)
  | expungeTagJobDone e g =>
    cases h
    exact hi.of_sameIndex (expungeTagJobDone_sameIndex _ _ _)
  | clearError =>
    cases h
    exact hi.of_sameIndex ⟨rfl, rfl, rfl⟩
  | clearSearchResults =>
    cases h
    exact hi.of_sameIndex (clearSearchResults_sameIndex _)

theorem runOperations_indexed (ops : List Operation) :
    ∀ s t, s.NotesIndexed → freshRun s ops = true → runOperations s ops = .ok t →
      t.NotesIndexed := by
  induction ops with
  | nil =>
    intro s t hi _ h
    simp only [runOperations, List.foldlM_nil] at h
    cases h
    exact hi
  | cons op rest ih =>
    intro s t hi hf h
    simp only [runOperations, List.foldlM_cons] at h
    simp only [freshRun, Bool.and_eq_true] at hf
    cases h1 : op.apply s with
    | error e =>
      rw [h1] at h
      cases h
    | ok u =>
      rw [h1] at h
      have hf2 := hf.2
      rw [h1] at hf2
      exact ih u t (Operation.apply_indexed s u op hi hf.1 h1) hf2 h

/-- C29 (counterexample). The store reaches states in which the note collection and the
lookup table disagree. After `identifierEchoedRun` (the create job reports the
temporary identifier itself) the collection holds the note and the table is empty.
After `identifierTakenRun` (the create job of note `a` reports the identifier of the
local note `b`) the collection holds two notes with the identifier `b` and the table
returns the first of them only. -/
theorem collection_and_table_disagree_after_create_report :
    (∃ s, Reachable s ∧ s.m_notes = [0] ∧ s.noteGuids = ["tmp"] ∧ s.m_notesHash = [] ∧
      ¬ s.NotesIndexed) ∧
    (∃ s, Reachable s ∧ s.m_notes = [0, 1] ∧ s.noteGuids = ["b", "b"] ∧
      s.m_notesHash = [("b", 0)] ∧ ¬ s.NotesIndexed) := by
  have hrun1 : runOperations (NotesStore.init true) identifierEchoedRun =
      .ok (finalStore true identifierEchoedRun) := rfl
  have hrun2 : runOperations (NotesStore.init true) identifierTakenRun =
      .ok (finalStore true identifierTakenRun) := rfl
  have h1n : (finalStore true identifierEchoedRun).m_notes = [0] := by decide
  have h1g : (finalStore true identifierEchoedRun).noteGuids = ["tmp"] := by decide
  have h1h : (finalStore true identifierEchoedRun).m_notesHash = [] := by decide
  have h2n : (finalStore true identifierTakenRun).m_notes = [0, 1] := by decide
  have h2g : (finalStore true identifierTakenRun).noteGuids = ["b", "b"] := by decide
  have h2h : (finalStore true identifierTakenRun).m_notesHash = [("b", 0)] := by decide
  refine ⟨⟨_, ⟨true, _, hrun1⟩, h1n, h1g, h1h, ?_⟩, ⟨_, ⟨true, _, hrun2⟩, h2n, h2g, h2h, ?_⟩⟩
  · intro hi
    obtain ⟨g, -, hv⟩ := hi.listed 0 (by rw [h1n]; decide)
    rw [h1h] at hv
    simp [QHash.value] at hv
  · intro hi
    obtain ⟨g, hg, hv⟩ := hi.listed 1 (by rw [h2n]; decide)
    rw [h2g] at hg
    rw [h2h] at hv
    have hgb : g = "b" := by
      simp at hg
      exact hg.symm
    subst hgb
    simp [QHash.value] at hv

/-- C29 (amended). The note collection and the lookup table describe the same notes
(`NotesIndexed`: every entry of the table points to a note object that carries the key,
every note of the collection is found in the table under its identifier, every entry
of the table is a note of the collection, no note and no key occurs twice) in every
state reached by a run in which no call draws an identifier already in the table
(`createNote` is given, and a success report of a create job names, an identifier not
in the table). Under that condition every call keeps the property; `removeNote` keeps
it; `clear` and `loadFromCacheFile` establish it from any state. -/
theorem collection_and_table_agree_on_fresh_runs :
    (∀ (connected : Bool) (ops : List Operation) (s : NotesStore),
      freshRun (NotesStore.init connected) ops = true →
      runOperations (NotesStore.init connected) ops = .ok s → s.NotesIndexed) ∧
    (∀ (s t : NotesStore) (op : Operation), s.NotesIndexed →
      op.drawsNewIdentifier s = true → op.apply s = .ok t → t.NotesIndexed) ∧
    (∀ (s t : NotesStore) (guid : String), s.NotesIndexed → s.removeNote guid = .ok t →
      t.NotesIndexed) ∧
    (∀ s : NotesStore, s.clear.NotesIndexed) ∧
    (∀ s : NotesStore, s.loadFromCacheFile.NotesIndexed) :=
  ⟨fun connected ops s hf h =>
      runOperations_indexed ops (NotesStore.init connected) s (Indexed.empty _) hf h,
    fun s t op hi hf h => Operation.apply_indexed s t op hi hf h,
    fun s t guid hi h => removeNote_indexed s t guid hi h,
    clear_indexed, loadFromCacheFile_indexed⟩

theorem collection_and_table_agree_on_fresh_runs_witness :
    (finalStore true filteredPassRun).NotesIndexed ∧
    (finalStore true [Operation.createNote "tmp" "title" "" "body"]).NotesIndexed ∧
    (finalStore true (deleteRequestedRun ++
      [Operation.deleteNoteJobDone ErrorCode.ErrorCodeNoError "g"])).NotesIndexed :=
  ⟨collection_and_table_agree_on_fresh_runs.1 true filteredPassRun _ (by decide) rfl,
    collection_and_table_agree_on_fresh_runs.2.1 (NotesStore.init true) _
      (Operation.createNote "tmp" "title" "" "body") (Indexed.empty _) (by decide) rfl,
    collection_and_table_agree_on_fresh_runs.2.2.1
      (finalStore true deleteRequestedRun) _ "g"
      (collection_and_table_agree_on_fresh_runs.1 true deleteRequestedRun _ (by decide) rfl)
      rfl⟩

/-! ### Local-only notes whose tag or notebook the store no longer holds -/

/-- C5. The store reaches states from which the survivor step hands over a create job
for a local-only note although a tag, or the notebook, the note references has no
non-zero `lastSyncedSequenceNumber`, being no longer in the store. After
`tagVanishedRun` note `n` (never synced) references tag `T`, which `fetchTagsJobDone`
has removed without taking it off the note; after `notebookVanishedRun` note `n`
names notebook `NB`, which `fetchNotebooksJobDone` has removed. In both states the
condition of the specification (`referencesOnServer`) fails for the note, and the report
of the empty listing hands over `CreateNoteJob` for it. -/
theorem fetchNotesJobDone_creates_note_of_missing_reference :
    (∃ s s', Reachable s ∧
      referenceSummary s = [("n", 0, ["T"], "")] ∧ s.m_unhandledNotes = ["n"] ∧
      s.m_tagsHash.value "T" = none ∧
      (∀ note, s.noteObjects[0]? = some note → ¬ s.referencesOnServer note) ∧
      s.fetchNotesJobDone ErrorCode.ErrorCodeNoError emptyPage "" = .ok s' ∧
      s'.jobQueue = s.jobQueue ++ [Job.CreateNoteJob 0]) ∧
    (∃ s s', Reachable s ∧
      referenceSummary s = [("n", 0, [], "NB")] ∧ s.m_unhandledNotes = ["n"] ∧
      s.m_notebooksHash.value "NB" = none ∧
      (∀ note, s.noteObjects[0]? = some note → ¬ s.referencesOnServer note) ∧
      s.fetchNotesJobDone ErrorCode.ErrorCodeNoError emptyPage "" = .ok s' ∧
      s'.jobQueue = s.jobQueue ++ [Job.CreateNoteJob 0]) := by
  have hrun1 : runOperations (NotesStore.init true) tagVanishedRun =
      .ok (finalStore true tagVanishedRun) := rfl
  have hrun2 : runOperations (NotesStore.init true) notebookVanishedRun =
      .ok (finalStore true notebookVanishedRun) := rfl
  have ht : (finalStore true tagVanishedRun).m_tagsHash.value "T" = none := by decide
  have hn : (finalStore true notebookVanishedRun).m_notebooksHash.value "NB" = none := by
    decide
  refine ⟨⟨finalStore true tagVanishedRun, _, ⟨true, _, hrun1⟩, by decide, by decide, ht, ?_,
      rfl, by decide⟩,
    ⟨finalStore true notebookVanishedRun, _, ⟨true, _, hrun2⟩, by decide, by decide, hn, ?_,
      rfl, by decide⟩⟩
  · intro note hnote href
    have hobj : ((finalStore true tagVanishedRun).noteObjects[0]?).map
        (fun n => n.tagGuids) = some ["T"] := by decide
    rw [hnote] at hobj
    have htags : note.tagGuids = ["T"] := by simpa using hobj
    obtain ⟨t, tag, hv, -, -⟩ := href.1 "T" (by rw [htags]; simp)
    rw [ht] at hv
    cases hv
  · intro note hnote href
    have hobj : ((finalStore true notebookVanishedRun).noteObjects[0]?).map
        (fun n => n.notebookGuid) = some "NB" := by decide
    rw [hnote] at hobj
    have hnb : note.notebookGuid = "NB" := by simpa using hobj
    obtain ⟨n, notebook, hv, -, -⟩ := href.2 (by rw [hnb]; decide)
    rw [hnb, hn] at hv
    cases hv

/-! ### A newer summary of a synced note off line, without its number, or in a search -/

/-- C11 (counterexample). The store reaches states from which the report of a listing
page treats a known, synced note other than the claim says. After
`syncedThenOfflineRun` (note `g` at 3 and 3, connection lost) the summary at number 5
sets both numbers to 5 and hands over no job. After `syncedOnlineRun` a summary at
number 5 that does not carry its sequence number leaves `updateSequenceNumber` at 3
and sets `lastSyncedSequenceNumber` to 5. On the same store a summary at number 3 in a
listing that answers a search hands over no job and sets the search-result flag of the
note. -/
theorem fetchNotesJobDone_newer_summary_without_refresh :
    (∃ s s', Reachable s ∧ s.connected = false ∧
      refreshSummary s = [("g", 3, 3, false, false)] ∧
      s.fetchNotesJobDone ErrorCode.ErrorCodeNoError (titledPage 5) "" = .ok s' ∧
      refreshSummary s' = [("g", 5, 5, false, false)] ∧
      s'.jobQueue = s.jobQueue) ∧
    (∃ s s', Reachable s ∧ s.connected = true ∧
      refreshSummary s = [("g", 3, 3, false, false)] ∧
      s.fetchNotesJobDone ErrorCode.ErrorCodeNoError numberlessPage "" = .ok s' ∧
      refreshSummary s' = [("g", 3, 5, true, false)]) ∧
    (∃ s s', Reachable s ∧ s.connected = true ∧
      refreshSummary s = [("g", 3, 3, false, false)] ∧
      s.fetchNotesJobDone ErrorCode.ErrorCodeNoError searchPage "" = .ok s' ∧
      refreshSummary s' = [("g", 3, 3, false, true)] ∧
      s'.jobQueue = s.jobQueue) := by
  have hrun1 : runOperations (NotesStore.init true) syncedThenOfflineRun =
      .ok (finalStore true syncedThenOfflineRun) := rfl
  have hrun2 : runOperations (NotesStore.init true) syncedOnlineRun =
      .ok (finalStore true syncedOnlineRun) := rfl
  refine ⟨⟨finalStore true syncedThenOfflineRun, _, ⟨true, _, hrun1⟩, by decide, by decide,
      rfl, by decide, by decide⟩,
    ⟨finalStore true syncedOnlineRun, _, ⟨true, _, hrun2⟩, by decide, by decide, rfl,
      by decide⟩,
    ⟨finalStore true syncedOnlineRun, _, ⟨true, _, hrun2⟩, by decide, by decide, rfl,
      by decide, by decide⟩⟩

end NotesStore

end NotesApp
